import Mathlib

/-!
# StreamSoundTrigger

A shallow embedding of `stream/src/StreamSoundTrigger.cpp`: the per-stream
sound-trigger state machine (six state objects, one `ProcessEvent` each), the
sound-model loader, the recognition-config path and the confidence-level
packing.

Conventions of the embedding.

* The stream object is the record `Stream`; every member function is a
  computation in `M = StateT Stream Option`.  The result `none` stands for a
  run that has no defined outcome in C++ (a null pointer dereference, an
  out-of-range `vector::operator[]`, a thrown `std::runtime_error`) or, for the
  dispatcher, for running out of dispatch fuel.
* Collaborators that live outside the file (engines, devices, the resource
  manager, the ring-buffer readers, the allocator, the client callback, the
  timer condition variables) are not implemented here.  Each interaction with
  one of them is appended to `Stream.trace`, and its result is read from the
  environment `Env` at the position of the interaction in the trace, so that a
  theorem quantified over `Env` covers every sequence of outcomes.
* C arrays with a count field (`phrases[]`/`num_phrases`, `levels[]`/
  `num_levels`, the v3 sub-model table/`numModels`, the TLV stream of the
  opaque data) are lists; the count is the length of the list.
* The stream mutex is not modelled: a handler runs to completion.
-/

namespace StreamSoundTrigger

/-! ## Constants -/

/-- errno value EINVAL. -/
def EINVAL : Int := 22
/-- errno value ENOMEM. -/
def ENOMEM : Int := 12
/-- errno value ENOENT. -/
def ENOENT : Int := 2
/-- errno value EIO. -/
def EIO : Int := 5

/-- Modelled from the spec: the detection kinds of `SetEngineDetectionState`,
whose enum is declared in a header outside the source file.  The source checks
`GMM_DETECTED <= det_type <= VOP_REJECTED` and uses the kinds as bits of
`detection_state_`. -/
def ENGINE_IDLE : Nat := 0
/-- First-stage detection. -/
def GMM_DETECTED : Nat := 1
/-- Second-stage keyword detection. -/
def CNN_DETECTED : Nat := 2
/-- Second-stage keyword rejection. -/
def CNN_REJECTED : Nat := 4
/-- Second-stage user detection. -/
def VOP_DETECTED : Nat := 8
/-- Second-stage user rejection. -/
def VOP_REJECTED : Nat := 16

/-- Modelled from the spec: the stage types of the closed enum
`st_sound_model_type` (first stage GMM, keyword verifier, user verifier),
declared in a header outside the source file. -/
def ST_SM_ID_SVA_GMM : Nat := 1
/-- Keyword-verifier stage bits. -/
def ST_SM_ID_SVA_KWD : Nat := 10
/-- User-verifier stage bit. -/
def ST_SM_ID_SVA_VOP : Nat := 4

/-- Interface version selecting the second layout of the opaque confidence
levels. -/
def CONF_LEVELS_INTF_VERSION_0002 : Nat := 2

/-- The delay of the deferred stop, in milliseconds. -/
def ST_DEFERRED_STOP_DEALY_MS : Nat := 1000

/-! ## Data model -/

/-- State ids; `cur_state_` points at the state object with that id. -/
inductive st_state_id_t
  | ST_STATE_NONE
  | ST_STATE_IDLE
  | ST_STATE_LOADED
  | ST_STATE_ACTIVE
  | ST_STATE_DETECTED
  | ST_STATE_BUFFERING
  | ST_STATE_SSR
  deriving DecidableEq, Repr

open st_state_id_t

/-- Sound model kinds. -/
inductive qal_st_sound_model_type_t
  | QAL_SOUND_MODEL_TYPE_UNKNOWN
  | QAL_SOUND_MODEL_TYPE_KEYPHRASE
  | QAL_SOUND_MODEL_TYPE_GENERIC
  deriving DecidableEq, Repr

open qal_st_sound_model_type_t

/-- One record of the v3 sub-model table. -/
structure SML_BigSoundModelTypeV3 where
  type : Nat
  size : Nat
  offset : Nat
  deriving DecidableEq, Repr

/-- A client sound model: the common header, the phrase count of the enclosing
phrase sound model, and what the loader reads of the payload at `data_offset`:
the first word (`magicNumber`) and, for a v3 container, the sub-model table. -/
structure qal_st_sound_model where
  type : qal_st_sound_model_type_t
  vendor_uuid : Nat
  data_size : Nat
  data_offset : Nat
  num_phrases : Nat
  magicNumber : Nat
  models : List SML_BigSoundModelTypeV3
  deriving DecidableEq, Repr

/-- The word that opens a v3 container; declared outside the source file. -/
def SML_GLOBAL_HEADER_MAGIC_NUMBER : Nat := 0x00180cc8

/-- A user confidence level of a recognition config. -/
structure qal_st_confidence_level where
  user_id : Nat
  level : Nat
  deriving DecidableEq, Repr

/-- Per-phrase part of a recognition config; `num_levels` is `levels.length`. -/
structure qal_st_phrase_recognition_extra where
  id : Nat
  recognition_modes : Nat
  confidence_level : Nat
  levels : List qal_st_confidence_level
  deriving DecidableEq, Repr

/-- User level inside the opaque confidence levels. -/
structure st_user_levels where
  user_id : Nat
  level : Nat
  deriving DecidableEq, Repr

/-- Keyword level inside the opaque confidence levels; `num_user_levels` is
`user_levels.length`. -/
structure st_keyword_levels where
  kw_level : Nat
  user_levels : List st_user_levels
  deriving DecidableEq, Repr

/-- Per-sound-model entry of the opaque confidence levels (both interface
versions have these fields); `num_kw_levels` is `kw_levels.length`. -/
structure st_sound_model_conf_levels where
  sm_id : Nat
  kw_levels : List st_keyword_levels
  deriving DecidableEq, Repr

/-- One TLV of the opaque data: the header (`key_id`, `payload_size`) and the
payload read for that key. -/
inductive st_param
  | ST_PARAM_KEY_CONFIDENCE_LEVELS (payload_size : Nat) (version : Nat)
      (conf_levels : List st_sound_model_conf_levels)
  | ST_PARAM_KEY_HISTORY_BUFFER_CONFIG (payload_size : Nat)
      (hist_buffer_duration_msec : Nat) (pre_roll_duration_msec : Nat)
  | ST_PARAM_KEY_DETECTION_PERF_MODE (payload_size : Nat) (mode : Nat)
  | other (key_id : Nat) (payload_size : Nat)
  deriving DecidableEq, Repr

/-- A recognition config; `num_phrases` is `phrases.length`, and `params` is
the TLV stream of `data_size` bytes at `data_offset`. -/
structure qal_st_recognition_config where
  capture_handle : Nat
  capture_device : Nat
  capture_requested : Bool
  phrases : List qal_st_phrase_recognition_extra
  data_size : Nat
  data_offset : Nat
  params : List st_param
  cookie : Nat
  deriving DecidableEq, Repr

/-- The count field of the phrase array. -/
def qal_st_recognition_config.num_phrases (config : qal_st_recognition_config) : Nat :=
  config.phrases.length

/-- The count field of the user-level array. -/
def qal_st_phrase_recognition_extra.num_levels (p : qal_st_phrase_recognition_extra) : Nat :=
  p.levels.length

/-- Operating modes of a capture profile. -/
inductive st_operating_mode
  | ST_OPERATING_MODE_LOW_POWER
  | ST_OPERATING_MODE_HIGH_PERF
  | ST_OPERATING_MODE_HIGH_PERF_AND_CHARGING
  deriving DecidableEq, Repr

/-- Input modes of a capture profile. -/
inductive st_input_mode
  | ST_INPUT_MODE_HANDSET
  | ST_INPUT_MODE_HEADSET
  deriving DecidableEq, Repr

open st_operating_mode st_input_mode

/-- A capture profile object of the platform info; `addr` is the identity of
the shared object (the source compares profiles by pointer). -/
structure CaptureProfile where
  addr : Nat
  dev_id : Nat
  channels : Nat
  sample_rate : Nat
  bit_width : Nat
  deriving DecidableEq, Repr

/-- The per-model platform record (`sm_info_`). -/
structure SoundModelConfig where
  kw_duration : Nat
  capture_read_delay : Nat
  sample_rate : Nat
  bit_width : Nat
  out_channels : Nat
  stream_config : Nat × Nat
  capture_profiles : List ((st_operating_mode × st_input_mode) × CaptureProfile)
  deriving DecidableEq, Repr

/-- Lookup in the capture-profile map of the platform record. -/
def SoundModelConfig.GetCaptureProfile (sm : SoundModelConfig)
    (key : st_operating_mode × st_input_mode) : Option CaptureProfile :=
  (sm.capture_profiles.find? (fun kv => kv.1 = key)).map (fun kv => kv.2)

/-- An engine object, named by the position of its `Create` in the trace. -/
abbrev SoundTriggerEngine := Nat

/-- A device object of the shared registry, named by its device id. -/
abbrev Device := Nat

/-- Device ids used by the stream. -/
def QAL_DEVICE_IN_HANDSET_VA_MIC : Nat := 1
/-- Headset voice-activation microphone. -/
def QAL_DEVICE_IN_HEADSET_VA_MIC : Nat := 2
/-- Wired headset input. -/
def QAL_DEVICE_IN_WIRED_HEADSET : Nat := 3

/-- A ring-buffer reader: the `CreateBuffer` interaction that made it (its
position in the trace) and its index in the returned reader list. -/
structure QalRingBufferReader where
  buffer : Nat
  index : Nat
  deriving DecidableEq, Repr

/-- The header of an engine payload, read by `FillConfLevels` through a cast to
the phrase sound model.  The payload of the first-stage engine opens with a
copy of the phrase sound model; for the other engines the field is never
read. -/
structure sm_data_t where
  num_phrases : Nat
  deriving DecidableEq, Repr

/-- An engine binding. -/
structure EngineCfg where
  id_ : Nat
  engine_ : SoundTriggerEngine
  sm_data_ : sm_data_t
  sm_size_ : Nat
  deriving DecidableEq, Repr

/-- The engine id of a binding. -/
def EngineCfg.GetEngineId (e : EngineCfg) : Nat := e.id_

/-- The engine handle of a binding. -/
def EngineCfg.GetEngine (e : EngineCfg) : SoundTriggerEngine := e.engine_

/-- The events of the state machine. -/
inductive StEventConfig
  | ST_EV_LOAD_SOUND_MODEL (data_ : Option qal_st_sound_model) (is_sm_config_ : Bool)
  | ST_EV_UNLOAD_SOUND_MODEL
  | ST_EV_RECOGNITION_CONFIG (data_ : Option qal_st_recognition_config)
  | ST_EV_START_RECOGNITION (restart_ : Bool)
  | ST_EV_STOP_RECOGNITION (deferred_ : Bool)
  | ST_EV_DETECTED (det_type_ : Nat)
  | ST_EV_READ_BUFFER (size : Nat)
  | ST_EV_STOP_BUFFERING
  | ST_EV_PAUSE
  | ST_EV_RESUME
  | ST_EV_DEVICE_CONNECTED (dev_id_ : Nat)
  | ST_EV_DEVICE_DISCONNECTED (dev_id_ : Nat)
  | ST_EV_SSR_OFFLINE
  | ST_EV_SSR_ONLINE
  | ST_EV_CONCURRENT_STREAM (stream_type : Nat) (is_active_ : Bool)
  | ST_EV_EC_REF (dev_ : Device) (is_enable_ : Bool)
  | ST_EV_CHARGING_STATE (charging_state_ : Bool)
  deriving DecidableEq, Repr

open StEventConfig

/-- Interactions with the collaborators of the stream, as logged in the
trace. -/
inductive Call
  | calloc (size : Nat)
  | SoundTriggerEngine_Create (type : Nat)
  | LoadSoundModel (e : SoundTriggerEngine) (size : Nat)
  | UnloadSoundModel (e : SoundTriggerEngine)
  | StartRecognition (e : SoundTriggerEngine)
  | StopRecognition (e : SoundTriggerEngine)
  | RestartRecognition (e : SoundTriggerEngine)
  | StopBuffering (e : SoundTriggerEngine)
  | SetDetected (e : SoundTriggerEngine) (detected : Bool)
  | UpdateConfLevels (e : SoundTriggerEngine) (conf_levels : Option (List Nat)) (num : Nat)
  | UpdateBufConfig (e : SoundTriggerEngine) (hist : Nat) (pre_roll : Nat)
  | CreateBuffer (e : SoundTriggerEngine) (size : Nat) (readers : Nat)
  | SetBufferReader (e : SoundTriggerEngine) (r : QalRingBufferReader)
  | SetCaptureRequested (e : SoundTriggerEngine) (requested : Bool)
  | GetDetectionEventInfo (e : SoundTriggerEngine)
  | setECRef (e : SoundTriggerEngine) (dev : Device) (enable : Bool)
  | SetupSessionDevice (e : SoundTriggerEngine) (dev : Device)
  | ConnectSessionDevice (e : SoundTriggerEngine) (dev : Device)
  | DisconnectSessionDevice (e : SoundTriggerEngine) (dev : Device)
  | Device_getInstance (dev_id : Nat)
  | setDeviceAttributes (dev : Device)
  | setSndName (dev : Device)
  | getDeviceAttributes (dev : Device)
  | dev_open (dev : Device)
  | dev_close (dev : Device)
  | dev_start (dev : Device)
  | dev_stop (dev : Device)
  | registerDevice (dev : Device)
  | deregisterDevice (dev : Device)
  | getStreamInstanceID
  | resetStreamInstanceID (instance_id : Int)
  | UpdateSVACaptureProfile (is_active : Bool)
  | StopOtherSVAStreams
  | StartOtherSVAStreams
  | GetSVACaptureProfile
  | IsVoiceUILPISupported
  | CheckForActiveConcurrentNonLPIStream
  | CheckForForcedTransitToNonLPI
  | GetSupportDevSwitch
  | isDeviceAvailable (dev_id : Nat)
  | reader_reset (r : QalRingBufferReader)
  | reader_read (r : QalRingBufferReader) (size : Nat)
  | reader_getIndices (r : QalRingBufferReader)
  | callback_ (cookie : Nat)
  | timer_start_cond_notify
  | timer_wait_cond_notify
  | IsAudioCaptureAndVoiceUIConcurrencySupported
  | IsVoiceCallAndVoiceUIConcurrencySupported
  | IsVoipAndVoiceUIConcurrencySupported
  deriving DecidableEq, Repr

/-- The stream object. -/
structure Stream where
  cur_state_ : st_state_id_t
  prev_state_ : Option st_state_id_t
  state_for_restore_ : st_state_id_t
  paused_ : Bool
  pending_stop_ : Bool
  timer_stop_waiting_ : Bool
  detection_state_ : Nat
  charging_state_ : Bool
  conc_tx_cnt_ : Int
  sound_model_type_ : qal_st_sound_model_type_t
  sm_config_ : Option qal_st_sound_model
  rec_config_ : Option qal_st_recognition_config
  reader_ : Option QalRingBufferReader
  engines_ : List EngineCfg
  gsl_engine_ : Option SoundTriggerEngine
  mDevices : List Device
  cap_prof_ : Option CaptureProfile
  sm_info_ : Option SoundModelConfig
  mInstanceID : Int
  has_callback_ : Bool
  pending_event_configs_ : List StEventConfig
  trace : List Call
  deriving DecidableEq, Repr

/-- The environment of a run: the result of every interaction, by its position
in the trace, and the sizes of the C structures declared outside the source
file. -/
structure Env where
  status : Nat → Int
  avail : Nat → Bool
  sm_configs : Nat → Option SoundModelConfig
  support_dev_switch : Bool
  sizeof_qal_st_phrase_sound_model : Nat
  sizeof_qal_st_sound_model : Nat
  CUSTOM_CONFIG_OPAQUE_DATA_SIZE : Nat
  sizeof_st_confidence_levels_info : Nat
  sizeof_st_confidence_levels_info_v2 : Nat
  sizeof_st_hist_buffer_info : Nat
  sizeof_st_det_perf_mode_info : Nat

/-- Member functions run in the state monad over the stream; `none` is a run
without a defined outcome. -/
abbrev M := StateT Stream Option

/-- An interaction that returns a status: logged, result from the
environment. -/
def call (env : Env) (c : Call) : M Int :=
  fun st => some (env.status st.trace.length, { st with trace := st.trace ++ [c] })

/-- An interaction that returns a pointer or a flag: logged, `true` for a
non-null pointer or a set flag. -/
def ask (env : Env) (c : Call) : M Bool :=
  fun st => some (env.avail st.trace.length, { st with trace := st.trace ++ [c] })

/-- A run without a defined outcome. -/
def fault {α : Type} : M α := fun _ => none

/-- The stream as constructed: state Idle, nothing loaded. -/
def Stream.init (charging : Bool) : Stream :=
  { cur_state_ := ST_STATE_IDLE, prev_state_ := none, state_for_restore_ := ST_STATE_NONE,
    paused_ := false, pending_stop_ := false, timer_stop_waiting_ := false,
    detection_state_ := ENGINE_IDLE, charging_state_ := charging, conc_tx_cnt_ := 0,
    sound_model_type_ := QAL_SOUND_MODEL_TYPE_UNKNOWN, sm_config_ := none,
    rec_config_ := none, reader_ := none, engines_ := [], gsl_engine_ := none,
    mDevices := [], cap_prof_ := none, sm_info_ := none, mInstanceID := 0,
    has_callback_ := false, pending_event_configs_ := [], trace := [] }

/-- An interaction without a result: logged only. -/
def emit (c : Call) : M Unit :=
  fun st => some ((), { st with trace := st.trace ++ [c] })

/-! ## Confidence levels of a recognition config -/

/-- The counting loops of `FillConfLevels`: one slot per phrase and one per
user level. -/
def FillConfLevels.count : List qal_st_phrase_recognition_extra → Nat → Nat
  | [], num_conf_levels => num_conf_levels
  | p :: ps, num_conf_levels => FillConfLevels.count ps (num_conf_levels + 1 + p.num_levels)

/-- The inner loop of `FillConfLevels` over the user levels of one phrase, on
the pair (`conf_levels`, `user_id_tracker`); an error is the status of the
`goto exit`. -/
def FillConfLevels.users (num_phrases num_conf_levels : Nat) :
    List qal_st_confidence_level → List Nat × List Nat → Except Int (List Nat × List Nat)
  | [], b => .ok b
  | l :: ls, (conf_levels, user_id_tracker) =>
    let user_level := l.level
    let user_id := l.user_id
    if user_id < num_phrases ∨ user_id ≥ num_conf_levels then
      .error (- EINVAL)
    else if user_id_tracker.getD user_id 0 = 1 then
      .error (- EINVAL)
    else
      FillConfLevels.users num_phrases num_conf_levels ls
        (conf_levels.set user_id (if user_level < 100 then user_level else 100),
         user_id_tracker.set user_id 1)

/-- The outer loop of `FillConfLevels`, at phrase index `i`: the keyword level is
stored in slot `i` of the byte array, then the user levels are placed. -/
def FillConfLevels.fill (num_phrases num_conf_levels : Nat) :
    Nat → List qal_st_phrase_recognition_extra → List Nat × List Nat →
      Except Int (List Nat × List Nat)
  | _, [], b => .ok b
  | i, p :: ps, (conf_levels, user_id_tracker) =>
    match FillConfLevels.users num_phrases num_conf_levels p.levels
        (conf_levels.set i (p.confidence_level % 256), user_id_tracker) with
    | .error status => .error status
    | .ok b => FillConfLevels.fill num_phrases num_conf_levels (i + 1) ps b

/-- `StreamSoundTrigger::FillConfLevels`.  The result is the status and, when
the two output pointers were written, the array and its length. -/
def FillConfLevels (env : Env) (config : Option qal_st_recognition_config) :
    M (Int × Option (List Nat × Nat)) := do
  match config with
  | none => return (- EINVAL, none)
  | some config =>
    let st ← get
    let phrase_sm :=
      (st.engines_.find? (fun eng => eng.GetEngineId = ST_SM_ID_SVA_GMM)).map (fun eng => eng.sm_data_)
    if config.num_phrases = 0 then
      return (- EINVAL, none)
    match phrase_sm with
    | none => fault
    | some phrase_sm =>
      if config.num_phrases > phrase_sm.num_phrases then
        return (- EINVAL, none)
      let num_conf_levels := FillConfLevels.count config.phrases 0
      let conf_levels ← ask env (Call.calloc num_conf_levels)
      if !conf_levels then
        return (- ENOMEM, none)
      let user_id_tracker ← ask env (Call.calloc num_conf_levels)
      if !user_id_tracker then
        return (- ENOMEM, none)
      match FillConfLevels.fill config.num_phrases num_conf_levels 0 config.phrases
          (List.replicate num_conf_levels 0, List.replicate num_conf_levels 0) with
      | .error status => return (status, none)
      | .ok (conf_levels, _) => return (0, some (conf_levels, num_conf_levels))

/-! ## Confidence levels of the opaque data -/

/-- The counting loops of `FillOpaqueConfLevels`. -/
def FillOpaqueConfLevels.count : List st_keyword_levels → Nat → Nat
  | [], num_conf_levels => num_conf_levels
  | k :: ks, num_conf_levels =>
    FillOpaqueConfLevels.count ks (num_conf_levels + 1 + k.user_levels.length)

/-- The inner loop of `FillOpaqueConfLevels` over the user levels of one
keyword. -/
def FillOpaqueConfLevels.users (num_kw_levels num_conf_levels : Nat) :
    List st_user_levels → List Nat × List Nat → Except Int (List Nat × List Nat)
  | [], b => .ok b
  | l :: ls, (conf_levels, user_id_tracker) =>
    let user_level := l.level
    let user_id := l.user_id
    if user_id < num_kw_levels ∨ user_id ≥ num_conf_levels then
      .error (- EINVAL)
    else if user_id_tracker.getD user_id 0 = 1 then
      .error (- EINVAL)
    else
      FillOpaqueConfLevels.users num_kw_levels num_conf_levels ls
        (conf_levels.set user_id (if user_level < 100 then user_level else 100),
         user_id_tracker.set user_id 1)

/-- The outer loop of `FillOpaqueConfLevels`, at keyword index `i`. -/
def FillOpaqueConfLevels.fill (num_kw_levels num_conf_levels : Nat) :
    Nat → List st_keyword_levels → List Nat × List Nat → Except Int (List Nat × List Nat)
  | _, [], b => .ok b
  | i, k :: ks, (conf_levels, user_id_tracker) =>
    if i < num_conf_levels then
      match FillOpaqueConfLevels.users num_kw_levels num_conf_levels k.user_levels
          (conf_levels.set i (k.kw_level % 256), user_id_tracker) with
      | .error status => .error status
      | .ok b => FillOpaqueConfLevels.fill num_kw_levels num_conf_levels (i + 1) ks b
    else
      .error (- EINVAL)

/-- The body that both version branches of `FillOpaqueConfLevels` run on their
view of the entry. -/
def FillOpaqueConfLevels.body (env : Env) (sm_levels : Option st_sound_model_conf_levels) :
    M (Int × Option (List Nat × Nat)) := do
  match sm_levels with
  | none => return (- EINVAL, none)
  | some sm_levels =>
    let num_conf_levels := FillOpaqueConfLevels.count sm_levels.kw_levels 0
    if num_conf_levels = 0 then
      return (- EINVAL, none)
    let conf_levels ← ask env (Call.calloc num_conf_levels)
    if !conf_levels then
      return (- ENOMEM, none)
    let user_id_tracker ← ask env (Call.calloc num_conf_levels)
    if !user_id_tracker then
      return (- ENOMEM, none)
    match FillOpaqueConfLevels.fill sm_levels.kw_levels.length num_conf_levels 0
        sm_levels.kw_levels
        (List.replicate num_conf_levels 0, List.replicate num_conf_levels 0) with
    | .error status => return (status, none)
    | .ok (conf_levels, _) => return (0, some (conf_levels, num_conf_levels))

/-- `StreamSoundTrigger::FillOpaqueConfLevels`.  The result is the status and,
when the two output pointers were written, the payload and its size. -/
def FillOpaqueConfLevels (env : Env) (sm_levels_generic : Option st_sound_model_conf_levels)
    (version : Nat) : M (Int × Option (List Nat × Nat)) :=
  if version ≠ CONF_LEVELS_INTF_VERSION_0002 then
    FillOpaqueConfLevels.body env sm_levels_generic
  else
    FillOpaqueConfLevels.body env sm_levels_generic

/-- The loop of `ParseOpaqueConfLevels` over the engines for one second-stage
entry. -/
def ParseOpaqueConfLevels.engines (sm_id : Nat) (confidence_level : Nat) :
    List EngineCfg → M Unit
  | [] => pure ()
  | eng :: engs => do
    if sm_id = eng.GetEngineId then
      emit (Call.UpdateConfLevels eng.GetEngine (some [confidence_level]) 1)
    ParseOpaqueConfLevels.engines sm_id confidence_level engs

/-- The loop of `ParseOpaqueConfLevels` over the sound-model entries; the state
of the loop is `gmm_conf_found` and the caller's two output pointers.  The
status of `FillOpaqueConfLevels` is dropped, as in the source. -/
def ParseOpaqueConfLevels.models (env : Env) (version : Nat) :
    List st_sound_model_conf_levels → Bool × Option (List Nat × Nat) →
      M (Bool × Option (List Nat × Nat))
  | [], s => pure s
  | sm_levels :: rest, (gmm_conf_found, out) => do
    if sm_levels.sm_id = ST_SM_ID_SVA_GMM then
      let r ← FillOpaqueConfLevels env (some sm_levels) version
      let out := match r.2 with
        | some written => some written
        | none => out
      ParseOpaqueConfLevels.models env version rest (true, out)
    else if sm_levels.sm_id &&& ST_SM_ID_SVA_KWD ≠ 0 ∨ sm_levels.sm_id &&& ST_SM_ID_SVA_VOP ≠ 0 then
      let kw0 := sm_levels.kw_levels.head?
      let confidence_level :=
        if sm_levels.sm_id &&& ST_SM_ID_SVA_KWD ≠ 0 then
          (kw0.map (fun k => k.kw_level)).getD 0
        else
          ((kw0.bind (fun k => k.user_levels.head?)).map (fun u => u.level)).getD 0
      let st ← get
      ParseOpaqueConfLevels.engines sm_levels.sm_id (confidence_level % 256) st.engines_
      ParseOpaqueConfLevels.models env version rest (gmm_conf_found, out)
    else
      ParseOpaqueConfLevels.models env version rest (gmm_conf_found, out)

/-- `StreamSoundTrigger::ParseOpaqueConfLevels` on a CONFIDENCE_LEVELS payload;
`out` is what the caller's output pointers hold on entry. -/
def ParseOpaqueConfLevels (env : Env) (conf_levels : List st_sound_model_conf_levels)
    (version : Nat) (out : Option (List Nat × Nat)) : M (Int × Option (List Nat × Nat)) := do
  let r ←
    if version ≠ CONF_LEVELS_INTF_VERSION_0002 then
      ParseOpaqueConfLevels.models env version conf_levels (false, out)
    else
      ParseOpaqueConfLevels.models env version conf_levels (false, out)
  if !r.1 then
    return (- EINVAL, r.2)
  return (0, r.2)

/-! ## Small member functions -/

/-- The value behind a pointer; a null pointer has none. -/
def deref {α : Type} : Option α → M α
  | some a => pure a
  | none => fault

/-- `StreamSoundTrigger::TransitTo`: the six state objects are registered in
`st_states_`; any other id is unknown and leaves the state alone. -/
def TransitTo (state_id : st_state_id_t) : M Unit :=
  if state_id = ST_STATE_NONE then
    pure ()
  else
    modify fun st => { st with prev_state_ := some st.cur_state_, cur_state_ := state_id }

/-- `StreamSoundTrigger::GetCurrentStateId`. -/
def GetCurrentStateId : M st_state_id_t := do
  return (← get).cur_state_

/-- `StreamSoundTrigger::PostDelayedStop`. -/
def PostDelayedStop : M Unit := do
  modify fun st => { st with pending_stop_ := true }
  modify fun st => { st with timer_stop_waiting_ := false }
  emit Call.timer_start_cond_notify

/-- `StreamSoundTrigger::CancelDelayedStop`. -/
def CancelDelayedStop : M Unit := do
  modify fun st => { st with pending_stop_ := false }
  modify fun st => { st with timer_stop_waiting_ := true }
  emit Call.timer_wait_cond_notify

/-- The loop of `SetDetectedToEngines`. -/
def SetDetectedToEngines.loop (detected : Bool) : List EngineCfg → M Unit
  | [] => pure ()
  | eng :: engs => do
    if eng.GetEngineId ≠ ST_SM_ID_SVA_GMM then
      emit (Call.SetDetected eng.GetEngine detected)
    SetDetectedToEngines.loop detected engs

/-- `StreamSoundTrigger::SetDetectedToEngines`. -/
def SetDetectedToEngines (detected : Bool) : M Unit := do
  SetDetectedToEngines.loop detected (← get).engines_

/-- `StreamSoundTrigger::GetAvailCaptureDevice`. -/
def GetAvailCaptureDevice (env : Env) : M Nat := do
  if env.support_dev_switch then
    if (← ask env (Call.isDeviceAvailable QAL_DEVICE_IN_WIRED_HEADSET)) then
      return QAL_DEVICE_IN_HEADSET_VA_MIC
    else
      return QAL_DEVICE_IN_HANDSET_VA_MIC
  else
    return QAL_DEVICE_IN_HANDSET_VA_MIC

/-- `StreamSoundTrigger::AddEngine`.  At both call sites `engine_cfg` is an
object allocated just before the call, so the pointer comparison of the
source's loop finds no equal entry and the binding is pushed. -/
def AddEngine (engine_cfg : EngineCfg) : M Unit :=
  modify fun st => { st with engines_ := st.engines_ ++ [engine_cfg] }

/-- `StreamSoundTrigger::GetCurrentCaptureProfile`.  The debug log before the
return reads the members of `cap_prof` (`QAL_DBG` is defined as `QAL_INFO` at
the top of the file): with a null profile, which is what the platform record
gives for a key it does not hold, the run has no defined outcome. -/
def GetCurrentCaptureProfile (env : Env) : M (Option CaptureProfile) := do
  let mut is_lpi := false
  if (← ask env Call.IsVoiceUILPISupported) then
    if !(← ask env Call.CheckForActiveConcurrentNonLPIStream) then
      is_lpi := true
  let is_transit_to_nlpi ← ask env Call.CheckForForcedTransitToNonLPI
  if is_transit_to_nlpi then
    is_lpi := false
  let dev ← GetAvailCaptureDevice env
  let sm_info_ ← deref (← get).sm_info_
  let cap_prof :=
    if dev = QAL_DEVICE_IN_HEADSET_VA_MIC then
      if is_lpi then
        sm_info_.GetCaptureProfile (ST_OPERATING_MODE_LOW_POWER, ST_INPUT_MODE_HEADSET)
      else if is_transit_to_nlpi then
        sm_info_.GetCaptureProfile
          (ST_OPERATING_MODE_HIGH_PERF_AND_CHARGING, ST_INPUT_MODE_HEADSET)
      else
        sm_info_.GetCaptureProfile (ST_OPERATING_MODE_HIGH_PERF, ST_INPUT_MODE_HEADSET)
    else
      if is_lpi then
        sm_info_.GetCaptureProfile (ST_OPERATING_MODE_LOW_POWER, ST_INPUT_MODE_HANDSET)
      else if is_transit_to_nlpi then
        sm_info_.GetCaptureProfile
          (ST_OPERATING_MODE_HIGH_PERF_AND_CHARGING, ST_INPUT_MODE_HANDSET)
      else
        sm_info_.GetCaptureProfile (ST_OPERATING_MODE_HIGH_PERF, ST_INPUT_MODE_HANDSET)
  let _ ← deref cap_prof
  return cap_prof

/-- `StreamSoundTrigger::GetQalDevice` on a non-null `dev`. -/
def GetQalDevice (env : Env) (_dev_id : Nat) : M Int := do
  let cap_prof ← deref (← GetCurrentCaptureProfile env)
  let ch_info ← ask env (Call.calloc cap_prof.channels)
  if !ch_info then
    return - ENOMEM
  return 0

/-- `StreamSoundTrigger::PostEvent`: the event is queued for the event thread
(the wake-up of that thread is not modelled). -/
def PostEvent (ev_cfg : StEventConfig) : M Unit :=
  modify fun st => { st with pending_event_configs_ := st.pending_event_configs_ ++ [ev_cfg] }

/-- `StreamSoundTrigger::UpdateChargingState`. -/
def UpdateChargingState (state : Bool) : M Int := do
  let mut status := 0
  if (← get).charging_state_ ≠ state then
    modify fun st => { st with charging_state_ := state }
    PostEvent (.ST_EV_CHARGING_STATE state)
  else
    status := EINVAL
  return status

/-! ## Loading a sound model -/

/-- The loop of `LoadSoundModel` over the records of a v3 container.  The result
`some status` is a `goto error_exit` with that status. -/
def LoadSoundModel.v3 (env : Env) (phrase_sm : qal_st_sound_model) :
    List SML_BigSoundModelTypeV3 → M (Option Int)
  | [] => pure none
  | big_sm :: rest => do
    if big_sm.type = ST_SM_ID_SVA_GMM then
      let sm_size := big_sm.size + env.sizeof_qal_st_phrase_sound_model
      let sm_data ← ask env (Call.calloc sm_size)
      if !sm_data then
        return some (- ENOMEM)
      let handle := (← get).trace.length
      let created ← ask env (Call.SoundTriggerEngine_Create ST_SM_ID_SVA_GMM)
      modify fun st => { st with gsl_engine_ := if created then some handle else none }
      if !created then
        return some (- ENOMEM)
      let status ← call env (Call.LoadSoundModel handle sm_size)
      if status ≠ 0 then
        return some status
      AddEngine { id_ := ST_SM_ID_SVA_GMM, engine_ := handle,
                  sm_data_ := { num_phrases := phrase_sm.num_phrases }, sm_size_ := sm_size }
      LoadSoundModel.v3 env phrase_sm rest
    else
      let sm_size := big_sm.size
      let sm_data ← ask env (Call.calloc sm_size)
      if !sm_data then
        return some (- ENOMEM)
      let handle := (← get).trace.length
      let created ← ask env (Call.SoundTriggerEngine_Create big_sm.type)
      if !created then
        return some (- ENOENT)
      let status ← call env (Call.LoadSoundModel handle sm_size)
      if status ≠ 0 then
        return some status
      AddEngine { id_ := big_sm.type, engine_ := handle,
                  sm_data_ := { num_phrases := 0 }, sm_size_ := sm_size }
      LoadSoundModel.v3 env phrase_sm rest

/-- The label `error_exit` of `LoadSoundModel`. -/
def LoadSoundModel.error_exit (status : Int) : M Int := do
  modify fun st => { st with engines_ := [] }
  modify fun st => { st with gsl_engine_ := none }
  modify fun st => { st with reader_ := none }
  modify fun st => { st with sm_config_ := none }
  return status

/-- `StreamSoundTrigger::LoadSoundModel`; `is_sm_config_` says that the argument
is the pointer `sm_config_` itself (a replay of the cached model). -/
def LoadSoundModel (env : Env) (sound_model : Option qal_st_sound_model)
    (is_sm_config_ : Bool) : M Int := do
  match sound_model with
  | none => return - EINVAL
  | some sound_model =>
    modify fun st => { st with sound_model_type_ := sound_model.type }
    let mut sm_size := 0
    if sound_model.type = QAL_SOUND_MODEL_TYPE_KEYPHRASE then
      if sound_model.data_offset < env.sizeof_qal_st_phrase_sound_model ∨
          sound_model.data_size = 0 ∨ sound_model.num_phrases = 0 then
        return - EINVAL
      sm_size := env.sizeof_qal_st_phrase_sound_model + sound_model.data_size
    else if sound_model.type = QAL_SOUND_MODEL_TYPE_GENERIC then
      if sound_model.data_size = 0 ∨
          sound_model.data_offset < env.sizeof_qal_st_sound_model then
        return - EINVAL
      sm_size := env.sizeof_qal_st_sound_model + sound_model.data_size
    else
      return - EINVAL
    if !is_sm_config_ then
      let sm_config_ ← ask env (Call.calloc sm_size)
      if !sm_config_ then
        modify fun st => { st with sm_config_ := none }
        return - ENOMEM
      modify fun st => { st with sm_config_ := some sound_model }
    if sound_model.type = QAL_SOUND_MODEL_TYPE_KEYPHRASE then
      if sound_model.magicNumber = SML_GLOBAL_HEADER_MAGIC_NUMBER then
        match (← LoadSoundModel.v3 env sound_model sound_model.models) with
        | some status => LoadSoundModel.error_exit status
        | none =>
          if (← get).gsl_engine_.isNone then
            LoadSoundModel.error_exit 0
          else
            return 0
      else
        sm_size := env.sizeof_qal_st_phrase_sound_model + sound_model.data_size
        let sm_data ← ask env (Call.calloc sm_size)
        if !sm_data then
          LoadSoundModel.error_exit (- ENOMEM)
        else
          let handle := (← get).trace.length
          let created ← ask env (Call.SoundTriggerEngine_Create ST_SM_ID_SVA_GMM)
          modify fun st => { st with gsl_engine_ := if created then some handle else none }
          if !created then
            LoadSoundModel.error_exit (- ENOMEM)
          else
            let status ← call env (Call.LoadSoundModel handle sm_size)
            if status ≠ 0 then
              LoadSoundModel.error_exit status
            else
              AddEngine { id_ := ST_SM_ID_SVA_GMM, engine_ := handle,
                          sm_data_ := { num_phrases := sound_model.num_phrases },
                          sm_size_ := sm_size }
              return 0
    else
      return 0

/-- `StreamSoundTrigger::UpdateSoundModel`. -/
def UpdateSoundModel (env : Env) (sound_model : Option qal_st_sound_model)
    (is_sm_config_ : Bool) : M Int := do
  match sound_model with
  | none => return - EINVAL
  | some sound_model =>
    modify fun st => { st with sound_model_type_ := sound_model.type }
    let mut sm_size := 0
    if sound_model.type = QAL_SOUND_MODEL_TYPE_KEYPHRASE then
      if sound_model.data_offset < env.sizeof_qal_st_phrase_sound_model ∨
          sound_model.data_size = 0 ∨ sound_model.num_phrases = 0 then
        return - EINVAL
      sm_size := env.sizeof_qal_st_phrase_sound_model + sound_model.data_size
    else if sound_model.type = QAL_SOUND_MODEL_TYPE_GENERIC then
      if sound_model.data_size = 0 ∨
          sound_model.data_offset < env.sizeof_qal_st_sound_model then
        return - EINVAL
      sm_size := env.sizeof_qal_st_sound_model + sound_model.data_size
    else
      return - EINVAL
    if !is_sm_config_ then
      let sm_config_ ← ask env (Call.calloc sm_size)
      if !sm_config_ then
        modify fun st => { st with sm_config_ := none }
        return - ENOMEM
      modify fun st => { st with sm_config_ := some sound_model }
    return 0

/-! ## The recognition config -/

/-- The `while` loop of `SendRecognitionConfig` over the TLVs of the opaque
data.  The loop state is (`hist_buffer_duration`, `pre_roll_duration`, the
confidence-level outputs); an error is a `goto error_exit` with that status. -/
def SendRecognitionConfig.params (env : Env) :
    List st_param → Nat × Nat × Option (List Nat × Nat) →
      M (Except Int (Nat × Nat × Option (List Nat × Nat)))
  | [], s => pure (.ok s)
  | .ST_PARAM_KEY_CONFIDENCE_LEVELS payload_size conf_levels_intf_version conf_levels :: rest,
      (hist_buffer_duration, pre_roll_duration, out) => do
    let conf_levels_payload_size :=
      if conf_levels_intf_version ≠ CONF_LEVELS_INTF_VERSION_0002 then
        env.sizeof_st_confidence_levels_info
      else
        env.sizeof_st_confidence_levels_info_v2
    if payload_size ≠ conf_levels_payload_size then
      return .error (- EINVAL)
    let r ← ParseOpaqueConfLevels env conf_levels conf_levels_intf_version out
    if r.1 ≠ 0 then
      return .error r.1
    SendRecognitionConfig.params env rest (hist_buffer_duration, pre_roll_duration, r.2)
  | .ST_PARAM_KEY_HISTORY_BUFFER_CONFIG payload_size hist pre :: rest, (_, _, out) => do
    if payload_size ≠ env.sizeof_st_hist_buffer_info then
      return .error (- EINVAL)
    SendRecognitionConfig.params env rest (hist, pre, out)
  | .ST_PARAM_KEY_DETECTION_PERF_MODE payload_size _ :: rest, s => do
    if payload_size ≠ env.sizeof_st_det_perf_mode_info then
      return .error (- EINVAL)
    SendRecognitionConfig.params env rest s
  | .other _ _ :: _, _ => pure (.error (- EINVAL))

/-- The loop of `SendRecognitionConfig` that hands reader `i` of the new buffer
to `engines_[i]`, from index `i` on.  A non-zero result is a
`goto error_exit`. -/
def SendRecognitionConfig.readers (env : Env) (buffer : Nat) : Nat → List EngineCfg → M Int
  | _, [] => pure 0
  | i, eng :: engs => do
    let status ← call env (Call.SetBufferReader eng.GetEngine { buffer := buffer, index := i })
    if status ≠ 0 then
      return status
    SendRecognitionConfig.readers env buffer (i + 1) engs

/-- The label `error_exit` of `SendRecognitionConfig`. -/
def SendRecognitionConfig.error_exit (status : Int) : M Int := do
  modify fun st => { st with rec_config_ := none }
  return status

/-- The ring-buffer size in bytes, in 32-bit unsigned arithmetic. -/
def SendRecognitionConfig.ring_buffer_size (hist_buffer_duration pre_roll_duration
    client_capture_read_delay sample_rate bit_width out_channels : Nat) : Nat :=
  let ring_buffer_len :=
    (hist_buffer_duration + pre_roll_duration + client_capture_read_delay) % 2 ^ 32
  ((ring_buffer_len / 1000) * sample_rate * bit_width * out_channels) % 2 ^ 32 / 8

/-- The part of `SendRecognitionConfig` that parses the recognition config: the
durations of the history buffer and of the pre-roll and the confidence levels,
from the opaque data or, for a bare config, from the platform record and the
phrases; an error is a `goto error_exit` with that status. -/
def SendRecognitionConfig.parse (env : Env) (config : qal_st_recognition_config) :
    M (Except Int (Nat × Nat × Option (List Nat × Nat))) := do
  if config.data_size > env.CUSTOM_CONFIG_OPAQUE_DATA_SIZE then
    SendRecognitionConfig.params env config.params (0, 0, none)
  else
    let sm_info_ ← deref (← get).sm_info_
    let r ← FillConfLevels env (some config)
    if r.1 ≠ 0 then
      pure (.error r.1)
    else
      pure (.ok (sm_info_.kw_duration, 0, r.2))

/-- The part of `SendRecognitionConfig` after the recognition config is parsed:
the buffer config of the first-stage engine, the ring buffer and its readers,
the confidence levels and the capture flag. -/
def SendRecognitionConfig.createBuffer (env : Env) (config : qal_st_recognition_config)
    (hist_buffer_duration pre_roll_duration : Nat) (out : Option (List Nat × Nat)) :
    M Int := do
  let sm_info_ ← deref (← get).sm_info_
  let client_capture_read_delay := sm_info_.capture_read_delay
  let gsl_engine_ ← deref (← get).gsl_engine_
  let status ← call env
    (Call.UpdateBufConfig gsl_engine_ hist_buffer_duration pre_roll_duration)
  if status ≠ 0 then
    SendRecognitionConfig.error_exit status
  else
    let ring_buffer_size := SendRecognitionConfig.ring_buffer_size hist_buffer_duration
      pre_roll_duration client_capture_read_delay sm_info_.sample_rate sm_info_.bit_width
      sm_info_.out_channels
    let engines_ := (← get).engines_
    let buffer := (← get).trace.length
    let status ← call env (Call.CreateBuffer gsl_engine_ ring_buffer_size engines_.length)
    if status ≠ 0 then
      SendRecognitionConfig.error_exit status
    else
      if engines_.length = 0 then
        fault
      else
        modify fun st => { st with reader_ := some { buffer := buffer, index := 0 } }
        let status ← SendRecognitionConfig.readers env buffer 1 (engines_.drop 1)
        if status ≠ 0 then
          SendRecognitionConfig.error_exit status
        else
          emit (Call.UpdateConfLevels gsl_engine_ (out.map (fun o => o.1))
            ((out.map (fun o => o.2)).getD 0))
          let capture_requested :=
            if !config.capture_requested ∧ engines_.length = 1 then false else true
          emit (Call.SetCaptureRequested gsl_engine_ capture_requested)
          return status

/-- The part of `SendRecognitionConfig` after the config is cached: the config
is parsed and the ring buffer is made. -/
def SendRecognitionConfig.apply (env : Env) (config : qal_st_recognition_config) : M Int := do
  match (← SendRecognitionConfig.parse env config) with
  | .error status => SendRecognitionConfig.error_exit status
  | .ok (hist_buffer_duration, pre_roll_duration, out) =>
    SendRecognitionConfig.createBuffer env config hist_buffer_duration pre_roll_duration out

/-- `StreamSoundTrigger::SendRecognitionConfig`; `is_rec_config_` says that the
argument is the pointer `rec_config_` itself (a replay of the cached
config). -/
def SendRecognitionConfig (env : Env) (config : Option qal_st_recognition_config)
    (is_rec_config_ : Bool) : M Int := do
  match config with
  | none => return - EINVAL
  | some config =>
    if !is_rec_config_ then
      let rec_config_ ← ask env (Call.calloc config.data_size)
      if !rec_config_ then
        modify fun st => { st with rec_config_ := none }
        return - ENOMEM
      modify fun st => { st with rec_config_ := some config }
    SendRecognitionConfig.apply env config

/-- `StreamSoundTrigger::UpdateRecognitionConfig`. -/
def UpdateRecognitionConfig (env : Env) (config : Option qal_st_recognition_config)
    (is_rec_config_ : Bool) : M Int := do
  match config with
  | none => return - EINVAL
  | some config =>
    if !is_rec_config_ then
      let rec_config_ ← ask env (Call.calloc config.data_size)
      if !rec_config_ then
        modify fun st => { st with rec_config_ := none }
        return - ENOMEM
      modify fun st => { st with rec_config_ := some config }
    return 0

/-! ## Client notification -/

/-- `StreamSoundTrigger::GenerateCallbackEvent`: the status and whether `*event`
was set. -/
def GenerateCallbackEvent (env : Env) : M (Int × Bool) := do
  if (← get).sound_model_type_ = QAL_SOUND_MODEL_TYPE_KEYPHRASE then
    let gsl_engine_ ← deref (← get).gsl_engine_
    let det_ev_info ← ask env (Call.GetDetectionEventInfo gsl_engine_)
    if !det_ev_info then
      return (- EINVAL, false)
    let phrase_event ← ask env (Call.calloc 0)
    if !phrase_event then
      return (- ENOMEM, false)
    let ch_info ← ask env (Call.calloc 0)
    if !ch_info then
      return (- ENOMEM, false)
    let _ ← deref (← get).rec_config_
    let reader_ ← deref (← get).reader_
    emit (Call.reader_getIndices reader_)
    return (0, true)
  else
    return (0, false)

/-- `StreamSoundTrigger::notifyClient`. -/
def notifyClient (env : Env) : M Int := do
  let r ← GenerateCallbackEvent env
  if r.1 ≠ 0 ∨ !r.2 then
    return r.1
  if (← get).has_callback_ then
    let rec_config_ ← deref (← get).rec_config_
    emit (Call.callback_ rec_config_.cookie)
  return r.1

/-! ## Loops shared by the state handlers -/

/-- The loop `for (auto& eng: engines_) status = eng->GetEngine()->op(...)` that
goes on after a failure; the result is the status after the loop. -/
def forEngines (env : Env) (op : SoundTriggerEngine → Call) : List EngineCfg → Int → M Int
  | [], status => pure status
  | eng :: engs, _ => do
    let status ← call env (op eng.GetEngine)
    forEngines env op engs status

/-- The same loop with a `break` at the first failure. -/
def forEnginesBreak (env : Env) (op : SoundTriggerEngine → Call) :
    List EngineCfg → Int → M Int
  | [], status => pure status
  | eng :: engs, _ => do
    let status ← call env (op eng.GetEngine)
    if status ≠ 0 then
      return status
    forEnginesBreak env op engs status

/-- The block `if (mDevices.size() > 0) { status = dev->stop(); deregisterDevice(dev); }`
of the stop paths. -/
def stopDevice (env : Env) (status : Int) : M Int := do
  match (← get).mDevices with
  | dev :: _ =>
    let status ← call env (Call.dev_stop dev)
    emit (Call.deregisterDevice dev)
    return status
  | [] => return status

/-! ## State Idle -/

/-- The body shared by the cases DEVICE_CONNECTED and DEVICE_DISCONNECTED of
`StIdle::ProcessEvent`, on the chosen device id. -/
def StIdle.updateDevice (env : Env) (dev_id : Nat) : M Int := do
  let status ← GetQalDevice env dev_id
  if status ≠ 0 then
    return status
  modify fun st => { st with mDevices := [] }
  let dev ← ask env (Call.Device_getInstance dev_id)
  if !dev then
    return - EINVAL
  emit (Call.setDeviceAttributes dev_id)
  modify fun st => { st with mDevices := st.mDevices ++ [dev_id] }
  return status

/-- `StreamSoundTrigger::StIdle::ProcessEvent`. -/
def StIdle.ProcessEvent (env : Env) (ev_cfg : StEventConfig) : M Int := do
  match ev_cfg with
  | .ST_EV_LOAD_SOUND_MODEL data_ is_sm_config_ =>
    let qal_st_sm ← deref data_
    modify fun st => { st with sm_info_ := env.sm_configs qal_st_sm.vendor_uuid }
    if (← get).sm_info_.isNone then
      fault
    else
      if (← get).mDevices.length = 0 then
        let dev_id ← GetAvailCaptureDevice env
        if (← GetQalDevice env dev_id) ≠ 0 then
          fault
        else
          let dev ← ask env (Call.Device_getInstance dev_id)
          if !dev then
            fault
          else
            modify fun st => { st with mDevices := st.mDevices ++ [dev_id] }
      match (← get).mDevices with
      | dev :: _ =>
        let status ← call env (Call.dev_open dev)
        if status ≠ 0 then
          return status
      | [] => pure ()
      let cap_prof ← GetCurrentCaptureProfile env
      modify fun st => { st with cap_prof_ := cap_prof }
      let _ ← deref cap_prof
      let instance_id ← call env Call.getStreamInstanceID
      modify fun st => { st with mInstanceID := instance_id }
      let status ← LoadSoundModel env (some qal_st_sm) is_sm_config_
      if status ≠ 0 then
        return status
      TransitTo ST_STATE_LOADED
      return status
  | .ST_EV_PAUSE =>
    modify fun st => { st with paused_ := true }
    return 0
  | .ST_EV_RESUME =>
    modify fun st => { st with paused_ := false }
    return 0
  | .ST_EV_READ_BUFFER _ =>
    return - EIO
  | .ST_EV_DEVICE_CONNECTED dev_id_ =>
    StIdle.updateDevice env dev_id_
  | .ST_EV_DEVICE_DISCONNECTED _ =>
    let dev_id ← GetAvailCaptureDevice env
    StIdle.updateDevice env dev_id
  | .ST_EV_SSR_OFFLINE =>
    if (← get).state_for_restore_ = ST_STATE_NONE then
      modify fun st => { st with state_for_restore_ := ST_STATE_IDLE }
    TransitTo ST_STATE_SSR
    return 0
  | _ =>
    return 0

/-! ## State Loaded -/

/-- The engine loop of the case UNLOAD_SOUND_MODEL of `StLoaded::ProcessEvent`:
a failed unload replaces the status by `ret`. -/
def StLoaded.unloadEngines (env : Env) (ret : Int) : List EngineCfg → Int → M Int
  | [], status => pure status
  | eng :: engs, _ => do
    let status ← call env (Call.UnloadSoundModel eng.GetEngine)
    StLoaded.unloadEngines env ret engs (if status ≠ 0 then ret else status)

/-- The engine loop of the case START_RECOGNITION of `StLoaded::ProcessEvent`:
whether the loop ran to its end, the status, and `tmp_engines`. -/
def StLoaded.startEngines (env : Env) :
    List EngineCfg → List SoundTriggerEngine → Int → M (Bool × Int × List SoundTriggerEngine)
  | [], tmp_engines, status => pure (true, status, tmp_engines)
  | eng :: engs, tmp_engines, _ => do
    let status ← call env (Call.StartRecognition eng.GetEngine)
    if status ≠ 0 then
      return (false, status, tmp_engines)
    StLoaded.startEngines env engs (tmp_engines ++ [eng.GetEngine]) status

/-- The loop over `tmp_engines` at the label `err_exit` of the case
START_RECOGNITION. -/
def StLoaded.stopStarted (env : Env) : List SoundTriggerEngine → M Unit
  | [] => pure ()
  | eng :: engs => do
    let _ ← call env (Call.StopRecognition eng)
    StLoaded.stopStarted env engs

/-- The label `err_exit` of the case START_RECOGNITION. -/
def StLoaded.err_exit (env : Env) (tmp_engines : List SoundTriggerEngine) (status : Int) :
    M Int := do
  StLoaded.stopStarted env tmp_engines
  match (← get).mDevices with
  | dev :: _ =>
    emit (Call.deregisterDevice dev)
    let _ ← call env (Call.dev_stop dev)
  | [] => pure ()
  return status

/-- The case START_RECOGNITION of `StLoaded::ProcessEvent` (RESUME falls through
to it). -/
def StLoaded.start (env : Env) : M Int := do
  if (← get).paused_ then
    return 0
  if (← get).rec_config_.isNone then
    return - EINVAL
  let mut status := 0
  let backend_update ← ask env (Call.UpdateSVACaptureProfile true)
  if backend_update then
    status ← call env Call.StopOtherSVAStreams
    status ← call env Call.StartOtherSVAStreams
  match (← get).mDevices with
  | dev :: _ =>
    emit (Call.getDeviceAttributes dev)
    let cap_prof ← ask env Call.GetSVACaptureProfile
    if !cap_prof then
      return (← StLoaded.err_exit env [] status)
    let ch_info ← ask env (Call.calloc 0)
    if !ch_info then
      return status
    emit (Call.setDeviceAttributes dev)
    emit (Call.setSndName dev)
    status ← call env (Call.dev_start dev)
    if status ≠ 0 then
      return status
    emit (Call.registerDevice dev)
    emit (Call.setSndName dev)
  | [] => pure ()
  let r ← StLoaded.startEngines env (← get).engines_ [] status
  if !r.1 then
    return (← StLoaded.err_exit env r.2.2 r.2.1)
  match (← get).reader_ with
  | some reader_ => emit (Call.reader_reset reader_)
  | none => pure ()
  TransitTo ST_STATE_ACTIVE
  return r.2.1

/-- The loop over `mDevices` of the device cases of `StLoaded::ProcessEvent`; a
non-zero result is a `goto` to the error label. -/
def StLoaded.closeDevices (env : Env) : List Device → M Int
  | [] => pure 0
  | device :: rest => do
    let gsl_engine_ ← deref (← get).gsl_engine_
    let _ ← call env (Call.DisconnectSessionDevice gsl_engine_ device)
    let status ← call env (Call.dev_close device)
    if status ≠ 0 then
      return status
    StLoaded.closeDevices env rest

/-- The end of the device cases of `StLoaded::ProcessEvent`, from the point where
the new device has been opened and pushed: the first-stage engine is set up
for the device and connected to it. -/
def StLoaded.connectDevice (env : Env) (dev_id : Nat) : M Int := do
  let gsl_engine_ ← deref (← get).gsl_engine_
  let status ← call env (Call.SetupSessionDevice gsl_engine_ dev_id)
  if status ≠ 0 then
    modify fun st => { st with mDevices := st.mDevices.dropLast }
    let _ ← call env (Call.dev_close dev_id)
    return status
  let status ← call env (Call.ConnectSessionDevice gsl_engine_ dev_id)
  if status ≠ 0 then
    modify fun st => { st with mDevices := st.mDevices.dropLast }
    let _ ← call env (Call.dev_close dev_id)
  return status

/-- The body shared by the cases DEVICE_CONNECTED and DEVICE_DISCONNECTED of
`StLoaded::ProcessEvent`, on the chosen device id. -/
def StLoaded.switchDevice (env : Env) (dev_id : Nat) : M Int := do
  let status ← GetQalDevice env dev_id
  if status ≠ 0 then
    return status
  let status ← StLoaded.closeDevices env (← get).mDevices
  if status ≠ 0 then
    return status
  modify fun st => { st with mDevices := [] }
  let dev ← ask env (Call.Device_getInstance dev_id)
  if !dev then
    return - EINVAL
  emit (Call.setDeviceAttributes dev_id)
  let status ← call env (Call.dev_open dev_id)
  if status ≠ 0 then
    return status
  modify fun st => { st with mDevices := st.mDevices ++ [dev_id] }
  StLoaded.connectDevice env dev_id

/-- `StreamSoundTrigger::StLoaded::ProcessEvent`; `ProcessInternalEvent` is the
dispatch to the handler of the current state. -/
def StLoaded.ProcessEvent (env : Env) (ProcessInternalEvent : StEventConfig → M Int)
    (ev_cfg : StEventConfig) : M Int := do
  match ev_cfg with
  | .ST_EV_UNLOAD_SOUND_MODEL =>
    let mut status := 0
    let mut ret := 0
    match (← get).mDevices with
    | dev :: _ =>
      ret ← call env (Call.dev_close dev)
      if ret ≠ 0 then
        status := ret
    | [] => pure ()
    status ← StLoaded.unloadEngines env ret (← get).engines_ status
    modify fun st => { st with reader_ := none }
    modify fun st => { st with engines_ := [] }
    let _ ← deref (← get).sm_info_
    emit (Call.resetStreamInstanceID (← get).mInstanceID)
    TransitTo ST_STATE_IDLE
    return status
  | .ST_EV_RECOGNITION_CONFIG data_ =>
    SendRecognitionConfig env data_ false
  | .ST_EV_RESUME =>
    if !(← get).paused_ then
      return 0
    modify fun st => { st with paused_ := false }
    StLoaded.start env
  | .ST_EV_START_RECOGNITION _ =>
    StLoaded.start env
  | .ST_EV_PAUSE =>
    modify fun st => { st with paused_ := true }
    return 0
  | .ST_EV_STOP_RECOGNITION _ =>
    modify fun st => { st with paused_ := false }
    return 0
  | .ST_EV_READ_BUFFER _ =>
    return - EIO
  | .ST_EV_DEVICE_CONNECTED dev_id_ =>
    StLoaded.switchDevice env dev_id_
  | .ST_EV_DEVICE_DISCONNECTED _ =>
    let dev_id ← GetAvailCaptureDevice env
    StLoaded.switchDevice env dev_id
  | .ST_EV_CONCURRENT_STREAM _ _ | .ST_EV_CHARGING_STATE _ =>
    let new_cap_prof ← GetCurrentCaptureProfile env
    if (← get).cap_prof_ ≠ new_cap_prof then
      let status ← ProcessInternalEvent .ST_EV_UNLOAD_SOUND_MODEL
      if status ≠ 0 then
        return status
      let status ← ProcessInternalEvent (.ST_EV_LOAD_SOUND_MODEL (← get).sm_config_ true)
      if status ≠ 0 then
        return status
      if (← get).rec_config_.isSome then
        let status ← SendRecognitionConfig env (← get).rec_config_ true
        return status
      return status
    else
      return 0
  | .ST_EV_SSR_OFFLINE =>
    if (← get).state_for_restore_ = ST_STATE_NONE then
      modify fun st => { st with state_for_restore_ := ST_STATE_LOADED }
    let status ← ProcessInternalEvent .ST_EV_UNLOAD_SOUND_MODEL
    TransitTo ST_STATE_SSR
    return status
  | _ =>
    return 0

/-! ## State Active -/

/-- The case STOP_RECOGNITION of `StActive::ProcessEvent` (PAUSE falls through
to it). -/
def StActive.stop (env : Env) : M Int := do
  let mut status := 0
  if (← get).paused_ = true then
    let backend_update ← ask env (Call.UpdateSVACaptureProfile false)
    if backend_update then
      status ← call env Call.StopOtherSVAStreams
      status ← call env Call.StartOtherSVAStreams
  status ← forEngines env Call.StopRecognition (← get).engines_ status
  status ← stopDevice env status
  TransitTo ST_STATE_LOADED
  return status

/-- The loop over `mDevices` of the device cases of `StActive::ProcessEvent`; a
non-zero result is a `goto` to the error label. -/
def StActive.closeDevices (env : Env) : List Device → M Int
  | [] => pure 0
  | device :: rest => do
    let gsl_engine_ ← deref (← get).gsl_engine_
    let _ ← call env (Call.DisconnectSessionDevice gsl_engine_ device)
    let status ← call env (Call.dev_stop device)
    if status ≠ 0 then
      return status
    emit (Call.deregisterDevice device)
    let status ← call env (Call.dev_close device)
    if status ≠ 0 then
      return status
    StActive.closeDevices env rest

/-- The end of the device cases of `StActive::ProcessEvent`, from the point where
the new device has been opened and pushed: the first-stage engine is set up
for the device, the device is registered and started, and the engine is
connected to it; only the connected case sets the sound-card name from
`cap_prof_`. -/
def StActive.connectDevice (env : Env) (dev_id : Nat) (connected : Bool) : M Int := do
  let gsl_engine_ ← deref (← get).gsl_engine_
  let status ← call env (Call.SetupSessionDevice gsl_engine_ dev_id)
  if status ≠ 0 then
    modify fun st => { st with mDevices := st.mDevices.dropLast }
    let _ ← call env (Call.dev_close dev_id)
    return status
  emit (Call.registerDevice dev_id)
  if connected then
    let _ ← deref (← get).cap_prof_
    emit (Call.setSndName dev_id)
  let status ← call env (Call.dev_start dev_id)
  if status ≠ 0 then
    return status
  let status ← call env (Call.ConnectSessionDevice gsl_engine_ dev_id)
  if status ≠ 0 then
    modify fun st => { st with mDevices := st.mDevices.dropLast }
    let _ ← call env (Call.dev_close dev_id)
  return status

/-- The body of the cases DEVICE_CONNECTED and DEVICE_DISCONNECTED of
`StActive::ProcessEvent`, on the chosen device id. -/
def StActive.switchDevice (env : Env) (dev_id : Nat) (connected : Bool) : M Int := do
  let status ← GetQalDevice env dev_id
  if status ≠ 0 then
    return status
  let status ← StActive.closeDevices env (← get).mDevices
  if status ≠ 0 then
    return status
  modify fun st => { st with mDevices := [] }
  let dev ← ask env (Call.Device_getInstance dev_id)
  if !dev then
    return - EINVAL
  emit (Call.setDeviceAttributes dev_id)
  let status ← call env (Call.dev_open dev_id)
  if status ≠ 0 then
    return status
  modify fun st => { st with mDevices := st.mDevices ++ [dev_id] }
  StActive.connectDevice env dev_id connected

/-- `StreamSoundTrigger::StActive::ProcessEvent`. -/
def StActive.ProcessEvent (env : Env) (ProcessInternalEvent : StEventConfig → M Int)
    (ev_cfg : StEventConfig) : M Int := do
  match ev_cfg with
  | .ST_EV_DETECTED det_type_ =>
    if det_type_ ≠ GMM_DETECTED then
      return 0
    let rec_config_ ← deref (← get).rec_config_
    if !rec_config_.capture_requested ∧ (← get).engines_.length = 1 then
      TransitTo ST_STATE_DETECTED
      if (← GetCurrentStateId) = ST_STATE_DETECTED then
        PostDelayedStop
    else
      TransitTo ST_STATE_BUFFERING
      SetDetectedToEngines true
    if (← get).engines_.length = 1 then
      let _ ← notifyClient env
    return 0
  | .ST_EV_PAUSE =>
    modify fun st => { st with paused_ := true }
    StActive.stop env
  | .ST_EV_STOP_RECOGNITION _ =>
    StActive.stop env
  | .ST_EV_EC_REF dev_ is_enable_ =>
    let gsl_engine_ ← deref (← get).gsl_engine_
    call env (Call.setECRef gsl_engine_ dev_ is_enable_)
  | .ST_EV_READ_BUFFER _ =>
    return - EIO
  | .ST_EV_DEVICE_CONNECTED dev_id_ =>
    StActive.switchDevice env dev_id_ true
  | .ST_EV_DEVICE_DISCONNECTED _ =>
    let dev_id ← GetAvailCaptureDevice env
    StActive.switchDevice env dev_id false
  | .ST_EV_CONCURRENT_STREAM _ _ | .ST_EV_CHARGING_STATE _ =>
    let new_cap_prof ← GetCurrentCaptureProfile env
    if (← get).cap_prof_ ≠ new_cap_prof then
      let status ← ProcessInternalEvent (.ST_EV_STOP_RECOGNITION false)
      if status ≠ 0 then
        return status
      let status ← ProcessInternalEvent .ST_EV_UNLOAD_SOUND_MODEL
      if status ≠ 0 then
        return status
      let status ← ProcessInternalEvent (.ST_EV_LOAD_SOUND_MODEL (← get).sm_config_ true)
      if status ≠ 0 then
        return status
      let status ← SendRecognitionConfig env (← get).rec_config_ true
      if status ≠ 0 then
        return status
      ProcessInternalEvent (.ST_EV_START_RECOGNITION false)
    else
      return 0
  | .ST_EV_SSR_OFFLINE =>
    if (← get).state_for_restore_ = ST_STATE_NONE then
      modify fun st => { st with state_for_restore_ := ST_STATE_ACTIVE }
    let _ ← ProcessInternalEvent (.ST_EV_STOP_RECOGNITION false)
    let status ← ProcessInternalEvent .ST_EV_UNLOAD_SOUND_MODEL
    TransitTo ST_STATE_SSR
    return status
  | _ =>
    return 0

/-! ## State Detected -/

/-- The case STOP_RECOGNITION of `StDetected::ProcessEvent` (PAUSE falls through
to it). -/
def StDetected.stop (env : Env) : M Int := do
  CancelDelayedStop
  let status ← forEngines env Call.StopRecognition (← get).engines_ 0
  let status ← stopDevice env status
  TransitTo ST_STATE_LOADED
  return status

/-- `StreamSoundTrigger::StDetected::ProcessEvent`. -/
def StDetected.ProcessEvent (env : Env) (ProcessInternalEvent : StEventConfig → M Int)
    (ev_cfg : StEventConfig) : M Int := do
  match ev_cfg with
  | .ST_EV_START_RECOGNITION _ =>
    CancelDelayedStop
    let status ← forEngines env Call.RestartRecognition (← get).engines_ 0
    match (← get).reader_ with
    | some reader_ => emit (Call.reader_reset reader_)
    | none => pure ()
    if status = 0 then
      TransitTo ST_STATE_ACTIVE
    else
      TransitTo ST_STATE_LOADED
    return status
  | .ST_EV_PAUSE =>
    CancelDelayedStop
    modify fun st => { st with paused_ := true }
    StDetected.stop env
  | .ST_EV_STOP_RECOGNITION _ =>
    StDetected.stop env
  | .ST_EV_RECOGNITION_CONFIG data_ =>
    CancelDelayedStop
    let status ← forEngines env Call.StopRecognition (← get).engines_ 0
    let _ ← stopDevice env status
    TransitTo ST_STATE_LOADED
    ProcessInternalEvent (.ST_EV_RECOGNITION_CONFIG data_)
  | .ST_EV_CONCURRENT_STREAM stream_type is_active_ =>
    CancelDelayedStop
    TransitTo ST_STATE_ACTIVE
    ProcessInternalEvent (.ST_EV_CONCURRENT_STREAM stream_type is_active_)
  | .ST_EV_CHARGING_STATE charging_state_ =>
    CancelDelayedStop
    TransitTo ST_STATE_ACTIVE
    ProcessInternalEvent (.ST_EV_CHARGING_STATE charging_state_)
  | .ST_EV_RESUME =>
    modify fun st => { st with paused_ := false }
    return 0
  | .ST_EV_DEVICE_CONNECTED _ | .ST_EV_DEVICE_DISCONNECTED _ =>
    return 0
  | .ST_EV_SSR_OFFLINE =>
    if (← get).state_for_restore_ = ST_STATE_NONE then
      modify fun st => { st with state_for_restore_ := ST_STATE_LOADED }
    let _ ← ProcessInternalEvent (.ST_EV_STOP_RECOGNITION false)
    let status ← ProcessInternalEvent .ST_EV_UNLOAD_SOUND_MODEL
    TransitTo ST_STATE_SSR
    return status
  | _ =>
    return 0

/-! ## State Buffering -/

/-- The block that stops buffering in every engine and resets the reader. -/
def StBuffering.stopBuffering (env : Env) (status : Int) : M Int := do
  let status ← forEngines env Call.StopBuffering (← get).engines_ status
  match (← get).reader_ with
  | some reader_ => emit (Call.reader_reset reader_)
  | none => pure ()
  return status

/-- The case STOP_RECOGNITION of `StBuffering::ProcessEvent` (PAUSE falls
through to it). -/
def StBuffering.stop (env : Env) (status : Int) : M Int := do
  CancelDelayedStop
  let status ← forEngines env Call.StopRecognition (← get).engines_ status
  let status ← stopDevice env status
  TransitTo ST_STATE_LOADED
  return status

/-- The loop over `mDevices` of the device cases of
`StBuffering::ProcessEvent`. -/
def StBuffering.stopDevices (env : Env) : List Device → Int → M Int
  | [], status => pure status
  | dev :: rest, _ => do
    let status ← call env (Call.dev_stop dev)
    emit (Call.deregisterDevice dev)
    StBuffering.stopDevices env rest status

/-- The body of the cases DEVICE_CONNECTED and DEVICE_DISCONNECTED of
`StBuffering::ProcessEvent` before the event is handed to state Loaded. -/
def StBuffering.stopForDevice (env : Env) : M Unit := do
  CancelDelayedStop
  let status ← StBuffering.stopBuffering env 0
  let status ← forEngines env Call.StopRecognition (← get).engines_ status
  let _ ← StBuffering.stopDevices env (← get).mDevices status
  TransitTo ST_STATE_LOADED

/-- `StreamSoundTrigger::StBuffering::ProcessEvent`. -/
def StBuffering.ProcessEvent (env : Env) (ProcessInternalEvent : StEventConfig → M Int)
    (ev_cfg : StEventConfig) : M Int := do
  match ev_cfg with
  | .ST_EV_READ_BUFFER size =>
    match (← get).reader_ with
    | none => return - EINVAL
    | some reader_ => call env (Call.reader_read reader_ size)
  | .ST_EV_STOP_BUFFERING =>
    let status ← StBuffering.stopBuffering env 0
    PostDelayedStop
    return status
  | .ST_EV_START_RECOGNITION _ =>
    CancelDelayedStop
    let status ← StBuffering.stopBuffering env 0
    let status ← forEnginesBreak env Call.RestartRecognition (← get).engines_ status
    if status = 0 then
      TransitTo ST_STATE_ACTIVE
    else
      TransitTo ST_STATE_LOADED
    return status
  | .ST_EV_RECOGNITION_CONFIG data_ =>
    CancelDelayedStop
    let status ← StBuffering.stopBuffering env 0
    let status ← forEngines env Call.StopRecognition (← get).engines_ status
    let _ ← stopDevice env status
    TransitTo ST_STATE_LOADED
    ProcessInternalEvent (.ST_EV_RECOGNITION_CONFIG data_)
  | .ST_EV_PAUSE =>
    modify fun st => { st with paused_ := true }
    let status ← StBuffering.stopBuffering env 0
    StBuffering.stop env status
  | .ST_EV_STOP_RECOGNITION _ =>
    StBuffering.stop env 0
  | .ST_EV_DETECTED det_type_ =>
    if det_type_ = GMM_DETECTED then
      return 0
    if det_type_ = CNN_REJECTED ∨ det_type_ = VOP_REJECTED then
      modify fun st => { st with detection_state_ := ENGINE_IDLE }
      let status ← StBuffering.stopBuffering env 0
      let status ← forEnginesBreak env Call.RestartRecognition (← get).engines_ status
      if status = 0 then
        TransitTo ST_STATE_ACTIVE
      else
        TransitTo ST_STATE_LOADED
      return status
    modify fun st => { st with detection_state_ := st.detection_state_ ||| det_type_ }
    let mut status := 0
    if (← get).detection_state_ &&& (CNN_DETECTED ||| VOP_DETECTED) ≠ 0 then
      modify fun st => { st with detection_state_ := ENGINE_IDLE }
      let rec_config_ ← deref (← get).rec_config_
      if !rec_config_.capture_requested then
        status ← StBuffering.stopBuffering env status
        TransitTo ST_STATE_DETECTED
      let _ ← notifyClient env
      let rec_config_ ← deref (← get).rec_config_
      let cur ← GetCurrentStateId
      if !rec_config_.capture_requested ∧
          (cur = ST_STATE_BUFFERING ∨ cur = ST_STATE_DETECTED) then
        PostDelayedStop
    return status
  | .ST_EV_CHARGING_STATE charging_state_ =>
    CancelDelayedStop
    let _ ← StBuffering.stopBuffering env 0
    TransitTo ST_STATE_ACTIVE
    ProcessInternalEvent (.ST_EV_CHARGING_STATE charging_state_)
  | .ST_EV_CONCURRENT_STREAM stream_type is_active_ =>
    CancelDelayedStop
    let _ ← StBuffering.stopBuffering env 0
    TransitTo ST_STATE_ACTIVE
    ProcessInternalEvent (.ST_EV_CONCURRENT_STREAM stream_type is_active_)
  | .ST_EV_DEVICE_CONNECTED dev_id_ =>
    StBuffering.stopForDevice env
    ProcessInternalEvent (.ST_EV_DEVICE_CONNECTED dev_id_)
  | .ST_EV_DEVICE_DISCONNECTED dev_id_ =>
    StBuffering.stopForDevice env
    ProcessInternalEvent (.ST_EV_DEVICE_DISCONNECTED dev_id_)
  | .ST_EV_SSR_OFFLINE =>
    if (← get).state_for_restore_ = ST_STATE_NONE then
      modify fun st => { st with state_for_restore_ := ST_STATE_LOADED }
    let _ ← ProcessInternalEvent .ST_EV_STOP_BUFFERING
    let _ ← ProcessInternalEvent (.ST_EV_STOP_RECOGNITION false)
    let status ← ProcessInternalEvent .ST_EV_UNLOAD_SOUND_MODEL
    TransitTo ST_STATE_SSR
    return status
  | _ =>
    return 0

/-! ## State SSR -/

/-- `StreamSoundTrigger::StSSR::ProcessEvent`. -/
def StSSR.ProcessEvent (env : Env) (ProcessInternalEvent : StEventConfig → M Int)
    (ev_cfg : StEventConfig) : M Int := do
  match ev_cfg with
  | .ST_EV_SSR_ONLINE =>
    TransitTo ST_STATE_IDLE
    let mut status := 0
    if (← get).state_for_restore_ = ST_STATE_LOADED ∨
        (← get).state_for_restore_ = ST_STATE_ACTIVE then
      status ← ProcessInternalEvent (.ST_EV_LOAD_SOUND_MODEL (← get).sm_config_ true)
      if status ≠ 0 then
        return status
    if (← get).state_for_restore_ = ST_STATE_ACTIVE then
      status ← SendRecognitionConfig env (← get).rec_config_ true
      if status ≠ 0 then
        return status
      status ← ProcessInternalEvent (.ST_EV_START_RECOGNITION false)
      if status ≠ 0 then
        return status
    modify fun st => { st with state_for_restore_ := ST_STATE_NONE }
    return status
  | .ST_EV_LOAD_SOUND_MODEL data_ is_sm_config_ =>
    if (← get).state_for_restore_ ≠ ST_STATE_IDLE then
      return - EINVAL
    else
      let status ← UpdateSoundModel env data_ is_sm_config_
      if status = 0 then
        modify fun st => { st with state_for_restore_ := ST_STATE_LOADED }
      return status
  | .ST_EV_UNLOAD_SOUND_MODEL =>
    if (← get).state_for_restore_ ≠ ST_STATE_LOADED then
      return - EINVAL
    else
      modify fun st => { st with state_for_restore_ := ST_STATE_IDLE }
      return 0
  | .ST_EV_RECOGNITION_CONFIG data_ =>
    if (← get).state_for_restore_ ≠ ST_STATE_LOADED then
      return - EINVAL
    else
      UpdateRecognitionConfig env data_ false
  | .ST_EV_START_RECOGNITION _ =>
    if (← get).state_for_restore_ ≠ ST_STATE_LOADED then
      return - EINVAL
    else
      if (← get).rec_config_.isNone then
        return - EINVAL
      modify fun st => { st with state_for_restore_ := ST_STATE_ACTIVE }
      return 0
  | .ST_EV_STOP_RECOGNITION _ =>
    if (← get).state_for_restore_ ≠ ST_STATE_ACTIVE then
      return - EINVAL
    else
      modify fun st => { st with state_for_restore_ := ST_STATE_LOADED }
      return 0
  | .ST_EV_READ_BUFFER _ =>
    return - EIO
  | _ =>
    return 0

/-! ## Dispatch -/

/-- The call `cur_state_->ProcessEvent(ev_cfg)`: the handler of the current
state runs, and `ProcessInternalEvent` inside it is the same dispatch with one
unit of fuel less (the handlers nest at most three deep). -/
def ProcessEvent (env : Env) : Nat → StEventConfig → M Int
  | 0, _ => fault
  | fuel + 1, ev_cfg => do
    match (← get).cur_state_ with
    | ST_STATE_IDLE => StIdle.ProcessEvent env ev_cfg
    | ST_STATE_LOADED => StLoaded.ProcessEvent env (ProcessEvent env fuel) ev_cfg
    | ST_STATE_ACTIVE => StActive.ProcessEvent env (ProcessEvent env fuel) ev_cfg
    | ST_STATE_DETECTED => StDetected.ProcessEvent env (ProcessEvent env fuel) ev_cfg
    | ST_STATE_BUFFERING => StBuffering.ProcessEvent env (ProcessEvent env fuel) ev_cfg
    | ST_STATE_SSR => StSSR.ProcessEvent env (ProcessEvent env fuel) ev_cfg
    | ST_STATE_NONE => fault

/-- `StreamSoundTrigger::InternalStopRecognition`, the call made by the timer
thread when the delay has run out. -/
def InternalStopRecognition (env : Env) (fuel : Nat) : M Unit := do
  if (← get).pending_stop_ then
    let _ ← ProcessEvent env fuel (.ST_EV_STOP_RECOGNITION true)

/-! ## Notifications of concurrent streams -/

/-- The stream types that `ConcurrentStreamStatus` tells apart (the enum is
declared in a header that is not under src/; every other type is
`QAL_STREAM_OTHER`). -/
inductive qal_stream_type_t
  | QAL_STREAM_LOW_LATENCY
  | QAL_STREAM_RAW
  | QAL_STREAM_VOICE_CALL_TX
  | QAL_STREAM_VOICE_CALL_RX_TX
  | QAL_STREAM_VOICE_CALL
  | QAL_STREAM_VOIP_TX
  | QAL_STREAM_OTHER
  deriving DecidableEq, Repr

/-- The direction of a stream. -/
inductive qal_stream_direction_t
  | QAL_AUDIO_OUTPUT
  | QAL_AUDIO_INPUT
  | QAL_AUDIO_INPUT_OUTPUT
  deriving DecidableEq, Repr

open qal_stream_type_t qal_stream_direction_t

/-- The part of `ConcurrentStreamStatus` that computes `conc_en` for a capture
stream: whether voice UI can go on while a stream of that type captures.  The
second query of the `||` is made only when its first operand is false. -/
def ConcurrentStreamStatus.conc_en (env : Env) (type : qal_stream_type_t) : M Bool := do
  if (← ask env Call.IsAudioCaptureAndVoiceUIConcurrencySupported) then
    let voice_call ← ask env Call.IsVoiceCallAndVoiceUIConcurrencySupported
    if !voice_call ∧ (type = QAL_STREAM_VOICE_CALL_TX ∨ type = QAL_STREAM_VOICE_CALL_RX_TX ∨
        type = QAL_STREAM_VOICE_CALL) then
      return false
    let voip ← ask env Call.IsVoipAndVoiceUIConcurrencySupported
    if !voip ∧ type = QAL_STREAM_VOIP_TX then
      return false
    return true
  else if type = QAL_STREAM_LOW_LATENCY ∨ type = QAL_STREAM_RAW ∨
      type = QAL_STREAM_VOICE_CALL_TX ∨ type = QAL_STREAM_VOICE_CALL_RX_TX ∨
      type = QAL_STREAM_VOICE_CALL ∨ type = QAL_STREAM_VOIP_TX then
    return false
  else
    return true

/-- `StreamSoundTrigger::ConcurrentStreamStatus`.  The counter `conc_tx_cnt_` is
declared in the header, which is not under src/; it is read as a signed
counter.  The handlers do not read the stream type of the event. -/
def ConcurrentStreamStatus (env : Env) (fuel : Nat) (type : qal_stream_type_t)
    (dir : qal_stream_direction_t) (active : Bool) : M Unit := do
  if dir = QAL_AUDIO_OUTPUT ∧ type ≠ QAL_STREAM_LOW_LATENCY then
    if (← ask env Call.IsVoiceUILPISupported) then
      let _ ← ProcessEvent env fuel (.ST_EV_CONCURRENT_STREAM type.toCtorIdx active)
  else if dir = QAL_AUDIO_INPUT ∨ dir = QAL_AUDIO_INPUT_OUTPUT then
    let conc_en ← ConcurrentStreamStatus.conc_en env type
    if !conc_en then
      if active then
        modify fun st => { st with conc_tx_cnt_ := st.conc_tx_cnt_ + 1 }
        if (← get).conc_tx_cnt_ = 1 then
          let _ ← ProcessEvent env fuel .ST_EV_PAUSE
      else
        modify fun st => { st with conc_tx_cnt_ := st.conc_tx_cnt_ - 1 }
        if (← get).conc_tx_cnt_ = 0 then
          let _ ← ProcessEvent env fuel .ST_EV_RESUME

/-- A sequence of notifications, one after the other. -/
def ConcurrentStreamStatuses (env : Env) (fuel : Nat) :
    List (qal_stream_type_t × qal_stream_direction_t × Bool) → M Unit
  | [] => pure ()
  | (type, dir, active) :: rest => do
    ConcurrentStreamStatus env fuel type dir active
    ConcurrentStreamStatuses env fuel rest

/-! ## Event sequences -/

/-- A sequence of events dispatched one after the other, each with the given
fuel and whatever the status of the one before; the result is the list of the
statuses. -/
def ProcessEvents (env : Env) (fuel : Nat) : List StEventConfig → M (List Int)
  | [] => pure []
  | ev_cfg :: rest => do
    let status ← ProcessEvent env fuel ev_cfg
    let statuses ← ProcessEvents env fuel rest
    return status :: statuses

/-- The streams at rest that the events of the alphabet can produce, in an
environment, from a stream as constructed: a handler has run to completion on a
reachable stream. -/
inductive Reachable (env : Env) : Stream → Prop
  | init (charging : Bool) : Reachable env (Stream.init charging)
  | step (fuel : Nat) (ev_cfg : StEventConfig) (status : Int) (st st2 : Stream) :
      Reachable env st → ProcessEvent env fuel ev_cfg st = some (status, st2) →
      Reachable env st2

/-- Whether a device is registered with the resource manager after the calls of
a trace: the last of its `registerDevice` and `deregisterDevice` calls is a
`registerDevice`. -/
def registered (dev : Device) (trace : List Call) : Bool :=
  trace.foldl
    (fun r c =>
      if c = Call.registerDevice dev then true
      else if c = Call.deregisterDevice dev then false
      else r)
    false

/-! ## Entry points -/

/-- Device ids of the enum `qal_device_id_t` that `UpdateDeviceConnectionState`
names besides the three above (the enum is declared in a header that is not
under src/; only that the ids differ matters). -/
def QAL_DEVICE_IN_HANDSET_MIC : Nat := 4
/-- The speaker microphone. -/
def QAL_DEVICE_IN_SPEAKER_MIC : Nat := 5

/-- The parameter ids that `setParameters` tells apart (the enum is declared in a
header that is not under src/; every other id is `QAL_PARAM_ID_OTHER`). -/
inductive qal_param_id_type_t
  | QAL_PARAM_ID_LOAD_SOUND_MODEL
  | QAL_PARAM_ID_RECOGNITION_CONFIG
  | QAL_PARAM_ID_STOP_BUFFERING
  | QAL_PARAM_ID_OTHER
  deriving DecidableEq, Repr

open qal_param_id_type_t

/-- The `void *payload` of `setParameters`: null, or the object that the caller
passes. -/
inductive Payload
  | null
  | sound_model (sound_model : qal_st_sound_model)
  | recognition_config (config : qal_st_recognition_config)
  deriving DecidableEq, Repr

/-- `StreamSoundTrigger::close`: the UNLOAD event, then the cached sound model,
the cached recognition config and the reader are freed. -/
def close (env : Env) (fuel : Nat) : M Int := do
  let status ← ProcessEvent env fuel .ST_EV_UNLOAD_SOUND_MODEL
  if (← get).sm_config_.isSome then
    modify fun st => { st with sm_config_ := none }
  if (← get).rec_config_.isSome then
    modify fun st => { st with rec_config_ := none }
  if (← get).reader_.isSome then
    modify fun st => { st with reader_ := none }
  return status

/-- `StreamSoundTrigger::start`. -/
def start (env : Env) (fuel : Nat) : M Int :=
  ProcessEvent env fuel (.ST_EV_START_RECOGNITION false)

/-- `StreamSoundTrigger::stop`. -/
def stop (env : Env) (fuel : Nat) : M Int :=
  ProcessEvent env fuel (.ST_EV_STOP_RECOGNITION false)

/-- `StreamSoundTrigger::read`. -/
def read (env : Env) (fuel : Nat) (size : Nat) : M Int :=
  ProcessEvent env fuel (.ST_EV_READ_BUFFER size)

/-- `StreamSoundTrigger::setParameters`.  The payload is cast to what the
parameter id stands for; a payload of another kind is a run without a defined
outcome.  For `QAL_PARAM_ID_STOP_BUFFERING` the event that is dispatched is
STOP_RECOGNITION. -/
def setParameters (env : Env) (fuel : Nat) (param_id : qal_param_id_type_t)
    (payload : Payload) : M Int := do
  match param_id with
  | QAL_PARAM_ID_LOAD_SOUND_MODEL =>
    match payload with
    | .null => ProcessEvent env fuel (.ST_EV_LOAD_SOUND_MODEL none false)
    | .sound_model sound_model =>
      ProcessEvent env fuel (.ST_EV_LOAD_SOUND_MODEL (some sound_model) false)
    | .recognition_config _ => fault
  | QAL_PARAM_ID_RECOGNITION_CONFIG =>
    match payload with
    | .null => return - EINVAL
    | .recognition_config config =>
      ProcessEvent env fuel (.ST_EV_RECOGNITION_CONFIG (some config))
    | .sound_model _ => fault
  | QAL_PARAM_ID_STOP_BUFFERING =>
    ProcessEvent env fuel (.ST_EV_STOP_RECOGNITION false)
  | QAL_PARAM_ID_OTHER =>
    return - EINVAL

/-- `StreamSoundTrigger::setECRef`. -/
def setECRef (env : Env) (fuel : Nat) (dev : Option Device) (is_enable : Bool) : M Int := do
  match dev with
  | none => return - EINVAL
  | some dev => ProcessEvent env fuel (.ST_EV_EC_REF dev is_enable)

/-- `StreamSoundTrigger::UpdateDeviceConnectionState`. -/
def UpdateDeviceConnectionState (connect : Bool) (device_id : Nat) : M Int := do
  if device_id = QAL_DEVICE_IN_HANDSET_MIC ∨ device_id = QAL_DEVICE_IN_SPEAKER_MIC ∨
      device_id = QAL_DEVICE_IN_WIRED_HEADSET then
    let dest_device :=
      if device_id = QAL_DEVICE_IN_WIRED_HEADSET then QAL_DEVICE_IN_HEADSET_VA_MIC
      else QAL_DEVICE_IN_HANDSET_VA_MIC
    if (← get).mDevices.any (fun curr_device =>
        (connect && curr_device == dest_device) || (!connect && curr_device != dest_device)) then
      return - EINVAL
    if connect then
      PostEvent (.ST_EV_DEVICE_CONNECTED dest_device)
    else
      PostEvent (.ST_EV_DEVICE_DISCONNECTED dest_device)
    return 0
  else
    return 0

/-- `StreamSoundTrigger::ExternalStart`. -/
def ExternalStart : M Int := do
  PostEvent .ST_EV_RESUME
  return 0

/-- `StreamSoundTrigger::ExternalStop`. -/
def ExternalStop : M Int := do
  PostEvent .ST_EV_PAUSE
  return 0

/-- The loop of `HandleEvents` over the queued events: the five kinds that can be
posted are dispatched, whatever their status, any other is dropped. -/
def HandleEvents.loop (env : Env) (fuel : Nat) : List StEventConfig → M Unit
  | [] => pure ()
  | ev_cfg :: rest => do
    match ev_cfg with
    | .ST_EV_DEVICE_CONNECTED _ | .ST_EV_DEVICE_DISCONNECTED _ | .ST_EV_CHARGING_STATE _
    | .ST_EV_PAUSE | .ST_EV_RESUME =>
      let _ ← ProcessEvent env fuel ev_cfg
    | _ => pure ()
    HandleEvents.loop env fuel rest

/-- `StreamSoundTrigger::HandleEvents`, the body of the event thread. -/
def HandleEvents (env : Env) (fuel : Nat) : M Unit := do
  HandleEvents.loop env fuel (← get).pending_event_configs_
  modify fun st => { st with pending_event_configs_ := [] }

/-- `StreamSoundTrigger::registerCallBack`; `cb` says whether the pointer is
non-null. -/
def registerCallBack (cb : Bool) : M Int := do
  modify fun st => { st with has_callback_ := cb }
  return 0

/-- `StreamSoundTrigger::SetEngineDetectionState`, the call of an engine that has
a detection or a verdict. -/
def SetEngineDetectionState (env : Env) (fuel : Nat) (det_type : Int) : M Int := do
  if det_type < GMM_DETECTED ∨ det_type > VOP_REJECTED then
    return - EINVAL
  ProcessEvent env fuel (.ST_EV_DETECTED det_type.toNat)

/-- `StreamSoundTrigger::ssrDownHandler`. -/
def ssrDownHandler (env : Env) (fuel : Nat) : M Int :=
  ProcessEvent env fuel .ST_EV_SSR_OFFLINE

/-- `StreamSoundTrigger::ssrUpHandler`. -/
def ssrUpHandler (env : Env) (fuel : Nat) : M Int :=
  ProcessEvent env fuel .ST_EV_SSR_ONLINE

/-- The calls into the stream that write to it or dispatch an event: the client
operations, the notifications of the resource manager and of the platform, the
call of the engines, the timer and the event thread.  (The functions that only
query the stream or the first-stage engine are left out.) -/
inductive Entry
  | close
  | start
  | stop
  | read (size : Nat)
  | setParameters (param_id : qal_param_id_type_t) (payload : Payload)
  | registerCallBack (cb : Bool)
  | ConcurrentStreamStatus (type : qal_stream_type_t) (dir : qal_stream_direction_t)
      (active : Bool)
  | setECRef (dev : Option Device) (is_enable : Bool)
  | UpdateDeviceConnectionState (connect : Bool) (device_id : Nat)
  | UpdateChargingState (state : Bool)
  | ExternalStart
  | ExternalStop
  | HandleEvents
  | SetEngineDetectionState (det_type : Int)
  | InternalStopRecognition
  | ssrDownHandler
  | ssrUpHandler
  deriving DecidableEq, Repr

/-- The run of an entry point; the result of a `void` function is 0. -/
def Entry.run (env : Env) (fuel : Nat) : Entry → M Int
  | .close => StreamSoundTrigger.close env fuel
  | .start => StreamSoundTrigger.start env fuel
  | .stop => StreamSoundTrigger.stop env fuel
  | .read size => StreamSoundTrigger.read env fuel size
  | .setParameters param_id payload => StreamSoundTrigger.setParameters env fuel param_id payload
  | .registerCallBack cb => StreamSoundTrigger.registerCallBack cb
  | .ConcurrentStreamStatus type dir active => do
    StreamSoundTrigger.ConcurrentStreamStatus env fuel type dir active
    return 0
  | .setECRef dev is_enable => StreamSoundTrigger.setECRef env fuel dev is_enable
  | .UpdateDeviceConnectionState connect device_id =>
    StreamSoundTrigger.UpdateDeviceConnectionState connect device_id
  | .UpdateChargingState state => StreamSoundTrigger.UpdateChargingState state
  | .ExternalStart => StreamSoundTrigger.ExternalStart
  | .ExternalStop => StreamSoundTrigger.ExternalStop
  | .HandleEvents => do
    StreamSoundTrigger.HandleEvents env fuel
    return 0
  | .SetEngineDetectionState det_type => StreamSoundTrigger.SetEngineDetectionState env fuel det_type
  | .InternalStopRecognition => do
    StreamSoundTrigger.InternalStopRecognition env fuel
    return 0
  | .ssrDownHandler => StreamSoundTrigger.ssrDownHandler env fuel
  | .ssrUpHandler => StreamSoundTrigger.ssrUpHandler env fuel

/-- A sequence of calls of the entry points, one after the other, each with the
given fuel and whatever the result of the one before; the result is the list of
the results. -/
def Entry.runs (env : Env) (fuel : Nat) : List Entry → M (List Int)
  | [] => pure []
  | e :: rest => do
    let status ← e.run env fuel
    let statuses ← Entry.runs env fuel rest
    return status :: statuses

/-- The streams at rest that the entry points can produce, in an environment,
from a stream as constructed: an entry point has run to completion on such a
stream.  No entry point builds a STOP_BUFFERING event, so that event reaches a
handler only from inside the SSR_OFFLINE case of StBuffering. -/
inductive ReachableByEntry (env : Env) : Stream → Prop
  | init (charging : Bool) : ReachableByEntry env (Stream.init charging)
  | step (fuel : Nat) (e : Entry) (status : Int) (st st2 : Stream) :
      ReachableByEntry env st → e.run env fuel st = some (status, st2) →
      ReachableByEntry env st2

/-! ## The tables of the specification -/

/-- Modelled from the spec: the derivation of the capture-profile key of the
section on capture-profile selection, from the four answers `VoiceUI LPI
supported`, `any active non-LPI concurrent stream`, `forced transit to non-LPI`
and `a wired headset is available and device switching is permitted`. -/
def Spec.capture_profile_key (voiceui_lpi active_non_lpi_concurrent forced_transit_to_nlpi
    headset : Bool) : st_operating_mode × st_input_mode :=
  let lpi := voiceui_lpi && !active_non_lpi_concurrent
  let lpi := if forced_transit_to_nlpi then false else lpi
  let input_mode := if headset then ST_INPUT_MODE_HEADSET else ST_INPUT_MODE_HANDSET
  let op_mode :=
    if lpi then ST_OPERATING_MODE_LOW_POWER
    else if forced_transit_to_nlpi then ST_OPERATING_MODE_HIGH_PERF_AND_CHARGING
    else ST_OPERATING_MODE_HIGH_PERF
  (op_mode, input_mode)

/-- Modelled from the spec: whether the transition table has an entry for the
event in the row of the state (a cell that is not empty).  ECRef has no column
in the table, SsrOnline has an entry in the row of SSR only, and SsrOffline in
every row but that of SSR. -/
def Spec.listed (state : st_state_id_t) (ev_cfg : StEventConfig) : Bool :=
  match state with
  | ST_STATE_IDLE =>
    match ev_cfg with
    | .ST_EV_LOAD_SOUND_MODEL _ _ | .ST_EV_READ_BUFFER _ | .ST_EV_PAUSE | .ST_EV_RESUME
    | .ST_EV_DEVICE_CONNECTED _ | .ST_EV_DEVICE_DISCONNECTED _ | .ST_EV_SSR_OFFLINE => true
    | _ => false
  | ST_STATE_LOADED =>
    match ev_cfg with
    | .ST_EV_UNLOAD_SOUND_MODEL | .ST_EV_RECOGNITION_CONFIG _ | .ST_EV_START_RECOGNITION _
    | .ST_EV_STOP_RECOGNITION _ | .ST_EV_READ_BUFFER _ | .ST_EV_PAUSE | .ST_EV_RESUME
    | .ST_EV_CONCURRENT_STREAM _ _ | .ST_EV_CHARGING_STATE _ | .ST_EV_DEVICE_CONNECTED _
    | .ST_EV_DEVICE_DISCONNECTED _ | .ST_EV_SSR_OFFLINE => true
    | _ => false
  | ST_STATE_ACTIVE =>
    match ev_cfg with
    | .ST_EV_STOP_RECOGNITION _ | .ST_EV_READ_BUFFER _ | .ST_EV_PAUSE
    | .ST_EV_CONCURRENT_STREAM _ _ | .ST_EV_CHARGING_STATE _ | .ST_EV_DEVICE_CONNECTED _
    | .ST_EV_DEVICE_DISCONNECTED _ | .ST_EV_SSR_OFFLINE => true
    | .ST_EV_DETECTED det_type_ => det_type_ = GMM_DETECTED
    | _ => false
  | ST_STATE_DETECTED =>
    match ev_cfg with
    | .ST_EV_RECOGNITION_CONFIG _ | .ST_EV_START_RECOGNITION _ | .ST_EV_STOP_RECOGNITION _
    | .ST_EV_READ_BUFFER _ | .ST_EV_PAUSE | .ST_EV_RESUME | .ST_EV_CONCURRENT_STREAM _ _
    | .ST_EV_CHARGING_STATE _ | .ST_EV_DEVICE_CONNECTED _ | .ST_EV_DEVICE_DISCONNECTED _
    | .ST_EV_SSR_OFFLINE => true
    | _ => false
  | ST_STATE_BUFFERING =>
    match ev_cfg with
    | .ST_EV_RECOGNITION_CONFIG _ | .ST_EV_START_RECOGNITION _ | .ST_EV_STOP_RECOGNITION _
    | .ST_EV_READ_BUFFER _ | .ST_EV_STOP_BUFFERING | .ST_EV_DETECTED _ | .ST_EV_PAUSE
    | .ST_EV_CONCURRENT_STREAM _ _ | .ST_EV_CHARGING_STATE _ | .ST_EV_DEVICE_CONNECTED _
    | .ST_EV_DEVICE_DISCONNECTED _ | .ST_EV_SSR_OFFLINE => true
    | _ => false
  | ST_STATE_SSR =>
    match ev_cfg with
    | .ST_EV_LOAD_SOUND_MODEL _ _ | .ST_EV_UNLOAD_SOUND_MODEL | .ST_EV_RECOGNITION_CONFIG _
    | .ST_EV_START_RECOGNITION _ | .ST_EV_STOP_RECOGNITION _ | .ST_EV_READ_BUFFER _
    | .ST_EV_SSR_ONLINE => true
    | _ => false
  | ST_STATE_NONE => false

/-! ## Frame conditions -/

/-- The frame condition of a computation: the observation `p` of the stream has,
after every run of `m` that returns, the value it had before the run. -/
structure Keeps {α γ : Type} (p : Stream → γ) (m : M α) : Prop where
  /-- The observation after a run is the observation before it. -/
  keep : ∀ s a s2, m s = some (a, s2) → p s2 = p s

/-- A postcondition of a computation: `q` holds of the result and of the final
stream of every run of `m` that returns. -/
structure Ensures {α : Type} (q : α → Stream → Prop) (m : M α) : Prop where
  /-- The postcondition holds after a run. -/
  ensure : ∀ s a s2, m s = some (a, s2) → q a s2

/-- A relation between the stream before and the stream after a run: `R` holds
of the two for every run of `m` that returns. -/
structure Steps {α : Type} (R : Stream → Stream → Prop) (m : M α) : Prop where
  /-- The relation holds across a run. -/
  step : ∀ s a s2, m s = some (a, s2) → R s s2

/-- The stream `s2` has the trace of `s` followed by calls that all satisfy
`P`. -/
def Extends (P : Call → Prop) (s s2 : Stream) : Prop :=
  ∃ t, s2.trace = s.trace ++ t ∧ ∀ c ∈ t, P c

/-- The first-stage engine handle is set when the engine list is not empty. -/
def FirstStagePresent (s : Stream) : Prop :=
  s.engines_ ≠ [] → s.gsl_engine_ ≠ none

/-- The fields that only the state handlers write: the current state, the pause
flag, the state saved for the restore, the detection state and the counter of
concurrent capture streams. -/
def Stream.key (s : Stream) : st_state_id_t × Bool × st_state_id_t × Nat × Int :=
  (s.cur_state_, s.paused_, s.state_for_restore_, s.detection_state_, s.conc_tx_cnt_)

/-- The stream is in a state in which no recognition runs: Idle, Loaded or
SSR. -/
def Quiet (s : Stream) : Prop :=
  s.cur_state_ = ST_STATE_IDLE ∨ s.cur_state_ = ST_STATE_LOADED ∨ s.cur_state_ = ST_STATE_SSR

/-- No recognition runs while the stream is paused. -/
def PausedAtRest (s : Stream) : Prop :=
  s.paused_ = true → Quiet s

/-- No recognition runs and none is saved for a restore. -/
def NeverStarted (s : Stream) : Prop :=
  Quiet s ∧ s.state_for_restore_ ≠ ST_STATE_ACTIVE

/-- The detection kinds of the engines: the first-stage detection and the four
verdicts of the second stage. -/
def DetectionKind (ev_cfg : StEventConfig) : Prop :=
  ∀ det_type_, ev_cfg = .ST_EV_DETECTED det_type_ →
    det_type_ = GMM_DETECTED ∨ det_type_ = CNN_DETECTED ∨ det_type_ = CNN_REJECTED ∨
    det_type_ = VOP_DETECTED ∨ det_type_ = VOP_REJECTED

/-- Across a run the counter of concurrent capture streams is as it was, and the
detection state is idle if it was. -/
def CountersKept (s s2 : Stream) : Prop :=
  s2.conc_tx_cnt_ = s.conc_tx_cnt_ ∧
    (s.detection_state_ = ENGINE_IDLE → s2.detection_state_ = ENGINE_IDLE)

/-- Across a run a stream that is not paused stays so. -/
def StaysUnpaused (s s2 : Stream) : Prop :=
  s.paused_ = false → s2.paused_ = false

/-- Across a run a stream that is not paused stays so, and a stream in Idle,
Loaded or SSR is in one of the three after the run, or is not paused then. -/
def RestsWhilePaused (s s2 : Stream) : Prop :=
  (s.paused_ = false → s2.paused_ = false) ∧ (Quiet s → Quiet s2 ∨ s2.paused_ = false)

/-- Whether an event asks for the recognition to run: StartRecognition, and
Resume, which falls through to it. -/
def StEventConfig.starts : StEventConfig → Bool
  | .ST_EV_START_RECOGNITION _ => true
  | .ST_EV_RESUME => true
  | _ => false

/-- Across a run a stream in which no recognition runs, and none is saved for a
restore, stays so. -/
def StaysUnstarted (s s2 : Stream) : Prop :=
  NeverStarted s → NeverStarted s2

/-! ## Consistency of a stream at rest -/

/-- The fields that the consistency of a stream at rest is about: the current
state, the flag of the delayed stop, the platform record and the engine list. -/
def Stream.core (s : Stream) :
    st_state_id_t × Bool × Option SoundModelConfig × List EngineCfg :=
  (s.cur_state_, s.pending_stop_, s.sm_info_, s.engines_)

/-- The stream has no sound model loaded: it is in Idle or in SSR. -/
def Unloaded (s : Stream) : Prop :=
  s.cur_state_ = ST_STATE_IDLE ∨ s.cur_state_ = ST_STATE_SSR

/-- The stream has a sound model loaded: it is in Loaded, Active, Detected or
Buffering. -/
def AtWork (s : Stream) : Prop :=
  s.cur_state_ = ST_STATE_LOADED ∨ s.cur_state_ = ST_STATE_ACTIVE ∨
    s.cur_state_ = ST_STATE_DETECTED ∨ s.cur_state_ = ST_STATE_BUFFERING

/-- What holds of a stream between two calls of its entry points: a delayed stop
is pending in Detected only, there is no engine while no sound model is loaded,
and the platform record is there while one is. -/
def Consistent (s : Stream) : Prop :=
  (s.pending_stop_ = true → s.cur_state_ = ST_STATE_DETECTED) ∧
  (Unloaded s → s.engines_ = []) ∧
  (AtWork s → s.sm_info_ ≠ none)

/-- Across a run a platform record that is there stays there. -/
def KeepsRecord (s s2 : Stream) : Prop :=
  s.sm_info_ ≠ none → s2.sm_info_ ≠ none

/-- Across a run a platform record that is there stays there, and a stream
without a sound model is without one after the run, or has a platform record
then. -/
def RecordAtWork (s s2 : Stream) : Prop :=
  (s.sm_info_ ≠ none → s2.sm_info_ ≠ none) ∧ (Unloaded s → Unloaded s2 ∨ s2.sm_info_ ≠ none)

/-- Across a run no delayed stop is posted: the flag is false after it if it was
before. -/
def NoStopPosted (s s2 : Stream) : Prop :=
  s.pending_stop_ = false → s2.pending_stop_ = false

/-- Across a run the engine list stays empty while no sound model is loaded. -/
def EnginesAtWork (s s2 : Stream) : Prop :=
  (Unloaded s → s.engines_ = []) → (Unloaded s2 → s2.engines_ = [])

/-- Across a run a consistent stream stays consistent. -/
def StaysConsistent (s s2 : Stream) : Prop :=
  Consistent s → Consistent s2

/-- Whether an event can arm the delayed stop: a detection, and STOP_BUFFERING. -/
def StEventConfig.arms : StEventConfig → Bool
  | .ST_EV_DETECTED _ => true
  | .ST_EV_STOP_BUFFERING => true
  | _ => false

/-- Whether StDetected handles an event by cancelling the delayed stop and
leaving the state. -/
def StEventConfig.leavesDetected : StEventConfig → Bool
  | .ST_EV_START_RECOGNITION _ => true
  | .ST_EV_PAUSE => true
  | .ST_EV_STOP_RECOGNITION _ => true
  | .ST_EV_RECOGNITION_CONFIG _ => true
  | .ST_EV_CONCURRENT_STREAM _ _ => true
  | .ST_EV_CHARGING_STATE _ => true
  | _ => false

/-- A precondition and a postcondition of a computation: every run of `m` that
starts in a stream of which `P` holds and returns, returns a result and a stream
of which `q` holds. -/
structure Holds {α : Type} (P : Stream → Prop) (q : α → Stream → Prop) (m : M α) : Prop where
  /-- The postcondition holds after a run from the precondition. -/
  hold : ∀ s a s2, P s → m s = some (a, s2) → q a s2

/-- The engine list is empty. -/
def NoEngines (s : Stream) : Prop :=
  s.engines_ = []

/-- The engine list is empty when the status is not 0. -/
def NoEnginesOnFailure (status : Int) (s : Stream) : Prop :=
  status ≠ 0 → s.engines_ = []

/-- The engine list is empty or the stream is in Loaded. -/
def NoEnginesOrLoaded (s : Stream) : Prop :=
  s.engines_ = [] ∨ s.cur_state_ = ST_STATE_LOADED

/-! ## Example inputs -/

/-- A platform record with 16 kHz, 16 bit, mono capture and the six capture
profiles. -/
def SoundModelConfig.sample : SoundModelConfig :=
  { kw_duration := 2000, capture_read_delay := 0, sample_rate := 16000, bit_width := 16,
    out_channels := 1, stream_config := (0, 0),
    capture_profiles :=
      [((ST_OPERATING_MODE_LOW_POWER, ST_INPUT_MODE_HANDSET), ⟨1, 1, 1, 16000, 16⟩),
       ((ST_OPERATING_MODE_HIGH_PERF, ST_INPUT_MODE_HANDSET), ⟨2, 1, 1, 16000, 16⟩),
       ((ST_OPERATING_MODE_HIGH_PERF_AND_CHARGING, ST_INPUT_MODE_HANDSET), ⟨3, 1, 1, 16000, 16⟩),
       ((ST_OPERATING_MODE_LOW_POWER, ST_INPUT_MODE_HEADSET), ⟨4, 2, 1, 16000, 16⟩),
       ((ST_OPERATING_MODE_HIGH_PERF, ST_INPUT_MODE_HEADSET), ⟨5, 2, 1, 16000, 16⟩),
       ((ST_OPERATING_MODE_HIGH_PERF_AND_CHARGING, ST_INPUT_MODE_HEADSET), ⟨6, 2, 1, 16000, 16⟩)] }

/-- An environment in which every interaction succeeds: every status is 0 and
every pointer is non-null. -/
def Env.nominal : Env :=
  { status := fun _ => 0, avail := fun _ => true,
    sm_configs := fun _ => some SoundModelConfig.sample, support_dev_switch := false,
    sizeof_qal_st_phrase_sound_model := 64, sizeof_qal_st_sound_model := 32,
    CUSTOM_CONFIG_OPAQUE_DATA_SIZE := 12, sizeof_st_confidence_levels_info := 200,
    sizeof_st_confidence_levels_info_v2 := 400, sizeof_st_hist_buffer_info := 12,
    sizeof_st_det_perf_mode_info := 8 }

/-- A stream that holds one first-stage engine whose model has `n` phrases. -/
def Stream.withGmm (n : Nat) : Stream :=
  { Stream.init false with
    engines_ := [{ id_ := ST_SM_ID_SVA_GMM, engine_ := 0, sm_data_ := { num_phrases := n },
                   sm_size_ := 0 }],
    gsl_engine_ := some 0, sm_info_ := some SoundModelConfig.sample,
    sound_model_type_ := QAL_SOUND_MODEL_TYPE_KEYPHRASE }

/-- A recognition config without opaque data, with the given phrases. -/
def qal_st_recognition_config.bare (capture_requested : Bool)
    (phrases : List qal_st_phrase_recognition_extra) : qal_st_recognition_config :=
  { capture_handle := 0, capture_device := 0, capture_requested := capture_requested,
    phrases := phrases, data_size := 0, data_offset := 0, params := [], cookie := 0 }

/-- A bare config with two phrases (keyword levels 40 and 50) and three user
levels, among them the levels 0 and 101. -/
def qal_st_recognition_config.sample : qal_st_recognition_config :=
  qal_st_recognition_config.bare false
    [⟨0, 1, 40, [⟨3, 0⟩, ⟨2, 101⟩]⟩, ⟨1, 1, 50, [⟨4, 7⟩]⟩]

/-- A keyphrase sound model with one phrase whose payload does not open with the
v3 magic number (a v2 blob). -/
def qal_st_sound_model.v2 : qal_st_sound_model :=
  { type := QAL_SOUND_MODEL_TYPE_KEYPHRASE, vendor_uuid := 0, data_size := 16,
    data_offset := 64, num_phrases := 1, magicNumber := 0, models := [] }

/-- A keyphrase v3 container with the given sub-model table. -/
def qal_st_sound_model.v3 (models : List SML_BigSoundModelTypeV3) : qal_st_sound_model :=
  { type := QAL_SOUND_MODEL_TYPE_KEYPHRASE, vendor_uuid := 0, data_size := 16,
    data_offset := 64, num_phrases := 1, magicNumber := SML_GLOBAL_HEADER_MAGIC_NUMBER,
    models := models }

/-- A generic sound model. -/
def qal_st_sound_model.generic : qal_st_sound_model :=
  { type := QAL_SOUND_MODEL_TYPE_GENERIC, vendor_uuid := 0, data_size := 16,
    data_offset := 32, num_phrases := 0, magicNumber := 0, models := [] }

/-- A first-stage entry of the opaque confidence levels with one keyword and two
user levels that carry the same `user_id`. -/
def st_sound_model_conf_levels.duplicate : st_sound_model_conf_levels :=
  { sm_id := ST_SM_ID_SVA_GMM, kw_levels := [⟨50, [⟨1, 10⟩, ⟨1, 20⟩]⟩] }

/-- A recognition config whose opaque data is one CONFIDENCE_LEVELS TLV of the
given interface version, with the duplicate entry as its first-stage entry. -/
def qal_st_recognition_config.opaque_duplicate (version : Nat) : qal_st_recognition_config :=
  { capture_handle := 0, capture_device := 0, capture_requested := false,
    phrases := [⟨0, 1, 50, []⟩], data_size := 216, data_offset := 64,
    params := [st_param.ST_PARAM_KEY_CONFIDENCE_LEVELS
      (if version ≠ CONF_LEVELS_INTF_VERSION_0002 then 200 else 400) version
      [st_sound_model_conf_levels.duplicate]],
    cookie := 0 }

/-- A keyword-verifier engine binding with engine handle 1. -/
def EngineCfg.kwd : EngineCfg :=
  { id_ := ST_SM_ID_SVA_KWD, engine_ := 1, sm_data_ := { num_phrases := 0 }, sm_size_ := 8 }

/-- A stream past load and recognition config, put in the given state: the
first-stage engine 0 followed by the given second-stage engines, the cached v2
model, a bare recognition config with the given capture flag, the reader of
buffer 0, the handset device, the capture profile that the nominal environment
derives, and a registered callback. -/
def Stream.sample (state : st_state_id_t) (capture_requested : Bool)
    (second_stage : List EngineCfg) : Stream :=
  { Stream.withGmm 1 with
    cur_state_ := state, prev_state_ := some ST_STATE_LOADED,
    sm_config_ := some qal_st_sound_model.v2,
    rec_config_ := some (qal_st_recognition_config.bare capture_requested [⟨0, 1, 40, []⟩]),
    reader_ := some { buffer := 0, index := 0 },
    engines_ := (Stream.withGmm 1).engines_ ++ second_stage,
    mDevices := [QAL_DEVICE_IN_HANDSET_VA_MIC],
    cap_prof_ := SoundModelConfig.sample.GetCaptureProfile
      (ST_OPERATING_MODE_HIGH_PERF_AND_CHARGING, ST_INPUT_MODE_HANDSET),
    has_callback_ := true }

/-- The nominal environment but for one interaction: the one at position `n`
of the trace returns the status `e`. -/
def Env.failAt (n : Nat) (e : Int) : Env :=
  { Env.nominal with status := fun i => if i = n then e else 0 }

/-- The nominal environment but for one query of a pointer or a flag: the one
at position `n` of the trace returns a null pointer or an unset flag. -/
def Env.nullAt (n : Nat) : Env :=
  { Env.nominal with avail := fun i => i != n }

/-- The nominal environment with a platform record whose keyword duration is
`ms` milliseconds (16 kHz, 16 bit, one channel, no read delay). -/
def Env.withKwDuration (ms : Nat) : Env :=
  { Env.nominal with
    sm_configs := fun _ => some { SoundModelConfig.sample with kw_duration := ms } }

/-- A stream in SSR as SsrOffline leaves it behind: no engine, no reader, and the
given state saved for the restore. -/
def Stream.offline (restore : st_state_id_t) : Stream :=
  { Stream.sample ST_STATE_SSR false [] with
    prev_state_ := some ST_STATE_IDLE, state_for_restore_ := restore, reader_ := none,
    engines_ := [] }

/-- The stream after a v2 model is loaded on a stream as constructed, in the
nominal environment: one engine, the first-stage engine with handle 12. -/
def Stream.loaded : Stream :=
  { Stream.init false with
    cur_state_ := ST_STATE_LOADED, prev_state_ := some ST_STATE_IDLE,
    sound_model_type_ := QAL_SOUND_MODEL_TYPE_KEYPHRASE,
    sm_config_ := some qal_st_sound_model.v2,
    engines_ := [{ id_ := ST_SM_ID_SVA_GMM, engine_ := 12, sm_data_ := { num_phrases := 1 },
                   sm_size_ := 80 }],
    gsl_engine_ := some 12, mDevices := [QAL_DEVICE_IN_HANDSET_VA_MIC],
    cap_prof_ := SoundModelConfig.sample.GetCaptureProfile
      (ST_OPERATING_MODE_HIGH_PERF_AND_CHARGING, ST_INPUT_MODE_HANDSET),
    sm_info_ := some SoundModelConfig.sample,
    trace := [Call.IsVoiceUILPISupported, Call.CheckForActiveConcurrentNonLPIStream,
      Call.CheckForForcedTransitToNonLPI, Call.calloc 1,
      Call.Device_getInstance QAL_DEVICE_IN_HANDSET_VA_MIC,
      Call.dev_open QAL_DEVICE_IN_HANDSET_VA_MIC, Call.IsVoiceUILPISupported,
      Call.CheckForActiveConcurrentNonLPIStream, Call.CheckForForcedTransitToNonLPI,
      Call.getStreamInstanceID, Call.calloc 80, Call.calloc 80,
      Call.SoundTriggerEngine_Create ST_SM_ID_SVA_GMM, Call.LoadSoundModel 12 80] }


/-! ## Running a member function -/

@[simp] theorem run_pure {α : Type} (a : α) (s : Stream) : (pure a : M α) s = some (a, s) := rfl

@[simp] theorem run_bind {α β : Type} (m : M α) (f : α → M β) (s : Stream) :
    (m >>= f) s = (m s).bind (fun p => f p.1 p.2) := by
  show (StateT.bind m f) s = _
  simp only [StateT.bind]
  cases m s <;> rfl

@[simp] theorem run_map {α β : Type} (f : α → β) (m : M α) (s : Stream) :
    (f <$> m) s = (m s).map (fun p => (f p.1, p.2)) := by
  show (StateT.map f m) s = _
  simp only [StateT.map]
  cases m s <;> rfl

@[simp] theorem run_get (s : Stream) : (get : M Stream) s = some (s, s) := rfl

@[simp] theorem run_modify (f : Stream → Stream) (s : Stream) :
    (modify f : M PUnit) s = some (PUnit.unit, f s) := rfl

@[simp] theorem run_fault {α : Type} (s : Stream) : (fault : M α) s = none := rfl

@[simp] theorem run_call (env : Env) (c : Call) (s : Stream) :
    call env c s = some (env.status s.trace.length, { s with trace := s.trace ++ [c] }) := rfl

@[simp] theorem run_ask (env : Env) (c : Call) (s : Stream) :
    ask env c s = some (env.avail s.trace.length, { s with trace := s.trace ++ [c] }) := rfl

@[simp] theorem run_emit (c : Call) (s : Stream) :
    emit c s = some ((), { s with trace := s.trace ++ [c] }) := rfl

@[simp] theorem run_deref_some {α : Type} (a : α) (s : Stream) :
    deref (some a) s = some (a, s) := rfl

@[simp] theorem run_deref_none {α : Type} (s : Stream) : deref (none : Option α) s = none := rfl


theorem FillConfLevels.count_eq (ps : List qal_st_phrase_recognition_extra) (n : Nat) :
    FillConfLevels.count ps n = n + ps.length + (ps.map (fun p => p.num_levels)).sum := by
  induction ps generalizing n with
  | nil => simp [FillConfLevels.count]
  | cons p ps ih => simp [FillConfLevels.count, ih]; omega

theorem FillConfLevels.users_error {P N : Nat} (ls : List qal_st_confidence_level)
    (b : List Nat × List Nat) (e : Int) (h : FillConfLevels.users P N ls b = .error e) :
    e = - EINVAL := by
  induction ls generalizing b with
  | nil => simp [FillConfLevels.users] at h
  | cons l ls ih =>
    obtain ⟨c, t⟩ := b
    simp only [FillConfLevels.users] at h
    split at h
    · injection h with h; exact h.symm
    · split at h
      · injection h with h; exact h.symm
      · exact ih _ h

theorem FillConfLevels.users_ok {P N : Nat} (ls : List qal_st_confidence_level)
    (cl tr cl2 tr2 : List Nat)
    (h : FillConfLevels.users P N ls (cl, tr) = .ok (cl2, tr2))
    (hc : N ≤ cl.length) (ht : N ≤ tr.length) :
    cl2.length = cl.length ∧ tr2.length = tr.length ∧
    (∀ l ∈ ls, P ≤ l.user_id ∧ l.user_id < N ∧ tr[l.user_id]? ≠ some 1) ∧
    (ls.map (fun l => l.user_id)).Nodup ∧
    (∀ u, tr2[u]? = some 1 ↔ (tr[u]? = some 1 ∨ u ∈ ls.map (fun l => l.user_id))) ∧
    (∀ l ∈ ls, cl2[l.user_id]? = some (min l.level 100)) ∧
    (∀ k, k ∉ ls.map (fun l => l.user_id) → cl2[k]? = cl[k]?) := by
  induction ls generalizing cl tr with
  | nil =>
    simp only [FillConfLevels.users, Except.ok.injEq, Prod.mk.injEq] at h
    obtain ⟨rfl, rfl⟩ := h
    simp
  | cons l ls ih =>
    simp only [FillConfLevels.users] at h
    split at h
    · simp at h
    · rename_i h1
      split at h
      · simp at h
      · rename_i h2
        have hP : P ≤ l.user_id := by omega
        have hN : l.user_id < N := by omega
        have h2a : tr[l.user_id]? ≠ some 1 := by
          intro h3
          apply h2
          simp [h3]
        obtain ⟨ih1, ih2, ih3, ih4, ih5, ih6, ih7⟩ :=
          ih _ _ h (by simpa using hc) (by simpa using ht)
        have hset : (tr.set l.user_id 1)[l.user_id]? = some 1 := by
          rw [List.getElem?_set_self (by omega)]
        have hnot : l.user_id ∉ ls.map (fun l => l.user_id) := by
          intro hmem
          obtain ⟨l2, hl2, hEq⟩ := List.mem_map.1 hmem
          have := (ih3 l2 hl2).2.2
          rw [hEq] at this
          exact this hset
        refine ⟨by simpa using ih1, by simpa using ih2, ?_, ?_, ?_, ?_, ?_⟩
        · intro l2 hl2
          rcases List.mem_cons.1 hl2 with rfl | hl2
          · exact ⟨hP, hN, h2a⟩
          · obtain ⟨a, b, c3⟩ := ih3 l2 hl2
            refine ⟨a, b, ?_⟩
            intro h3
            apply c3
            by_cases hEq : l.user_id = l2.user_id
            · rw [← hEq]; exact hset
            · rw [List.getElem?_set_ne hEq]; exact h3
        · simp only [List.map_cons, List.nodup_cons]
          exact ⟨hnot, ih4⟩
        · intro u
          rw [ih5 u]
          simp only [List.map_cons, List.mem_cons]
          by_cases hEq : l.user_id = u
          · subst hEq
            simp [hset]
          · rw [List.getElem?_set_ne hEq]
            constructor
            · rintro (h3 | h3)
              · exact Or.inl h3
              · exact Or.inr (Or.inr h3)
            · rintro (h3 | h3 | h3)
              · exact Or.inl h3
              · exact absurd h3.symm hEq
              · exact Or.inr h3
        · intro l2 hl2
          rcases List.mem_cons.1 hl2 with rfl | hl2
          · rw [ih7 _ hnot, List.getElem?_set_self (by omega)]
            congr 1
            split
            · rw [Nat.min_eq_left (by omega)]
            · rw [Nat.min_eq_right (by omega)]
          · exact ih6 l2 hl2
        · intro k hk
          simp only [List.map_cons, List.mem_cons, not_or] at hk
          rw [ih7 k hk.2, List.getElem?_set_ne (Ne.symm hk.1)]

theorem FillConfLevels.fill_error {P N : Nat} (ps : List qal_st_phrase_recognition_extra)
    (i : Nat) (b : List Nat × List Nat) (e : Int)
    (h : FillConfLevels.fill P N i ps b = .error e) : e = - EINVAL := by
  induction ps generalizing i b with
  | nil => simp [FillConfLevels.fill] at h
  | cons p ps ih =>
    obtain ⟨cl, tr⟩ := b
    simp only [FillConfLevels.fill] at h
    split at h
    · rename_i e2 he
      injection h with h
      subst h
      exact FillConfLevels.users_error _ _ _ he
    · exact ih _ _ h

theorem FillConfLevels.fill_ok {P N : Nat} (ps : List qal_st_phrase_recognition_extra)
    (i : Nat) (cl tr cl2 tr2 : List Nat)
    (h : FillConfLevels.fill P N i ps (cl, tr) = .ok (cl2, tr2))
    (hc : N ≤ cl.length) (ht : N ≤ tr.length) (hi : i + ps.length ≤ P) (hPN : P ≤ N) :
    cl2.length = cl.length ∧ tr2.length = tr.length ∧
    (∀ l ∈ ps.flatMap (fun p => p.levels), P ≤ l.user_id ∧ l.user_id < N ∧ tr[l.user_id]? ≠ some 1) ∧
    ((ps.flatMap (fun p => p.levels)).map (fun l => l.user_id)).Nodup ∧
    (∀ u, tr2[u]? = some 1 ↔
      (tr[u]? = some 1 ∨ u ∈ (ps.flatMap (fun p => p.levels)).map (fun l => l.user_id))) ∧
    (∀ l ∈ ps.flatMap (fun p => p.levels), cl2[l.user_id]? = some (min l.level 100)) ∧
    (∀ j (hj : j < ps.length), cl2[i + j]? = some (ps[j].confidence_level % 256)) ∧
    (∀ k, k ∉ (ps.flatMap (fun p => p.levels)).map (fun l => l.user_id) →
      (k < i ∨ i + ps.length ≤ k) → cl2[k]? = cl[k]?) := by
  induction ps generalizing i cl tr with
  | nil =>
    simp only [FillConfLevels.fill, Except.ok.injEq, Prod.mk.injEq] at h
    obtain ⟨rfl, rfl⟩ := h
    simp
  | cons p ps ih =>
    simp only [FillConfLevels.fill] at h
    split at h
    · simp at h
    · rename_i b hu
      obtain ⟨cl1, tr1⟩ := b
      simp only [List.length_cons] at hi
      obtain ⟨u1, u2, u3, u4, u5, u6, u7⟩ :=
        FillConfLevels.users_ok _ _ _ _ _ hu (by simpa using hc) ht
      simp only [List.length_set] at u1
      obtain ⟨f1, f2, f3, f4, f5, f6, f7, f8⟩ :=
        ih (i + 1) cl1 tr1 h (by omega) (by omega) (by omega)
      have hdisj : ∀ l ∈ p.levels, l.user_id ∉
          (ps.flatMap (fun p => p.levels)).map (fun l => l.user_id) := by
        intro l hl hmem
        obtain ⟨l2, hl2, hEq⟩ := List.mem_map.1 hmem
        have h1 := (f3 l2 hl2).2.2
        rw [hEq] at h1
        exact h1 ((u5 l.user_id).2 (Or.inr (List.mem_map.2 ⟨l, hl, rfl⟩)))
      refine ⟨by omega, by omega, ?_, ?_, ?_, ?_, ?_, ?_⟩
      · intro l hl
        simp only [List.flatMap_cons, List.mem_append] at hl
        rcases hl with hl | hl
        · exact u3 l hl
        · obtain ⟨a, b, c3⟩ := f3 l hl
          exact ⟨a, b, fun h3 => c3 ((u5 _).2 (Or.inl h3))⟩
      · simp only [List.flatMap_cons, List.map_append]
        rw [List.nodup_append]
        refine ⟨u4, f4, ?_⟩
        intro a ha hb
        obtain ⟨l, hl, rfl⟩ := List.mem_map.1 ha
        exact hdisj l hl hb
      · intro u
        rw [f5 u, u5 u]
        simp only [List.flatMap_cons, List.map_append, List.mem_append]
        tauto
      · intro l hl
        simp only [List.flatMap_cons, List.mem_append] at hl
        rcases hl with hl | hl
        · rw [f8 _ (hdisj l hl) (Or.inr (by have := (u3 l hl).1; omega))]
          exact u6 l hl
        · exact f6 l hl
      · intro j hj
        cases j with
        | zero =>
          have hk : i ∉ (ps.flatMap (fun p => p.levels)).map (fun l => l.user_id) := by
            intro hmem
            obtain ⟨l2, hl2, hEq⟩ := List.mem_map.1 hmem
            have := (f3 l2 hl2).1
            omega
          have hk2 : i ∉ p.levels.map (fun l => l.user_id) := by
            intro hmem
            obtain ⟨l2, hl2, hEq⟩ := List.mem_map.1 hmem
            have := (u3 l2 hl2).1
            omega
          rw [Nat.add_zero, f8 i hk (Or.inl (by omega)), u7 i hk2,
            List.getElem?_set_self (by omega)]
          rfl
        | succ j =>
          have := f7 j (by simpa using hj)
          rw [show i + (j + 1) = i + 1 + j by omega, this]
          rfl
      · intro k hk hrange
        simp only [List.flatMap_cons, List.map_append, List.mem_append, not_or] at hk
        simp only [List.length_cons] at hrange
        rw [f8 k hk.2 (by omega), u7 k hk.1, List.getElem?_set_ne (by omega)]

theorem FillConfLevels_run (env : Env) (config : qal_st_recognition_config) (st : Stream) :
    FillConfLevels env (some config) st =
      if config.num_phrases = 0 then some ((- EINVAL, none), st)
      else
        match (st.engines_.find? (fun eng => eng.GetEngineId = ST_SM_ID_SVA_GMM)).map
            (fun eng => eng.sm_data_) with
        | none => none
        | some phrase_sm =>
          if phrase_sm.num_phrases < config.num_phrases then some ((- EINVAL, none), st)
          else if env.avail st.trace.length = false then
            some ((- ENOMEM, none),
              { st with trace := st.trace ++ [Call.calloc (FillConfLevels.count config.phrases 0)] })
          else if env.avail (st.trace.length + 1) = false then
            some ((- ENOMEM, none),
              { st with trace := st.trace ++ [Call.calloc (FillConfLevels.count config.phrases 0),
                  Call.calloc (FillConfLevels.count config.phrases 0)] })
          else
            match FillConfLevels.fill config.num_phrases (FillConfLevels.count config.phrases 0) 0
                config.phrases (List.replicate (FillConfLevels.count config.phrases 0) 0,
                  List.replicate (FillConfLevels.count config.phrases 0) 0) with
            | .error status =>
              some ((status, none),
                { st with trace := st.trace ++ [Call.calloc (FillConfLevels.count config.phrases 0),
                    Call.calloc (FillConfLevels.count config.phrases 0)] })
            | .ok b =>
              some ((0, some (b.1, FillConfLevels.count config.phrases 0)),
                { st with trace := st.trace ++ [Call.calloc (FillConfLevels.count config.phrases 0),
                    Call.calloc (FillConfLevels.count config.phrases 0)] }) := by
  by_cases h1 : config.num_phrases = 0
  · simp [FillConfLevels, h1]
  · simp only [FillConfLevels, h1, if_false]
    simp only [run_bind, run_get, Option.some_bind]
    cases hf : (st.engines_.find? (fun eng => eng.GetEngineId = ST_SM_ID_SVA_GMM)).map
            (fun eng => eng.sm_data_) with
    | none => simp [hf]
    | some phrase_sm =>
      simp only [hf]
      by_cases h2 : phrase_sm.num_phrases < config.num_phrases
      · simp [h2]
      · by_cases h3 : env.avail st.trace.length = false
        · simp [h2, h3]
        · by_cases h4 : env.avail (st.trace.length + 1) = false
          · simp [h2, h3, h4]
          · simp only [Bool.not_eq_false] at h3 h4
            cases hfill : FillConfLevels.fill config.num_phrases
                (FillConfLevels.count config.phrases 0) 0
                config.phrases (List.replicate (FillConfLevels.count config.phrases 0) 0,
                  List.replicate (FillConfLevels.count config.phrases 0) 0) with
            | error e => simp [h2, h3, h4, hfill]
            | ok b => simp [h2, h3, h4, hfill]


theorem FillConfLevels.users_succeeds {P N : Nat} (ls : List qal_st_confidence_level)
    (cl tr : List Nat) (ht : N ≤ tr.length)
    (hr : ∀ l ∈ ls, P ≤ l.user_id ∧ l.user_id < N ∧ tr[l.user_id]? ≠ some 1)
    (hn : (ls.map (fun l => l.user_id)).Nodup) :
    ∃ b, FillConfLevels.users P N ls (cl, tr) = .ok b := by
  induction ls generalizing cl tr with
  | nil => exact ⟨_, rfl⟩
  | cons l ls ih =>
    obtain ⟨h1, h2, h3⟩ := hr l (List.mem_cons_self _ _)
    simp only [List.map_cons, List.nodup_cons] at hn
    have hg : ¬ (tr.getD l.user_id 0 = 1) := by
      intro h4
      apply h3
      rw [List.getD_eq_getElem?_getD] at h4
      cases h5 : tr[l.user_id]? with
      | none => rw [h5] at h4; simp at h4
      | some v => rw [h5] at h4; simp at h4; rw [h4]
    simp only [FillConfLevels.users]
    rw [if_neg (by omega), if_neg hg]
    apply ih
    · simpa using ht
    · intro l2 hl2
      obtain ⟨a, b, c3⟩ := hr l2 (List.mem_cons_of_mem _ hl2)
      refine ⟨a, b, ?_⟩
      have hne : l.user_id ≠ l2.user_id := by
        intro hEq
        exact hn.1 (List.mem_map.2 ⟨l2, hl2, hEq.symm⟩)
      rw [List.getElem?_set_ne hne]
      exact c3
    · exact hn.2

theorem FillConfLevels.fill_succeeds {P N : Nat} (ps : List qal_st_phrase_recognition_extra)
    (i : Nat) (cl tr : List Nat) (hc : N ≤ cl.length) (ht : N ≤ tr.length)
    (hr : ∀ l ∈ ps.flatMap (fun p => p.levels),
      P ≤ l.user_id ∧ l.user_id < N ∧ tr[l.user_id]? ≠ some 1)
    (hn : ((ps.flatMap (fun p => p.levels)).map (fun l => l.user_id)).Nodup) :
    ∃ b, FillConfLevels.fill P N i ps (cl, tr) = .ok b := by
  induction ps generalizing i cl tr with
  | nil => exact ⟨_, rfl⟩
  | cons p ps ih =>
    simp only [List.flatMap_cons, List.map_append] at hn
    rw [List.nodup_append] at hn
    obtain ⟨hn1, hn2, hn3⟩ := hn
    have hr1 : ∀ l ∈ p.levels, P ≤ l.user_id ∧ l.user_id < N ∧ tr[l.user_id]? ≠ some 1 := by
      intro l hl
      exact hr l (by simp only [List.flatMap_cons, List.mem_append]; exact Or.inl hl)
    obtain ⟨⟨cl1, tr1⟩, hu⟩ := FillConfLevels.users_succeeds (P := P) p.levels
      (cl.set i (p.confidence_level % 256)) tr ht hr1 hn1
    obtain ⟨u1, u2, _, _, u5, _, _⟩ :=
      FillConfLevels.users_ok _ _ _ _ _ hu (by simpa using hc) ht
    simp only [List.length_set] at u1
    simp only [FillConfLevels.fill, hu]
    apply ih
    · omega
    · omega
    · intro l hl
      obtain ⟨a, b, c3⟩ := hr l (by simp only [List.flatMap_cons, List.mem_append]; exact Or.inr hl)
      refine ⟨a, b, ?_⟩
      intro h3
      rcases (u5 _).1 h3 with h4 | h4
      · exact c3 h4
      · exact hn3 h4 (List.mem_map.2 ⟨l, hl, rfl⟩)
    · exact hn2

/-- The user ids of an accepted config fill the index range above the keyword
slots: distinct ids in `[P, N)`, as many as the range has indices. -/
theorem FillConfLevels.ids_cover (ids : List Nat) (P N : Nat) (hn : ids.Nodup)
    (hr : ∀ u ∈ ids, P ≤ u ∧ u < N) (hl : ids.length = N - P) (k : Nat) (hk1 : P ≤ k)
    (hk2 : k < N) : k ∈ ids := by
  have hsub : ids.toFinset ⊆ Finset.Ico P N := by
    intro u hu
    rw [List.mem_toFinset] at hu
    rw [Finset.mem_Ico]
    exact hr u hu
  have hcard : (Finset.Ico P N).card ≤ ids.toFinset.card := by
    rw [List.toFinset_card_of_nodup hn, Nat.card_Ico, hl]
  have := Finset.eq_of_subset_of_card_le hsub hcard
  have hk : k ∈ Finset.Ico P N := by
    rw [Finset.mem_Ico]
    exact ⟨hk1, hk2⟩
  rw [← this, List.mem_toFinset] at hk
  exact hk

theorem FillConfLevels.length_flatMap (ps : List qal_st_phrase_recognition_extra) :
    (ps.flatMap (fun p => p.levels)).length = (ps.map (fun p => p.num_levels)).sum := by
  induction ps with
  | nil => rfl
  | cons p ps ih =>
    simp only [List.flatMap_cons, List.length_append, List.map_cons, List.sum_cons, ih]
    rfl

/-- What an accepted run of `FillConfLevels` establishes, in one place. -/
theorem FillConfLevels_accepted (env : Env) (config : qal_st_recognition_config)
    (st st2 : Stream) (r : Option (List Nat × Nat))
    (h : FillConfLevels env (some config) st = some ((0, r), st2)) :
    ∃ cl tr : List Nat,
      r = some (cl, FillConfLevels.count config.phrases 0) ∧
      FillConfLevels.fill config.num_phrases (FillConfLevels.count config.phrases 0) 0
        config.phrases (List.replicate (FillConfLevels.count config.phrases 0) 0,
          List.replicate (FillConfLevels.count config.phrases 0) 0) = .ok (cl, tr) := by
  rw [FillConfLevels_run] at h
  have hE : (0 : Int) ≠ - EINVAL := by decide
  have hM : (0 : Int) ≠ - ENOMEM := by decide
  split at h
  · simp only [Option.some.injEq, Prod.mk.injEq] at h
    exact absurd h.1.1.symm hE
  · split at h
    · simp at h
    · split at h
      · simp only [Option.some.injEq, Prod.mk.injEq] at h
        exact absurd h.1.1.symm hE
      · split at h
        · simp only [Option.some.injEq, Prod.mk.injEq] at h
          exact absurd h.1.1.symm hM
        · split at h
          · simp only [Option.some.injEq, Prod.mk.injEq] at h
            exact absurd h.1.1.symm hM
          · split at h
            · rename_i e he
              simp only [Option.some.injEq, Prod.mk.injEq] at h
              have := FillConfLevels.fill_error _ _ _ _ he
              rw [this] at h
              exact absurd h.1.1.symm hE
            · rename_i b he
              obtain ⟨cl, tr⟩ := b
              simp only [Option.some.injEq, Prod.mk.injEq] at h
              exact ⟨cl, tr, h.1.2.symm, he⟩


/-! ## Claims on `FillConfLevels` -/

/-- C2 (as amended).  For every recognition config that `FillConfLevels` accepts,
the output array has length `num_phrases + Σ num_levels`; slot `i`, for each
`i < num_phrases`, holds the keyword confidence level of phrase `i` as a byte
(the level modulo 256); and each user level `(user_id, level)` of any phrase is
stored at index `user_id`, with the value `min level 100`. -/
theorem C2_FillConfLevels_layout (env : Env) (config : qal_st_recognition_config)
    (st st2 : Stream) (r : Option (List Nat × Nat))
    (h : FillConfLevels env (some config) st = some ((0, r), st2)) :
    ∃ out : List Nat,
      r = some (out, config.num_phrases + (config.phrases.map (fun p => p.num_levels)).sum) ∧
      out.length = config.num_phrases + (config.phrases.map (fun p => p.num_levels)).sum ∧
      (∀ i (hi : i < config.phrases.length),
        out[i]? = some (config.phrases[i].confidence_level % 256)) ∧
      (∀ p ∈ config.phrases, ∀ l ∈ p.levels, out[l.user_id]? = some (min l.level 100)) := by
  rw [FillConfLevels_run] at h
  have hE : (0 : Int) ≠ - EINVAL := by decide
  have hM : (0 : Int) ≠ - ENOMEM := by decide
  have hN : FillConfLevels.count config.phrases 0 =
      config.num_phrases + (config.phrases.map (fun p => p.num_levels)).sum := by
    rw [FillConfLevels.count_eq]
    simp [qal_st_recognition_config.num_phrases]
  split at h
  · simp only [Option.some.injEq, Prod.mk.injEq] at h
    exact absurd h.1.1.symm hE
  · split at h
    · simp at h
    · split at h
      · simp only [Option.some.injEq, Prod.mk.injEq] at h
        exact absurd h.1.1.symm hE
      · split at h
        · simp only [Option.some.injEq, Prod.mk.injEq] at h
          exact absurd h.1.1.symm hM
        · split at h
          · simp only [Option.some.injEq, Prod.mk.injEq] at h
            exact absurd h.1.1.symm hM
          · split at h
            · rename_i e he
              simp only [Option.some.injEq, Prod.mk.injEq] at h
              have := FillConfLevels.fill_error _ _ _ _ he
              rw [this] at h
              exact absurd h.1.1.symm hE
            · rename_i b he
              obtain ⟨cl, tr⟩ := b
              simp only [Option.some.injEq, Prod.mk.injEq] at h
              obtain ⟨f1, _, _, _, _, f6, f7, _⟩ := FillConfLevels.fill_ok _ _ _ _ _ _ he
                (by simp) (by simp)
                (by simp [qal_st_recognition_config.num_phrases])
                (by rw [hN]; omega)
              refine ⟨cl, ?_, ?_, ?_, ?_⟩
              · rw [← h.1.2, hN]
              · rw [f1, List.length_replicate, hN]
              · intro i hi
                have := f7 i hi
                rwa [Nat.zero_add] at this
              · intro p hp l hl
                exact f6 l (List.mem_flatMap.2 ⟨p, hp, hl⟩)

/-- Witness for C2: the sample config (two phrases, three user levels) is
accepted and laid out as the theorem says. -/
theorem C2_FillConfLevels_layout_witness :
    FillConfLevels Env.nominal (some qal_st_recognition_config.sample) (Stream.withGmm 2) =
      some ((0, some ([40, 50, 100, 0, 7], 5)),
        { Stream.withGmm 2 with trace := [Call.calloc 5, Call.calloc 5] }) ∧
    ∃ out : List Nat,
      some (([40, 50, 100, 0, 7] : List Nat), 5) =
        some (out, qal_st_recognition_config.sample.num_phrases +
          (qal_st_recognition_config.sample.phrases.map (fun p => p.num_levels)).sum) ∧
      out.length = qal_st_recognition_config.sample.num_phrases +
        (qal_st_recognition_config.sample.phrases.map (fun p => p.num_levels)).sum ∧
      (∀ i (hi : i < qal_st_recognition_config.sample.phrases.length),
        out[i]? = some (qal_st_recognition_config.sample.phrases[i].confidence_level % 256)) ∧
      (∀ p ∈ qal_st_recognition_config.sample.phrases,
        ∀ l ∈ p.levels, out[l.user_id]? = some (min l.level 100)) :=
  ⟨rfl, C2_FillConfLevels_layout Env.nominal qal_st_recognition_config.sample
    (Stream.withGmm 2) _ _ rfl⟩

/-- C2 as stated fails: a config whose only phrase has keyword confidence level
300 is accepted, and slot 0 of the byte array holds 44, not 300. -/
theorem C2_counterexample :
    (FillConfLevels Env.nominal
        (some (qal_st_recognition_config.bare false [⟨0, 1, 300, []⟩]))
        (Stream.withGmm 1)).map (fun x => x.1) = some (0, some ([44], 1)) ∧
    ([44] : List Nat)[0]? ≠ some 300 := by
  constructor
  · rfl
  · decide

/-- C3.  With a first-stage engine bound and the two scratch allocations
succeeding, `FillConfLevels` fails with `-EINVAL`, without writing its output
pointers, whenever some user level has `user_id < num_phrases`, or
`user_id >= num_phrases + Σ num_levels`, or a `user_id` occurs twice; and for a
config with `0 < num_phrases <=` the phrase count of the model in which none of
these holds it returns 0 (and writes the array of that length). -/
theorem C3_FillConfLevels_user_ids (env : Env) (config : qal_st_recognition_config)
    (st : Stream) (eng : EngineCfg)
    (hgmm : st.engines_.find? (fun e => e.GetEngineId = ST_SM_ID_SVA_GMM) = some eng)
    (ha1 : env.avail st.trace.length = true) (ha2 : env.avail (st.trace.length + 1) = true) :
    (((∃ l ∈ config.phrases.flatMap (fun p => p.levels),
          l.user_id < config.num_phrases ∨
          config.num_phrases + (config.phrases.map (fun p => p.num_levels)).sum ≤ l.user_id) ∨
        ¬ ((config.phrases.flatMap (fun p => p.levels)).map (fun l => l.user_id)).Nodup) →
      ∃ st2, FillConfLevels env (some config) st = some ((- EINVAL, none), st2)) ∧
    (0 < config.num_phrases → config.num_phrases ≤ eng.sm_data_.num_phrases →
      (∀ l ∈ config.phrases.flatMap (fun p => p.levels),
          config.num_phrases ≤ l.user_id ∧
          l.user_id < config.num_phrases + (config.phrases.map (fun p => p.num_levels)).sum) →
      ((config.phrases.flatMap (fun p => p.levels)).map (fun l => l.user_id)).Nodup →
      ∃ out st2, FillConfLevels env (some config) st =
        some ((0, some (out,
          config.num_phrases + (config.phrases.map (fun p => p.num_levels)).sum)), st2)) := by
  have hN : FillConfLevels.count config.phrases 0 =
      config.num_phrases + (config.phrases.map (fun p => p.num_levels)).sum := by
    rw [FillConfLevels.count_eq]
    simp [qal_st_recognition_config.num_phrases]
  constructor
  · intro hbad
    have hne : config.num_phrases ≠ 0 := by
      intro h0
      have hnil : config.phrases = [] := List.length_eq_zero.1 h0
      rw [hnil] at hbad
      simp at hbad
    rw [FillConfLevels_run, if_neg hne, hgmm]
    simp only [Option.map_some']
    by_cases h2 : eng.sm_data_.num_phrases < config.num_phrases
    · rw [if_pos h2]
      exact ⟨_, rfl⟩
    · rw [if_neg h2, if_neg (by simp [ha1]), if_neg (by simp [ha2])]
      cases he : FillConfLevels.fill config.num_phrases (FillConfLevels.count config.phrases 0) 0
          config.phrases (List.replicate (FillConfLevels.count config.phrases 0) 0,
            List.replicate (FillConfLevels.count config.phrases 0) 0) with
      | error e =>
        rw [FillConfLevels.fill_error _ _ _ _ he]
        exact ⟨_, rfl⟩
      | ok b =>
        exfalso
        obtain ⟨cl, tr⟩ := b
        obtain ⟨_, _, f3, f4, _, _, _, _⟩ := FillConfLevels.fill_ok _ _ _ _ _ _ he
          (by simp) (by simp) (by simp [qal_st_recognition_config.num_phrases])
          (by rw [hN]; omega)
        rcases hbad with ⟨l, hl, hb⟩ | hdup
        · have := f3 l hl
          rw [hN] at this
          omega
        · exact hdup f4
  · intro hpos hle hr hn
    rw [FillConfLevels_run, if_neg (by omega), hgmm]
    simp only [Option.map_some']
    rw [if_neg (by omega), if_neg (by simp [ha1]), if_neg (by simp [ha2])]
    obtain ⟨⟨cl, tr⟩, he⟩ := FillConfLevels.fill_succeeds (P := config.num_phrases)
      (N := FillConfLevels.count config.phrases 0) config.phrases 0
      (List.replicate (FillConfLevels.count config.phrases 0) 0)
      (List.replicate (FillConfLevels.count config.phrases 0) 0) (by simp) (by simp)
      (by
        intro l hl
        refine ⟨(hr l hl).1, by rw [hN]; exact (hr l hl).2, ?_⟩
        rw [List.getElem?_replicate]
        split <;> simp)
      hn
    rw [he, hN]
    exact ⟨_, _, rfl⟩

/-- Witness for C3: the sample config on a stream whose model has two phrases,
in the environment where every allocation succeeds. -/
theorem C3_FillConfLevels_user_ids_witness :
    ((Stream.withGmm 2).engines_.find? (fun e => e.GetEngineId = ST_SM_ID_SVA_GMM) =
      some { id_ := ST_SM_ID_SVA_GMM, engine_ := 0, sm_data_ := { num_phrases := 2 },
             sm_size_ := 0 }) ∧
    ((((∃ l ∈ qal_st_recognition_config.sample.phrases.flatMap (fun p => p.levels),
          l.user_id < qal_st_recognition_config.sample.num_phrases ∨
          qal_st_recognition_config.sample.num_phrases +
            (qal_st_recognition_config.sample.phrases.map (fun p => p.num_levels)).sum
              ≤ l.user_id) ∨
        ¬ ((qal_st_recognition_config.sample.phrases.flatMap (fun p => p.levels)).map
            (fun l => l.user_id)).Nodup) →
      ∃ st2, FillConfLevels Env.nominal (some qal_st_recognition_config.sample)
        (Stream.withGmm 2) = some ((- EINVAL, none), st2)) ∧
    (0 < qal_st_recognition_config.sample.num_phrases →
      qal_st_recognition_config.sample.num_phrases ≤ 2 →
      (∀ l ∈ qal_st_recognition_config.sample.phrases.flatMap (fun p => p.levels),
          qal_st_recognition_config.sample.num_phrases ≤ l.user_id ∧
          l.user_id < qal_st_recognition_config.sample.num_phrases +
            (qal_st_recognition_config.sample.phrases.map (fun p => p.num_levels)).sum) →
      ((qal_st_recognition_config.sample.phrases.flatMap (fun p => p.levels)).map
        (fun l => l.user_id)).Nodup →
      ∃ out st2, FillConfLevels Env.nominal (some qal_st_recognition_config.sample)
        (Stream.withGmm 2) =
        some ((0, some (out, qal_st_recognition_config.sample.num_phrases +
          (qal_st_recognition_config.sample.phrases.map (fun p => p.num_levels)).sum)), st2))) :=
  ⟨rfl, C3_FillConfLevels_user_ids Env.nominal qal_st_recognition_config.sample
    (Stream.withGmm 2) _ rfl rfl rfl⟩

/-- C4 (as amended).  In the array produced by `FillConfLevels` every user slot is
clamped to 100 and no keyword slot is: for every accepted config, a slot
`k < num_phrases` holds the keyword confidence level of phrase `k` as given
(as a byte, not clamped), and a slot `k` with `num_phrases <= k` holds
`min level 100` for the user level whose `user_id` is `k`.  So a user level of
101 is stored as 100 and a user level of 0 as 0. -/
theorem C4_FillConfLevels_clamp (env : Env) (config : qal_st_recognition_config)
    (st st2 : Stream) (out : List Nat) (n : Nat)
    (h : FillConfLevels env (some config) st = some ((0, some (out, n)), st2)) :
    (∀ k (hk : k < config.phrases.length),
      out[k]? = some (config.phrases[k].confidence_level % 256)) ∧
    (∀ k, config.num_phrases ≤ k → k < out.length →
      ∃ l ∈ config.phrases.flatMap (fun p => p.levels),
        l.user_id = k ∧ out[k]? = some (min l.level 100) ∧ min l.level 100 ≤ 100) ∧
    (∀ l ∈ config.phrases.flatMap (fun p => p.levels),
      (l.level = 101 → out[l.user_id]? = some 100) ∧ (l.level = 0 → out[l.user_id]? = some 0)) := by
  obtain ⟨cl, tr, hr, he⟩ := FillConfLevels_accepted env config st st2 _ h
  simp only [Option.some.injEq, Prod.mk.injEq] at hr
  obtain ⟨rfl, rfl⟩ := hr
  have hN : FillConfLevels.count config.phrases 0 =
      config.num_phrases + (config.phrases.map (fun p => p.num_levels)).sum := by
    rw [FillConfLevels.count_eq]
    simp [qal_st_recognition_config.num_phrases]
  obtain ⟨f1, _, f3, f4, _, f6, f7, _⟩ := FillConfLevels.fill_ok _ _ _ _ _ _ he
    (by simp) (by simp) (by simp [qal_st_recognition_config.num_phrases]) (by rw [hN]; omega)
  rw [List.length_replicate] at f1
  refine ⟨?_, ?_, ?_⟩
  · intro k hk
    have := f7 k hk
    rwa [Nat.zero_add] at this
  · intro k hk1 hk2
    have hmem : k ∈ (config.phrases.flatMap (fun p => p.levels)).map (fun l => l.user_id) := by
      apply FillConfLevels.ids_cover _ config.num_phrases (FillConfLevels.count config.phrases 0) f4
      · intro u hu
        obtain ⟨l, hl, rfl⟩ := List.mem_map.1 hu
        exact ⟨(f3 l hl).1, (f3 l hl).2.1⟩
      · rw [List.length_map, FillConfLevels.length_flatMap, hN]
        omega
      · exact hk1
      · rw [← f1]; exact hk2
    obtain ⟨l, hl, rfl⟩ := List.mem_map.1 hmem
    exact ⟨l, hl, rfl, f6 l hl, Nat.min_le_right _ _⟩
  · intro l hl
    constructor
    · intro h1
      rw [f6 l hl, h1]
      rfl
    · intro h0
      rw [f6 l hl, h0]
      rfl

/-- Witness for C4: an accepted config with user levels 0 and 101 and keyword
levels 40 and 50. -/
theorem C4_FillConfLevels_clamp_witness :
    FillConfLevels Env.nominal (some qal_st_recognition_config.sample) (Stream.withGmm 2) =
      some ((0, some ([40, 50, 100, 0, 7], 5)),
        { Stream.withGmm 2 with trace := [Call.calloc 5, Call.calloc 5] }) ∧
    ((∀ k (hk : k < qal_st_recognition_config.sample.phrases.length),
      ([40, 50, 100, 0, 7] : List Nat)[k]? =
        some (qal_st_recognition_config.sample.phrases[k].confidence_level % 256)) ∧
    (∀ k, qal_st_recognition_config.sample.num_phrases ≤ k →
      k < ([40, 50, 100, 0, 7] : List Nat).length →
      ∃ l ∈ qal_st_recognition_config.sample.phrases.flatMap (fun p => p.levels),
        l.user_id = k ∧ ([40, 50, 100, 0, 7] : List Nat)[k]? = some (min l.level 100) ∧
        min l.level 100 ≤ 100) ∧
    (∀ l ∈ qal_st_recognition_config.sample.phrases.flatMap (fun p => p.levels),
      (l.level = 101 → ([40, 50, 100, 0, 7] : List Nat)[l.user_id]? = some 100) ∧
      (l.level = 0 → ([40, 50, 100, 0, 7] : List Nat)[l.user_id]? = some 0))) :=
  ⟨rfl, C4_FillConfLevels_clamp Env.nominal qal_st_recognition_config.sample
    (Stream.withGmm 2) _ _ _ rfl⟩

/-- C4 as stated fails: a keyword confidence level of 101 is accepted and stored
in its keyword slot as 101, not as `min 101 100`. -/
theorem C4_counterexample :
    (FillConfLevels Env.nominal
        (some (qal_st_recognition_config.bare false [⟨0, 1, 101, []⟩]))
        (Stream.withGmm 1)).map (fun x => x.1) = some (0, some ([101], 1)) ∧
    ([101] : List Nat)[0]? ≠ some (min 101 100) := by
  constructor
  · rfl
  · decide

/-! ## Claims on the state handlers and the loader -/

/-- C1 (the code at the failing input).  `StDetected::ProcessEvent` has no case
for READ_BUFFER: in state Detected the event returns 0, not `-EIO`, and leaves
the stream as it is; the handlers of Idle, Loaded, Active and SSR return
`-EIO` and leave the stream as it is. -/
theorem C1_ReadBuffer_outside_Buffering (env : Env) (fuel size : Nat) (st : Stream) :
    ProcessEvent env (fuel + 1) (.ST_EV_READ_BUFFER size)
        { st with cur_state_ := ST_STATE_DETECTED } =
      some (0, { st with cur_state_ := ST_STATE_DETECTED }) ∧
    ProcessEvent env (fuel + 1) (.ST_EV_READ_BUFFER size)
        { st with cur_state_ := ST_STATE_IDLE } =
      some (- EIO, { st with cur_state_ := ST_STATE_IDLE }) ∧
    ProcessEvent env (fuel + 1) (.ST_EV_READ_BUFFER size)
        { st with cur_state_ := ST_STATE_LOADED } =
      some (- EIO, { st with cur_state_ := ST_STATE_LOADED }) ∧
    ProcessEvent env (fuel + 1) (.ST_EV_READ_BUFFER size)
        { st with cur_state_ := ST_STATE_ACTIVE } =
      some (- EIO, { st with cur_state_ := ST_STATE_ACTIVE }) ∧
    ProcessEvent env (fuel + 1) (.ST_EV_READ_BUFFER size)
        { st with cur_state_ := ST_STATE_SSR } =
      some (- EIO, { st with cur_state_ := ST_STATE_SSR }) :=
  ⟨rfl, rfl, rfl, rfl, rfl⟩

/-- C5 (the code at the failing input).  For a CONFIDENCE_LEVELS payload whose
first-stage entry repeats a `user_id`, `FillOpaqueConfLevels` reports `-EINVAL`,
but `ParseOpaqueConfLevels` drops that status and returns 0, for interface
version 1 and 2 alike, and `SendRecognitionConfig` then returns 0 as well. -/
theorem C5_duplicate_user_id_in_opaque_levels :
    (FillOpaqueConfLevels Env.nominal (some st_sound_model_conf_levels.duplicate) 1
        (Stream.withGmm 1)).map (fun x => x.1) = some (- EINVAL, none) ∧
    (FillOpaqueConfLevels Env.nominal (some st_sound_model_conf_levels.duplicate) 2
        (Stream.withGmm 1)).map (fun x => x.1) = some (- EINVAL, none) ∧
    (ParseOpaqueConfLevels Env.nominal [st_sound_model_conf_levels.duplicate] 1 none
        (Stream.withGmm 1)).map (fun x => x.1) = some (0, none) ∧
    (ParseOpaqueConfLevels Env.nominal [st_sound_model_conf_levels.duplicate] 2 none
        (Stream.withGmm 1)).map (fun x => x.1) = some (0, none) ∧
    (SendRecognitionConfig Env.nominal (some (qal_st_recognition_config.opaque_duplicate 1))
        false (Stream.withGmm 1)).map (fun x => x.1) = some 0 ∧
    (SendRecognitionConfig Env.nominal (some (qal_st_recognition_config.opaque_duplicate 2))
        false (Stream.withGmm 1)).map (fun x => x.1) = some 0 :=
  ⟨by decide!, by decide!, by decide!, by decide!, by decide!, by decide!⟩

/-- C6 (the code at the failing input).  On a fresh stream in Idle, loading a v3
container whose only record is a keyword-verifier model (no GMM record) takes
the `error_exit` of `LoadSoundModel` with the status still 0: the event returns
0, the engine list is empty, and the stream is in Loaded, not in Idle.  The same
holds for a v3 container with no record at all. -/
theorem C6_v3_without_GMM_loads :
    (ProcessEvent Env.nominal 1
        (.ST_EV_LOAD_SOUND_MODEL
          (some (qal_st_sound_model.v3 [⟨ST_SM_ID_SVA_KWD, 8, 0⟩])) false)
        (Stream.init false)).map
      (fun x => (x.1, x.2.cur_state_, x.2.engines_, x.2.gsl_engine_)) =
      some (0, ST_STATE_LOADED, [], none) ∧
    (ProcessEvent Env.nominal 1
        (.ST_EV_LOAD_SOUND_MODEL (some (qal_st_sound_model.v3 [])) false)
        (Stream.init false)).map
      (fun x => (x.1, x.2.cur_state_, x.2.engines_, x.2.gsl_engine_)) =
      some (0, ST_STATE_LOADED, [], none) ∧
    (LoadSoundModel Env.nominal (some (qal_st_sound_model.v3 [⟨ST_SM_ID_SVA_KWD, 8, 0⟩])) false
        (Stream.init false)).map (fun x => x.1) = some 0 :=
  ⟨by decide!, by decide!, by decide!⟩

/-! ## The loader -/

set_option maxHeartbeats 1600000 in
/-- What a run of the v3 record loop establishes.  A `goto error_exit` carries a
non-zero status; a completed loop has pushed one binding per record, in record
order, each with a fresh engine, and `gsl_engine_` is the engine of the last GMM
record (or what it was, when no record is a GMM record). -/
theorem LoadSoundModel.v3_spec (env : Env) (sm : qal_st_sound_model)
    (recs : List SML_BigSoundModelTypeV3) (st st2 : Stream) (r : Option Int)
    (h : LoadSoundModel.v3 env sm recs st = some (r, st2)) :
    st.trace.length ≤ st2.trace.length ∧
    (∀ status, r = some status → status ≠ 0) ∧
    (r = none →
      { st2 with engines_ := st.engines_, gsl_engine_ := st.gsl_engine_, trace := st.trace } = st ∧
      ∃ new : List EngineCfg,
        st2.engines_ = st.engines_ ++ new ∧
        new.map (fun e => e.id_) = recs.map (fun b => b.type) ∧
        (∀ e ∈ new, st.trace.length ≤ e.engine_ ∧ st2.trace.length > e.engine_) ∧
        (new.map (fun e => e.engine_)).Pairwise (fun a b : Nat => a < b) ∧
        ((∀ b ∈ recs, b.type ≠ ST_SM_ID_SVA_GMM) → st2.gsl_engine_ = st.gsl_engine_) ∧
        (∀ (i : Nat) (b : SML_BigSoundModelTypeV3), recs[i]? = some b → b.type = ST_SM_ID_SVA_GMM →
          (∀ (j : Nat) (b2 : SML_BigSoundModelTypeV3), i < j → recs[j]? = some b2 → b2.type ≠ ST_SM_ID_SVA_GMM) →
          ∃ e : EngineCfg, new[i]? = some e ∧ st2.gsl_engine_ = some e.engine_)) := by
  induction recs generalizing st with
  | nil =>
    simp only [LoadSoundModel.v3, run_pure, Option.some.injEq, Prod.mk.injEq] at h
    obtain ⟨rfl, rfl⟩ := h
    refine ⟨le_refl _, by simp, fun _ => ⟨rfl, [], by simp⟩⟩
  | cons big_sm rest ih =>
    have hE : (- ENOMEM : Int) ≠ 0 := by decide
    have hN : (- ENOENT : Int) ≠ 0 := by decide
    simp only [LoadSoundModel.v3] at h
    have key : ∀ (cfg : EngineCfg) (st1 : Stream),
        LoadSoundModel.v3 env sm rest st1 = some (r, st2) →
        st1.trace.length = st.trace.length + 3 →
        st.trace.length + 1 = cfg.engine_ →
        cfg.id_ = big_sm.type →
        st1.engines_ = st.engines_ ++ [cfg] →
        (st1.gsl_engine_ =
          if big_sm.type = ST_SM_ID_SVA_GMM then some cfg.engine_ else st.gsl_engine_) →
        { st1 with engines_ := st.engines_, gsl_engine_ := st.gsl_engine_, trace := st.trace }
          = st →
        (st.trace.length ≤ st2.trace.length ∧
        (∀ status, r = some status → status ≠ 0) ∧
        (r = none →
          { st2 with engines_ := st.engines_, gsl_engine_ := st.gsl_engine_,
                     trace := st.trace } = st ∧
          ∃ new : List EngineCfg,
            st2.engines_ = st.engines_ ++ new ∧
            new.map (fun e => e.id_) = (big_sm :: rest).map (fun b => b.type) ∧
            (∀ e ∈ new, st.trace.length ≤ e.engine_ ∧ st2.trace.length > e.engine_) ∧
            (new.map (fun e => e.engine_)).Pairwise (fun a b : Nat => a < b) ∧
            ((∀ b ∈ big_sm :: rest, b.type ≠ ST_SM_ID_SVA_GMM) →
              st2.gsl_engine_ = st.gsl_engine_) ∧
            (∀ (i : Nat) (b : SML_BigSoundModelTypeV3), (big_sm :: rest)[i]? = some b → b.type = ST_SM_ID_SVA_GMM →
              (∀ (j : Nat) (b2 : SML_BigSoundModelTypeV3), i < j → (big_sm :: rest)[j]? = some b2 → b2.type ≠ ST_SM_ID_SVA_GMM) →
              ∃ e : EngineCfg, new[i]? = some e ∧ st2.gsl_engine_ = some e.engine_))) := by
      intro cfg st1 hrun hlen heng hid hengs hgsl hframe
      obtain ⟨i1, i2, i3⟩ := ih st1 hrun
      refine ⟨by omega, i2, fun hr => ?_⟩
      obtain ⟨fr, new, n1, n2, n3, n4, n5, n6⟩ := i3 hr
      refine ⟨?_, cfg :: new, ?_, ?_, ?_, ?_, ?_, ?_⟩
      · rw [← hframe]
        have := congrArg (fun s : Stream =>
          { s with engines_ := st.engines_, gsl_engine_ := st.gsl_engine_,
                   trace := st.trace }) fr
        simpa using this
      · rw [n1, hengs, List.append_assoc]; rfl
      · simp only [List.map_cons, n2, hid]
      · intro e he
        rcases List.mem_cons.1 he with rfl | he
        · omega
        · have := n3 e he
          omega
      · simp only [List.map_cons, List.pairwise_cons]
        refine ⟨?_, n4⟩
        intro a ha
        obtain ⟨e, he, rfl⟩ := List.mem_map.1 ha
        have := n3 e he
        omega
      · intro hall
        rw [n5 (fun b hb => hall b (List.mem_cons_of_mem _ hb)), hgsl,
          if_neg (hall big_sm (List.mem_cons_self _ _))]
      · intro i b hi hb hlast
        cases i with
        | zero =>
          simp only [List.getElem?_cons_zero, Option.some.injEq] at hi
          subst hi
          refine ⟨cfg, by simp, ?_⟩
          rw [n5, hgsl, if_pos hb]
          intro b2 hb2
          obtain ⟨j, hj⟩ := List.getElem?_of_mem hb2
          exact hlast (j + 1) b2 (by omega) (by simpa using hj)
        | succ i =>
          simp only [List.getElem?_cons_succ] at hi
          obtain ⟨e, he1, he2⟩ := n6 i b hi hb (fun j b2 hj hb2 =>
            hlast (j + 1) b2 (by omega) (by simpa using hb2))
          exact ⟨e, by simpa using he1, he2⟩
    split at h
    · rename_i hg
      simp only [run_bind, run_get, run_ask, run_call, run_modify, run_pure, Option.some_bind] at h
      split at h
      · simp only [run_pure, Option.some.injEq, Prod.mk.injEq] at h
        obtain ⟨rfl, rfl⟩ := h
        refine ⟨by simp only [List.length_append]; omega, ?_, fun hr => nomatch hr⟩
        intro status hs
        injection hs with hs
        rw [← hs]; exact hE
      · simp only [run_bind, run_get, run_ask, run_call, run_modify, run_pure, Option.some_bind] at h
        split at h
        · simp only [run_pure, Option.some.injEq, Prod.mk.injEq] at h
          obtain ⟨rfl, rfl⟩ := h
          refine ⟨by simp only [List.length_append]; omega, ?_, fun hr => nomatch hr⟩
          intro status hs
          injection hs with hs
          rw [← hs]; exact hE
        · rename_i hc
          simp only [run_bind, run_get, run_ask, run_call, run_modify, run_pure, Option.some_bind] at h
          split at h
          · rename_i hst
            simp only [run_pure, Option.some.injEq, Prod.mk.injEq] at h
            obtain ⟨rfl, rfl⟩ := h
            refine ⟨by simp only [List.length_append]; omega, ?_, fun hr => nomatch hr⟩
            intro status hs
            injection hs with hs
            rw [← hs]
            simpa using hst
          · simp only [AddEngine, run_bind, run_get, run_ask, run_call, run_modify, run_pure, Option.some_bind] at h
            refine key { id_ := ST_SM_ID_SVA_GMM, engine_ := st.trace.length + 1,
                         sm_data_ := { num_phrases := sm.num_phrases },
                         sm_size_ := big_sm.size + env.sizeof_qal_st_phrase_sound_model }
              _ h ?_ ?_ ?_ ?_ ?_ ?_
            · simp
            · rfl
            · exact hg.symm
            · simp
            · simp only [Bool.not_eq_true, Bool.not_eq_false, Bool.not_eq_eq_eq_not, Bool.not_true,
                Bool.not_false, List.length_append, List.length_singleton] at hc
              simp [hg, hc]
            · rfl
    · rename_i hg
      simp only [run_bind, run_get, run_ask, run_call, run_modify, run_pure, Option.some_bind] at h
      split at h
      · simp only [run_pure, Option.some.injEq, Prod.mk.injEq] at h
        obtain ⟨rfl, rfl⟩ := h
        refine ⟨by simp only [List.length_append]; omega, ?_, fun hr => nomatch hr⟩
        intro status hs
        injection hs with hs
        rw [← hs]; exact hE
      · simp only [run_bind, run_get, run_ask, run_call, run_modify, run_pure, Option.some_bind] at h
        split at h
        · simp only [run_pure, Option.some.injEq, Prod.mk.injEq] at h
          obtain ⟨rfl, rfl⟩ := h
          refine ⟨by simp only [List.length_append]; omega, ?_, fun hr => nomatch hr⟩
          intro status hs
          injection hs with hs
          rw [← hs]; exact hN
        · simp only [run_bind, run_get, run_ask, run_call, run_modify, run_pure, Option.some_bind] at h
          split at h
          · rename_i hst
            simp only [run_pure, Option.some.injEq, Prod.mk.injEq] at h
            obtain ⟨rfl, rfl⟩ := h
            refine ⟨by simp only [List.length_append]; omega, ?_, fun hr => nomatch hr⟩
            intro status hs
            injection hs with hs
            rw [← hs]
            simpa using hst
          · simp only [AddEngine, run_bind, run_get, run_ask, run_call, run_modify, run_pure, Option.some_bind] at h
            refine key { id_ := big_sm.type, engine_ := st.trace.length + 1,
                         sm_data_ := { num_phrases := 0 }, sm_size_ := big_sm.size }
              _ h ?_ ?_ ?_ ?_ ?_ ?_
            · simp
            · rfl
            · rfl
            · simp
            · simp [hg]
            · rfl

/-- A list with a GMM record has a last GMM record. -/
theorem LoadSoundModel.exists_last_GMM (recs : List SML_BigSoundModelTypeV3)
    (h : ∃ b ∈ recs, b.type = ST_SM_ID_SVA_GMM) :
    ∃ (i : Nat) (b : SML_BigSoundModelTypeV3), recs[i]? = some b ∧ b.type = ST_SM_ID_SVA_GMM ∧
      ∀ (j : Nat) (b2 : SML_BigSoundModelTypeV3), i < j → recs[j]? = some b2 →
        b2.type ≠ ST_SM_ID_SVA_GMM := by
  induction recs with
  | nil => simp at h
  | cons a rest ih =>
    by_cases hr : ∃ b ∈ rest, b.type = ST_SM_ID_SVA_GMM
    · obtain ⟨i, b, h1, h2, h3⟩ := ih hr
      refine ⟨i + 1, b, by simpa using h1, h2, ?_⟩
      intro j b2 hj hb2
      cases j with
      | zero => omega
      | succ j => exact h3 j b2 (by omega) (by simpa using hb2)
    · obtain ⟨b, hb, hbt⟩ := h
      rcases List.mem_cons.1 hb with rfl | hb
      · refine ⟨0, b, by simp, hbt, ?_⟩
        intro j b2 hj hb2
        cases j with
        | zero => omega
        | succ j =>
          intro hc
          exact hr ⟨b2, List.getElem?_mem (by simpa using hb2), hc⟩
      · exact absurd ⟨b, hb, hbt⟩ hr

set_option maxHeartbeats 1600000 in
/-- A successful load of a v3 container ran the record loop to its end, from a
state with the engine list and the first-stage handle of the entry state; it
returned either through the normal exit, or through `error_exit` with the status
still 0 when no first-stage engine was there after the loop. -/
theorem LoadSoundModel.v3_ok (env : Env) (sm : qal_st_sound_model) (flag : Bool)
    (st st2 : Stream) (h1 : sm.type = QAL_SOUND_MODEL_TYPE_KEYPHRASE)
    (h2 : sm.magicNumber = SML_GLOBAL_HEADER_MAGIC_NUMBER)
    (h : LoadSoundModel env (some sm) flag st = some (0, st2)) :
    ∃ st1 st3 : Stream, st1.engines_ = st.engines_ ∧ st1.gsl_engine_ = st.gsl_engine_ ∧
      LoadSoundModel.v3 env sm sm.models st1 = some (none, st3) ∧
      ((st3.gsl_engine_ ≠ none ∧ st2 = st3) ∨
       (st3.gsl_engine_ = none ∧ st2.engines_ = [] ∧ st2.gsl_engine_ = none)) := by
  have hE : (- EINVAL : Int) ≠ 0 := by decide
  have hM : (- ENOMEM : Int) ≠ 0 := by decide
  have fin : ∀ st1 : Stream, st1.engines_ = st.engines_ → st1.gsl_engine_ = st.gsl_engine_ →
      ((LoadSoundModel.v3 env sm sm.models st1).bind fun p =>
        (match p.1 with
          | some status => LoadSoundModel.error_exit status
          | none => do
            let s ← get
            if s.gsl_engine_ = none then LoadSoundModel.error_exit 0 else pure 0) p.2)
        = some (0, st2) →
      ∃ st1 st3 : Stream, st1.engines_ = st.engines_ ∧ st1.gsl_engine_ = st.gsl_engine_ ∧
        LoadSoundModel.v3 env sm sm.models st1 = some (none, st3) ∧
        ((st3.gsl_engine_ ≠ none ∧ st2 = st3) ∨
         (st3.gsl_engine_ = none ∧ st2.engines_ = [] ∧ st2.gsl_engine_ = none)) := by
    intro st1 e1 e2 hb
    rw [Option.bind_eq_some] at hb
    obtain ⟨⟨r, st3⟩, hv, hb⟩ := hb
    cases r with
    | some status =>
      exfalso
      have hne := (LoadSoundModel.v3_spec env sm _ _ _ _ hv).2.1 status rfl
      simp only [LoadSoundModel.error_exit, run_bind, run_modify, run_pure, Option.some_bind,
        Option.some.injEq, Prod.mk.injEq] at hb
      exact hne hb.1
    | none =>
      refine ⟨st1, st3, e1, e2, hv, ?_⟩
      simp only [run_bind, run_get, Option.some_bind] at hb
      split at hb
      · rename_i hg
        right
        simp only [LoadSoundModel.error_exit, run_bind, run_modify, run_pure, Option.some_bind,
          Option.some.injEq, Prod.mk.injEq] at hb
        refine ⟨hg, ?_, ?_⟩
        · rw [← hb.2]
        · rw [← hb.2]
      · rename_i hg
        left
        simp only [run_pure, Option.some.injEq, Prod.mk.injEq] at hb
        exact ⟨hg, hb.2.symm⟩
  simp only [LoadSoundModel, h1, h2, run_bind, run_modify, Option.some_bind, if_true] at h
  split at h
  · simp only [run_pure, Option.some.injEq, Prod.mk.injEq] at h
    exact absurd h.1 hE
  · simp only [run_bind, run_pure, Option.some_bind] at h
    split at h
    · simp only [run_bind, run_ask, run_pure, Option.some_bind] at h
      split at h
      · simp only [run_bind, run_modify, run_pure, Option.some_bind, Option.some.injEq,
          Prod.mk.injEq] at h
        exact absurd h.1 hM
      · simp only [run_bind, run_modify, run_pure, Option.some_bind, Option.isNone_iff_eq_none]
          at h
        exact fin _ (by rfl) (by rfl) h
    · simp only [run_bind, run_pure, Option.some_bind, Option.isNone_iff_eq_none] at h
      exact fin _ (by rfl) (by rfl) h

/-- C7 (as amended).  Whenever `LoadSoundModel` returns 0 for a keyphrase model
that is a v2 blob or a v3 container with at least one GMM record, the
first-stage handle `gsl_engine_` is present and is the engine of a GMM binding
of the engine list; for a generic model a return of 0 leaves the engine list
and `gsl_engine_` as they were (no engine is created). -/
theorem C7_gsl_engine_after_load (env : Env) (sm : qal_st_sound_model) (flag : Bool)
    (st st2 : Stream) (h : LoadSoundModel env (some sm) flag st = some (0, st2)) :
    (sm.type = QAL_SOUND_MODEL_TYPE_KEYPHRASE →
      (sm.magicNumber ≠ SML_GLOBAL_HEADER_MAGIC_NUMBER ∨
        ∃ b ∈ sm.models, b.type = ST_SM_ID_SVA_GMM) →
      ∃ e ∈ st2.engines_, e.id_ = ST_SM_ID_SVA_GMM ∧ st2.gsl_engine_ = some e.engine_) ∧
    (sm.type = QAL_SOUND_MODEL_TYPE_GENERIC →
      st2.engines_ = st.engines_ ∧ st2.gsl_engine_ = st.gsl_engine_) := by
  have hE : (- EINVAL : Int) ≠ 0 := by decide
  have hM : (- ENOMEM : Int) ≠ 0 := by decide
  constructor
  · intro h1 hcase
    by_cases h2 : sm.magicNumber = SML_GLOBAL_HEADER_MAGIC_NUMBER
    · have hg : ∃ b ∈ sm.models, b.type = ST_SM_ID_SVA_GMM := by
        rcases hcase with hc | hc
        · exact absurd h2 hc
        · exact hc
      obtain ⟨st1, st3, e1, e2, hv, hfin⟩ := LoadSoundModel.v3_ok env sm flag st st2 h1 h2 h
      obtain ⟨_, _, hspec⟩ := LoadSoundModel.v3_spec env sm _ _ _ _ hv
      obtain ⟨_, new, n1, n2, _, _, _, n6⟩ := hspec rfl
      obtain ⟨i, b, hi, hb, hlast⟩ := LoadSoundModel.exists_last_GMM sm.models hg
      obtain ⟨e, he1, he2⟩ := n6 i b hi hb hlast
      have hid : e.id_ = ST_SM_ID_SVA_GMM := by
        have := congrArg (fun l => l[i]?) n2
        simp only [List.getElem?_map, he1, hi, Option.map_some', Option.some.injEq] at this
        rw [this, hb]
      rcases hfin with ⟨_, rfl⟩ | ⟨hnone, _, _⟩
      · refine ⟨e, ?_, hid, he2⟩
        rw [n1]
        exact List.mem_append_right _ (List.getElem?_mem he1)
      · rw [hnone] at he2
        exact absurd he2 (by simp)
    · simp only [LoadSoundModel, h1, h2, run_bind, run_modify, Option.some_bind, if_true,
        if_false] at h
      split at h
      · simp only [run_pure, Option.some.injEq, Prod.mk.injEq] at h
        exact absurd h.1 hE
      · simp only [run_bind, run_pure, Option.some_bind] at h
        have fin : ∀ st1 : Stream,
            ((ask env (Call.calloc (env.sizeof_qal_st_phrase_sound_model + sm.data_size))
                st1).bind fun p =>
              (if (!p.1) = true then LoadSoundModel.error_exit (- ENOMEM)
               else do
                let handle := (← get).trace.length
                let created ← ask env (Call.SoundTriggerEngine_Create ST_SM_ID_SVA_GMM)
                modify fun st => { st with gsl_engine_ := if created then some handle else none }
                if !created then
                  LoadSoundModel.error_exit (- ENOMEM)
                else
                  let status ← call env (Call.LoadSoundModel handle
                    (env.sizeof_qal_st_phrase_sound_model + sm.data_size))
                  if status ≠ 0 then
                    LoadSoundModel.error_exit status
                  else
                    AddEngine { id_ := ST_SM_ID_SVA_GMM, engine_ := handle,
                                sm_data_ := { num_phrases := sm.num_phrases },
                                sm_size_ := env.sizeof_qal_st_phrase_sound_model + sm.data_size }
                    return 0) p.2) = some (0, st2) →
            ∃ e ∈ st2.engines_, e.id_ = ST_SM_ID_SVA_GMM ∧ st2.gsl_engine_ = some e.engine_ := by
          intro st1 hb
          simp only [run_ask, Option.some_bind] at hb
          split at hb
          · simp only [LoadSoundModel.error_exit, run_bind, run_modify, run_pure,
              Option.some_bind, Option.some.injEq, Prod.mk.injEq] at hb
            exact absurd hb.1 hM
          · simp only [run_bind, run_get, run_ask, run_modify, run_pure, Option.some_bind] at hb
            split at hb
            · simp only [LoadSoundModel.error_exit, run_bind, run_modify, run_pure,
                Option.some_bind, Option.some.injEq, Prod.mk.injEq] at hb
              exact absurd hb.1 hM
            · rename_i hc
              simp only [run_bind, run_call, run_pure, Option.some_bind] at hb
              split at hb
              · rename_i hs
                simp only [LoadSoundModel.error_exit, run_bind, run_modify, run_pure,
                  Option.some_bind, Option.some.injEq, Prod.mk.injEq] at hb
                exact absurd hb.1 hs
              · simp only [AddEngine, run_bind, run_modify, run_pure, Option.some_bind,
                  Option.some.injEq, Prod.mk.injEq] at hb
                obtain ⟨_, rfl⟩ := hb
                simp only [Bool.not_eq_true, Bool.not_eq_false, Bool.not_eq_eq_eq_not,
                  Bool.not_true, Bool.not_false, List.length_append, List.length_singleton] at hc
                exact ⟨_, List.mem_append_right _ (List.mem_singleton_self _), rfl,
                  by simp [hc]⟩
        split at h
        · simp only [run_bind, run_ask, run_pure, Option.some_bind] at h
          split at h
          · simp only [run_bind, run_modify, run_pure, Option.some_bind, Option.some.injEq,
              Prod.mk.injEq] at h
            exact absurd h.1 hM
          · simp only [run_bind, run_modify, run_pure, Option.some_bind] at h
            exact fin _ h
        · simp only [run_bind, run_pure, Option.some_bind] at h
          exact fin _ h
  · intro h1
    have hk : QAL_SOUND_MODEL_TYPE_GENERIC ≠ QAL_SOUND_MODEL_TYPE_KEYPHRASE := by decide
    simp only [LoadSoundModel, h1, hk, run_bind, run_modify, Option.some_bind, if_true,
      if_false] at h
    split at h
    · simp only [run_pure, Option.some.injEq, Prod.mk.injEq] at h
      exact absurd h.1 hE
    · simp only [run_bind, run_pure, Option.some_bind] at h
      split at h
      · simp only [run_bind, run_ask, run_pure, Option.some_bind] at h
        split at h
        · simp only [run_bind, run_modify, run_pure, Option.some_bind, Option.some.injEq,
            Prod.mk.injEq] at h
          exact absurd h.1 hM
        · simp only [run_bind, run_modify, run_pure, Option.some_bind, Option.some.injEq,
            Prod.mk.injEq] at h
          obtain ⟨_, rfl⟩ := h
          exact ⟨rfl, rfl⟩
      · simp only [run_bind, run_pure, Option.some_bind, Option.some.injEq, Prod.mk.injEq] at h
        obtain ⟨_, rfl⟩ := h
        exact ⟨rfl, rfl⟩

/-- Witness for C7: a v2 keyphrase model loaded on a fresh stream, every
interaction succeeding. -/
theorem C7_gsl_engine_after_load_witness :
    LoadSoundModel Env.nominal (some qal_st_sound_model.v2) false (Stream.init false) =
      some (0, { Stream.init false with
        sound_model_type_ := QAL_SOUND_MODEL_TYPE_KEYPHRASE,
        sm_config_ := some qal_st_sound_model.v2,
        engines_ := [{ id_ := ST_SM_ID_SVA_GMM, engine_ := 2, sm_data_ := { num_phrases := 1 },
                       sm_size_ := 80 }],
        gsl_engine_ := some 2,
        trace := [Call.calloc 80, Call.calloc 80,
                  Call.SoundTriggerEngine_Create ST_SM_ID_SVA_GMM, Call.LoadSoundModel 2 80] }) ∧
    ((qal_st_sound_model.v2.type = QAL_SOUND_MODEL_TYPE_KEYPHRASE →
      (qal_st_sound_model.v2.magicNumber ≠ SML_GLOBAL_HEADER_MAGIC_NUMBER ∨
        ∃ b ∈ qal_st_sound_model.v2.models, b.type = ST_SM_ID_SVA_GMM) →
      ∃ e ∈ [({ id_ := ST_SM_ID_SVA_GMM, engine_ := 2, sm_data_ := { num_phrases := 1 },
                sm_size_ := 80 } : EngineCfg)],
        e.id_ = ST_SM_ID_SVA_GMM ∧ (some 2 : Option SoundTriggerEngine) = some e.engine_) ∧
    (qal_st_sound_model.v2.type = QAL_SOUND_MODEL_TYPE_GENERIC →
      [({ id_ := ST_SM_ID_SVA_GMM, engine_ := 2, sm_data_ := { num_phrases := 1 },
          sm_size_ := 80 } : EngineCfg)] = (Stream.init false).engines_ ∧
      (some 2 : Option SoundTriggerEngine) = (Stream.init false).gsl_engine_)) :=
  have h : LoadSoundModel Env.nominal (some qal_st_sound_model.v2) false (Stream.init false) =
      some (0, { Stream.init false with
        sound_model_type_ := QAL_SOUND_MODEL_TYPE_KEYPHRASE,
        sm_config_ := some qal_st_sound_model.v2,
        engines_ := [{ id_ := ST_SM_ID_SVA_GMM, engine_ := 2, sm_data_ := { num_phrases := 1 },
                       sm_size_ := 80 }],
        gsl_engine_ := some 2,
        trace := [Call.calloc 80, Call.calloc 80,
                  Call.SoundTriggerEngine_Create ST_SM_ID_SVA_GMM, Call.LoadSoundModel 2 80] }) := by
    decide!
  ⟨h, C7_gsl_engine_after_load Env.nominal qal_st_sound_model.v2 false (Stream.init false) _ h⟩

/-- C7 as stated fails: a generic sound model loads with status 0 on a fresh
stream, and afterwards there is no first-stage engine and no engine binding. -/
theorem C7_counterexample :
    (LoadSoundModel Env.nominal (some qal_st_sound_model.generic) false
        (Stream.init false)).map (fun x => (x.1, x.2.gsl_engine_, x.2.engines_)) =
      some (0, none, []) := by
  decide!

/-- C8 (as amended).  When a v3 container with a GMM record is loaded
successfully, the loader has pushed one binding per record, in record order and
each with an engine of its own, and the first-stage engine `gsl_engine_` is the
engine created for the last record of type GMM (with one GMM record, the only
one), for every number and order of records. -/
theorem C8_first_stage_engine_of_v3 (env : Env) (sm : qal_st_sound_model) (flag : Bool)
    (st st2 : Stream) (h1 : sm.type = QAL_SOUND_MODEL_TYPE_KEYPHRASE)
    (h2 : sm.magicNumber = SML_GLOBAL_HEADER_MAGIC_NUMBER)
    (hg : ∃ b ∈ sm.models, b.type = ST_SM_ID_SVA_GMM)
    (h : LoadSoundModel env (some sm) flag st = some (0, st2)) :
    ∃ new : List EngineCfg,
      st2.engines_ = st.engines_ ++ new ∧
      new.map (fun e => e.id_) = sm.models.map (fun b => b.type) ∧
      (new.map (fun e => e.engine_)).Pairwise (fun a b : Nat => a < b) ∧
      ∀ (i : Nat) (b : SML_BigSoundModelTypeV3), sm.models[i]? = some b →
        b.type = ST_SM_ID_SVA_GMM →
        (∀ (j : Nat) (b2 : SML_BigSoundModelTypeV3), i < j → sm.models[j]? = some b2 →
          b2.type ≠ ST_SM_ID_SVA_GMM) →
        ∃ e : EngineCfg, new[i]? = some e ∧ st2.gsl_engine_ = some e.engine_ := by
  obtain ⟨st1, st3, e1, e2, hv, hfin⟩ := LoadSoundModel.v3_ok env sm flag st st2 h1 h2 h
  obtain ⟨_, _, hspec⟩ := LoadSoundModel.v3_spec env sm _ _ _ _ hv
  obtain ⟨_, new, n1, n2, _, n4, _, n6⟩ := hspec rfl
  rcases hfin with ⟨_, rfl⟩ | ⟨hnone, _, _⟩
  · exact ⟨new, by rw [n1, e1], n2, n4, n6⟩
  · exfalso
    obtain ⟨i, b, hi, hb, hlast⟩ := LoadSoundModel.exists_last_GMM sm.models hg
    obtain ⟨e, _, he2⟩ := n6 i b hi hb hlast
    rw [hnone] at he2
    exact absurd he2 (by simp)

/-- Witness for C8: a container with a keyword-verifier record followed by one
GMM record, loaded on a fresh stream with every interaction succeeding. -/
theorem C8_first_stage_engine_of_v3_witness :
    LoadSoundModel Env.nominal
        (some (qal_st_sound_model.v3 [⟨ST_SM_ID_SVA_KWD, 8, 0⟩, ⟨ST_SM_ID_SVA_GMM, 8, 8⟩]))
        false (Stream.init false) =
      some (0, { Stream.init false with
        sound_model_type_ := QAL_SOUND_MODEL_TYPE_KEYPHRASE,
        sm_config_ := some (qal_st_sound_model.v3
          [⟨ST_SM_ID_SVA_KWD, 8, 0⟩, ⟨ST_SM_ID_SVA_GMM, 8, 8⟩]),
        engines_ := [{ id_ := ST_SM_ID_SVA_KWD, engine_ := 2, sm_data_ := { num_phrases := 0 },
                       sm_size_ := 8 },
                     { id_ := ST_SM_ID_SVA_GMM, engine_ := 5, sm_data_ := { num_phrases := 1 },
                       sm_size_ := 72 }],
        gsl_engine_ := some 5,
        trace := [Call.calloc 80, Call.calloc 8,
                  Call.SoundTriggerEngine_Create ST_SM_ID_SVA_KWD, Call.LoadSoundModel 2 8,
                  Call.calloc 72, Call.SoundTriggerEngine_Create ST_SM_ID_SVA_GMM,
                  Call.LoadSoundModel 5 72] }) ∧
    ∃ new : List EngineCfg,
      [({ id_ := ST_SM_ID_SVA_KWD, engine_ := 2, sm_data_ := { num_phrases := 0 },
          sm_size_ := 8 } : EngineCfg),
       { id_ := ST_SM_ID_SVA_GMM, engine_ := 5, sm_data_ := { num_phrases := 1 },
         sm_size_ := 72 }] = (Stream.init false).engines_ ++ new ∧
      new.map (fun e => e.id_) =
        (qal_st_sound_model.v3 [⟨ST_SM_ID_SVA_KWD, 8, 0⟩, ⟨ST_SM_ID_SVA_GMM, 8, 8⟩]).models.map
          (fun b => b.type) ∧
      (new.map (fun e => e.engine_)).Pairwise (fun a b : Nat => a < b) ∧
      ∀ (i : Nat) (b : SML_BigSoundModelTypeV3),
        (qal_st_sound_model.v3
          [⟨ST_SM_ID_SVA_KWD, 8, 0⟩, ⟨ST_SM_ID_SVA_GMM, 8, 8⟩]).models[i]? = some b →
        b.type = ST_SM_ID_SVA_GMM →
        (∀ (j : Nat) (b2 : SML_BigSoundModelTypeV3), i < j →
          (qal_st_sound_model.v3
            [⟨ST_SM_ID_SVA_KWD, 8, 0⟩, ⟨ST_SM_ID_SVA_GMM, 8, 8⟩]).models[j]? = some b2 →
          b2.type ≠ ST_SM_ID_SVA_GMM) →
        ∃ e : EngineCfg, new[i]? = some e ∧ (some 5 : Option SoundTriggerEngine) = some e.engine_ :=
  have h : LoadSoundModel Env.nominal
        (some (qal_st_sound_model.v3 [⟨ST_SM_ID_SVA_KWD, 8, 0⟩, ⟨ST_SM_ID_SVA_GMM, 8, 8⟩]))
        false (Stream.init false) =
      some (0, { Stream.init false with
        sound_model_type_ := QAL_SOUND_MODEL_TYPE_KEYPHRASE,
        sm_config_ := some (qal_st_sound_model.v3
          [⟨ST_SM_ID_SVA_KWD, 8, 0⟩, ⟨ST_SM_ID_SVA_GMM, 8, 8⟩]),
        engines_ := [{ id_ := ST_SM_ID_SVA_KWD, engine_ := 2, sm_data_ := { num_phrases := 0 },
                       sm_size_ := 8 },
                     { id_ := ST_SM_ID_SVA_GMM, engine_ := 5, sm_data_ := { num_phrases := 1 },
                       sm_size_ := 72 }],
        gsl_engine_ := some 5,
        trace := [Call.calloc 80, Call.calloc 8,
                  Call.SoundTriggerEngine_Create ST_SM_ID_SVA_KWD, Call.LoadSoundModel 2 8,
                  Call.calloc 72, Call.SoundTriggerEngine_Create ST_SM_ID_SVA_GMM,
                  Call.LoadSoundModel 5 72] }) := by
    decide!
  ⟨h, C8_first_stage_engine_of_v3 Env.nominal
    (qal_st_sound_model.v3 [⟨ST_SM_ID_SVA_KWD, 8, 0⟩, ⟨ST_SM_ID_SVA_GMM, 8, 8⟩]) false
    (Stream.init false) _ rfl rfl ⟨⟨ST_SM_ID_SVA_GMM, 8, 8⟩, by decide, rfl⟩ h⟩

/-- C8 as stated fails: for a container with two GMM records the engines created
for them are the engines 2 and 5 (in record order), and the first-stage engine
is engine 5, the one of the second GMM record, not of the first. -/
theorem C8_counterexample :
    (LoadSoundModel Env.nominal
        (some (qal_st_sound_model.v3 [⟨ST_SM_ID_SVA_GMM, 8, 0⟩, ⟨ST_SM_ID_SVA_GMM, 8, 8⟩]))
        false (Stream.init false)).map
      (fun x => (x.1, x.2.engines_.map (fun e => (e.id_, e.engine_)), x.2.gsl_engine_)) =
      some (0, [(ST_SM_ID_SVA_GMM, 2), (ST_SM_ID_SVA_GMM, 5)], some 5) := by
  decide!

/-! ## Detection events -/

theorem SetDetectedToEngines.loop_run (d : Bool) (engs : List EngineCfg) (st : Stream) :
    SetDetectedToEngines.loop d engs st =
      some ((), { st with
        trace := st.trace ++ (engs.filter (fun e => decide (e.id_ ≠ ST_SM_ID_SVA_GMM))).map
          (fun e => Call.SetDetected e.engine_ d) }) := by
  induction engs generalizing st with
  | nil => simp [SetDetectedToEngines.loop]
  | cons e es ih =>
    by_cases h : e.id_ = ST_SM_ID_SVA_GMM
    · simp [SetDetectedToEngines.loop, EngineCfg.GetEngineId, h, ih]
    · simp [SetDetectedToEngines.loop, EngineCfg.GetEngineId, EngineCfg.GetEngine, h, ih]

/-- The run of `notifyClient` on a stream with a first-stage engine, a reader and
a recognition config: it returns, it changes nothing but the trace, it makes no
engine call other than the query of the detection info, and the callback is
made when the event can be built and a callback is registered. -/
theorem notifyClient_run (env : Env) (st : Stream) (g : SoundTriggerEngine)
    (rd : QalRingBufferReader) (cfg : qal_st_recognition_config)
    (hg : st.gsl_engine_ = some g) (hr : st.reader_ = some rd)
    (hc : st.rec_config_ = some cfg) :
    ∃ (r : Int) (rest : List Call),
      notifyClient env st = some (r, { st with trace := st.trace ++ rest }) ∧
      (∀ x ∈ rest, x = Call.GetDetectionEventInfo g ∨ x = Call.calloc 0 ∨
        x = Call.reader_getIndices rd ∨ x = Call.callback_ cfg.cookie) ∧
      (st.sound_model_type_ = QAL_SOUND_MODEL_TYPE_KEYPHRASE → st.has_callback_ = true →
        env.avail st.trace.length = true → env.avail (st.trace.length + 1) = true →
        env.avail (st.trace.length + 2) = true → Call.callback_ cfg.cookie ∈ rest) := by
  unfold notifyClient GenerateCallbackEvent
  by_cases hk : st.sound_model_type_ = QAL_SOUND_MODEL_TYPE_KEYPHRASE
  · by_cases a0 : env.avail st.trace.length = true
    · by_cases a1 : env.avail (st.trace.length + 1) = true
      · by_cases a2 : env.avail (st.trace.length + 2) = true
        · by_cases hcb : st.has_callback_ = true
          · refine ⟨0, [Call.GetDetectionEventInfo g, Call.calloc 0, Call.calloc 0,
              Call.reader_getIndices rd, Call.callback_ cfg.cookie], ?_, ?_, ?_⟩
            · simp [hk, hg, hr, hc, a0, a1, a2, hcb]
            · intro x hx; simp at hx; tauto
            · intros; simp
          · refine ⟨0, [Call.GetDetectionEventInfo g, Call.calloc 0, Call.calloc 0,
              Call.reader_getIndices rd], ?_, ?_, ?_⟩
            · simp [hk, hg, hr, hc, a0, a1, a2, hcb]
            · intro x hx; simp at hx; tauto
            · intro _ h; exact absurd h hcb
        · refine ⟨- ENOMEM, [Call.GetDetectionEventInfo g, Call.calloc 0, Call.calloc 0],
            ?_, ?_, ?_⟩
          · simp [hk, hg, hr, hc, a0, a1, a2]
          · intro x hx; simp at hx; tauto
          · intro _ _ _ _ h; exact absurd h a2
      · refine ⟨- ENOMEM, [Call.GetDetectionEventInfo g, Call.calloc 0], ?_, ?_, ?_⟩
        · simp [hk, hg, hr, hc, a0, a1]
        · intro x hx; simp at hx; tauto
        · intro _ _ _ h; exact absurd h a1
    · refine ⟨- EINVAL, [Call.GetDetectionEventInfo g], ?_, ?_, ?_⟩
      · simp [hk, hg, hr, hc, a0]
      · intro x hx; simp at hx; tauto
      · intro _ _ h; exact absurd h a0
  · refine ⟨0, [], ?_, ?_, ?_⟩
    · simp [hk]
    · intro x hx; simp at hx
    · intro h; exact absurd h hk

/-- The case DETECTED of `StActive::ProcessEvent` on a first-stage detection, as
a function of the two tests of the source. -/
theorem detected_in_Active_run (env : Env) (fuel : Nat) (st : Stream)
    (cfg : qal_st_recognition_config)
    (hs : st.cur_state_ = ST_STATE_ACTIVE) (hc : st.rec_config_ = some cfg) :
    ProcessEvent env (fuel + 1) (.ST_EV_DETECTED GMM_DETECTED) st =
      (if cfg.capture_requested = false ∧ st.engines_.length = 1 then
        (notifyClient env { st with
          prev_state_ := some ST_STATE_ACTIVE, cur_state_ := ST_STATE_DETECTED,
          pending_stop_ := true, timer_stop_waiting_ := false,
          trace := st.trace ++ [Call.timer_start_cond_notify] }).map (fun p => (0, p.2))
      else if st.engines_.length = 1 then
        (notifyClient env { st with
          prev_state_ := some ST_STATE_ACTIVE, cur_state_ := ST_STATE_BUFFERING,
          trace := st.trace ++
            (st.engines_.filter (fun e => decide (e.id_ ≠ ST_SM_ID_SVA_GMM))).map
              (fun e => Call.SetDetected e.engine_ true) }).map (fun p => (0, p.2))
      else
        some (0, { st with
          prev_state_ := some ST_STATE_ACTIVE, cur_state_ := ST_STATE_BUFFERING,
          trace := st.trace ++
            (st.engines_.filter (fun e => decide (e.id_ ≠ ST_SM_ID_SVA_GMM))).map
              (fun e => Call.SetDetected e.engine_ true) })) := by
  simp only [ProcessEvent, StActive.ProcessEvent, TransitTo, GetCurrentStateId, PostDelayedStop,
    SetDetectedToEngines, bind_assoc, pure_bind]
  simp only [run_bind, run_get, hs, hc, run_deref_some, Option.some_bind]
  by_cases h1 : cfg.capture_requested = false ∧ st.engines_.length = 1
  · obtain ⟨h1a, h1b⟩ := h1
    simp [h1a, h1b, hc, hs, Option.map]
  · by_cases h2 : st.engines_.length = 1
    · have h3 : cfg.capture_requested = true := by
        cases hh : cfg.capture_requested
        · exact absurd ⟨hh, h2⟩ h1
        · rfl
      simp [h3, h2, hc, hs, SetDetectedToEngines.loop_run]
    · simp [h2, hc, hs, SetDetectedToEngines.loop_run]

/-- C9.  On Detected(GMM_DET) in Active the event returns 0 and: if capture is
not requested and the engine list has exactly one engine, the stream is in
Detected with `pending_stop_` set; in every other case it is in Buffering,
`pending_stop_` is as it was, and the calls made start with one
SetDetected(true) for each engine whose id is not GMM, in engine order, with no
other SetDetected after them. -/
theorem C9_first_stage_detection_in_Active (env : Env) (fuel : Nat) (st : Stream)
    (cfg : qal_st_recognition_config) (g : SoundTriggerEngine) (rd : QalRingBufferReader)
    (hs : st.cur_state_ = ST_STATE_ACTIVE) (hc : st.rec_config_ = some cfg)
    (hg : st.gsl_engine_ = some g) (hr : st.reader_ = some rd) :
    ∃ st2 : Stream,
      ProcessEvent env (fuel + 1) (.ST_EV_DETECTED GMM_DETECTED) st = some (0, st2) ∧
      (cfg.capture_requested = false ∧ st.engines_.length = 1 →
        st2.cur_state_ = ST_STATE_DETECTED ∧ st2.pending_stop_ = true) ∧
      (¬ (cfg.capture_requested = false ∧ st.engines_.length = 1) →
        st2.cur_state_ = ST_STATE_BUFFERING ∧ st2.pending_stop_ = st.pending_stop_ ∧
        ∃ rest : List Call,
          st2.trace = st.trace ++
            (st.engines_.filter (fun e => decide (e.id_ ≠ ST_SM_ID_SVA_GMM))).map
              (fun e => Call.SetDetected e.engine_ true) ++ rest ∧
          ∀ x ∈ rest, ∀ (e : SoundTriggerEngine) (d : Bool), x ≠ Call.SetDetected e d) := by
  rw [detected_in_Active_run env fuel st cfg hs hc]
  by_cases h1 : cfg.capture_requested = false ∧ st.engines_.length = 1
  · rw [if_pos h1]
    obtain ⟨r, rest, hn, -, -⟩ := notifyClient_run env
      { st with
        prev_state_ := some ST_STATE_ACTIVE, cur_state_ := ST_STATE_DETECTED,
        pending_stop_ := true, timer_stop_waiting_ := false,
        trace := st.trace ++ [Call.timer_start_cond_notify] } g rd cfg hg hr hc
    rw [hn]
    exact ⟨_, rfl, fun _ => ⟨rfl, rfl⟩, fun h => absurd h1 h⟩
  · rw [if_neg h1]
    by_cases h2 : st.engines_.length = 1
    · rw [if_pos h2]
      obtain ⟨r, rest, hn, hrest, -⟩ := notifyClient_run env
        { st with
          prev_state_ := some ST_STATE_ACTIVE, cur_state_ := ST_STATE_BUFFERING,
          trace := st.trace ++
            (st.engines_.filter (fun e => decide (e.id_ ≠ ST_SM_ID_SVA_GMM))).map
              (fun e => Call.SetDetected e.engine_ true) } g rd cfg hg hr hc
      rw [hn]
      refine ⟨_, rfl, fun h => absurd h h1, fun _ => ⟨rfl, rfl, rest, rfl, ?_⟩⟩
      intro x hx e d hxe
      rcases hrest x hx with h | h | h | h <;> rw [h] at hxe <;> exact Call.noConfusion hxe
    · rw [if_neg h2]
      exact ⟨_, rfl, fun h => absurd h h1, fun _ => ⟨rfl, rfl, [], by simp, by simp⟩⟩

/-- C10.  On Detected(GMM_DET) in Active: a client callback is made only if the
engine list has exactly one engine; with exactly one engine, a keyphrase model,
a registered callback and the detection event built (the engine has detection
info and the two allocations succeed) the callback is made, with the cookie of
the recognition config; and with any other number of engines the stream moves
to Buffering without a client callback. -/
theorem C10_notify_iff_single_engine (env : Env) (fuel : Nat) (st : Stream)
    (cfg : qal_st_recognition_config) (g : SoundTriggerEngine) (rd : QalRingBufferReader)
    (hs : st.cur_state_ = ST_STATE_ACTIVE) (hc : st.rec_config_ = some cfg)
    (hg : st.gsl_engine_ = some g) (hr : st.reader_ = some rd) :
    ∃ (st2 : Stream) (calls : List Call),
      ProcessEvent env (fuel + 1) (.ST_EV_DETECTED GMM_DETECTED) st = some (0, st2) ∧
      st2.trace = st.trace ++ calls ∧
      ((∃ k, Call.callback_ k ∈ calls) → st.engines_.length = 1) ∧
      (st.engines_.length = 1 → st.sound_model_type_ = QAL_SOUND_MODEL_TYPE_KEYPHRASE →
        st.has_callback_ = true → (∀ n, env.avail n = true) →
        Call.callback_ cfg.cookie ∈ calls) ∧
      (st.engines_.length ≠ 1 →
        st2.cur_state_ = ST_STATE_BUFFERING ∧ ∀ k, Call.callback_ k ∉ calls) := by
  rw [detected_in_Active_run env fuel st cfg hs hc]
  by_cases h1 : cfg.capture_requested = false ∧ st.engines_.length = 1
  · rw [if_pos h1]
    obtain ⟨r, rest, hn, -, hcb⟩ := notifyClient_run env
      { st with
        prev_state_ := some ST_STATE_ACTIVE, cur_state_ := ST_STATE_DETECTED,
        pending_stop_ := true, timer_stop_waiting_ := false,
        trace := st.trace ++ [Call.timer_start_cond_notify] } g rd cfg hg hr hc
    rw [hn]
    refine ⟨_, [Call.timer_start_cond_notify] ++ rest, rfl, by simp, fun _ => h1.2, ?_,
      fun h => absurd h1.2 h⟩
    intro _ hk hb ha
    exact List.mem_append_right _ (hcb hk hb (ha _) (ha _) (ha _))
  · rw [if_neg h1]
    by_cases h2 : st.engines_.length = 1
    · rw [if_pos h2]
      obtain ⟨r, rest, hn, -, hcb⟩ := notifyClient_run env
        { st with
          prev_state_ := some ST_STATE_ACTIVE, cur_state_ := ST_STATE_BUFFERING,
          trace := st.trace ++
            (st.engines_.filter (fun e => decide (e.id_ ≠ ST_SM_ID_SVA_GMM))).map
              (fun e => Call.SetDetected e.engine_ true) } g rd cfg hg hr hc
      rw [hn]
      refine ⟨_, (st.engines_.filter (fun e => decide (e.id_ ≠ ST_SM_ID_SVA_GMM))).map
        (fun e => Call.SetDetected e.engine_ true) ++ rest, rfl, by simp, fun _ => h2, ?_,
        fun h => absurd h2 h⟩
      intro _ hk hb ha
      exact List.mem_append_right _ (hcb hk hb (ha _) (ha _) (ha _))
    · rw [if_neg h2]
      refine ⟨_, (st.engines_.filter (fun e => decide (e.id_ ≠ ST_SM_ID_SVA_GMM))).map
        (fun e => Call.SetDetected e.engine_ true), rfl, rfl, ?_, fun h => absurd h h2,
        fun _ => ⟨rfl, ?_⟩⟩
      · rintro ⟨k, hk⟩
        simp at hk
      · intro k hk
        simp at hk

/-- Witness for C9: an Active stream with a keyword-verifier engine after the
first-stage engine, capture not requested. -/
theorem C9_first_stage_detection_in_Active_witness :
    (Stream.sample ST_STATE_ACTIVE false [EngineCfg.kwd]).cur_state_ = ST_STATE_ACTIVE ∧
    (Stream.sample ST_STATE_ACTIVE false [EngineCfg.kwd]).rec_config_ =
      some (qal_st_recognition_config.bare false [⟨0, 1, 40, []⟩]) ∧
    (Stream.sample ST_STATE_ACTIVE false [EngineCfg.kwd]).gsl_engine_ = some 0 ∧
    (Stream.sample ST_STATE_ACTIVE false [EngineCfg.kwd]).reader_ =
      some { buffer := 0, index := 0 } ∧
    ∃ st2 : Stream,
      ProcessEvent Env.nominal (0 + 1) (.ST_EV_DETECTED GMM_DETECTED)
        (Stream.sample ST_STATE_ACTIVE false [EngineCfg.kwd]) = some (0, st2) ∧
      ((qal_st_recognition_config.bare false [⟨0, 1, 40, []⟩]).capture_requested = false ∧
          (Stream.sample ST_STATE_ACTIVE false [EngineCfg.kwd]).engines_.length = 1 →
        st2.cur_state_ = ST_STATE_DETECTED ∧ st2.pending_stop_ = true) ∧
      (¬ ((qal_st_recognition_config.bare false [⟨0, 1, 40, []⟩]).capture_requested = false ∧
          (Stream.sample ST_STATE_ACTIVE false [EngineCfg.kwd]).engines_.length = 1) →
        st2.cur_state_ = ST_STATE_BUFFERING ∧
        st2.pending_stop_ = (Stream.sample ST_STATE_ACTIVE false [EngineCfg.kwd]).pending_stop_ ∧
        ∃ rest : List Call,
          st2.trace = (Stream.sample ST_STATE_ACTIVE false [EngineCfg.kwd]).trace ++
            ((Stream.sample ST_STATE_ACTIVE false [EngineCfg.kwd]).engines_.filter
              (fun e => decide (e.id_ ≠ ST_SM_ID_SVA_GMM))).map
              (fun e => Call.SetDetected e.engine_ true) ++ rest ∧
          ∀ x ∈ rest, ∀ (e : SoundTriggerEngine) (d : Bool), x ≠ Call.SetDetected e d) :=
  ⟨rfl, rfl, rfl, rfl,
    C9_first_stage_detection_in_Active Env.nominal 0
      (Stream.sample ST_STATE_ACTIVE false [EngineCfg.kwd])
      (qal_st_recognition_config.bare false [⟨0, 1, 40, []⟩]) 0 { buffer := 0, index := 0 }
      rfl rfl rfl rfl⟩

/-- Witness for C10: an Active stream with the first-stage engine only, a
keyphrase model and a registered callback, every interaction succeeding. -/
theorem C10_notify_iff_single_engine_witness :
    (Stream.sample ST_STATE_ACTIVE false []).cur_state_ = ST_STATE_ACTIVE ∧
    (Stream.sample ST_STATE_ACTIVE false []).rec_config_ =
      some (qal_st_recognition_config.bare false [⟨0, 1, 40, []⟩]) ∧
    (Stream.sample ST_STATE_ACTIVE false []).gsl_engine_ = some 0 ∧
    (Stream.sample ST_STATE_ACTIVE false []).reader_ = some { buffer := 0, index := 0 } ∧
    ∃ (st2 : Stream) (calls : List Call),
      ProcessEvent Env.nominal (0 + 1) (.ST_EV_DETECTED GMM_DETECTED)
        (Stream.sample ST_STATE_ACTIVE false []) = some (0, st2) ∧
      st2.trace = (Stream.sample ST_STATE_ACTIVE false []).trace ++ calls ∧
      ((∃ k, Call.callback_ k ∈ calls) →
        (Stream.sample ST_STATE_ACTIVE false []).engines_.length = 1) ∧
      ((Stream.sample ST_STATE_ACTIVE false []).engines_.length = 1 →
        (Stream.sample ST_STATE_ACTIVE false []).sound_model_type_ =
          QAL_SOUND_MODEL_TYPE_KEYPHRASE →
        (Stream.sample ST_STATE_ACTIVE false []).has_callback_ = true →
        (∀ n, Env.nominal.avail n = true) →
        Call.callback_ (qal_st_recognition_config.bare false [⟨0, 1, 40, []⟩]).cookie ∈ calls) ∧
      ((Stream.sample ST_STATE_ACTIVE false []).engines_.length ≠ 1 →
        st2.cur_state_ = ST_STATE_BUFFERING ∧ ∀ k, Call.callback_ k ∉ calls) :=
  ⟨rfl, rfl, rfl, rfl,
    C10_notify_iff_single_engine Env.nominal 0 (Stream.sample ST_STATE_ACTIVE false [])
      (qal_st_recognition_config.bare false [⟨0, 1, 40, []⟩]) 0 { buffer := 0, index := 0 }
      rfl rfl rfl rfl⟩

/-! ## The engine and device loops of the state handlers -/

theorem forEngines_run (env : Env) (op : SoundTriggerEngine → Call) (engs : List EngineCfg)
    (s : Int) (st : Stream) :
    forEngines env op engs s st =
      some (if engs.length = 0 then s else env.status (st.trace.length + engs.length - 1),
        { st with trace := st.trace ++ engs.map (fun e => op e.engine_) }) := by
  induction engs generalizing s st with
  | nil => simp [forEngines]
  | cons e es ih =>
    simp only [forEngines, run_bind, run_call, Option.some_bind, ih, EngineCfg.GetEngine]
    congr 1
    rw [Prod.mk.injEq]
    constructor
    · by_cases h : es.length = 0
      · simp [h]
      · simp only [h, if_false, List.length_append, List.length_singleton, List.length_cons,
          List.length_nil, Nat.add_one_ne_zero]
        congr 1
        omega
    · simp

theorem forEnginesBreak_ok (env : Env) (op : SoundTriggerEngine → Call) (engs : List EngineCfg)
    (s : Int) (st : Stream)
    (h : ∀ i, i < engs.length → env.status (st.trace.length + i) = 0) :
    forEnginesBreak env op engs s st =
      some (if engs.length = 0 then s else 0,
        { st with trace := st.trace ++ engs.map (fun e => op e.engine_) }) := by
  induction engs generalizing s st with
  | nil => simp [forEnginesBreak]
  | cons e es ih =>
    have h0 : env.status st.trace.length = 0 := by
      have := h 0 (by simp)
      simpa using this
    have hrest : ∀ i, i < es.length →
        env.status (({ st with trace := st.trace ++ [op e.engine_] } : Stream).trace.length + i)
          = 0 := by
      intro i hi
      have := h (i + 1) (by simp; omega)
      simp only [List.length_append, List.length_singleton]
      rw [← this]
      congr 1
      omega
    simp only [forEnginesBreak, run_bind, run_call, Option.some_bind, EngineCfg.GetEngine, h0]
    simp only [ne_eq, not_true_eq_false, if_false, run_bind, run_pure, Option.some_bind]
    rw [ih 0 _ hrest]
    simp

theorem forEnginesBreak_fail (env : Env) (op : SoundTriggerEngine → Call)
    (engs : List EngineCfg) (s : Int) (st : Stream) (k : Nat) (hk : k < engs.length)
    (h : ∀ i, i < k → env.status (st.trace.length + i) = 0)
    (hf : env.status (st.trace.length + k) ≠ 0) :
    forEnginesBreak env op engs s st =
      some (env.status (st.trace.length + k),
        { st with trace := st.trace ++ (engs.take (k + 1)).map (fun e => op e.engine_) }) := by
  induction engs generalizing s st k with
  | nil => simp at hk
  | cons e es ih =>
    cases k with
    | zero =>
      have hf0 : env.status st.trace.length ≠ 0 := by simpa using hf
      simp [forEnginesBreak, EngineCfg.GetEngine, hf0]
    | succ k =>
      have h0 : env.status st.trace.length = 0 := by
        have := h 0 (by omega)
        simpa using this
      have hrest : ∀ i, i < k →
          env.status (({ st with trace := st.trace ++ [op e.engine_] } : Stream).trace.length + i)
            = 0 := by
        intro i hi
        have := h (i + 1) (by omega)
        simp only [List.length_append, List.length_singleton]
        rw [← this]
        congr 1
        omega
      have hfk : env.status
          (({ st with trace := st.trace ++ [op e.engine_] } : Stream).trace.length + k) ≠ 0 := by
        simp only [List.length_append, List.length_singleton]
        intro hz
        apply hf
        rw [← hz]
        congr 1
        omega
      simp only [forEnginesBreak, run_bind, run_call, Option.some_bind, EngineCfg.GetEngine, h0]
      simp only [ne_eq, not_true_eq_false, if_false, run_bind, run_pure, Option.some_bind]
      rw [ih 0 _ k (by simpa using hk) hrest hfk]
      simp only [List.length_append, List.length_singleton, List.take_succ_cons, List.map_cons,
        List.append_assoc, List.singleton_append]
      congr 2
      congr 1
      omega

theorem stopDevice_run (env : Env) (s : Int) (st : Stream) :
    stopDevice env s st =
      some (if st.mDevices.length = 0 then s else env.status st.trace.length,
        { st with
          trace := st.trace ++ (st.mDevices.take 1).flatMap
            (fun dev => [Call.dev_stop dev, Call.deregisterDevice dev]) }) := by
  unfold stopDevice
  cases hd : st.mDevices with
  | nil =>
    simp [hd]
    cases st
    simp_all
  | cons dev rest => simp [hd]

theorem StBuffering.stopBuffering_run (env : Env) (s : Int) (st : Stream) :
    StBuffering.stopBuffering env s st =
      some (if st.engines_.length = 0 then s
          else env.status (st.trace.length + st.engines_.length - 1),
        { st with
          trace := st.trace ++ st.engines_.map (fun e => Call.StopBuffering e.engine_) ++
            st.reader_.toList.map Call.reader_reset }) := by
  unfold StBuffering.stopBuffering
  cases hr : st.reader_ with
  | none => simp [hr, forEngines_run]
  | some rd => simp [hr, forEngines_run]

/-- A run whose final stream is known returns some status with it. -/
theorem exists_status_of_map_snd {α : Type} (x : Option (α × Stream)) (s : Stream)
    (h : x.map Prod.snd = some s) : ∃ a, x = some (a, s) := by
  cases x with
  | none => simp at h
  | some p =>
    obtain ⟨a, s1⟩ := p
    simp at h
    exact ⟨a, by rw [h]⟩

/-- A positive second-stage verdict sets a bit of the mask tested by the
Buffering handler, whatever detection state was recorded before. -/
theorem second_stage_bit (x det : Nat) (h : det = CNN_DETECTED ∨ det = VOP_DETECTED) :
    (x ||| det) &&& (CNN_DETECTED ||| VOP_DETECTED) ≠ 0 := by
  intro hz
  rcases h with rfl | rfl
  · have := congrArg (fun n => n.testBit 1) hz
    simp [CNN_DETECTED, VOP_DETECTED, Nat.testBit_and, Nat.testBit_or] at this
    exact absurd (this (Or.inr (by decide))) (by decide)
  · have := congrArg (fun n => n.testBit 3) hz
    simp [CNN_DETECTED, VOP_DETECTED, Nat.testBit_and, Nat.testBit_or] at this
    exact absurd (this (Or.inr (by decide))) (by decide)

/-- The case DETECTED of `StBuffering::ProcessEvent` on a positive second-stage
verdict, up to the call of `notifyClient`. -/
theorem positive_verdict_in_Buffering_run (env : Env) (fuel : Nat) (st : Stream)
    (cfg : qal_st_recognition_config) (det : Nat)
    (hs : st.cur_state_ = ST_STATE_BUFFERING) (hc : st.rec_config_ = some cfg)
    (hdet : det = CNN_DETECTED ∨ det = VOP_DETECTED) :
    ProcessEvent env (fuel + 1) (.ST_EV_DETECTED det) st =
      if cfg.capture_requested = false then
        (notifyClient env { st with
          detection_state_ := ENGINE_IDLE, prev_state_ := some ST_STATE_BUFFERING,
          cur_state_ := ST_STATE_DETECTED,
          trace := st.trace ++ st.engines_.map (fun e => Call.StopBuffering e.engine_) ++
            st.reader_.toList.map Call.reader_reset }).bind
          (fun p => (do
            let rec_config_ ← deref (← get).rec_config_
            let cur ← GetCurrentStateId
            if !rec_config_.capture_requested ∧
                (cur = ST_STATE_BUFFERING ∨ cur = ST_STATE_DETECTED) then
              PostDelayedStop
            return (if st.engines_.length = 0 then 0
              else env.status (st.trace.length + st.engines_.length - 1)) : M Int) p.2)
      else
        (notifyClient env { st with detection_state_ := ENGINE_IDLE }).bind
          (fun p => (do
            let rec_config_ ← deref (← get).rec_config_
            let cur ← GetCurrentStateId
            if !rec_config_.capture_requested ∧
                (cur = ST_STATE_BUFFERING ∨ cur = ST_STATE_DETECTED) then
              PostDelayedStop
            return 0 : M Int) p.2) := by
  have hb := second_stage_bit st.detection_state_ det hdet
  have hg1 : det ≠ GMM_DETECTED := by rcases hdet with rfl | rfl <;> decide
  have hr1 : det ≠ CNN_REJECTED := by rcases hdet with rfl | rfl <;> decide
  have hr2 : det ≠ VOP_REJECTED := by rcases hdet with rfl | rfl <;> decide
  cases hcap : cfg.capture_requested
  · simp [ProcessEvent, StBuffering.ProcessEvent, hs, hc, hg1, hr1, hr2, hb, hcap,
      StBuffering.stopBuffering_run, TransitTo]
  · simp [ProcessEvent, StBuffering.ProcessEvent, hs, hc, hg1, hr1, hr2, hb, hcap,
      StBuffering.stopBuffering_run, TransitTo]

/-- C11.  On a positive second-stage verdict (CNN_DET or VOP_DET) in Buffering
the event returns and the client callback is made (when the event can be built
and a callback is registered).  If capture is not requested, the calls start
with one StopBuffering per engine, in engine order, and the reset of the
reader, the state becomes Detected, and the delayed stop is armed:
`pending_stop_` is set and the timer is signalled.  If capture is requested,
the state remains Buffering, `pending_stop_` is as it was, the timer is not
signalled and no engine gets StopBuffering. -/
theorem C11_positive_verdict_in_Buffering (env : Env) (fuel : Nat) (st : Stream)
    (cfg : qal_st_recognition_config) (g : SoundTriggerEngine) (rd : QalRingBufferReader)
    (det : Nat)
    (hs : st.cur_state_ = ST_STATE_BUFFERING) (hc : st.rec_config_ = some cfg)
    (hg : st.gsl_engine_ = some g) (hr : st.reader_ = some rd)
    (hdet : det = CNN_DETECTED ∨ det = VOP_DETECTED) :
    ∃ (status : Int) (st2 : Stream) (calls : List Call),
      ProcessEvent env (fuel + 1) (.ST_EV_DETECTED det) st = some (status, st2) ∧
      st2.trace = st.trace ++ calls ∧
      (st.sound_model_type_ = QAL_SOUND_MODEL_TYPE_KEYPHRASE → st.has_callback_ = true →
        (∀ n, env.avail n = true) → Call.callback_ cfg.cookie ∈ calls) ∧
      (cfg.capture_requested = false →
        st2.cur_state_ = ST_STATE_DETECTED ∧ st2.pending_stop_ = true ∧
        ∃ rest : List Call,
          calls = st.engines_.map (fun e => Call.StopBuffering e.engine_) ++
            [Call.reader_reset rd] ++ rest ∧
          Call.timer_start_cond_notify ∈ rest) ∧
      (cfg.capture_requested = true →
        st2.cur_state_ = ST_STATE_BUFFERING ∧ st2.pending_stop_ = st.pending_stop_ ∧
        Call.timer_start_cond_notify ∉ calls ∧
        ∀ e : SoundTriggerEngine, Call.StopBuffering e ∉ calls) := by
  rw [positive_verdict_in_Buffering_run env fuel st cfg det hs hc hdet]
  cases hcap : cfg.capture_requested
  · rw [if_pos rfl]
    obtain ⟨r, rest, hn, -, hcb⟩ := notifyClient_run env
      { st with
        detection_state_ := ENGINE_IDLE, prev_state_ := some ST_STATE_BUFFERING,
        cur_state_ := ST_STATE_DETECTED,
        trace := st.trace ++ st.engines_.map (fun e => Call.StopBuffering e.engine_) ++
          st.reader_.toList.map Call.reader_reset } g rd cfg hg hr hc
    rw [hn]
    refine ⟨if st.engines_.length = 0 then 0
        else env.status (st.trace.length + st.engines_.length - 1),
      { st with
        detection_state_ := ENGINE_IDLE, prev_state_ := some ST_STATE_BUFFERING,
        cur_state_ := ST_STATE_DETECTED, pending_stop_ := true, timer_stop_waiting_ := false,
        trace := st.trace ++ st.engines_.map (fun e => Call.StopBuffering e.engine_) ++
          st.reader_.toList.map Call.reader_reset ++ rest ++ [Call.timer_start_cond_notify] },
      st.engines_.map (fun e => Call.StopBuffering e.engine_) ++
        [Call.reader_reset rd] ++ (rest ++ [Call.timer_start_cond_notify]), ?_, ?_, ?_, ?_, ?_⟩
    · simp [hc, hcap, GetCurrentStateId, PostDelayedStop]
    · simp [hr]
    · intro hk hb ha
      exact List.mem_append_right _ (List.mem_append_left _ (hcb hk hb (ha _) (ha _) (ha _)))
    · intro _
      exact ⟨rfl, rfl, _, rfl, by simp⟩
    · intro h
      exact Bool.noConfusion h
  · rw [if_neg (by simp)]
    obtain ⟨r, rest, hn, hrest, hcb⟩ := notifyClient_run env
      { st with detection_state_ := ENGINE_IDLE } g rd cfg hg hr hc
    rw [hn]
    refine ⟨0, { st with detection_state_ := ENGINE_IDLE, trace := st.trace ++ rest }, rest,
      ?_, ?_, ?_, ?_, ?_⟩
    · simp [hc, hcap, GetCurrentStateId, PostDelayedStop]
    · rfl
    · intro hk hb ha
      exact hcb hk hb (ha _) (ha _) (ha _)
    · intro h
      exact Bool.noConfusion h
    · intro _
      refine ⟨hs, rfl, ?_, ?_⟩
      · intro hx
        rcases hrest _ hx with h | h | h | h <;> exact Call.noConfusion h
      · intro e hx
        rcases hrest _ hx with h | h | h | h <;> exact Call.noConfusion h

/-- The case DETECTED of `StBuffering::ProcessEvent` on a second-stage rejection,
up to the loop that restarts the engines. -/
theorem rejection_in_Buffering_run (env : Env) (fuel : Nat) (st : Stream) (det : Nat)
    (hs : st.cur_state_ = ST_STATE_BUFFERING)
    (hdet : det = CNN_REJECTED ∨ det = VOP_REJECTED) :
    ProcessEvent env (fuel + 1) (.ST_EV_DETECTED det) st =
      (forEnginesBreak env Call.RestartRecognition st.engines_
        (if st.engines_.length = 0 then 0
          else env.status (st.trace.length + st.engines_.length - 1))
        { st with
          detection_state_ := ENGINE_IDLE,
          trace := st.trace ++ st.engines_.map (fun e => Call.StopBuffering e.engine_) ++
            st.reader_.toList.map Call.reader_reset }).bind
        (fun p => some (p.1, { p.2 with
          prev_state_ := some p.2.cur_state_,
          cur_state_ := if p.1 = 0 then ST_STATE_ACTIVE else ST_STATE_LOADED })) := by
  have hg1 : det ≠ GMM_DETECTED := by rcases hdet with rfl | rfl <;> decide
  simp [ProcessEvent, StBuffering.ProcessEvent, hs, hg1, hdet, StBuffering.stopBuffering_run,
    TransitTo]
  congr 1
  funext p
  split <;> simp_all

/-- C12.  On a second-stage rejection (CNN_REJ or VOP_REJ) in Buffering the
event returns, `detection_state_` is 0, and the calls made are: one
StopBuffering per engine, the reset of the reader (when there is one), and
RestartRecognition for the engines in order, up to and including the first one
that fails; no client callback is among them.  The status is 0 and the stream
is in Active when every restart succeeds (all engines are then restarted); the
status is that of the failing restart and the stream is in Loaded when one
fails. -/
theorem C12_rejection_in_Buffering (env : Env) (fuel : Nat) (st : Stream) (det : Nat)
    (hs : st.cur_state_ = ST_STATE_BUFFERING)
    (hdet : det = CNN_REJECTED ∨ det = VOP_REJECTED) :
    ∃ (status : Int) (st2 : Stream) (n : Nat),
      ProcessEvent env (fuel + 1) (.ST_EV_DETECTED det) st = some (status, st2) ∧
      st2.detection_state_ = 0 ∧
      st2.trace = st.trace ++ st.engines_.map (fun e => Call.StopBuffering e.engine_) ++
        st.reader_.toList.map Call.reader_reset ++
        (st.engines_.take n).map (fun e => Call.RestartRecognition e.engine_) ∧
      (∀ k, Call.callback_ k ∉ st2.trace.drop st.trace.length) ∧
      ((∀ i, i < st.engines_.length →
          env.status (st.trace.length + st.engines_.length + st.reader_.toList.length + i) = 0) →
        status = 0 ∧ st2.cur_state_ = ST_STATE_ACTIVE ∧ st.engines_.length ≤ n) ∧
      ((∃ i, i < st.engines_.length ∧
          env.status (st.trace.length + st.engines_.length + st.reader_.toList.length + i) ≠ 0) →
        status ≠ 0 ∧ st2.cur_state_ = ST_STATE_LOADED ∧ 0 < n ∧ n ≤ st.engines_.length ∧
        status =
          env.status (st.trace.length + st.engines_.length + st.reader_.toList.length + (n - 1)) ∧
        ∀ i, i < n - 1 →
          env.status (st.trace.length + st.engines_.length + st.reader_.toList.length + i) = 0) := by
  rw [rejection_in_Buffering_run env fuel st det hs hdet]
  have hlen : ({ st with
      detection_state_ := ENGINE_IDLE,
      trace := st.trace ++ st.engines_.map (fun e => Call.StopBuffering e.engine_) ++
        st.reader_.toList.map Call.reader_reset } : Stream).trace.length =
      st.trace.length + st.engines_.length + st.reader_.toList.length := by
    simp only [List.length_append, List.length_map]
  have hnocb : ∀ (n k : Nat), Call.callback_ k ∉
      (st.trace ++ st.engines_.map (fun e => Call.StopBuffering e.engine_) ++
        st.reader_.toList.map Call.reader_reset ++
        (st.engines_.take n).map (fun e => Call.RestartRecognition e.engine_)).drop
        st.trace.length := by
    intro n k
    simp only [List.append_assoc, List.drop_left]
    intro h
    rcases List.mem_append.1 h with h | h
    · obtain ⟨e, _, he⟩ := List.mem_map.1 h
      exact Call.noConfusion he
    · rcases List.mem_append.1 h with h | h
      · obtain ⟨e, _, he⟩ := List.mem_map.1 h
        exact Call.noConfusion he
      · obtain ⟨e, _, he⟩ := List.mem_map.1 h
        exact Call.noConfusion he
  by_cases hall : ∀ i, i < st.engines_.length →
      env.status (st.trace.length + st.engines_.length + st.reader_.toList.length + i) = 0
  · have hok := forEnginesBreak_ok env Call.RestartRecognition st.engines_
      (if st.engines_.length = 0 then 0
        else env.status (st.trace.length + st.engines_.length - 1))
      { st with
        detection_state_ := ENGINE_IDLE,
        trace := st.trace ++ st.engines_.map (fun e => Call.StopBuffering e.engine_) ++
          st.reader_.toList.map Call.reader_reset } (by rw [hlen]; exact hall)
    have hst : (if st.engines_.length = 0 then
        (if st.engines_.length = 0 then (0 : Int)
          else env.status (st.trace.length + st.engines_.length - 1)) else 0) = 0 := by
      split <;> simp_all
    rw [hst] at hok
    refine ⟨0, { st with
        detection_state_ := ENGINE_IDLE, prev_state_ := some ST_STATE_BUFFERING,
        cur_state_ := ST_STATE_ACTIVE,
        trace := st.trace ++ st.engines_.map (fun e => Call.StopBuffering e.engine_) ++
          st.reader_.toList.map Call.reader_reset ++
          st.engines_.map (fun e => Call.RestartRecognition e.engine_) },
      st.engines_.length, ?_, rfl, by simp, ?_, fun _ => ⟨rfl, rfl, le_refl _⟩, ?_⟩
    · rw [hok]
      simp [hs]
    · intro k
      simp
    · rintro ⟨i, hi, hne⟩
      exact absurd (hall i hi) hne
  · have hex : ∃ i, i < st.engines_.length ∧
        env.status (st.trace.length + st.engines_.length + st.reader_.toList.length + i) ≠ 0 := by
      by_contra hcon
      apply hall
      intro i hi
      by_contra hne
      exact hcon ⟨i, hi, hne⟩
    classical
    have hkspec := Nat.find_spec hex
    have hkmin := fun i (hi : i < Nat.find hex) => Nat.find_min hex hi
    generalize Nat.find hex = k at hkspec hkmin
    have hpre : ∀ i, i < k →
        env.status (st.trace.length + st.engines_.length + st.reader_.toList.length + i) = 0 := by
      intro i hi
      by_contra hne
      exact hkmin i hi ⟨by omega, hne⟩
    have hfail := forEnginesBreak_fail env Call.RestartRecognition st.engines_
      (if st.engines_.length = 0 then 0
        else env.status (st.trace.length + st.engines_.length - 1))
      { st with
        detection_state_ := ENGINE_IDLE,
        trace := st.trace ++ st.engines_.map (fun e => Call.StopBuffering e.engine_) ++
          st.reader_.toList.map Call.reader_reset } k hkspec.1
      (by rw [hlen]; exact hpre) (by rw [hlen]; exact hkspec.2)
    rw [hlen] at hfail
    refine ⟨env.status (st.trace.length + st.engines_.length + st.reader_.toList.length + k),
      { st with
        detection_state_ := ENGINE_IDLE, prev_state_ := some ST_STATE_BUFFERING,
        cur_state_ := ST_STATE_LOADED,
        trace := st.trace ++ st.engines_.map (fun e => Call.StopBuffering e.engine_) ++
          st.reader_.toList.map Call.reader_reset ++
          (st.engines_.take (k + 1)).map (fun e => Call.RestartRecognition e.engine_) },
      k + 1, ?_, rfl, rfl, ?_, ?_, ?_⟩
    · rw [hfail]
      simp [hs, hkspec.2]
    · intro j
      exact hnocb (k + 1) j
    · intro h
      exact absurd (h k hkspec.1) hkspec.2
    · intro _
      exact ⟨hkspec.2, rfl, by omega, hkspec.1, by simp, by simpa using hpre⟩

/-- The case START_RECOGNITION of `StDetected::ProcessEvent`. -/
theorem Start_in_Detected_run (env : Env) (fuel : Nat) (st : Stream) (restart_ : Bool)
    (hs : st.cur_state_ = ST_STATE_DETECTED) :
    ProcessEvent env (fuel + 1) (.ST_EV_START_RECOGNITION restart_) st =
      some (if st.engines_.length = 0 then 0
          else env.status (st.trace.length + 1 + st.engines_.length - 1),
        { st with
          pending_stop_ := false, timer_stop_waiting_ := true,
          prev_state_ := some ST_STATE_DETECTED,
          cur_state_ :=
            if (if st.engines_.length = 0 then (0 : Int)
              else env.status (st.trace.length + 1 + st.engines_.length - 1)) = 0
            then ST_STATE_ACTIVE else ST_STATE_LOADED,
          trace := st.trace ++ [Call.timer_wait_cond_notify] ++
            st.engines_.map (fun e => Call.RestartRecognition e.engine_) ++
            st.reader_.toList.map Call.reader_reset }) := by
  by_cases he : st.engines_.length = 0
  · have he2 : st.engines_ = [] := List.length_eq_zero.1 he
    cases hr : st.reader_ <;>
      simp [ProcessEvent, StDetected.ProcessEvent, hs, CancelDelayedStop, forEngines_run, hr,
        TransitTo, he2]
  · have he2 : ¬ st.engines_ = [] := fun h => he (List.length_eq_zero.2 h)
    by_cases h0 : env.status (st.trace.length + 1 + st.engines_.length - 1) = 0
    · have h1 : env.status (st.trace.length + st.engines_.length) = 0 := by
        rw [← h0]
        congr 1
        omega
      cases hr : st.reader_ <;>
        simp [ProcessEvent, StDetected.ProcessEvent, hs, CancelDelayedStop, forEngines_run, hr,
          TransitTo, he, he2, h1]
    · have h1 : env.status (st.trace.length + st.engines_.length) ≠ 0 := by
        intro hz
        apply h0
        rw [← hz]
        congr 1
        omega
      cases hr : st.reader_ <;>
        simp [ProcessEvent, StDetected.ProcessEvent, hs, CancelDelayedStop, forEngines_run, hr,
          TransitTo, he, he2, h1]

/-- C13.  StartRecognition in Detected returns with `pending_stop_` false, after
the timer has been told to stop waiting and RestartRecognition has been sent to
every engine, in engine order (and the reader reset); the one transition of the
event leaves Detected, and when every restart succeeds the status is 0 and the
transition is to Active. -/
theorem C13_Start_in_Detected (env : Env) (fuel : Nat) (st : Stream) (restart_ : Bool)
    (hs : st.cur_state_ = ST_STATE_DETECTED) :
    ∃ (status : Int) (st2 : Stream),
      ProcessEvent env (fuel + 1) (.ST_EV_START_RECOGNITION restart_) st = some (status, st2) ∧
      st2.pending_stop_ = false ∧
      st2.trace = st.trace ++ [Call.timer_wait_cond_notify] ++
        st.engines_.map (fun e => Call.RestartRecognition e.engine_) ++
        st.reader_.toList.map Call.reader_reset ∧
      st2.prev_state_ = some ST_STATE_DETECTED ∧
      (st2.cur_state_ = ST_STATE_ACTIVE ∨ st2.cur_state_ = ST_STATE_LOADED) ∧
      ((∀ i, i < st.engines_.length → env.status (st.trace.length + 1 + i) = 0) →
        status = 0 ∧ st2.cur_state_ = ST_STATE_ACTIVE) := by
  rw [Start_in_Detected_run env fuel st restart_ hs]
  refine ⟨_, _, rfl, rfl, rfl, rfl, ?_, ?_⟩
  · by_cases h0 : (if st.engines_.length = 0 then (0 : Int)
        else env.status (st.trace.length + 1 + st.engines_.length - 1)) = 0
    · exact Or.inl (if_pos h0)
    · exact Or.inr (if_neg h0)
  · intro hall
    have h0 : (if st.engines_.length = 0 then (0 : Int)
        else env.status (st.trace.length + 1 + st.engines_.length - 1)) = 0 := by
      split
      · rfl
      · have := hall (st.engines_.length - 1) (by omega)
        rw [← this]
        congr 1
        omega
    exact ⟨h0, if_pos h0⟩

/-- C14.  `InternalStopRecognition` commits the stop only if `pending_stop_` is
still set.  With `pending_stop_` false, in whatever state the stream is (after a
`CancelDelayedStop` it is in Active or Loaded), it dispatches no event and
returns with the stream as it was, no call made.  From Detected with
`pending_stop_` true it ends in Loaded with `pending_stop_` false, after
StopRecognition has been sent to every engine and the device has been stopped
and deregistered. -/
theorem C14_InternalStopRecognition (env : Env) (fuel : Nat) (st : Stream) :
    (st.pending_stop_ = false → InternalStopRecognition env fuel st = some ((), st)) ∧
    (st.cur_state_ = ST_STATE_DETECTED → st.pending_stop_ = true →
      InternalStopRecognition env (fuel + 1) st =
        some ((), { st with
          pending_stop_ := false, timer_stop_waiting_ := true,
          prev_state_ := some ST_STATE_DETECTED, cur_state_ := ST_STATE_LOADED,
          trace := st.trace ++ [Call.timer_wait_cond_notify] ++
            st.engines_.map (fun e => Call.StopRecognition e.engine_) ++
            (st.mDevices.take 1).flatMap
              (fun dev => [Call.dev_stop dev, Call.deregisterDevice dev]) })) := by
  constructor
  · intro hp
    simp [InternalStopRecognition, hp]
  · intro hs hp
    simp [InternalStopRecognition, hp, ProcessEvent, StDetected.ProcessEvent, hs, StDetected.stop,
      CancelDelayedStop, forEngines_run, stopDevice_run, TransitTo]

/-- C15.  StopRecognition in Active always returns, with the stream in Loaded,
after StopRecognition has been sent to every engine, in engine order, and the
device has been stopped and deregistered, whatever the statuses of these calls
are; before them come only the calls that re-balance the other streams when the
stream is paused. -/
theorem C15_Stop_in_Active (env : Env) (fuel : Nat) (st : Stream) (deferred_ : Bool)
    (hs : st.cur_state_ = ST_STATE_ACTIVE) :
    ∃ (status : Int) (pre : List Call),
      ProcessEvent env (fuel + 1) (.ST_EV_STOP_RECOGNITION deferred_) st =
        some (status, { st with
          prev_state_ := some ST_STATE_ACTIVE, cur_state_ := ST_STATE_LOADED,
          trace := st.trace ++ pre ++
            st.engines_.map (fun e => Call.StopRecognition e.engine_) ++
            (st.mDevices.take 1).flatMap
              (fun dev => [Call.dev_stop dev, Call.deregisterDevice dev]) }) ∧
      (st.paused_ = false → pre = []) ∧
      (∀ x ∈ pre, x = Call.UpdateSVACaptureProfile false ∨ x = Call.StopOtherSVAStreams ∨
        x = Call.StartOtherSVAStreams) := by
  by_cases hp : st.paused_ = true
  swap
  · obtain ⟨status, h⟩ := exists_status_of_map_snd
      (ProcessEvent env (fuel + 1) (.ST_EV_STOP_RECOGNITION deferred_) st)
      { st with
        prev_state_ := some ST_STATE_ACTIVE, cur_state_ := ST_STATE_LOADED,
        trace := st.trace ++ [] ++
          st.engines_.map (fun e => Call.StopRecognition e.engine_) ++
          (st.mDevices.take 1).flatMap
            (fun dev => [Call.dev_stop dev, Call.deregisterDevice dev]) }
      (by simp [ProcessEvent, StActive.ProcessEvent, hs, StActive.stop, hp, forEngines_run,
        stopDevice_run, TransitTo])
    exact ⟨status, [], h, fun _ => rfl, by simp⟩
  · cases ha : env.avail st.trace.length
    · obtain ⟨status, h⟩ := exists_status_of_map_snd
        (ProcessEvent env (fuel + 1) (.ST_EV_STOP_RECOGNITION deferred_) st)
        { st with
          prev_state_ := some ST_STATE_ACTIVE, cur_state_ := ST_STATE_LOADED,
          trace := st.trace ++ [Call.UpdateSVACaptureProfile false] ++
            st.engines_.map (fun e => Call.StopRecognition e.engine_) ++
            (st.mDevices.take 1).flatMap
              (fun dev => [Call.dev_stop dev, Call.deregisterDevice dev]) }
        (by simp [ProcessEvent, StActive.ProcessEvent, hs, StActive.stop, hp, ha, forEngines_run,
          stopDevice_run, TransitTo])
      exact ⟨status, [Call.UpdateSVACaptureProfile false], h, fun h => absurd hp (by simp [h]),
        by simp⟩
    · obtain ⟨status, h⟩ := exists_status_of_map_snd
        (ProcessEvent env (fuel + 1) (.ST_EV_STOP_RECOGNITION deferred_) st)
        { st with
          prev_state_ := some ST_STATE_ACTIVE, cur_state_ := ST_STATE_LOADED,
          trace := st.trace ++ [Call.UpdateSVACaptureProfile false, Call.StopOtherSVAStreams,
              Call.StartOtherSVAStreams] ++
            st.engines_.map (fun e => Call.StopRecognition e.engine_) ++
            (st.mDevices.take 1).flatMap
              (fun dev => [Call.dev_stop dev, Call.deregisterDevice dev]) }
        (by simp [ProcessEvent, StActive.ProcessEvent, hs, StActive.stop, hp, ha, forEngines_run,
          stopDevice_run, TransitTo])
      exact ⟨status, [Call.UpdateSVACaptureProfile false, Call.StopOtherSVAStreams,
        Call.StartOtherSVAStreams], h, fun h => absurd hp (by simp [h]), by simp⟩

/-- Witness for C11: a Buffering stream with a keyword-verifier engine after the
first-stage engine, capture not requested, receives the verdict CNN_DET. -/
theorem C11_positive_verdict_in_Buffering_witness :
    (Stream.sample ST_STATE_BUFFERING false [EngineCfg.kwd]).cur_state_ = ST_STATE_BUFFERING ∧
    (Stream.sample ST_STATE_BUFFERING false [EngineCfg.kwd]).rec_config_ =
      some (qal_st_recognition_config.bare false [⟨0, 1, 40, []⟩]) ∧
    (Stream.sample ST_STATE_BUFFERING false [EngineCfg.kwd]).gsl_engine_ = some 0 ∧
    (Stream.sample ST_STATE_BUFFERING false [EngineCfg.kwd]).reader_ =
      some { buffer := 0, index := 0 } ∧
    (CNN_DETECTED = CNN_DETECTED ∨ CNN_DETECTED = VOP_DETECTED) ∧
    ∃ (status : Int) (st2 : Stream) (calls : List Call),
      ProcessEvent Env.nominal (0 + 1) (.ST_EV_DETECTED CNN_DETECTED) (Stream.sample ST_STATE_BUFFERING false [EngineCfg.kwd]) = some (status, st2) ∧
      st2.trace = (Stream.sample ST_STATE_BUFFERING false [EngineCfg.kwd]).trace ++ calls ∧
      ((Stream.sample ST_STATE_BUFFERING false [EngineCfg.kwd]).sound_model_type_ = QAL_SOUND_MODEL_TYPE_KEYPHRASE → (Stream.sample ST_STATE_BUFFERING false [EngineCfg.kwd]).has_callback_ = true →
        (∀ n, Env.nominal.avail n = true) → Call.callback_ (qal_st_recognition_config.bare false [⟨0, 1, 40, []⟩]).cookie ∈ calls) ∧
      ((qal_st_recognition_config.bare false [⟨0, 1, 40, []⟩]).capture_requested = false →
        st2.cur_state_ = ST_STATE_DETECTED ∧ st2.pending_stop_ = true ∧
        ∃ rest : List Call,
          calls = (Stream.sample ST_STATE_BUFFERING false [EngineCfg.kwd]).engines_.map (fun e => Call.StopBuffering e.engine_) ++
            [Call.reader_reset { buffer := 0, index := 0 }] ++ rest ∧
          Call.timer_start_cond_notify ∈ rest) ∧
      ((qal_st_recognition_config.bare false [⟨0, 1, 40, []⟩]).capture_requested = true →
        st2.cur_state_ = ST_STATE_BUFFERING ∧ st2.pending_stop_ = (Stream.sample ST_STATE_BUFFERING false [EngineCfg.kwd]).pending_stop_ ∧
        Call.timer_start_cond_notify ∉ calls ∧
        ∀ e : SoundTriggerEngine, Call.StopBuffering e ∉ calls) :=
  ⟨rfl, rfl, rfl, rfl, Or.inl rfl,
    C11_positive_verdict_in_Buffering Env.nominal 0
      (Stream.sample ST_STATE_BUFFERING false [EngineCfg.kwd])
      (qal_st_recognition_config.bare false [⟨0, 1, 40, []⟩]) 0 { buffer := 0, index := 0 }
      CNN_DETECTED rfl rfl rfl rfl (Or.inl rfl)⟩

/-- Witness for C12: a Buffering stream with two engines receives CNN_REJ in an
environment where the restart of the second engine fails. -/
theorem C12_rejection_in_Buffering_witness :
    (Stream.sample ST_STATE_BUFFERING false [EngineCfg.kwd]).cur_state_ = ST_STATE_BUFFERING ∧
    (CNN_REJECTED = CNN_REJECTED ∨ CNN_REJECTED = VOP_REJECTED) ∧
    ∃ (status : Int) (st2 : Stream) (n : Nat),
      ProcessEvent (Env.failAt 4 (- EIO)) (0 + 1) (.ST_EV_DETECTED CNN_REJECTED) (Stream.sample ST_STATE_BUFFERING false [EngineCfg.kwd]) = some (status, st2) ∧
      st2.detection_state_ = 0 ∧
      st2.trace = (Stream.sample ST_STATE_BUFFERING false [EngineCfg.kwd]).trace ++ (Stream.sample ST_STATE_BUFFERING false [EngineCfg.kwd]).engines_.map (fun e => Call.StopBuffering e.engine_) ++
        (Stream.sample ST_STATE_BUFFERING false [EngineCfg.kwd]).reader_.toList.map Call.reader_reset ++
        ((Stream.sample ST_STATE_BUFFERING false [EngineCfg.kwd]).engines_.take n).map (fun e => Call.RestartRecognition e.engine_) ∧
      (∀ k, Call.callback_ k ∉ st2.trace.drop (Stream.sample ST_STATE_BUFFERING false [EngineCfg.kwd]).trace.length) ∧
      ((∀ i, i < (Stream.sample ST_STATE_BUFFERING false [EngineCfg.kwd]).engines_.length →
          (Env.failAt 4 (- EIO)).status ((Stream.sample ST_STATE_BUFFERING false [EngineCfg.kwd]).trace.length + (Stream.sample ST_STATE_BUFFERING false [EngineCfg.kwd]).engines_.length + (Stream.sample ST_STATE_BUFFERING false [EngineCfg.kwd]).reader_.toList.length + i) = 0) →
        status = 0 ∧ st2.cur_state_ = ST_STATE_ACTIVE ∧ (Stream.sample ST_STATE_BUFFERING false [EngineCfg.kwd]).engines_.length ≤ n) ∧
      ((∃ i, i < (Stream.sample ST_STATE_BUFFERING false [EngineCfg.kwd]).engines_.length ∧
          (Env.failAt 4 (- EIO)).status ((Stream.sample ST_STATE_BUFFERING false [EngineCfg.kwd]).trace.length + (Stream.sample ST_STATE_BUFFERING false [EngineCfg.kwd]).engines_.length + (Stream.sample ST_STATE_BUFFERING false [EngineCfg.kwd]).reader_.toList.length + i) ≠ 0) →
        status ≠ 0 ∧ st2.cur_state_ = ST_STATE_LOADED ∧ 0 < n ∧ n ≤ (Stream.sample ST_STATE_BUFFERING false [EngineCfg.kwd]).engines_.length ∧
        status =
          (Env.failAt 4 (- EIO)).status ((Stream.sample ST_STATE_BUFFERING false [EngineCfg.kwd]).trace.length + (Stream.sample ST_STATE_BUFFERING false [EngineCfg.kwd]).engines_.length + (Stream.sample ST_STATE_BUFFERING false [EngineCfg.kwd]).reader_.toList.length + (n - 1)) ∧
        ∀ i, i < n - 1 →
          (Env.failAt 4 (- EIO)).status ((Stream.sample ST_STATE_BUFFERING false [EngineCfg.kwd]).trace.length + (Stream.sample ST_STATE_BUFFERING false [EngineCfg.kwd]).engines_.length + (Stream.sample ST_STATE_BUFFERING false [EngineCfg.kwd]).reader_.toList.length + i) = 0) :=
  ⟨rfl, Or.inl rfl,
    C12_rejection_in_Buffering (Env.failAt 4 (- EIO)) 0
      (Stream.sample ST_STATE_BUFFERING false [EngineCfg.kwd]) CNN_REJECTED rfl (Or.inl rfl)⟩

/-- Witness for C13: a Detected stream with the first-stage engine only, every
interaction succeeding. -/
theorem C13_Start_in_Detected_witness :
    (Stream.sample ST_STATE_DETECTED false []).cur_state_ = ST_STATE_DETECTED ∧
    ∃ (status : Int) (st2 : Stream),
      ProcessEvent Env.nominal (0 + 1) (.ST_EV_START_RECOGNITION false) (Stream.sample ST_STATE_DETECTED false []) = some (status, st2) ∧
      st2.pending_stop_ = false ∧
      st2.trace = (Stream.sample ST_STATE_DETECTED false []).trace ++ [Call.timer_wait_cond_notify] ++
        (Stream.sample ST_STATE_DETECTED false []).engines_.map (fun e => Call.RestartRecognition e.engine_) ++
        (Stream.sample ST_STATE_DETECTED false []).reader_.toList.map Call.reader_reset ∧
      st2.prev_state_ = some ST_STATE_DETECTED ∧
      (st2.cur_state_ = ST_STATE_ACTIVE ∨ st2.cur_state_ = ST_STATE_LOADED) ∧
      ((∀ i, i < (Stream.sample ST_STATE_DETECTED false []).engines_.length → Env.nominal.status ((Stream.sample ST_STATE_DETECTED false []).trace.length + 1 + i) = 0) →
        status = 0 ∧ st2.cur_state_ = ST_STATE_ACTIVE) :=
  ⟨rfl, C13_Start_in_Detected Env.nominal 0 (Stream.sample ST_STATE_DETECTED false []) false rfl⟩

/-- Witness for C14: on a Detected stream whose delayed stop is armed the timer
commits the stop; when a StartRecognition has cancelled the delayed stop first,
the stream is in Active and the timer changes nothing. -/
theorem C14_InternalStopRecognition_witness :
    (∃ st1 : Stream,
      ProcessEvent Env.nominal 1 (.ST_EV_START_RECOGNITION false)
        ({ Stream.sample ST_STATE_DETECTED false [] with pending_stop_ := true } : Stream) =
        some (0, st1) ∧
      (st1.cur_state_ = ST_STATE_ACTIVE ∧ st1.pending_stop_ = false) ∧
      InternalStopRecognition Env.nominal 1 st1 = some ((), st1)) ∧
    InternalStopRecognition Env.nominal (0 + 1)
        ({ Stream.sample ST_STATE_DETECTED false [] with pending_stop_ := true } : Stream) =
      some ((), { Stream.sample ST_STATE_DETECTED false [] with
        pending_stop_ := false, timer_stop_waiting_ := true,
        prev_state_ := some ST_STATE_DETECTED, cur_state_ := ST_STATE_LOADED,
        trace := (Stream.sample ST_STATE_DETECTED false []).trace ++
          [Call.timer_wait_cond_notify] ++
          (Stream.sample ST_STATE_DETECTED false []).engines_.map
            (fun e => Call.StopRecognition e.engine_) ++
          ((Stream.sample ST_STATE_DETECTED false []).mDevices.take 1).flatMap
            (fun dev => [Call.dev_stop dev, Call.deregisterDevice dev]) }) := by
  have h0 : (ProcessEvent Env.nominal 1 (.ST_EV_START_RECOGNITION false)
      ({ Stream.sample ST_STATE_DETECTED false [] with pending_stop_ := true } : Stream)).map
      (fun r => (r.1, r.2.cur_state_, r.2.pending_stop_)) =
      some (0, ST_STATE_ACTIVE, false) := by
    decide!
  obtain ⟨⟨a, st1⟩, h1, h2⟩ := Option.map_eq_some'.1 h0
  simp only [Prod.mk.injEq] at h2
  obtain ⟨rfl, hc, hp⟩ := h2
  exact ⟨⟨st1, h1, ⟨hc, hp⟩, (C14_InternalStopRecognition Env.nominal 1 st1).1 hp⟩,
    (C14_InternalStopRecognition Env.nominal 0
      ({ Stream.sample ST_STATE_DETECTED false [] with pending_stop_ := true } : Stream)).2
      rfl rfl⟩

/-- Witness for C15: an Active stream with two engines in an environment where
the stop of the second engine fails. -/
theorem C15_Stop_in_Active_witness :
    (Stream.sample ST_STATE_ACTIVE false [EngineCfg.kwd]).cur_state_ = ST_STATE_ACTIVE ∧
    ∃ (status : Int) (pre : List Call),
      ProcessEvent (Env.failAt 1 (- EIO)) (0 + 1) (.ST_EV_STOP_RECOGNITION false) (Stream.sample ST_STATE_ACTIVE false [EngineCfg.kwd]) =
        some (status, { (Stream.sample ST_STATE_ACTIVE false [EngineCfg.kwd]) with
          prev_state_ := some ST_STATE_ACTIVE, cur_state_ := ST_STATE_LOADED,
          trace := (Stream.sample ST_STATE_ACTIVE false [EngineCfg.kwd]).trace ++ pre ++
            (Stream.sample ST_STATE_ACTIVE false [EngineCfg.kwd]).engines_.map (fun e => Call.StopRecognition e.engine_) ++
            ((Stream.sample ST_STATE_ACTIVE false [EngineCfg.kwd]).mDevices.take 1).flatMap
              (fun dev => [Call.dev_stop dev, Call.deregisterDevice dev]) }) ∧
      ((Stream.sample ST_STATE_ACTIVE false [EngineCfg.kwd]).paused_ = false → pre = []) ∧
      (∀ x ∈ pre, x = Call.UpdateSVACaptureProfile false ∨ x = Call.StopOtherSVAStreams ∨
        x = Call.StartOtherSVAStreams) :=
  ⟨rfl, C15_Stop_in_Active (Env.failAt 1 (- EIO)) 0 (Stream.sample ST_STATE_ACTIVE false [EngineCfg.kwd]) false rfl⟩

/-! ## Start in Loaded -/

theorem StLoaded.startEngines_fail (env : Env) (engs : List EngineCfg)
    (tmp : List SoundTriggerEngine) (s : Int) (st : Stream) (k : Nat) (hk : k < engs.length)
    (h : ∀ i, i < k → env.status (st.trace.length + i) = 0)
    (hf : env.status (st.trace.length + k) ≠ 0) :
    StLoaded.startEngines env engs tmp s st =
      some ((false, env.status (st.trace.length + k),
          tmp ++ (engs.take k).map (fun e => e.engine_)),
        { st with
          trace := st.trace ++
            (engs.take (k + 1)).map (fun e => Call.StartRecognition e.engine_) }) := by
  induction engs generalizing tmp s st k with
  | nil => simp at hk
  | cons e es ih =>
    cases k with
    | zero =>
      have hf0 : env.status st.trace.length ≠ 0 := by simpa using hf
      simp [StLoaded.startEngines, EngineCfg.GetEngine, hf0]
    | succ k =>
      have h0 : env.status st.trace.length = 0 := by
        have := h 0 (by omega)
        simpa using this
      have hrest : ∀ i, i < k →
          env.status (({ st with
            trace := st.trace ++ [Call.StartRecognition e.engine_] } : Stream).trace.length + i)
            = 0 := by
        intro i hi
        have := h (i + 1) (by omega)
        simp only [List.length_append, List.length_singleton]
        rw [← this]
        congr 1
        omega
      have hfk : env.status (({ st with
          trace := st.trace ++ [Call.StartRecognition e.engine_] } : Stream).trace.length + k)
          ≠ 0 := by
        simp only [List.length_append, List.length_singleton]
        intro hz
        apply hf
        rw [← hz]
        congr 1
        omega
      simp only [StLoaded.startEngines, run_bind, run_call, Option.some_bind,
        EngineCfg.GetEngine, h0]
      simp only [ne_eq, not_true_eq_false, if_false, run_bind, run_pure, Option.some_bind]
      rw [ih (tmp ++ [e.engine_]) 0 _ k (by simpa using hk) hrest hfk]
      have e1 : st.trace.length + 1 + k = st.trace.length + (k + 1) := by omega
      simp only [List.length_append, List.length_singleton, List.take_succ_cons, List.map_cons,
        List.append_assoc, List.singleton_append, e1]

theorem StLoaded.stopStarted_run (env : Env) (l : List SoundTriggerEngine) (st : Stream) :
    StLoaded.stopStarted env l st =
      some ((), { st with trace := st.trace ++ l.map Call.StopRecognition }) := by
  induction l generalizing st with
  | nil => simp [StLoaded.stopStarted]
  | cons e es ih => simp [StLoaded.stopStarted, ih]

/-- C16.  StartRecognition in Loaded, the stream not paused, with a recognition
config and a device, the device being started successfully: if the start of
engine `k` fails after the engines before it have started, the event returns the
status of that failed start, the stream is as before but for the calls made (so
it is still in Loaded), and after the failed start come exactly StopRecognition
for the engines 0..k-1, in order, the deregistration of the device and its
stop. -/
theorem C16_Start_in_Loaded_engine_failure (env : Env) (fuel : Nat) (st : Stream)
    (cfg : qal_st_recognition_config) (dev : Device) (rest : List Device) (restart_ : Bool)
    (b k : Nat)
    (hs : st.cur_state_ = ST_STATE_LOADED) (hp : st.paused_ = false)
    (hc : st.rec_config_ = some cfg) (hd : st.mDevices = dev :: rest)
    (hb : b = st.trace.length + 1 + (if env.avail st.trace.length = true then 2 else 0))
    (h1 : env.avail (b + 1) = true) (h2 : env.avail (b + 2) = true)
    (h3 : env.status (b + 5) = 0)
    (hk : k < st.engines_.length) (hok : ∀ i, i < k → env.status (b + 8 + i) = 0)
    (hf : env.status (b + 8 + k) ≠ 0) :
    ∃ pre : List Call,
      ProcessEvent env (fuel + 1) (.ST_EV_START_RECOGNITION restart_) st =
        some (env.status (b + 8 + k), { st with
          trace := st.trace ++ pre ++
            (st.engines_.take (k + 1)).map (fun e => Call.StartRecognition e.engine_) ++
            (st.engines_.take k).map (fun e => Call.StopRecognition e.engine_) ++
            [Call.deregisterDevice dev, Call.dev_stop dev] }) ∧
      pre.length = b + 8 - st.trace.length ∧
      ∀ x ∈ pre, (∀ e, x ≠ Call.StartRecognition e) ∧ (∀ e, x ≠ Call.StopRecognition e) ∧
        x ≠ Call.deregisterDevice dev ∧ x ≠ Call.dev_stop dev := by
  by_cases ha : env.avail st.trace.length = true
  · rw [if_pos ha] at hb
    subst hb
    refine ⟨[Call.UpdateSVACaptureProfile true, Call.StopOtherSVAStreams,
      Call.StartOtherSVAStreams, Call.getDeviceAttributes dev, Call.GetSVACaptureProfile,
      Call.calloc 0, Call.setDeviceAttributes dev, Call.setSndName dev, Call.dev_start dev,
      Call.registerDevice dev, Call.setSndName dev], ?_, ?_, ?_⟩
    · have e1 : st.trace.length + 1 + 2 + 1 = st.trace.length + 4 := by omega
      have e2 : st.trace.length + 1 + 2 + 2 = st.trace.length + 5 := by omega
      have e3 : st.trace.length + 1 + 2 + 5 = st.trace.length + 8 := by omega
      rw [e1] at h1
      rw [e2] at h2
      rw [e3] at h3
      simp [ProcessEvent, StLoaded.ProcessEvent, hs, StLoaded.start, hp, hc, hd, ha, h1, h2, h3]
      rw [StLoaded.startEngines_fail env st.engines_ [] 0 _ k hk ?_ ?_]
      · simp [StLoaded.err_exit, StLoaded.stopStarted_run, hf, List.map_take]
        congr 1
      · intro i hi
        have := hok i hi
        simp only [List.length_append, List.length_cons, List.length_nil]
        rw [← this]
      · simp only [List.length_append, List.length_cons, List.length_nil]
        intro hz
        apply hf
        rw [← hz]
    · simp
      omega
    · intro x hx
      simp at hx
      rcases hx with h | h | h | h | h | h | h | h | h | h | h <;> subst h <;> simp
  · rw [if_neg ha] at hb
    subst hb
    have ha2 : env.avail st.trace.length = false := by simpa using ha
    refine ⟨[Call.UpdateSVACaptureProfile true, Call.getDeviceAttributes dev,
      Call.GetSVACaptureProfile, Call.calloc 0, Call.setDeviceAttributes dev,
      Call.setSndName dev, Call.dev_start dev, Call.registerDevice dev, Call.setSndName dev],
      ?_, ?_, ?_⟩
    · have e1 : st.trace.length + 1 + 0 + 1 = st.trace.length + 2 := by omega
      have e2 : st.trace.length + 1 + 0 + 2 = st.trace.length + 3 := by omega
      have e3 : st.trace.length + 1 + 0 + 5 = st.trace.length + 6 := by omega
      rw [e1] at h1
      rw [e2] at h2
      rw [e3] at h3
      simp [ProcessEvent, StLoaded.ProcessEvent, hs, StLoaded.start, hp, hc, hd, ha2, h1, h2, h3]
      rw [StLoaded.startEngines_fail env st.engines_ [] 0 _ k hk ?_ ?_]
      · simp [StLoaded.err_exit, StLoaded.stopStarted_run, hf, List.map_take]
        congr 1
      · intro i hi
        have := hok i hi
        simp only [List.length_append, List.length_cons, List.length_nil]
        rw [← this]
      · simp only [List.length_append, List.length_cons, List.length_nil]
        intro hz
        apply hf
        rw [← hz]
    · simp
      omega
    · intro x hx
      simp at hx
      rcases hx with h | h | h | h | h | h | h | h | h <;> subst h <;> simp

/-- Witness for C16: a Loaded stream with two engines and the handset device, in
an environment where the start of the second engine (the interaction at
position 12) fails. -/
theorem C16_Start_in_Loaded_engine_failure_witness :
    (Stream.sample ST_STATE_LOADED false [EngineCfg.kwd]).cur_state_ = ST_STATE_LOADED ∧ (Stream.sample ST_STATE_LOADED false [EngineCfg.kwd]).paused_ = false ∧
    (Stream.sample ST_STATE_LOADED false [EngineCfg.kwd]).rec_config_ = some (qal_st_recognition_config.bare false [⟨0, 1, 40, []⟩]) ∧
    (Stream.sample ST_STATE_LOADED false [EngineCfg.kwd]).mDevices = QAL_DEVICE_IN_HANDSET_VA_MIC :: [] ∧
    3 = (Stream.sample ST_STATE_LOADED false [EngineCfg.kwd]).trace.length + 1 + (if (Env.failAt 12 (- EIO)).avail (Stream.sample ST_STATE_LOADED false [EngineCfg.kwd]).trace.length = true then 2 else 0) ∧
    (Env.failAt 12 (- EIO)).avail (3 + 1) = true ∧ (Env.failAt 12 (- EIO)).avail (3 + 2) = true ∧ (Env.failAt 12 (- EIO)).status (3 + 5) = 0 ∧
    1 < (Stream.sample ST_STATE_LOADED false [EngineCfg.kwd]).engines_.length ∧ (∀ i, i < 1 → (Env.failAt 12 (- EIO)).status (3 + 8 + i) = 0) ∧
    (Env.failAt 12 (- EIO)).status (3 + 8 + 1) ≠ 0 ∧
    ∃ pre : List Call,
      ProcessEvent (Env.failAt 12 (- EIO)) (0 + 1) (.ST_EV_START_RECOGNITION false) (Stream.sample ST_STATE_LOADED false [EngineCfg.kwd]) =
        some ((Env.failAt 12 (- EIO)).status (3 + 8 + 1), { (Stream.sample ST_STATE_LOADED false [EngineCfg.kwd]) with
          trace := (Stream.sample ST_STATE_LOADED false [EngineCfg.kwd]).trace ++ pre ++
            ((Stream.sample ST_STATE_LOADED false [EngineCfg.kwd]).engines_.take (1 + 1)).map (fun e => Call.StartRecognition e.engine_) ++
            ((Stream.sample ST_STATE_LOADED false [EngineCfg.kwd]).engines_.take 1).map (fun e => Call.StopRecognition e.engine_) ++
            [Call.deregisterDevice QAL_DEVICE_IN_HANDSET_VA_MIC, Call.dev_stop QAL_DEVICE_IN_HANDSET_VA_MIC] }) ∧
      pre.length = 3 + 8 - (Stream.sample ST_STATE_LOADED false [EngineCfg.kwd]).trace.length ∧
      ∀ x ∈ pre, (∀ e, x ≠ Call.StartRecognition e) ∧ (∀ e, x ≠ Call.StopRecognition e) ∧
        x ≠ Call.deregisterDevice QAL_DEVICE_IN_HANDSET_VA_MIC ∧ x ≠ Call.dev_stop QAL_DEVICE_IN_HANDSET_VA_MIC :=
  have hok : ∀ i, i < 1 → (Env.failAt 12 (- EIO)).status (3 + 8 + i) = 0 := by
    intro i hi
    interval_cases i
    rfl
  ⟨rfl, rfl, rfl, rfl, rfl, rfl, rfl, rfl, by decide, hok, by decide,
    C16_Start_in_Loaded_engine_failure (Env.failAt 12 (- EIO)) 0
      (Stream.sample ST_STATE_LOADED false [EngineCfg.kwd])
      (qal_st_recognition_config.bare false [⟨0, 1, 40, []⟩]) QAL_DEVICE_IN_HANDSET_VA_MIC [] false 3 1
      rfl rfl rfl rfl rfl rfl rfl rfl (by decide) hok (by decide)⟩

/-! ## The capture profile -/

/-- The run of `GetAvailCaptureDevice`: the headset microphone exactly when device
switching is supported and the wired headset is available. -/
theorem GetAvailCaptureDevice_run (env : Env) (st : Stream) :
    GetAvailCaptureDevice env st =
      some (if env.support_dev_switch = true ∧ env.avail st.trace.length = true then
          QAL_DEVICE_IN_HEADSET_VA_MIC else QAL_DEVICE_IN_HANDSET_VA_MIC,
        { st with
          trace := st.trace ++
            (if env.support_dev_switch = true then
              [Call.isDeviceAvailable QAL_DEVICE_IN_WIRED_HEADSET] else []) }) := by
  unfold GetAvailCaptureDevice
  by_cases sd : env.support_dev_switch = true
  · by_cases a : env.avail st.trace.length = true <;> simp [sd, a]
  · simp [sd]

/-- The run of a dereference. -/
theorem deref_run {α : Type} (x : Option α) (s : Stream) :
    deref x s = x.map (fun a => (a, s)) := by
  cases x <;> rfl

/-- The run of `GetCurrentCaptureProfile` on a stream with a platform record, by
the answers of the resource manager: when the record holds a profile for the key
that the specification derives from them, that profile, the stream unchanged but
for the queries in the trace; when it holds none, the log dereferences a null
profile and the run has no outcome. -/
theorem GetCurrentCaptureProfile_spec (env : Env) (st : Stream) (info : SoundModelConfig)
    (hi : st.sm_info_ = some info) :
    GetCurrentCaptureProfile env st =
      (info.GetCaptureProfile
          (Spec.capture_profile_key (env.avail st.trace.length)
            (env.avail (st.trace.length + 1))
            (env.avail (st.trace.length + (if env.avail st.trace.length = true then 2 else 1)))
            (env.support_dev_switch &&
              env.avail (st.trace.length + (if env.avail st.trace.length = true then 3 else 2))))).bind
        (fun prof => some (some prof,
          { st with
            trace := st.trace ++ [Call.IsVoiceUILPISupported] ++
              (if env.avail st.trace.length = true then [Call.CheckForActiveConcurrentNonLPIStream]
                else []) ++
              [Call.CheckForForcedTransitToNonLPI] ++
              (if env.support_dev_switch = true then
                [Call.isDeviceAvailable QAL_DEVICE_IN_WIRED_HEADSET] else []) })) := by
  have hne : QAL_DEVICE_IN_HANDSET_VA_MIC ≠ QAL_DEVICE_IN_HEADSET_VA_MIC := by decide
  unfold GetCurrentCaptureProfile
  by_cases a0 : env.avail st.trace.length = true
  · by_cases sd : env.support_dev_switch = true
    · by_cases a1 : env.avail (st.trace.length + 1) = true <;>
      by_cases a2 : env.avail (st.trace.length + 2) = true <;>
      by_cases a3 : env.avail (st.trace.length + 3) = true <;>
      simp only [a0, a1, a2, a3, sd, Bool.not_eq_eq_eq_not, Bool.not_true, Bool.not_false, Bool.false_eq_true,
        Bool.true_eq_false, ↓reduceIte, bind_pure_comp, pure_bind, ite_self, run_bind, run_ask,
        run_get, run_map, hi, Option.some_bind, List.length_append, List.length_singleton,
        List.length_cons, List.append_assoc, List.singleton_append, List.cons_append,
        List.append_nil, Nat.reduceAdd, GetAvailCaptureDevice_run, true_and, false_and, and_self,
        and_false, deref_run, Option.map_eq_bind, Function.comp_apply, ite_eq_left_iff,
        Bool.not_eq_true, Bool.not_eq_false, hne, imp_false, Spec.capture_profile_key,
        Bool.and_self, Bool.and_false, Bool.and_true, Bool.false_and, List.length_nil, zero_add,
        Nat.add_eq, Nat.add_zero, not_false_eq_true, not_true_eq_false, Bool.true_and, ite_true,
        ite_false, if_true, if_false] <;>
      (generalize info.GetCaptureProfile _ = x; cases x <;> rfl)
    · by_cases a1 : env.avail (st.trace.length + 1) = true <;>
      by_cases a2 : env.avail (st.trace.length + 2) = true <;>
      simp only [a0, a1, a2, sd, Bool.not_eq_eq_eq_not, Bool.not_true, Bool.not_false, Bool.false_eq_true,
        Bool.true_eq_false, ↓reduceIte, bind_pure_comp, pure_bind, ite_self, run_bind, run_ask,
        run_get, run_map, hi, Option.some_bind, List.length_append, List.length_singleton,
        List.length_cons, List.append_assoc, List.singleton_append, List.cons_append,
        List.append_nil, Nat.reduceAdd, GetAvailCaptureDevice_run, true_and, false_and, and_self,
        and_false, deref_run, Option.map_eq_bind, Function.comp_apply, ite_eq_left_iff,
        Bool.not_eq_true, Bool.not_eq_false, hne, imp_false, Spec.capture_profile_key,
        Bool.and_self, Bool.and_false, Bool.and_true, Bool.false_and, List.length_nil, zero_add,
        Nat.add_eq, Nat.add_zero, not_false_eq_true, not_true_eq_false, Bool.true_and, ite_true,
        ite_false, if_true, if_false] <;>
      (generalize info.GetCaptureProfile _ = x; cases x <;> rfl)
  · by_cases sd : env.support_dev_switch = true
    · by_cases a1 : env.avail (st.trace.length + 1) = true <;>
      by_cases a2 : env.avail (st.trace.length + 2) = true <;>
      simp only [a0, a1, a2, sd, Bool.not_eq_eq_eq_not, Bool.not_true, Bool.not_false, Bool.false_eq_true,
        Bool.true_eq_false, ↓reduceIte, bind_pure_comp, pure_bind, ite_self, run_bind, run_ask,
        run_get, run_map, hi, Option.some_bind, List.length_append, List.length_singleton,
        List.length_cons, List.append_assoc, List.singleton_append, List.cons_append,
        List.append_nil, Nat.reduceAdd, GetAvailCaptureDevice_run, true_and, false_and, and_self,
        and_false, deref_run, Option.map_eq_bind, Function.comp_apply, ite_eq_left_iff,
        Bool.not_eq_true, Bool.not_eq_false, hne, imp_false, Spec.capture_profile_key,
        Bool.and_self, Bool.and_false, Bool.and_true, Bool.false_and, List.length_nil, zero_add,
        Nat.add_eq, Nat.add_zero, not_false_eq_true, not_true_eq_false, Bool.true_and, ite_true,
        ite_false, if_true, if_false] <;>
      (generalize info.GetCaptureProfile _ = x; cases x <;> rfl)
    · by_cases a1 : env.avail (st.trace.length + 1) = true <;>
      simp only [a0, a1, sd, Bool.not_eq_eq_eq_not, Bool.not_true, Bool.not_false, Bool.false_eq_true,
        Bool.true_eq_false, ↓reduceIte, bind_pure_comp, pure_bind, ite_self, run_bind, run_ask,
        run_get, run_map, hi, Option.some_bind, List.length_append, List.length_singleton,
        List.length_cons, List.append_assoc, List.singleton_append, List.cons_append,
        List.append_nil, Nat.reduceAdd, GetAvailCaptureDevice_run, true_and, false_and, and_self,
        and_false, deref_run, Option.map_eq_bind, Function.comp_apply, ite_eq_left_iff,
        Bool.not_eq_true, Bool.not_eq_false, hne, imp_false, Spec.capture_profile_key,
        Bool.and_self, Bool.and_false, Bool.and_true, Bool.false_and, List.length_nil, zero_add,
        Nat.add_eq, Nat.add_zero, not_false_eq_true, not_true_eq_false, Bool.true_and, ite_true,
        ite_false, if_true, if_false] <;>
      (generalize info.GetCaptureProfile _ = x; cases x <;> rfl)

/-- The outcome of `GetCurrentCaptureProfile`: it makes only queries to the
resource manager, and it returns the profile that the platform record holds for
the derived key, the stream unchanged but for the trace; when the record holds
none, the run has no outcome. -/
theorem GetCurrentCaptureProfile_outcome (env : Env) (st : Stream) (info : SoundModelConfig)
    (hi : st.sm_info_ = some info) :
    ∃ (prof : Option CaptureProfile),
      (prof = none → GetCurrentCaptureProfile env st = none) ∧
      (prof ≠ none →
        GetCurrentCaptureProfile env st = some (prof, { st with
          trace := st.trace ++ [Call.IsVoiceUILPISupported] ++
            (if env.avail st.trace.length = true then [Call.CheckForActiveConcurrentNonLPIStream]
              else []) ++
            [Call.CheckForForcedTransitToNonLPI] ++
            (if env.support_dev_switch = true then
              [Call.isDeviceAvailable QAL_DEVICE_IN_WIRED_HEADSET] else []) })) := by
  rw [GetCurrentCaptureProfile_spec env st info hi]
  generalize info.GetCaptureProfile _ = x
  cases x with
  | none => exact ⟨none, fun _ => rfl, fun h => absurd rfl h⟩
  | some prof => exact ⟨some prof, fun h => Option.noConfusion h, fun _ => rfl⟩

/-! ## Subsystem restart -/

/-- The run of `UpdateSoundModel`: it returns, and it changes at most the model
type, the cached model and the trace; a valid model whose copy can be allocated
(or that is the cached model itself) is accepted. -/
theorem UpdateSoundModel_run (env : Env) (data : Option qal_st_sound_model) (flag : Bool)
    (st : Stream) :
    ∃ (r : Int) (st1 : Stream),
      UpdateSoundModel env data flag st = some (r, st1) ∧
      { st1 with
        sound_model_type_ := st.sound_model_type_, sm_config_ := st.sm_config_,
        trace := st.trace } = st ∧
      (r = 0 → ∃ sm, data = some sm ∧ (flag = false → st1.sm_config_ = some sm)) ∧
      (∀ sm, data = some sm →
        (sm.type = QAL_SOUND_MODEL_TYPE_KEYPHRASE ∧
            env.sizeof_qal_st_phrase_sound_model ≤ sm.data_offset ∧ sm.data_size ≠ 0 ∧
            sm.num_phrases ≠ 0 ∨
          sm.type = QAL_SOUND_MODEL_TYPE_GENERIC ∧
            env.sizeof_qal_st_sound_model ≤ sm.data_offset ∧ sm.data_size ≠ 0) →
        (flag = true ∨ env.avail st.trace.length = true) → r = 0) := by
  cases data with
  | none => exact ⟨- EINVAL, st, rfl, rfl, fun h => absurd h (by decide), fun sm h => nomatch h⟩
  | some sm =>
    unfold UpdateSoundModel
    by_cases hk : sm.type = QAL_SOUND_MODEL_TYPE_KEYPHRASE
    · by_cases hv : sm.data_offset < env.sizeof_qal_st_phrase_sound_model ∨
          sm.data_size = 0 ∨ sm.num_phrases = 0
      · refine ⟨- EINVAL, { st with sound_model_type_ := sm.type }, ?_, rfl,
          fun h => absurd h (by decide), ?_⟩
        · simp [hk, hv]
        · intro sm2 h2 hval
          cases h2
          rcases hval with ⟨_, h1, h2, h3⟩ | ⟨h1, _⟩
          · rcases hv with h | h | h
            · omega
            · exact absurd h h2
            · exact absurd h h3
          · rw [hk] at h1
            exact nomatch h1
      · cases flag with
        | true =>
          refine ⟨0, { st with sound_model_type_ := sm.type }, ?_, rfl,
            fun _ => ⟨sm, rfl, fun h => nomatch h⟩, fun _ _ _ _ => rfl⟩
          simp [hk, hv]
        | false =>
          by_cases ha : env.avail st.trace.length = true
          · refine ⟨0, { st with
                sound_model_type_ := sm.type, sm_config_ := some sm,
                trace := st.trace ++ [Call.calloc (env.sizeof_qal_st_phrase_sound_model +
                  sm.data_size)] }, ?_, rfl, fun _ => ⟨sm, rfl, fun _ => rfl⟩,
              fun _ _ _ _ => rfl⟩
            simp [hk, hv, ha]
          · refine ⟨- ENOMEM, { st with
                sound_model_type_ := sm.type, sm_config_ := none,
                trace := st.trace ++ [Call.calloc (env.sizeof_qal_st_phrase_sound_model +
                  sm.data_size)] }, ?_, rfl, fun h => absurd h (by decide), ?_⟩
            · simp [hk, hv, ha]
            · intro _ _ _ h
              rcases h with h | h
              · exact nomatch h
              · exact absurd h ha
    · by_cases hgen : sm.type = QAL_SOUND_MODEL_TYPE_GENERIC
      · by_cases hv : sm.data_size = 0 ∨ sm.data_offset < env.sizeof_qal_st_sound_model
        · refine ⟨- EINVAL, { st with sound_model_type_ := sm.type }, ?_, rfl,
            fun h => absurd h (by decide), ?_⟩
          · simp [hgen, hv]
          · intro sm2 h2 hval
            cases h2
            rcases hval with ⟨h1, _⟩ | ⟨_, h1, h2⟩
            · exact absurd h1 hk
            · rcases hv with h | h
              · exact absurd h h2
              · omega
        · cases flag with
          | true =>
            refine ⟨0, { st with sound_model_type_ := sm.type }, ?_, rfl,
              fun _ => ⟨sm, rfl, fun h => nomatch h⟩, fun _ _ _ _ => rfl⟩
            simp [hgen, hv]
          | false =>
            by_cases ha : env.avail st.trace.length = true
            · refine ⟨0, { st with
                  sound_model_type_ := sm.type, sm_config_ := some sm,
                  trace := st.trace ++ [Call.calloc (env.sizeof_qal_st_sound_model +
                    sm.data_size)] }, ?_, rfl, fun _ => ⟨sm, rfl, fun _ => rfl⟩,
                fun _ _ _ _ => rfl⟩
              simp [hgen, hv, ha]
            · refine ⟨- ENOMEM, { st with
                  sound_model_type_ := sm.type, sm_config_ := none,
                  trace := st.trace ++ [Call.calloc (env.sizeof_qal_st_sound_model +
                    sm.data_size)] }, ?_, rfl, fun h => absurd h (by decide), ?_⟩
              · simp [hgen, hv, ha]
              · intro _ _ _ h
                rcases h with h | h
                · exact nomatch h
                · exact absurd h ha
      · refine ⟨- EINVAL, { st with sound_model_type_ := sm.type }, ?_, rfl,
          fun h => absurd h (by decide), ?_⟩
        · simp [hk, hgen]
        · intro sm2 h2 hval
          cases h2
          rcases hval with ⟨h1, _⟩ | ⟨h1, _⟩
          · exact absurd h1 hk
          · exact absurd h1 hgen

/-- The run of `UpdateRecognitionConfig`: it returns, and it changes at most the
cached config and the trace; a config whose copy can be allocated (or that is
the cached config itself) is accepted. -/
theorem UpdateRecognitionConfig_run (env : Env) (data : Option qal_st_recognition_config)
    (flag : Bool) (st : Stream) :
    ∃ (r : Int) (st1 : Stream),
      UpdateRecognitionConfig env data flag st = some (r, st1) ∧
      { st1 with rec_config_ := st.rec_config_, trace := st.trace } = st ∧
      (r = 0 → ∃ cfg, data = some cfg ∧ (flag = false → st1.rec_config_ = some cfg)) ∧
      (∀ cfg, data = some cfg → (flag = true ∨ env.avail st.trace.length = true) → r = 0) := by
  cases data with
  | none => exact ⟨- EINVAL, st, rfl, rfl, fun h => absurd h (by decide), fun sm h => nomatch h⟩
  | some cfg =>
    unfold UpdateRecognitionConfig
    cases flag with
    | true =>
      exact ⟨0, st, by simp, rfl, fun _ => ⟨cfg, rfl, fun h => nomatch h⟩, fun _ _ _ => rfl⟩
    | false =>
      by_cases ha : env.avail st.trace.length = true
      · refine ⟨0, { st with
            rec_config_ := some cfg, trace := st.trace ++ [Call.calloc cfg.data_size] },
          ?_, rfl, fun _ => ⟨cfg, rfl, fun _ => rfl⟩, fun _ _ _ => rfl⟩
        simp [ha]
      · refine ⟨- ENOMEM, { st with
            rec_config_ := none, trace := st.trace ++ [Call.calloc cfg.data_size] },
          ?_, rfl, fun h => absurd h (by decide), ?_⟩
        · simp [ha]
        · intro _ _ h
          rcases h with h | h
          · exact nomatch h
          · exact absurd h ha

/-- C19.  In SSR the five client operations return and leave the current state
SSR.  Load: with a saved state other than Idle it returns -EINVAL and changes
nothing; with saved state Idle the model is taken by `UpdateSoundModel`, and the
saved state becomes Loaded when that succeeds (as it does for a valid model whose
copy can be allocated) and stays Idle otherwise.  Unload: accepted exactly when
the saved state is Loaded, which becomes Idle.  RecognitionConfig: -EINVAL and no
change unless the saved state is Loaded; the saved state is never changed.
Start: accepted exactly when the saved state is Loaded and a recognition config
is cached; the saved state becomes Active.  Stop: accepted exactly when the saved
state is Active, which becomes Loaded.  Every rejected Unload, Start and Stop
returns -EINVAL and changes nothing. -/
theorem C19_client_operations_in_SSR (env : Env) (fuel : Nat) (st : Stream)
    (hs : st.cur_state_ = ST_STATE_SSR) :
    (∀ (data : Option qal_st_sound_model) (flag : Bool),
      ∃ (status : Int) (st2 : Stream),
        ProcessEvent env (fuel + 1) (.ST_EV_LOAD_SOUND_MODEL data flag) st = some (status, st2) ∧
        st2.cur_state_ = ST_STATE_SSR ∧
        (st.state_for_restore_ ≠ ST_STATE_IDLE → status = - EINVAL ∧ st2 = st) ∧
        (st.state_for_restore_ = ST_STATE_IDLE →
          (status = 0 → st2.state_for_restore_ = ST_STATE_LOADED) ∧
          (status ≠ 0 → st2.state_for_restore_ = ST_STATE_IDLE) ∧
          (∀ sm, data = some sm →
            (sm.type = QAL_SOUND_MODEL_TYPE_KEYPHRASE ∧
                env.sizeof_qal_st_phrase_sound_model ≤ sm.data_offset ∧ sm.data_size ≠ 0 ∧
                sm.num_phrases ≠ 0 ∨
              sm.type = QAL_SOUND_MODEL_TYPE_GENERIC ∧
                env.sizeof_qal_st_sound_model ≤ sm.data_offset ∧ sm.data_size ≠ 0) →
            (flag = true ∨ env.avail st.trace.length = true) → status = 0))) ∧
    (ProcessEvent env (fuel + 1) .ST_EV_UNLOAD_SOUND_MODEL st =
      if st.state_for_restore_ = ST_STATE_LOADED then
        some (0, { st with state_for_restore_ := ST_STATE_IDLE })
      else some (- EINVAL, st)) ∧
    (∀ (data : Option qal_st_recognition_config),
      ∃ (status : Int) (st2 : Stream),
        ProcessEvent env (fuel + 1) (.ST_EV_RECOGNITION_CONFIG data) st = some (status, st2) ∧
        st2.cur_state_ = ST_STATE_SSR ∧
        st2.state_for_restore_ = st.state_for_restore_ ∧
        (st.state_for_restore_ ≠ ST_STATE_LOADED → status = - EINVAL ∧ st2 = st) ∧
        (st.state_for_restore_ = ST_STATE_LOADED → ∀ cfg, data = some cfg →
          env.avail st.trace.length = true → status = 0 ∧ st2.rec_config_ = some cfg)) ∧
    (∀ restart_ : Bool,
      ProcessEvent env (fuel + 1) (.ST_EV_START_RECOGNITION restart_) st =
        if st.state_for_restore_ = ST_STATE_LOADED ∧ st.rec_config_.isSome = true then
          some (0, { st with state_for_restore_ := ST_STATE_ACTIVE })
        else some (- EINVAL, st)) ∧
    (∀ deferred_ : Bool,
      ProcessEvent env (fuel + 1) (.ST_EV_STOP_RECOGNITION deferred_) st =
        if st.state_for_restore_ = ST_STATE_ACTIVE then
          some (0, { st with state_for_restore_ := ST_STATE_LOADED })
        else some (- EINVAL, st)) := by
  refine ⟨?_, ?_, ?_, ?_, ?_⟩
  · intro data flag
    by_cases hr : st.state_for_restore_ = ST_STATE_IDLE
    · obtain ⟨r, st1, hu, hfr, h0, hval⟩ := UpdateSoundModel_run env data flag st
      have hcur : st1.cur_state_ = ST_STATE_SSR := by
        rw [← hs, ← hfr]
      have hres : st1.state_for_restore_ = ST_STATE_IDLE := by
        rw [← hr, ← hfr]
      by_cases hz : r = 0
      · refine ⟨r, { st1 with state_for_restore_ := ST_STATE_LOADED }, ?_, hcur,
          fun h => absurd hr h, fun _ => ⟨fun _ => rfl, fun h => absurd hz h, hval⟩⟩
        simp [ProcessEvent, StSSR.ProcessEvent, hs, hr, hu, hz]
      · refine ⟨r, st1, ?_, hcur, fun h => absurd hr h,
          fun _ => ⟨fun h => absurd h hz, fun _ => hres, hval⟩⟩
        simp [ProcessEvent, StSSR.ProcessEvent, hs, hr, hu, hz]
    · refine ⟨- EINVAL, st, ?_, hs, fun _ => ⟨rfl, rfl⟩, fun h => absurd h hr⟩
      simp [ProcessEvent, StSSR.ProcessEvent, hs, hr]
  · by_cases hr : st.state_for_restore_ = ST_STATE_LOADED <;>
      simp [ProcessEvent, StSSR.ProcessEvent, hs, hr]
  · intro data
    by_cases hr : st.state_for_restore_ = ST_STATE_LOADED
    · obtain ⟨r, st1, hu, hfr, h0, hval⟩ := UpdateRecognitionConfig_run env data false st
      have hcur : st1.cur_state_ = ST_STATE_SSR := by
        rw [← hs, ← hfr]
      have hres : st1.state_for_restore_ = st.state_for_restore_ := by
        conv_rhs => rw [← hfr]
      refine ⟨r, st1, ?_, hcur, hres, fun h => absurd hr h, ?_⟩
      · simp [ProcessEvent, StSSR.ProcessEvent, hs, hr, hu]
      · intro _ cfg hd ha
        have hz := hval cfg hd (Or.inr ha)
        obtain ⟨cfg2, hd2, hc2⟩ := h0 hz
        rw [hd] at hd2
        cases hd2
        exact ⟨hz, hc2 rfl⟩
    · refine ⟨- EINVAL, st, ?_, hs, rfl, fun _ => ⟨rfl, rfl⟩, fun h => absurd h hr⟩
      simp [ProcessEvent, StSSR.ProcessEvent, hs, hr]
  · intro restart_
    by_cases hr : st.state_for_restore_ = ST_STATE_LOADED
    · cases hc : st.rec_config_ <;>
        simp [ProcessEvent, StSSR.ProcessEvent, hs, hr, hc]
    · simp [ProcessEvent, StSSR.ProcessEvent, hs, hr]
  · intro deferred_
    by_cases hr : st.state_for_restore_ = ST_STATE_ACTIVE <;>
      simp [ProcessEvent, StSSR.ProcessEvent, hs, hr]

/-- C20 (as amended).  A ConcurrentStream or ChargingState event re-derives the
capture profile: the derivation makes only queries to the resource manager and
returns the profile that the platform record holds for the derived key (when the
record holds none, its log dereferences a null profile and the run has no
outcome).
When the profile equals `cap_prof_`: in Loaded and in Active the event returns 0
and the stream is unchanged but for these queries in the trace (no engine or
device call); in Detected the delayed stop is cancelled first (`pending_stop_`
false, the timer told to stop waiting) and the stream moves to Active; in
Buffering, moreover, every engine gets StopBuffering and the reader is reset
before the stream moves to Active; in both the event returns 0 and no device
call is made. -/
theorem C20_matching_capture_profile (env : Env) (fuel : Nat) (st : Stream)
    (info : SoundModelConfig) (ev : StEventConfig) (hi : st.sm_info_ = some info)
    (hev : (∃ t a, ev = .ST_EV_CONCURRENT_STREAM t a) ∨ (∃ c, ev = .ST_EV_CHARGING_STATE c)) :
    (st.cur_state_ = ST_STATE_LOADED ∨ st.cur_state_ = ST_STATE_ACTIVE →
      ∃ (prof : Option CaptureProfile) (q : List Call),
        (prof = none → GetCurrentCaptureProfile env st = none) ∧
        (prof ≠ none →
          GetCurrentCaptureProfile env st = some (prof, { st with trace := st.trace ++ q })) ∧
        (∀ x ∈ q, x = Call.IsVoiceUILPISupported ∨
          x = Call.CheckForActiveConcurrentNonLPIStream ∨
          x = Call.CheckForForcedTransitToNonLPI ∨
          x = Call.isDeviceAvailable QAL_DEVICE_IN_WIRED_HEADSET) ∧
        (prof ≠ none → st.cap_prof_ = prof →
          ProcessEvent env (fuel + 1) ev st = some (0, { st with trace := st.trace ++ q }))) ∧
    (st.cur_state_ = ST_STATE_DETECTED →
      ∃ (prof : Option CaptureProfile) (q : List Call),
        (prof = none → GetCurrentCaptureProfile env { st with
          pending_stop_ := false, timer_stop_waiting_ := true,
          prev_state_ := some ST_STATE_DETECTED, cur_state_ := ST_STATE_ACTIVE,
          trace := st.trace ++ [Call.timer_wait_cond_notify] } = none) ∧
        (prof ≠ none →
          GetCurrentCaptureProfile env { st with
            pending_stop_ := false, timer_stop_waiting_ := true,
            prev_state_ := some ST_STATE_DETECTED, cur_state_ := ST_STATE_ACTIVE,
            trace := st.trace ++ [Call.timer_wait_cond_notify] } =
            some (prof, { st with
              pending_stop_ := false, timer_stop_waiting_ := true,
              prev_state_ := some ST_STATE_DETECTED, cur_state_ := ST_STATE_ACTIVE,
              trace := st.trace ++ [Call.timer_wait_cond_notify] ++ q })) ∧
        (∀ x ∈ q, x = Call.IsVoiceUILPISupported ∨
          x = Call.CheckForActiveConcurrentNonLPIStream ∨
          x = Call.CheckForForcedTransitToNonLPI ∨
          x = Call.isDeviceAvailable QAL_DEVICE_IN_WIRED_HEADSET) ∧
        (prof ≠ none → st.cap_prof_ = prof →
          ProcessEvent env (fuel + 2) ev st = some (0, { st with
            pending_stop_ := false, timer_stop_waiting_ := true,
            prev_state_ := some ST_STATE_DETECTED, cur_state_ := ST_STATE_ACTIVE,
            trace := st.trace ++ [Call.timer_wait_cond_notify] ++ q }))) ∧
    (st.cur_state_ = ST_STATE_BUFFERING →
      ∃ (prof : Option CaptureProfile) (q : List Call),
        (prof = none → GetCurrentCaptureProfile env { st with
          pending_stop_ := false, timer_stop_waiting_ := true,
          prev_state_ := some ST_STATE_BUFFERING, cur_state_ := ST_STATE_ACTIVE,
          trace := st.trace ++ [Call.timer_wait_cond_notify] ++
            st.engines_.map (fun e => Call.StopBuffering e.engine_) ++
            st.reader_.toList.map Call.reader_reset } = none) ∧
        (prof ≠ none →
          GetCurrentCaptureProfile env { st with
            pending_stop_ := false, timer_stop_waiting_ := true,
            prev_state_ := some ST_STATE_BUFFERING, cur_state_ := ST_STATE_ACTIVE,
            trace := st.trace ++ [Call.timer_wait_cond_notify] ++
              st.engines_.map (fun e => Call.StopBuffering e.engine_) ++
              st.reader_.toList.map Call.reader_reset } =
            some (prof, { st with
              pending_stop_ := false, timer_stop_waiting_ := true,
              prev_state_ := some ST_STATE_BUFFERING, cur_state_ := ST_STATE_ACTIVE,
              trace := st.trace ++ [Call.timer_wait_cond_notify] ++
                st.engines_.map (fun e => Call.StopBuffering e.engine_) ++
                st.reader_.toList.map Call.reader_reset ++ q })) ∧
        (∀ x ∈ q, x = Call.IsVoiceUILPISupported ∨
          x = Call.CheckForActiveConcurrentNonLPIStream ∨
          x = Call.CheckForForcedTransitToNonLPI ∨
          x = Call.isDeviceAvailable QAL_DEVICE_IN_WIRED_HEADSET) ∧
        (prof ≠ none → st.cap_prof_ = prof →
          ProcessEvent env (fuel + 2) ev st = some (0, { st with
            pending_stop_ := false, timer_stop_waiting_ := true,
            prev_state_ := some ST_STATE_BUFFERING, cur_state_ := ST_STATE_ACTIVE,
            trace := st.trace ++ [Call.timer_wait_cond_notify] ++
              st.engines_.map (fun e => Call.StopBuffering e.engine_) ++
              st.reader_.toList.map Call.reader_reset ++ q }))) := by
  have hq : ∀ (n : Nat) (x : Call),
      x ∈ [Call.IsVoiceUILPISupported] ++
          (if env.avail n = true then [Call.CheckForActiveConcurrentNonLPIStream] else []) ++
          [Call.CheckForForcedTransitToNonLPI] ++
          (if env.support_dev_switch = true then
            [Call.isDeviceAvailable QAL_DEVICE_IN_WIRED_HEADSET] else []) →
        x = Call.IsVoiceUILPISupported ∨ x = Call.CheckForActiveConcurrentNonLPIStream ∨
          x = Call.CheckForForcedTransitToNonLPI ∨
          x = Call.isDeviceAvailable QAL_DEVICE_IN_WIRED_HEADSET := by
    intro n x hx
    simp only [List.mem_append, List.mem_singleton] at hx
    rcases hx with ((h | h) | h) | h
    · exact Or.inl h
    · split at h
      · exact Or.inr (Or.inl (List.mem_singleton.1 h))
      · simp at h
    · exact Or.inr (Or.inr (Or.inl h))
    · split at h
      · exact Or.inr (Or.inr (Or.inr (List.mem_singleton.1 h)))
      · simp at h
  refine ⟨?_, ?_, ?_⟩
  · intro hs
    obtain ⟨prof, hnone, hsome⟩ := GetCurrentCaptureProfile_outcome env st info hi
    refine ⟨prof, [Call.IsVoiceUILPISupported] ++
      (if env.avail st.trace.length = true then [Call.CheckForActiveConcurrentNonLPIStream]
        else []) ++
      [Call.CheckForForcedTransitToNonLPI] ++
      (if env.support_dev_switch = true then
        [Call.isDeviceAvailable QAL_DEVICE_IN_WIRED_HEADSET] else []),
      hnone, fun hne => by simpa [List.append_assoc] using hsome hne, hq _, ?_⟩
    intro hne heq
    have hrun := hsome hne
    rcases hs with hs | hs <;> rcases hev with ⟨t, a, rfl⟩ | ⟨c, rfl⟩
    · simp [ProcessEvent, StLoaded.ProcessEvent, hs, hrun, heq]
    · simp [ProcessEvent, StLoaded.ProcessEvent, hs, hrun, heq]
    · simp [ProcessEvent, StActive.ProcessEvent, hs, hrun, heq]
    · simp [ProcessEvent, StActive.ProcessEvent, hs, hrun, heq]
  · intro hs
    obtain ⟨prof, hnone, hsome⟩ := GetCurrentCaptureProfile_outcome env { st with
      pending_stop_ := false, timer_stop_waiting_ := true,
      prev_state_ := some ST_STATE_DETECTED, cur_state_ := ST_STATE_ACTIVE,
      trace := st.trace ++ [Call.timer_wait_cond_notify] } info hi
    refine ⟨prof, [Call.IsVoiceUILPISupported] ++
      (if env.avail (st.trace.length + 1) = true then
        [Call.CheckForActiveConcurrentNonLPIStream] else []) ++
      [Call.CheckForForcedTransitToNonLPI] ++
      (if env.support_dev_switch = true then
        [Call.isDeviceAvailable QAL_DEVICE_IN_WIRED_HEADSET] else []),
      hnone, fun hne => by simpa [List.append_assoc] using hsome hne, hq _, ?_⟩
    intro hne heq
    have hrun := hsome hne
    rcases hev with ⟨t, a, rfl⟩ | ⟨c, rfl⟩
    · simp [ProcessEvent, StDetected.ProcessEvent, StActive.ProcessEvent, hs,
        CancelDelayedStop, TransitTo, hrun]
      simp [heq]
    · simp [ProcessEvent, StDetected.ProcessEvent, StActive.ProcessEvent, hs,
        CancelDelayedStop, TransitTo, hrun]
      simp [heq]
  · intro hs
    obtain ⟨prof, hnone, hsome⟩ := GetCurrentCaptureProfile_outcome env { st with
      pending_stop_ := false, timer_stop_waiting_ := true,
      prev_state_ := some ST_STATE_BUFFERING, cur_state_ := ST_STATE_ACTIVE,
      trace := st.trace ++ [Call.timer_wait_cond_notify] ++
        st.engines_.map (fun e => Call.StopBuffering e.engine_) ++
        st.reader_.toList.map Call.reader_reset } info hi
    refine ⟨prof, [Call.IsVoiceUILPISupported] ++
      (if env.avail (st.trace ++ [Call.timer_wait_cond_notify] ++
          st.engines_.map (fun e => Call.StopBuffering e.engine_) ++
          st.reader_.toList.map Call.reader_reset).length = true
        then [Call.CheckForActiveConcurrentNonLPIStream] else []) ++
      [Call.CheckForForcedTransitToNonLPI] ++
      (if env.support_dev_switch = true then
        [Call.isDeviceAvailable QAL_DEVICE_IN_WIRED_HEADSET] else []),
      hnone, fun hne => by simpa only [List.append_assoc] using hsome hne, hq _, ?_⟩
    intro hne heq
    have hrun := hsome hne
    have hrun2 := hrun
    simp only [List.append_assoc, List.singleton_append, List.cons_append, List.nil_append,
      List.length_append, List.length_cons, List.length_map] at hrun2
    rcases hev with ⟨t, a, rfl⟩ | ⟨c, rfl⟩
    · simp [ProcessEvent, StBuffering.ProcessEvent, StActive.ProcessEvent, hs,
        CancelDelayedStop, TransitTo, StBuffering.stopBuffering_run, hrun2]
      simp [heq]
    · simp [ProcessEvent, StBuffering.ProcessEvent, StActive.ProcessEvent, hs,
        CancelDelayedStop, TransitTo, StBuffering.stopBuffering_run, hrun2]
      simp [heq]

/-- Witness for C19: a stream in SSR whose saved state is Loaded. -/
theorem C19_client_operations_in_SSR_witness :
    ({ Stream.sample ST_STATE_SSR false [] with state_for_restore_ := ST_STATE_LOADED } : Stream).cur_state_ =
      ST_STATE_SSR ∧
    (∀ (data : Option qal_st_sound_model) (flag : Bool),
      ∃ (status : Int) (st2 : Stream),
        ProcessEvent Env.nominal (0 + 1) (.ST_EV_LOAD_SOUND_MODEL data flag) ({ Stream.sample ST_STATE_SSR false [] with state_for_restore_ := ST_STATE_LOADED } : Stream) = some (status, st2) ∧
        st2.cur_state_ = ST_STATE_SSR ∧
        (({ Stream.sample ST_STATE_SSR false [] with state_for_restore_ := ST_STATE_LOADED } : Stream).state_for_restore_ ≠ ST_STATE_IDLE → status = - EINVAL ∧ st2 = ({ Stream.sample ST_STATE_SSR false [] with state_for_restore_ := ST_STATE_LOADED } : Stream)) ∧
        (({ Stream.sample ST_STATE_SSR false [] with state_for_restore_ := ST_STATE_LOADED } : Stream).state_for_restore_ = ST_STATE_IDLE →
          (status = 0 → st2.state_for_restore_ = ST_STATE_LOADED) ∧
          (status ≠ 0 → st2.state_for_restore_ = ST_STATE_IDLE) ∧
          (∀ sm, data = some sm →
            (sm.type = QAL_SOUND_MODEL_TYPE_KEYPHRASE ∧
                Env.nominal.sizeof_qal_st_phrase_sound_model ≤ sm.data_offset ∧ sm.data_size ≠ 0 ∧
                sm.num_phrases ≠ 0 ∨
              sm.type = QAL_SOUND_MODEL_TYPE_GENERIC ∧
                Env.nominal.sizeof_qal_st_sound_model ≤ sm.data_offset ∧ sm.data_size ≠ 0) →
            (flag = true ∨ Env.nominal.avail ({ Stream.sample ST_STATE_SSR false [] with state_for_restore_ := ST_STATE_LOADED } : Stream).trace.length = true) → status = 0))) ∧
    (ProcessEvent Env.nominal (0 + 1) .ST_EV_UNLOAD_SOUND_MODEL ({ Stream.sample ST_STATE_SSR false [] with state_for_restore_ := ST_STATE_LOADED } : Stream) =
      if ({ Stream.sample ST_STATE_SSR false [] with state_for_restore_ := ST_STATE_LOADED } : Stream).state_for_restore_ = ST_STATE_LOADED then
        some (0, { ({ Stream.sample ST_STATE_SSR false [] with state_for_restore_ := ST_STATE_LOADED } : Stream) with state_for_restore_ := ST_STATE_IDLE })
      else some (- EINVAL, ({ Stream.sample ST_STATE_SSR false [] with state_for_restore_ := ST_STATE_LOADED } : Stream))) ∧
    (∀ (data : Option qal_st_recognition_config),
      ∃ (status : Int) (st2 : Stream),
        ProcessEvent Env.nominal (0 + 1) (.ST_EV_RECOGNITION_CONFIG data) ({ Stream.sample ST_STATE_SSR false [] with state_for_restore_ := ST_STATE_LOADED } : Stream) = some (status, st2) ∧
        st2.cur_state_ = ST_STATE_SSR ∧
        st2.state_for_restore_ = ({ Stream.sample ST_STATE_SSR false [] with state_for_restore_ := ST_STATE_LOADED } : Stream).state_for_restore_ ∧
        (({ Stream.sample ST_STATE_SSR false [] with state_for_restore_ := ST_STATE_LOADED } : Stream).state_for_restore_ ≠ ST_STATE_LOADED → status = - EINVAL ∧ st2 = ({ Stream.sample ST_STATE_SSR false [] with state_for_restore_ := ST_STATE_LOADED } : Stream)) ∧
        (({ Stream.sample ST_STATE_SSR false [] with state_for_restore_ := ST_STATE_LOADED } : Stream).state_for_restore_ = ST_STATE_LOADED → ∀ cfg, data = some cfg →
          Env.nominal.avail ({ Stream.sample ST_STATE_SSR false [] with state_for_restore_ := ST_STATE_LOADED } : Stream).trace.length = true → status = 0 ∧ st2.rec_config_ = some cfg)) ∧
    (∀ restart_ : Bool,
      ProcessEvent Env.nominal (0 + 1) (.ST_EV_START_RECOGNITION restart_) ({ Stream.sample ST_STATE_SSR false [] with state_for_restore_ := ST_STATE_LOADED } : Stream) =
        if ({ Stream.sample ST_STATE_SSR false [] with state_for_restore_ := ST_STATE_LOADED } : Stream).state_for_restore_ = ST_STATE_LOADED ∧ ({ Stream.sample ST_STATE_SSR false [] with state_for_restore_ := ST_STATE_LOADED } : Stream).rec_config_.isSome = true then
          some (0, { ({ Stream.sample ST_STATE_SSR false [] with state_for_restore_ := ST_STATE_LOADED } : Stream) with state_for_restore_ := ST_STATE_ACTIVE })
        else some (- EINVAL, ({ Stream.sample ST_STATE_SSR false [] with state_for_restore_ := ST_STATE_LOADED } : Stream))) ∧
    (∀ deferred_ : Bool,
      ProcessEvent Env.nominal (0 + 1) (.ST_EV_STOP_RECOGNITION deferred_) ({ Stream.sample ST_STATE_SSR false [] with state_for_restore_ := ST_STATE_LOADED } : Stream) =
        if ({ Stream.sample ST_STATE_SSR false [] with state_for_restore_ := ST_STATE_LOADED } : Stream).state_for_restore_ = ST_STATE_ACTIVE then
          some (0, { ({ Stream.sample ST_STATE_SSR false [] with state_for_restore_ := ST_STATE_LOADED } : Stream) with state_for_restore_ := ST_STATE_LOADED })
        else some (- EINVAL, ({ Stream.sample ST_STATE_SSR false [] with state_for_restore_ := ST_STATE_LOADED } : Stream))) :=
  ⟨rfl, C19_client_operations_in_SSR Env.nominal 0
    ({ Stream.sample ST_STATE_SSR false [] with state_for_restore_ := ST_STATE_LOADED } : Stream) rfl⟩

/-- Witness for C20: an Active stream receives a ConcurrentStream event, in an
environment in which the derivation returns the profile that the stream holds. -/
theorem C20_matching_capture_profile_witness :
    (Stream.sample ST_STATE_ACTIVE false []).sm_info_ = some SoundModelConfig.sample ∧
    ((∃ t a, StEventConfig.ST_EV_CONCURRENT_STREAM 0 true = .ST_EV_CONCURRENT_STREAM t a) ∨
      (∃ c, StEventConfig.ST_EV_CONCURRENT_STREAM 0 true = .ST_EV_CHARGING_STATE c)) ∧
    ((GetCurrentCaptureProfile Env.nominal (Stream.sample ST_STATE_ACTIVE false [])).map
        (fun r => r.1) = some (Stream.sample ST_STATE_ACTIVE false []).cap_prof_ ∧
      (Stream.sample ST_STATE_ACTIVE false []).cap_prof_ ≠ none) ∧
    ((Stream.sample ST_STATE_ACTIVE false []).cur_state_ = ST_STATE_LOADED ∨ (Stream.sample ST_STATE_ACTIVE false []).cur_state_ = ST_STATE_ACTIVE →
      ∃ (prof : Option CaptureProfile) (q : List Call),
        (prof = none → GetCurrentCaptureProfile Env.nominal (Stream.sample ST_STATE_ACTIVE false []) = none) ∧
        (prof ≠ none →
          GetCurrentCaptureProfile Env.nominal (Stream.sample ST_STATE_ACTIVE false []) = some (prof, { (Stream.sample ST_STATE_ACTIVE false []) with trace := (Stream.sample ST_STATE_ACTIVE false []).trace ++ q })) ∧
        (∀ x ∈ q, x = Call.IsVoiceUILPISupported ∨
          x = Call.CheckForActiveConcurrentNonLPIStream ∨
          x = Call.CheckForForcedTransitToNonLPI ∨
          x = Call.isDeviceAvailable QAL_DEVICE_IN_WIRED_HEADSET) ∧
        (prof ≠ none → (Stream.sample ST_STATE_ACTIVE false []).cap_prof_ = prof →
          ProcessEvent Env.nominal (0 + 1) (.ST_EV_CONCURRENT_STREAM 0 true) (Stream.sample ST_STATE_ACTIVE false []) = some (0, { (Stream.sample ST_STATE_ACTIVE false []) with trace := (Stream.sample ST_STATE_ACTIVE false []).trace ++ q }))) ∧
    ((Stream.sample ST_STATE_ACTIVE false []).cur_state_ = ST_STATE_DETECTED →
      ∃ (prof : Option CaptureProfile) (q : List Call),
        (prof = none → GetCurrentCaptureProfile Env.nominal { (Stream.sample ST_STATE_ACTIVE false []) with
          pending_stop_ := false, timer_stop_waiting_ := true,
          prev_state_ := some ST_STATE_DETECTED, cur_state_ := ST_STATE_ACTIVE,
          trace := (Stream.sample ST_STATE_ACTIVE false []).trace ++ [Call.timer_wait_cond_notify] } = none) ∧
        (prof ≠ none →
          GetCurrentCaptureProfile Env.nominal { (Stream.sample ST_STATE_ACTIVE false []) with
            pending_stop_ := false, timer_stop_waiting_ := true,
            prev_state_ := some ST_STATE_DETECTED, cur_state_ := ST_STATE_ACTIVE,
            trace := (Stream.sample ST_STATE_ACTIVE false []).trace ++ [Call.timer_wait_cond_notify] } =
            some (prof, { (Stream.sample ST_STATE_ACTIVE false []) with
              pending_stop_ := false, timer_stop_waiting_ := true,
              prev_state_ := some ST_STATE_DETECTED, cur_state_ := ST_STATE_ACTIVE,
              trace := (Stream.sample ST_STATE_ACTIVE false []).trace ++ [Call.timer_wait_cond_notify] ++ q })) ∧
        (∀ x ∈ q, x = Call.IsVoiceUILPISupported ∨
          x = Call.CheckForActiveConcurrentNonLPIStream ∨
          x = Call.CheckForForcedTransitToNonLPI ∨
          x = Call.isDeviceAvailable QAL_DEVICE_IN_WIRED_HEADSET) ∧
        (prof ≠ none → (Stream.sample ST_STATE_ACTIVE false []).cap_prof_ = prof →
          ProcessEvent Env.nominal (0 + 2) (.ST_EV_CONCURRENT_STREAM 0 true) (Stream.sample ST_STATE_ACTIVE false []) = some (0, { (Stream.sample ST_STATE_ACTIVE false []) with
            pending_stop_ := false, timer_stop_waiting_ := true,
            prev_state_ := some ST_STATE_DETECTED, cur_state_ := ST_STATE_ACTIVE,
            trace := (Stream.sample ST_STATE_ACTIVE false []).trace ++ [Call.timer_wait_cond_notify] ++ q }))) ∧
    ((Stream.sample ST_STATE_ACTIVE false []).cur_state_ = ST_STATE_BUFFERING →
      ∃ (prof : Option CaptureProfile) (q : List Call),
        (prof = none → GetCurrentCaptureProfile Env.nominal { (Stream.sample ST_STATE_ACTIVE false []) with
          pending_stop_ := false, timer_stop_waiting_ := true,
          prev_state_ := some ST_STATE_BUFFERING, cur_state_ := ST_STATE_ACTIVE,
          trace := (Stream.sample ST_STATE_ACTIVE false []).trace ++ [Call.timer_wait_cond_notify] ++
            (Stream.sample ST_STATE_ACTIVE false []).engines_.map (fun e => Call.StopBuffering e.engine_) ++
            (Stream.sample ST_STATE_ACTIVE false []).reader_.toList.map Call.reader_reset } = none) ∧
        (prof ≠ none →
          GetCurrentCaptureProfile Env.nominal { (Stream.sample ST_STATE_ACTIVE false []) with
            pending_stop_ := false, timer_stop_waiting_ := true,
            prev_state_ := some ST_STATE_BUFFERING, cur_state_ := ST_STATE_ACTIVE,
            trace := (Stream.sample ST_STATE_ACTIVE false []).trace ++ [Call.timer_wait_cond_notify] ++
              (Stream.sample ST_STATE_ACTIVE false []).engines_.map (fun e => Call.StopBuffering e.engine_) ++
              (Stream.sample ST_STATE_ACTIVE false []).reader_.toList.map Call.reader_reset } =
            some (prof, { (Stream.sample ST_STATE_ACTIVE false []) with
              pending_stop_ := false, timer_stop_waiting_ := true,
              prev_state_ := some ST_STATE_BUFFERING, cur_state_ := ST_STATE_ACTIVE,
              trace := (Stream.sample ST_STATE_ACTIVE false []).trace ++ [Call.timer_wait_cond_notify] ++
                (Stream.sample ST_STATE_ACTIVE false []).engines_.map (fun e => Call.StopBuffering e.engine_) ++
                (Stream.sample ST_STATE_ACTIVE false []).reader_.toList.map Call.reader_reset ++ q })) ∧
        (∀ x ∈ q, x = Call.IsVoiceUILPISupported ∨
          x = Call.CheckForActiveConcurrentNonLPIStream ∨
          x = Call.CheckForForcedTransitToNonLPI ∨
          x = Call.isDeviceAvailable QAL_DEVICE_IN_WIRED_HEADSET) ∧
        (prof ≠ none → (Stream.sample ST_STATE_ACTIVE false []).cap_prof_ = prof →
          ProcessEvent Env.nominal (0 + 2) (.ST_EV_CONCURRENT_STREAM 0 true) (Stream.sample ST_STATE_ACTIVE false []) = some (0, { (Stream.sample ST_STATE_ACTIVE false []) with
            pending_stop_ := false, timer_stop_waiting_ := true,
            prev_state_ := some ST_STATE_BUFFERING, cur_state_ := ST_STATE_ACTIVE,
            trace := (Stream.sample ST_STATE_ACTIVE false []).trace ++ [Call.timer_wait_cond_notify] ++
              (Stream.sample ST_STATE_ACTIVE false []).engines_.map (fun e => Call.StopBuffering e.engine_) ++
              (Stream.sample ST_STATE_ACTIVE false []).reader_.toList.map Call.reader_reset ++ q }))) :=
  ⟨rfl, Or.inl ⟨0, true, rfl⟩, ⟨by decide!, by decide⟩,
    C20_matching_capture_profile Env.nominal 0 (Stream.sample ST_STATE_ACTIVE false [])
      SoundModelConfig.sample (.ST_EV_CONCURRENT_STREAM 0 true) rfl (Or.inl ⟨0, true, rfl⟩)⟩

/-- C20 as stated fails in Detected: on a Detected stream whose delayed stop is
armed and whose capture profile is the one that is re-derived, a
ConcurrentStream event returns 0 but leaves the stream in Active with
`pending_stop_` false. -/
theorem C20_counterexample :
    (GetCurrentCaptureProfile Env.nominal
        ({ Stream.sample ST_STATE_DETECTED false [] with pending_stop_ := true } : Stream)).map
      Prod.fst =
      some ({ Stream.sample ST_STATE_DETECTED false [] with pending_stop_ := true } : Stream).cap_prof_ ∧
    (ProcessEvent Env.nominal 2 (.ST_EV_CONCURRENT_STREAM 0 true)
        ({ Stream.sample ST_STATE_DETECTED false [] with pending_stop_ := true } : Stream)).map
      (fun p => (p.1, p.2.cur_state_, p.2.pending_stop_)) =
      some (0, ST_STATE_ACTIVE, false) := by
  constructor <;> decide!

/-! ## Stop and unload, as steps of larger events -/

theorem StLoaded.unloadEngines_run (env : Env) (ret : Int) (engs : List EngineCfg) (s : Int)
    (st : Stream) :
    StLoaded.unloadEngines env ret engs s st =
      some ((engs.foldl
          (fun (acc : Int × Nat) _ =>
            (if env.status acc.2 ≠ 0 then ret else env.status acc.2, acc.2 + 1))
          (s, st.trace.length)).1,
        { st with
          trace := st.trace ++ engs.map (fun e => Call.UnloadSoundModel e.engine_) }) := by
  induction engs generalizing s st with
  | nil => simp [StLoaded.unloadEngines]
  | cons e es ih =>
    simp only [StLoaded.unloadEngines, run_bind, run_call, Option.some_bind,
      EngineCfg.GetEngine]
    rw [ih]
    simp

/-- StopRecognition in Active returns, in Loaded, with the stream otherwise
unchanged but for the trace. -/
theorem Stop_in_Active_step (env : Env) (fuel : Nat) (st : Stream) (deferred_ : Bool)
    (hs : st.cur_state_ = ST_STATE_ACTIVE) :
    ∃ (status : Int) (st2 : Stream),
      ProcessEvent env (fuel + 1) (.ST_EV_STOP_RECOGNITION deferred_) st = some (status, st2) ∧
      st2.cur_state_ = ST_STATE_LOADED ∧
      { st2 with
        cur_state_ := st.cur_state_, prev_state_ := st.prev_state_, trace := st.trace } = st := by
  by_cases hp : st.paused_ = true
  · by_cases ha : env.avail st.trace.length = true
    · obtain ⟨status, h⟩ := exists_status_of_map_snd
        (ProcessEvent env (fuel + 1) (.ST_EV_STOP_RECOGNITION deferred_) st)
        { st with
          prev_state_ := some ST_STATE_ACTIVE, cur_state_ := ST_STATE_LOADED,
          trace := st.trace ++ [Call.UpdateSVACaptureProfile false, Call.StopOtherSVAStreams,
              Call.StartOtherSVAStreams] ++
            st.engines_.map (fun e => Call.StopRecognition e.engine_) ++
            (st.mDevices.take 1).flatMap
              (fun dev => [Call.dev_stop dev, Call.deregisterDevice dev]) }
        (by simp [ProcessEvent, StActive.ProcessEvent, hs, StActive.stop, hp, ha, forEngines_run,
          stopDevice_run, TransitTo])
      exact ⟨status, _, h, rfl, rfl⟩
    · obtain ⟨status, h⟩ := exists_status_of_map_snd
        (ProcessEvent env (fuel + 1) (.ST_EV_STOP_RECOGNITION deferred_) st)
        { st with
          prev_state_ := some ST_STATE_ACTIVE, cur_state_ := ST_STATE_LOADED,
          trace := st.trace ++ [Call.UpdateSVACaptureProfile false] ++
            st.engines_.map (fun e => Call.StopRecognition e.engine_) ++
            (st.mDevices.take 1).flatMap
              (fun dev => [Call.dev_stop dev, Call.deregisterDevice dev]) }
        (by simp [ProcessEvent, StActive.ProcessEvent, hs, StActive.stop, hp, ha, forEngines_run,
          stopDevice_run, TransitTo])
      exact ⟨status, _, h, rfl, rfl⟩
  · obtain ⟨status, h⟩ := exists_status_of_map_snd
      (ProcessEvent env (fuel + 1) (.ST_EV_STOP_RECOGNITION deferred_) st)
      { st with
        prev_state_ := some ST_STATE_ACTIVE, cur_state_ := ST_STATE_LOADED,
        trace := st.trace ++
          st.engines_.map (fun e => Call.StopRecognition e.engine_) ++
          (st.mDevices.take 1).flatMap
            (fun dev => [Call.dev_stop dev, Call.deregisterDevice dev]) }
      (by simp [ProcessEvent, StActive.ProcessEvent, hs, StActive.stop, hp, forEngines_run,
        stopDevice_run, TransitTo])
    exact ⟨status, _, h, rfl, rfl⟩

/-- StopRecognition in Detected returns, in Loaded with the delayed stop
cancelled, the stream otherwise unchanged but for the trace. -/
theorem Stop_in_Detected_step (env : Env) (fuel : Nat) (st : Stream) (deferred_ : Bool)
    (hs : st.cur_state_ = ST_STATE_DETECTED) :
    ∃ (status : Int) (st2 : Stream),
      ProcessEvent env (fuel + 1) (.ST_EV_STOP_RECOGNITION deferred_) st = some (status, st2) ∧
      st2.cur_state_ = ST_STATE_LOADED ∧ st2.pending_stop_ = false ∧
      { st2 with
        cur_state_ := st.cur_state_, prev_state_ := st.prev_state_,
        pending_stop_ := st.pending_stop_, timer_stop_waiting_ := st.timer_stop_waiting_,
        trace := st.trace } = st := by
  obtain ⟨status, h⟩ := exists_status_of_map_snd
    (ProcessEvent env (fuel + 1) (.ST_EV_STOP_RECOGNITION deferred_) st)
    { st with
      pending_stop_ := false, timer_stop_waiting_ := true,
      prev_state_ := some ST_STATE_DETECTED, cur_state_ := ST_STATE_LOADED,
      trace := st.trace ++ [Call.timer_wait_cond_notify] ++
        st.engines_.map (fun e => Call.StopRecognition e.engine_) ++
        (st.mDevices.take 1).flatMap
          (fun dev => [Call.dev_stop dev, Call.deregisterDevice dev]) }
    (by simp [ProcessEvent, StDetected.ProcessEvent, hs, StDetected.stop, CancelDelayedStop,
      forEngines_run, stopDevice_run, TransitTo])
  exact ⟨status, _, h, rfl, rfl, rfl⟩

/-- StopBuffering in Buffering returns, in Buffering with the delayed stop armed,
the stream otherwise unchanged but for the trace. -/
theorem StopBuffering_in_Buffering_step (env : Env) (fuel : Nat) (st : Stream)
    (hs : st.cur_state_ = ST_STATE_BUFFERING) :
    ∃ (status : Int) (st2 : Stream),
      ProcessEvent env (fuel + 1) .ST_EV_STOP_BUFFERING st = some (status, st2) ∧
      st2.cur_state_ = ST_STATE_BUFFERING ∧ st2.pending_stop_ = true ∧
      { st2 with
        pending_stop_ := st.pending_stop_, timer_stop_waiting_ := st.timer_stop_waiting_,
        trace := st.trace } = st := by
  obtain ⟨status, h⟩ := exists_status_of_map_snd
    (ProcessEvent env (fuel + 1) .ST_EV_STOP_BUFFERING st)
    { st with
      pending_stop_ := true, timer_stop_waiting_ := false,
      trace := st.trace ++ st.engines_.map (fun e => Call.StopBuffering e.engine_) ++
        st.reader_.toList.map Call.reader_reset ++ [Call.timer_start_cond_notify] }
    (by simp [ProcessEvent, StBuffering.ProcessEvent, hs, StBuffering.stopBuffering_run,
      PostDelayedStop])
  exact ⟨status, _, h, hs, rfl, rfl⟩

/-- StopRecognition in Buffering returns, in Loaded with the delayed stop
cancelled, the stream otherwise unchanged but for the trace. -/
theorem Stop_in_Buffering_step (env : Env) (fuel : Nat) (st : Stream) (deferred_ : Bool)
    (hs : st.cur_state_ = ST_STATE_BUFFERING) :
    ∃ (status : Int) (st2 : Stream),
      ProcessEvent env (fuel + 1) (.ST_EV_STOP_RECOGNITION deferred_) st = some (status, st2) ∧
      st2.cur_state_ = ST_STATE_LOADED ∧ st2.pending_stop_ = false ∧
      { st2 with
        cur_state_ := st.cur_state_, prev_state_ := st.prev_state_,
        pending_stop_ := st.pending_stop_, timer_stop_waiting_ := st.timer_stop_waiting_,
        trace := st.trace } = st := by
  obtain ⟨status, h⟩ := exists_status_of_map_snd
    (ProcessEvent env (fuel + 1) (.ST_EV_STOP_RECOGNITION deferred_) st)
    { st with
      pending_stop_ := false, timer_stop_waiting_ := true,
      prev_state_ := some ST_STATE_BUFFERING, cur_state_ := ST_STATE_LOADED,
      trace := st.trace ++ [Call.timer_wait_cond_notify] ++
        st.engines_.map (fun e => Call.StopRecognition e.engine_) ++
        (st.mDevices.take 1).flatMap
          (fun dev => [Call.dev_stop dev, Call.deregisterDevice dev]) }
    (by simp [ProcessEvent, StBuffering.ProcessEvent, hs, StBuffering.stop, CancelDelayedStop,
      forEngines_run, stopDevice_run, TransitTo])
  exact ⟨status, _, h, rfl, rfl, rfl⟩

/-- UnloadSoundModel in Loaded returns (the platform record being there), in
Idle with no engine and no reader, the stream otherwise unchanged but for the
trace. -/
theorem Unload_in_Loaded_step (env : Env) (fuel : Nat) (st : Stream) (info : SoundModelConfig)
    (hs : st.cur_state_ = ST_STATE_LOADED) (hi : st.sm_info_ = some info) :
    ∃ (status : Int) (st2 : Stream),
      ProcessEvent env (fuel + 1) .ST_EV_UNLOAD_SOUND_MODEL st = some (status, st2) ∧
      st2.cur_state_ = ST_STATE_IDLE ∧ st2.engines_ = [] ∧ st2.reader_ = none ∧
      { st2 with
        cur_state_ := st.cur_state_, prev_state_ := st.prev_state_, engines_ := st.engines_,
        reader_ := st.reader_, trace := st.trace } = st := by
  obtain ⟨status, h⟩ := exists_status_of_map_snd
    (ProcessEvent env (fuel + 1) .ST_EV_UNLOAD_SOUND_MODEL st)
    { st with
      reader_ := none, engines_ := [],
      prev_state_ := some ST_STATE_LOADED, cur_state_ := ST_STATE_IDLE,
      trace := st.trace ++ (st.mDevices.take 1).map Call.dev_close ++
        st.engines_.map (fun e => Call.UnloadSoundModel e.engine_) ++
        [Call.resetStreamInstanceID st.mInstanceID] }
    (by
      cases hd : st.mDevices with
      | nil =>
        simp [ProcessEvent, StLoaded.ProcessEvent, hs, hd, hi, TransitTo,
          StLoaded.unloadEngines_run]
      | cons dev rest =>
        by_cases h0 : env.status st.trace.length = 0 <;>
          simp [ProcessEvent, StLoaded.ProcessEvent, hs, hd, hi, TransitTo,
            StLoaded.unloadEngines_run, h0])
  exact ⟨status, _, h, rfl, rfl, rfl, rfl⟩

/-- The case SSR_OFFLINE of `StLoaded::ProcessEvent`, as the unload it
dispatches followed by the transition to SSR. -/
theorem SsrOffline_in_Loaded_run (env : Env) (fuel : Nat) (st : Stream)
    (hs : st.cur_state_ = ST_STATE_LOADED) :
    ProcessEvent env (fuel + 2) .ST_EV_SSR_OFFLINE st =
      (ProcessEvent env (fuel + 1) .ST_EV_UNLOAD_SOUND_MODEL
        { st with
          state_for_restore_ :=
            if st.state_for_restore_ = ST_STATE_NONE then ST_STATE_LOADED
            else st.state_for_restore_ }).bind
        (fun q => some (q.1, { q.2 with
          prev_state_ := some q.2.cur_state_, cur_state_ := ST_STATE_SSR })) := by
  conv_lhs => unfold ProcessEvent
  by_cases hn : st.state_for_restore_ = ST_STATE_NONE <;>
    simp only [StLoaded.ProcessEvent, run_bind, run_get, hs, hn, if_true, run_modify,
      Option.some_bind, TransitTo, run_map, bind_assoc, pure_bind, run_pure,
      reduceCtorEq, if_false]
  have hst : ({ st with state_for_restore_ := st.state_for_restore_ } : Stream) = st := rfl
  rw [← hs, hst]

/-- The case SSR_OFFLINE of `StActive::ProcessEvent`, as the two events it
dispatches followed by the transition to SSR. -/
theorem SsrOffline_in_Active_run (env : Env) (fuel : Nat) (st : Stream)
    (hs : st.cur_state_ = ST_STATE_ACTIVE) :
    ProcessEvent env (fuel + 2) .ST_EV_SSR_OFFLINE st =
      (ProcessEvent env (fuel + 1) (.ST_EV_STOP_RECOGNITION false)
        { st with
          state_for_restore_ :=
            if st.state_for_restore_ = ST_STATE_NONE then ST_STATE_ACTIVE
            else st.state_for_restore_ }).bind
        (fun p => (ProcessEvent env (fuel + 1) .ST_EV_UNLOAD_SOUND_MODEL p.2).bind
          (fun q => some (q.1, { q.2 with
            prev_state_ := some q.2.cur_state_, cur_state_ := ST_STATE_SSR }))) := by
  conv_lhs => unfold ProcessEvent
  by_cases hn : st.state_for_restore_ = ST_STATE_NONE <;>
    simp only [StActive.ProcessEvent, run_bind, run_get, hs, hn, if_true, run_modify,
      Option.some_bind, TransitTo, run_map, bind_assoc, pure_bind, run_pure,
      reduceCtorEq, if_false]
  have hst : ({ st with state_for_restore_ := st.state_for_restore_ } : Stream) = st := rfl
  rw [← hs, hst]

/-- The case SSR_OFFLINE of `StDetected::ProcessEvent`, as the two events it
dispatches followed by the transition to SSR. -/
theorem SsrOffline_in_Detected_run (env : Env) (fuel : Nat) (st : Stream)
    (hs : st.cur_state_ = ST_STATE_DETECTED) :
    ProcessEvent env (fuel + 2) .ST_EV_SSR_OFFLINE st =
      (ProcessEvent env (fuel + 1) (.ST_EV_STOP_RECOGNITION false)
        { st with
          state_for_restore_ :=
            if st.state_for_restore_ = ST_STATE_NONE then ST_STATE_LOADED
            else st.state_for_restore_ }).bind
        (fun p => (ProcessEvent env (fuel + 1) .ST_EV_UNLOAD_SOUND_MODEL p.2).bind
          (fun q => some (q.1, { q.2 with
            prev_state_ := some q.2.cur_state_, cur_state_ := ST_STATE_SSR }))) := by
  conv_lhs => unfold ProcessEvent
  by_cases hn : st.state_for_restore_ = ST_STATE_NONE <;>
    simp only [StDetected.ProcessEvent, run_bind, run_get, hs, hn, if_true, run_modify,
      Option.some_bind, TransitTo, run_map, bind_assoc, pure_bind, run_pure,
      reduceCtorEq, if_false]
  have hst : ({ st with state_for_restore_ := st.state_for_restore_ } : Stream) = st := rfl
  rw [← hs, hst]

/-- The case SSR_OFFLINE of `StBuffering::ProcessEvent`, as the three events it
dispatches followed by the transition to SSR. -/
theorem SsrOffline_in_Buffering_run (env : Env) (fuel : Nat) (st : Stream)
    (hs : st.cur_state_ = ST_STATE_BUFFERING) :
    ProcessEvent env (fuel + 2) .ST_EV_SSR_OFFLINE st =
      (ProcessEvent env (fuel + 1) .ST_EV_STOP_BUFFERING
        { st with
          state_for_restore_ :=
            if st.state_for_restore_ = ST_STATE_NONE then ST_STATE_LOADED
            else st.state_for_restore_ }).bind
        (fun o => (ProcessEvent env (fuel + 1) (.ST_EV_STOP_RECOGNITION false) o.2).bind
          (fun p => (ProcessEvent env (fuel + 1) .ST_EV_UNLOAD_SOUND_MODEL p.2).bind
            (fun q => some (q.1, { q.2 with
              prev_state_ := some q.2.cur_state_, cur_state_ := ST_STATE_SSR })))) := by
  conv_lhs => unfold ProcessEvent
  by_cases hn : st.state_for_restore_ = ST_STATE_NONE <;>
    simp only [StBuffering.ProcessEvent, run_bind, run_get, hs, hn, if_true, run_modify,
      Option.some_bind, TransitTo, run_map, bind_assoc, pure_bind, run_pure,
      reduceCtorEq, if_false]
  have hst : ({ st with state_for_restore_ := st.state_for_restore_ } : Stream) = st := rfl
  rw [← hs, hst]

/-- SsrOffline in Idle, Loaded, Active, Detected or Buffering returns with the
stream in SSR, on a stream whose engine list is empty in Idle, which has no
delayed stop pending outside Detected and Buffering, and whose platform record
is there outside Idle.  `state_for_restore_` is kept when it is set; when it is
NONE it becomes Idle, Loaded, Active, Loaded and Loaded respectively.  The
engine list is empty and `pending_stop_` is false afterwards. -/
theorem SsrOffline_descent (env : Env) (fuel : Nat) (st : Stream)
    (hs : st.cur_state_ ≠ ST_STATE_SSR ∧ st.cur_state_ ≠ ST_STATE_NONE)
    (hi : st.cur_state_ ≠ ST_STATE_IDLE → st.sm_info_ ≠ none)
    (he : st.cur_state_ = ST_STATE_IDLE → st.engines_ = [])
    (hp : st.pending_stop_ = true →
      st.cur_state_ = ST_STATE_DETECTED ∨ st.cur_state_ = ST_STATE_BUFFERING) :
    ∃ (status : Int) (st2 : Stream),
      ProcessEvent env (fuel + 2) .ST_EV_SSR_OFFLINE st = some (status, st2) ∧
      st2.cur_state_ = ST_STATE_SSR ∧
      (st.state_for_restore_ ≠ ST_STATE_NONE → st2.state_for_restore_ = st.state_for_restore_) ∧
      (st.state_for_restore_ = ST_STATE_NONE →
        st2.state_for_restore_ =
          match st.cur_state_ with
          | ST_STATE_IDLE => ST_STATE_IDLE
          | ST_STATE_ACTIVE => ST_STATE_ACTIVE
          | _ => ST_STATE_LOADED) ∧
      st2.engines_ = [] ∧ st2.pending_stop_ = false := by
  have hpf : st.cur_state_ ≠ ST_STATE_DETECTED → st.cur_state_ ≠ ST_STATE_BUFFERING →
      st.pending_stop_ = false := by
    intro h1 h2
    cases hps : st.pending_stop_
    · rfl
    · rcases hp hps with h | h
      · exact absurd h h1
      · exact absurd h h2
  cases hcur : st.cur_state_ with
  | ST_STATE_NONE => exact absurd hcur hs.2
  | ST_STATE_SSR => exact absurd hcur hs.1
  | ST_STATE_IDLE =>
    have hpf2 := hpf (by rw [hcur]; decide) (by rw [hcur]; decide)
    by_cases hn : st.state_for_restore_ = ST_STATE_NONE
    · refine ⟨0, { st with
          state_for_restore_ := ST_STATE_IDLE, prev_state_ := some ST_STATE_IDLE,
          cur_state_ := ST_STATE_SSR }, ?_, rfl, fun h => absurd hn h, fun _ => rfl, he hcur, hpf2⟩
      simp [ProcessEvent, StIdle.ProcessEvent, hcur, hn, TransitTo]
    · refine ⟨0, { st with
          prev_state_ := some ST_STATE_IDLE, cur_state_ := ST_STATE_SSR }, ?_, rfl, fun _ => rfl,
        fun h => absurd h hn, he hcur, hpf2⟩
      simp [ProcessEvent, StIdle.ProcessEvent, hcur, hn, TransitTo]
  | ST_STATE_LOADED =>
    have hpf2 := hpf (by rw [hcur]; decide) (by rw [hcur]; decide)
    obtain ⟨info, hinfo⟩ := Option.ne_none_iff_exists'.1 (hi (by rw [hcur]; decide))
    rw [SsrOffline_in_Loaded_run env fuel st hcur]
    obtain ⟨s2, S3, h2, c2, e2, -, f2⟩ := Unload_in_Loaded_step env fuel
      { st with
        state_for_restore_ :=
          if st.state_for_restore_ = ST_STATE_NONE then ST_STATE_LOADED
          else st.state_for_restore_ } info hcur hinfo
    rw [h2]
    have g1 := congrArg Stream.state_for_restore_ f2
    have g2 := congrArg Stream.pending_stop_ f2
    simp only at g1 g2
    refine ⟨s2, _, rfl, rfl, ?_, ?_, e2, by rw [← hpf2]; exact g2⟩
    · intro hn
      show S3.state_for_restore_ = _
      rw [g1, if_neg hn]
    · intro hn
      show S3.state_for_restore_ = _
      rw [g1, if_pos hn]
  | ST_STATE_ACTIVE =>
    have hpf2 := hpf (by rw [hcur]; decide) (by rw [hcur]; decide)
    obtain ⟨info, hinfo⟩ := Option.ne_none_iff_exists'.1 (hi (by rw [hcur]; decide))
    rw [SsrOffline_in_Active_run env fuel st hcur]
    obtain ⟨s1, S2, h1, c1, f1⟩ := Stop_in_Active_step env fuel
      { st with
        state_for_restore_ :=
          if st.state_for_restore_ = ST_STATE_NONE then ST_STATE_ACTIVE
          else st.state_for_restore_ } false hcur
    rw [h1]
    simp only [Option.some_bind]
    have i1 := congrArg Stream.sm_info_ f1
    simp only at i1
    obtain ⟨s2, S3, h2, c2, e2, -, f2⟩ := Unload_in_Loaded_step env fuel S2 info c1
      (by rw [i1]; exact hinfo)
    rw [h2]
    have g1 := congrArg Stream.state_for_restore_ f1
    have g2 := congrArg Stream.pending_stop_ f1
    have g3 := congrArg Stream.state_for_restore_ f2
    have g4 := congrArg Stream.pending_stop_ f2
    simp only at g1 g2 g3 g4
    refine ⟨s2, _, rfl, rfl, ?_, ?_, e2, by rw [← hpf2, ← g2]; exact g4⟩
    · intro hn
      show S3.state_for_restore_ = _
      rw [g3, g1, if_neg hn]
    · intro hn
      show S3.state_for_restore_ = _
      rw [g3, g1, if_pos hn]
  | ST_STATE_DETECTED =>
    obtain ⟨info, hinfo⟩ := Option.ne_none_iff_exists'.1 (hi (by rw [hcur]; decide))
    rw [SsrOffline_in_Detected_run env fuel st hcur]
    obtain ⟨s1, S2, h1, c1, p1, f1⟩ := Stop_in_Detected_step env fuel
      { st with
        state_for_restore_ :=
          if st.state_for_restore_ = ST_STATE_NONE then ST_STATE_LOADED
          else st.state_for_restore_ } false hcur
    rw [h1]
    simp only [Option.some_bind]
    have i1 := congrArg Stream.sm_info_ f1
    simp only at i1
    obtain ⟨s2, S3, h2, c2, e2, -, f2⟩ := Unload_in_Loaded_step env fuel S2 info c1
      (by rw [i1]; exact hinfo)
    rw [h2]
    have g1 := congrArg Stream.state_for_restore_ f1
    have g3 := congrArg Stream.state_for_restore_ f2
    have g4 := congrArg Stream.pending_stop_ f2
    simp only at g1 g3 g4
    refine ⟨s2, _, rfl, rfl, ?_, ?_, e2, by rw [← p1]; exact g4⟩
    · intro hn
      show S3.state_for_restore_ = _
      rw [g3, g1, if_neg hn]
    · intro hn
      show S3.state_for_restore_ = _
      rw [g3, g1, if_pos hn]
  | ST_STATE_BUFFERING =>
    obtain ⟨info, hinfo⟩ := Option.ne_none_iff_exists'.1 (hi (by rw [hcur]; decide))
    rw [SsrOffline_in_Buffering_run env fuel st hcur]
    obtain ⟨s0, S1, h0, c0, -, f0⟩ := StopBuffering_in_Buffering_step env fuel
      { st with
        state_for_restore_ :=
          if st.state_for_restore_ = ST_STATE_NONE then ST_STATE_LOADED
          else st.state_for_restore_ } hcur
    rw [h0]
    simp only [Option.some_bind]
    obtain ⟨s1, S2, h1, c1, p1, f1⟩ := Stop_in_Buffering_step env fuel S1 false c0
    rw [h1]
    simp only [Option.some_bind]
    have i0 := congrArg Stream.sm_info_ f0
    have i1 := congrArg Stream.sm_info_ f1
    simp only at i0 i1
    obtain ⟨s2, S3, h2, c2, e2, -, f2⟩ := Unload_in_Loaded_step env fuel S2 info c1
      (by rw [i1, i0]; exact hinfo)
    rw [h2]
    have g0 := congrArg Stream.state_for_restore_ f0
    have g1 := congrArg Stream.state_for_restore_ f1
    have g3 := congrArg Stream.state_for_restore_ f2
    have g4 := congrArg Stream.pending_stop_ f2
    simp only at g0 g1 g3 g4
    refine ⟨s2, _, rfl, rfl, ?_, ?_, e2, by rw [← p1]; exact g4⟩
    · intro hn
      show S3.state_for_restore_ = _
      rw [g3, g1, g0, if_neg hn]
    · intro hn
      show S3.state_for_restore_ = _
      rw [g3, g1, g0, if_pos hn]

/-! ## Frame conditions of the building blocks -/

theorem keeps_pure {α γ : Type} (p : Stream → γ) (a : α) : Keeps p (pure a : M α) := by
  constructor
  intro s a2 s2 h
  simp at h
  rw [h.2]

theorem keeps_bind {α β γ : Type} (p : Stream → γ) (m : M α) (f : α → M β)
    (hm : Keeps p m) (hf : ∀ a, Keeps p (f a)) : Keeps p (m >>= f) := by
  constructor
  intro s b s2 h
  simp only [run_bind] at h
  obtain ⟨⟨a, s1⟩, h1, h2⟩ := Option.bind_eq_some.1 h
  rw [(hf a).keep s1 b s2 h2, hm.keep s a s1 h1]

theorem keeps_map {α β γ : Type} (p : Stream → γ) (m : M α) (f : α → β)
    (hm : Keeps p m) : Keeps p (f <$> m) := by
  constructor
  intro s b s2 h
  simp only [run_map] at h
  obtain ⟨⟨a, s1⟩, h1, h2⟩ := Option.map_eq_some'.1 h
  cases h2
  exact hm.keep s a s1 h1

theorem keeps_get {γ : Type} (p : Stream → γ) : Keeps p (get : M Stream) := by
  constructor
  intro s a s2 h
  simp at h
  rw [h.2]

theorem keeps_fault {α γ : Type} (p : Stream → γ) : Keeps p (fault : M α) := by
  constructor
  intro s a s2 h
  simp at h

theorem keeps_deref {α γ : Type} (p : Stream → γ) (x : Option α) : Keeps p (deref x) := by
  constructor
  intro s a s2 h
  cases x <;> simp at h
  rw [h.2]

theorem keeps_modify {γ : Type} (p : Stream → γ) (f : Stream → Stream)
    (hf : ∀ s, p (f s) = p s) : Keeps p (modify f : M PUnit) := by
  constructor
  intro s a s2 h
  simp at h
  rw [← h, hf]

theorem keeps_call {γ : Type} (p : Stream → γ) (env : Env) (c : Call)
    (hp : ∀ s t, p { s with trace := t } = p s) : Keeps p (call env c) := by
  constructor
  intro s a s2 h
  simp at h
  rw [← h.2, hp]

theorem keeps_ask {γ : Type} (p : Stream → γ) (env : Env) (c : Call)
    (hp : ∀ s t, p { s with trace := t } = p s) : Keeps p (ask env c) := by
  constructor
  intro s a s2 h
  simp at h
  rw [← h.2, hp]

theorem keeps_emit {γ : Type} (p : Stream → γ) (c : Call)
    (hp : ∀ s t, p { s with trace := t } = p s) : Keeps p (emit c) := by
  constructor
  intro s a s2 h
  simp at h
  rw [← h, hp]

theorem keeps_GetAvailCaptureDevice {γ : Type} (p : Stream → γ) (env : Env)
    (hp : ∀ s t, p { s with trace := t } = p s) : Keeps p (GetAvailCaptureDevice env) := by
  unfold GetAvailCaptureDevice
  repeat' first
    | apply keeps_bind
    | apply keeps_pure
    | apply keeps_map
    | apply keeps_get
    | apply keeps_fault
    | apply keeps_deref
    | (apply keeps_call; exact hp)
    | (apply keeps_ask; exact hp)
    | (apply keeps_emit; exact hp)
    | split
    | intro _
    | simp only []

theorem keeps_GetCurrentCaptureProfile {γ : Type} (p : Stream → γ) (env : Env)
    (hp : ∀ s t, p { s with trace := t } = p s) : Keeps p (GetCurrentCaptureProfile env) := by
  unfold GetCurrentCaptureProfile
  repeat' first
    | ((with_reducible apply keeps_GetAvailCaptureDevice); exact hp)
    | apply keeps_bind
    | apply keeps_pure
    | apply keeps_map
    | apply keeps_get
    | apply keeps_fault
    | apply keeps_deref
    | (apply keeps_call; exact hp)
    | (apply keeps_ask; exact hp)
    | (apply keeps_emit; exact hp)
    | split
    | intro _
    | simp only []

theorem keeps_GetQalDevice {γ : Type} (p : Stream → γ) (env : Env) (dev_id : Nat)
    (hp : ∀ s t, p { s with trace := t } = p s) : Keeps p (GetQalDevice env dev_id) := by
  unfold GetQalDevice
  repeat' first
    | ((with_reducible apply keeps_GetCurrentCaptureProfile); exact hp)
    | apply keeps_bind
    | apply keeps_pure
    | apply keeps_map
    | apply keeps_get
    | apply keeps_fault
    | apply keeps_deref
    | (apply keeps_call; exact hp)
    | (apply keeps_ask; exact hp)
    | (apply keeps_emit; exact hp)
    | split
    | intro _
    | simp only []

theorem keeps_LoadSoundModel_v3 {γ : Type} (p : Stream → γ) (env : Env)
    (sm : qal_st_sound_model)
    (hp : ∀ s (e : List EngineCfg) (g : Option SoundTriggerEngine) (t : List Call),
      p { s with engines_ := e, gsl_engine_ := g, trace := t } = p s)
    (recs : List SML_BigSoundModelTypeV3) : Keeps p (LoadSoundModel.v3 env sm recs) := by
  have ht : ∀ s t, p { s with trace := t } = p s := fun s t => hp s _ _ t
  induction recs with
  | nil =>
    unfold LoadSoundModel.v3
    apply keeps_pure
  | cons big_sm rest ih =>
    unfold LoadSoundModel.v3
    repeat' first
      | exact ih
      | apply keeps_bind
      | apply keeps_pure
      | apply keeps_map
      | apply keeps_get
      | apply keeps_fault
      | apply keeps_deref
      | (apply keeps_modify; intro s; exact hp s _ _ _)
      | (apply keeps_call; exact ht)
      | (apply keeps_ask; exact ht)
      | (apply keeps_emit; exact ht)
      | split
      | intro _
      | simp only []

theorem keeps_LoadSoundModel {γ : Type} (p : Stream → γ) (env : Env)
    (sound_model : Option qal_st_sound_model) (flag : Bool)
    (hp : ∀ s (ty : qal_st_sound_model_type_t) (c : Option qal_st_sound_model)
      (r : Option QalRingBufferReader) (e : List EngineCfg) (g : Option SoundTriggerEngine)
      (t : List Call),
      p { s with
        sound_model_type_ := ty, sm_config_ := c, reader_ := r, engines_ := e,
        gsl_engine_ := g, trace := t } = p s) :
    Keeps p (LoadSoundModel env sound_model flag) := by
  have ht : ∀ s t, p { s with trace := t } = p s := fun s t => hp s _ _ _ _ _ t
  unfold LoadSoundModel
  repeat' first
    | ((with_reducible apply keeps_LoadSoundModel_v3); intro s e g t; exact hp s _ _ _ e g t)
    | apply keeps_bind
    | apply keeps_pure
    | apply keeps_map
    | apply keeps_get
    | apply keeps_fault
    | apply keeps_deref
    | (apply keeps_modify; intro s; exact hp s _ _ _ _ _ _)
    | (apply keeps_call; exact ht)
    | (apply keeps_ask; exact ht)
    | (apply keeps_emit; exact ht)
    | split
    | intro _
    | simp only []

/-! ## Frame conditions of the recognition config and of the start -/

theorem keeps_FillConfLevels {γ : Type} (p : Stream → γ) (env : Env)
    (config : Option qal_st_recognition_config)
    (hp : ∀ s t, p { s with trace := t } = p s) : Keeps p (FillConfLevels env config) := by
  unfold FillConfLevels
  repeat' first
    | apply keeps_bind
    | apply keeps_pure
    | apply keeps_map
    | apply keeps_get
    | apply keeps_fault
    | apply keeps_deref
    | (apply keeps_call; exact hp)
    | (apply keeps_ask; exact hp)
    | (apply keeps_emit; exact hp)
    | split
    | intro _
    | simp only []

theorem keeps_FillOpaqueConfLevels {γ : Type} (p : Stream → γ) (env : Env)
    (sm_levels : Option st_sound_model_conf_levels) (version : Nat)
    (hp : ∀ s t, p { s with trace := t } = p s) :
    Keeps p (FillOpaqueConfLevels env sm_levels version) := by
  unfold FillOpaqueConfLevels FillOpaqueConfLevels.body
  repeat' first
    | apply keeps_bind
    | apply keeps_pure
    | apply keeps_map
    | apply keeps_get
    | apply keeps_fault
    | apply keeps_deref
    | (apply keeps_call; exact hp)
    | (apply keeps_ask; exact hp)
    | (apply keeps_emit; exact hp)
    | split
    | intro _
    | simp only []

theorem keeps_ParseOpaqueConfLevels_engines {γ : Type} (p : Stream → γ)
    (sm_id confidence_level : Nat) (hp : ∀ s t, p { s with trace := t } = p s)
    (engs : List EngineCfg) :
    Keeps p (ParseOpaqueConfLevels.engines sm_id confidence_level engs) := by
  induction engs with
  | nil =>
    unfold ParseOpaqueConfLevels.engines
    apply keeps_pure
  | cons eng engs ih =>
    unfold ParseOpaqueConfLevels.engines
    repeat' first
      | exact ih
      | apply keeps_bind
      | apply keeps_pure
      | apply keeps_map
      | (apply keeps_emit; exact hp)
      | split
      | intro _
      | simp only []

theorem keeps_ParseOpaqueConfLevels_models {γ : Type} (p : Stream → γ) (env : Env)
    (version : Nat) (hp : ∀ s t, p { s with trace := t } = p s)
    (levels : List st_sound_model_conf_levels) (b : Bool × Option (List Nat × Nat)) :
    Keeps p (ParseOpaqueConfLevels.models env version levels b) := by
  induction levels generalizing b with
  | nil =>
    unfold ParseOpaqueConfLevels.models
    apply keeps_pure
  | cons sm_levels rest ih =>
    obtain ⟨found, out⟩ := b
    unfold ParseOpaqueConfLevels.models
    repeat' first
      | apply ih
      | ((with_reducible apply keeps_FillOpaqueConfLevels); exact hp)
      | ((with_reducible apply keeps_ParseOpaqueConfLevels_engines); exact hp)
      | apply keeps_bind
      | apply keeps_pure
      | apply keeps_map
      | apply keeps_get
      | split
      | intro _
      | simp only []

theorem keeps_ParseOpaqueConfLevels {γ : Type} (p : Stream → γ) (env : Env)
    (conf_levels : List st_sound_model_conf_levels) (version : Nat)
    (out : Option (List Nat × Nat)) (hp : ∀ s t, p { s with trace := t } = p s) :
    Keeps p (ParseOpaqueConfLevels env conf_levels version out) := by
  unfold ParseOpaqueConfLevels
  repeat' first
    | ((with_reducible apply keeps_ParseOpaqueConfLevels_models); exact hp)
    | apply keeps_bind
    | apply keeps_pure
    | apply keeps_map
    | apply keeps_get
    | split
    | intro _
    | simp only []

theorem keeps_SendRecognitionConfig_params {γ : Type} (p : Stream → γ) (env : Env)
    (hp : ∀ s t, p { s with trace := t } = p s) (params : List st_param)
    (b : Nat × Nat × Option (List Nat × Nat)) :
    Keeps p (SendRecognitionConfig.params env params b) := by
  induction params generalizing b with
  | nil =>
    unfold SendRecognitionConfig.params
    apply keeps_pure
  | cons param rest ih =>
    obtain ⟨hist, pre, out⟩ := b
    cases param <;> unfold SendRecognitionConfig.params <;>
    repeat' first
      | apply ih
      | ((with_reducible apply keeps_ParseOpaqueConfLevels); exact hp)
      | apply keeps_bind
      | apply keeps_pure
      | apply keeps_map
      | apply keeps_get
      | split
      | intro _
      | simp only []

theorem keeps_SendRecognitionConfig_readers {γ : Type} (p : Stream → γ) (env : Env)
    (buffer : Nat) (hp : ∀ s t, p { s with trace := t } = p s) (engs : List EngineCfg)
    (i : Nat) : Keeps p (SendRecognitionConfig.readers env buffer i engs) := by
  induction engs generalizing i with
  | nil =>
    unfold SendRecognitionConfig.readers
    apply keeps_pure
  | cons eng engs ih =>
    unfold SendRecognitionConfig.readers
    repeat' first
      | apply ih
      | apply keeps_bind
      | apply keeps_pure
      | apply keeps_map
      | (apply keeps_call; exact hp)
      | split
      | intro _
      | simp only []

theorem keeps_SendRecognitionConfig {γ : Type} (p : Stream → γ) (env : Env)
    (config : Option qal_st_recognition_config) (flag : Bool)
    (hp : ∀ s (c : Option qal_st_recognition_config) (r : Option QalRingBufferReader)
      (t : List Call), p { s with rec_config_ := c, reader_ := r, trace := t } = p s) :
    Keeps p (SendRecognitionConfig env config flag) := by
  have ht : ∀ s t, p { s with trace := t } = p s := fun s t => hp s _ _ t
  unfold SendRecognitionConfig SendRecognitionConfig.apply SendRecognitionConfig.parse
    SendRecognitionConfig.createBuffer
  repeat' first
    | ((with_reducible apply keeps_SendRecognitionConfig_params); exact ht)
    | ((with_reducible apply keeps_SendRecognitionConfig_readers); exact ht)
    | ((with_reducible apply keeps_FillConfLevels); exact ht)
    | apply keeps_bind
    | apply keeps_pure
    | apply keeps_map
    | apply keeps_get
    | apply keeps_fault
    | apply keeps_deref
    | (apply keeps_modify; intro s; exact hp s _ _ _)
    | (apply keeps_call; exact ht)
    | (apply keeps_ask; exact ht)
    | (apply keeps_emit; exact ht)
    | split
    | intro _
    | simp only []

/-- LoadSoundModel in Idle keeps every observation that does not depend on the
fields the load writes, and a load that returns 0 has moved the stream to
Loaded. -/
theorem keeps_Load_in_Idle {γ : Type} (p : Stream → γ) (env : Env)
    (data : Option qal_st_sound_model) (flag : Bool)
    (hp : ∀ s (cs : st_state_id_t) (ps : Option st_state_id_t) (i : Option SoundModelConfig)
      (d : List Device) (cp : Option CaptureProfile) (id : Int)
      (ty : qal_st_sound_model_type_t) (c : Option qal_st_sound_model)
      (r : Option QalRingBufferReader) (e : List EngineCfg) (g : Option SoundTriggerEngine)
      (t : List Call),
      p { s with
        cur_state_ := cs, prev_state_ := ps, sm_info_ := i, mDevices := d, cap_prof_ := cp,
        mInstanceID := id, sound_model_type_ := ty, sm_config_ := c, reader_ := r,
        engines_ := e, gsl_engine_ := g, trace := t } = p s) :
    Keeps p (StIdle.ProcessEvent env (.ST_EV_LOAD_SOUND_MODEL data flag)) := by
  have ht : ∀ s t, p { s with trace := t } = p s := fun s t => hp s _ _ _ _ _ _ _ _ _ _ _ t
  unfold StIdle.ProcessEvent
  repeat' first
    | ((with_reducible apply keeps_GetAvailCaptureDevice); exact ht)
    | ((with_reducible apply keeps_GetCurrentCaptureProfile); exact ht)
    | ((with_reducible apply keeps_GetQalDevice); exact ht)
    | ((with_reducible apply keeps_LoadSoundModel); intro s ty c r e g t; exact hp s _ _ _ _ _ _ ty c r e g t)
    | apply keeps_bind
    | apply keeps_pure
    | apply keeps_map
    | apply keeps_get
    | apply keeps_fault
    | apply keeps_deref
    | (apply keeps_modify; intro s; exact hp s _ _ _ _ _ _ _ _ _ _ _ _)
    | (apply keeps_call; exact ht)
    | (apply keeps_ask; exact ht)
    | (apply keeps_emit; exact ht)
    | split
    | intro _
    | simp only []

/-! ## Postconditions of the load and of the start -/

theorem ensures_bind {α β : Type} (q : β → Stream → Prop) (m : M α) (f : α → M β)
    (hf : ∀ a, Ensures q (f a)) : Ensures q (m >>= f) := by
  constructor
  intro s b s2 h
  simp only [run_bind] at h
  obtain ⟨⟨a, s1⟩, _, h2⟩ := Option.bind_eq_some.1 h
  exact (hf a).ensure s1 b s2 h2

theorem ensures_fault {α : Type} (q : α → Stream → Prop) : Ensures q (fault : M α) := by
  constructor
  intro s a s2 h
  simp at h

theorem ensures_pure {α : Type} (q : α → Stream → Prop) (a : α) (h : ∀ s, q a s) :
    Ensures q (pure a : M α) := by
  constructor
  intro s a2 s2 h2
  simp at h2
  rw [← h2.1]
  exact h s2

theorem ensures_TransitTo_pure (state_id : st_state_id_t) (status : Int)
    (hn : state_id ≠ ST_STATE_NONE) :
    Ensures (fun (r : Int) (s : Stream) => r = 0 → s.cur_state_ = state_id)
      (TransitTo state_id >>= fun _ => (pure status : M Int)) := by
  constructor
  intro s a s2 h
  simp [TransitTo, hn] at h
  intro _
  rw [← h.2]

theorem Load_in_Idle_ok (env : Env) (data : Option qal_st_sound_model) (flag : Bool) :
    Ensures (fun (r : Int) (s : Stream) => r = 0 → s.cur_state_ = ST_STATE_LOADED)
      (StIdle.ProcessEvent env (.ST_EV_LOAD_SOUND_MODEL data flag)) := by
  unfold StIdle.ProcessEvent
  repeat' first
    | (apply ensures_TransitTo_pure; decide)
    | apply ensures_fault
    | (apply ensures_pure; intro s h0; exact absurd h0 (by assumption))
    | apply ensures_bind
    | split
    | intro _
    | simp only []

theorem StLoaded.startEngines_status (env : Env) (engs : List EngineCfg)
    (tmp : List SoundTriggerEngine) (status : Int) :
    Ensures (fun (r : Bool × Int × List SoundTriggerEngine) (_ : Stream) =>
        r.1 = false → r.2.1 ≠ 0)
      (StLoaded.startEngines env engs tmp status) := by
  induction engs generalizing tmp status with
  | nil =>
    unfold StLoaded.startEngines
    apply ensures_pure
    intro s h
    exact Bool.noConfusion h
  | cons eng engs ih =>
    unfold StLoaded.startEngines
    repeat' first
      | apply ih
      | (apply ensures_pure; intro s _; assumption)
      | apply ensures_bind
      | split
      | intro _
      | simp only []

/-- A StartRecognition in Loaded that returns 0 on a stream that is not paused,
every pointer query succeeding, has moved the stream to Active. -/
theorem Start_in_Loaded_ok (env : Env) (fuel : Nat) (st stA : Stream) (restart_ : Bool)
    (hs : st.cur_state_ = ST_STATE_LOADED) (hp : st.paused_ = false)
    (ha : ∀ n, env.avail n = true)
    (h : ProcessEvent env (fuel + 1) (.ST_EV_START_RECOGNITION restart_) st = some (0, stA)) :
    stA.cur_state_ = ST_STATE_ACTIVE := by
  cases hc : st.rec_config_ with
  | none =>
    simp [ProcessEvent, StLoaded.ProcessEvent, hs, StLoaded.start, hp, hc] at h
    exact absurd h.1 (by decide)
  | some cfg =>
    have tail : ∀ (engs : List EngineCfg) (S : Stream) (s0 : Int),
        ((StLoaded.startEngines env engs [] s0 S).bind fun p =>
          (if p.1.1 = false then StLoaded.err_exit env p.1.2.2 p.1.2.1
            else do
              let x ← get
              match x.reader_ with
                | some reader_ => do
                  emit (Call.reader_reset reader_)
                  (fun _ => p.1.2.1) <$> TransitTo ST_STATE_ACTIVE
                | none => (fun _ => p.1.2.1) <$> TransitTo ST_STATE_ACTIVE)
            p.2) = some (0, stA) →
        stA.cur_state_ = ST_STATE_ACTIVE := by
      intro engs S s0 h
      obtain ⟨⟨⟨ok, status, tmp⟩, S2⟩, h1, h2⟩ := Option.bind_eq_some.1 h
      have hst := (StLoaded.startEngines_status env engs [] s0).ensure _ _ _ h1
      cases ok with
      | false =>
        cases hd2 : S2.mDevices <;>
          simp [StLoaded.err_exit, StLoaded.stopStarted_run, hd2] at h2
        · exact absurd h2.1 (hst rfl)
        · exact absurd h2.1 (hst rfl)
      | true =>
        cases hr : S2.reader_ <;> simp [TransitTo, hr] at h2
        · rw [← h2.2]
        · rw [← h2.2]
    cases hd : st.mDevices with
    | nil =>
      simp [ProcessEvent, StLoaded.ProcessEvent, hs, StLoaded.start, hp, hc, hd, ha] at h
      exact tail _ _ _ h
    | cons dev rest =>
      simp [ProcessEvent, StLoaded.ProcessEvent, hs, StLoaded.start, hp, hc, hd, ha] at h
      split at h
      · exact tail _ _ _ h
      · simp at h
        rename_i hne
        exact absurd h.1 hne

/-! ## SsrOnline -/

/-- The case SSR_ONLINE of `StSSR::ProcessEvent`, as the steps it dispatches. -/
theorem SsrOnline_run (env : Env) (fuel : Nat) (st : Stream)
    (hs : st.cur_state_ = ST_STATE_SSR)
    (hr : st.state_for_restore_ = ST_STATE_LOADED ∨ st.state_for_restore_ = ST_STATE_ACTIVE) :
    ProcessEvent env (fuel + 1) .ST_EV_SSR_ONLINE st =
      (ProcessEvent env fuel (.ST_EV_LOAD_SOUND_MODEL st.sm_config_ true)
        { st with prev_state_ := some ST_STATE_SSR, cur_state_ := ST_STATE_IDLE }).bind
        (fun pL =>
          if pL.1 ≠ 0 then some (pL.1, pL.2)
          else if pL.2.state_for_restore_ = ST_STATE_ACTIVE then
            (SendRecognitionConfig env pL.2.rec_config_ true pL.2).bind
              (fun pC =>
                if pC.1 ≠ 0 then some (pC.1, pC.2)
                else
                  (ProcessEvent env fuel (.ST_EV_START_RECOGNITION false) pC.2).bind
                    (fun pA =>
                      if pA.1 ≠ 0 then some (pA.1, pA.2)
                      else some (pA.1, { pA.2 with state_for_restore_ := ST_STATE_NONE })))
          else some (pL.1, { pL.2 with state_for_restore_ := ST_STATE_NONE })) := by
  conv_lhs => unfold ProcessEvent
  simp only [StSSR.ProcessEvent, run_bind, run_get, hs, run_modify, Option.some_bind, TransitTo,
    run_pure, reduceCtorEq, if_false, hr, if_true, bind_assoc, pure_bind]
  congr 1
  funext p
  obtain ⟨r, s⟩ := p
  by_cases hr0 : r = 0
  · subst hr0
    by_cases ha : s.state_for_restore_ = ST_STATE_ACTIVE
    · simp only [ha, run_bind, run_get, run_modify, run_pure, Option.some_bind, ne_eq,
        not_true_eq_false, if_false, if_true, bind_assoc, pure_bind]
      congr 1
      funext p
      obtain ⟨r2, s2⟩ := p
      by_cases hr2 : r2 = 0
      · subst hr2
        simp only [ne_eq, not_true_eq_false, if_false, run_bind]
        congr 1
        funext p
        obtain ⟨r3, s3⟩ := p
        by_cases hr3 : r3 = 0
        · simp [hr3]
        · simp [hr3]
      · simp [hr2]
    · simp [ha]
  · simp [hr0]

/-- In Idle the dispatcher runs the handler of Idle. -/
theorem ProcessEvent_in_Idle (env : Env) (fuel : Nat) (ev_cfg : StEventConfig) (st : Stream)
    (hs : st.cur_state_ = ST_STATE_IDLE) :
    ProcessEvent env (fuel + 1) ev_cfg st = StIdle.ProcessEvent env ev_cfg st := by
  conv_lhs => unfold ProcessEvent
  simp only [run_bind, run_get, hs, Option.some_bind]

/-- SsrOnline with nothing to restore: the stream moves to Idle. -/
theorem SsrOnline_restore_Idle (env : Env) (fuel : Nat) (st : Stream)
    (hs : st.cur_state_ = ST_STATE_SSR) (hr : st.state_for_restore_ = ST_STATE_IDLE) :
    ProcessEvent env (fuel + 1) .ST_EV_SSR_ONLINE st =
      some (0, { st with
        prev_state_ := some ST_STATE_SSR, cur_state_ := ST_STATE_IDLE,
        state_for_restore_ := ST_STATE_NONE }) := by
  conv_lhs => unfold ProcessEvent
  simp [StSSR.ProcessEvent, hs, hr, TransitTo]

/-- SsrOnline with Loaded to restore: the result in terms of the replayed
load. -/
theorem SsrOnline_restore_Loaded (env : Env) (fuel : Nat) (st stL : Stream) (status : Int)
    (hs : st.cur_state_ = ST_STATE_SSR) (hr : st.state_for_restore_ = ST_STATE_LOADED)
    (hL : ProcessEvent env fuel (.ST_EV_LOAD_SOUND_MODEL st.sm_config_ true)
      { st with prev_state_ := some ST_STATE_SSR, cur_state_ := ST_STATE_IDLE } =
        some (status, stL)) :
    (status = 0 → stL.cur_state_ = ST_STATE_LOADED ∧
      ProcessEvent env (fuel + 1) .ST_EV_SSR_ONLINE st =
        some (0, { stL with state_for_restore_ := ST_STATE_NONE })) ∧
    (status ≠ 0 → ProcessEvent env (fuel + 1) .ST_EV_SSR_ONLINE st = some (status, stL) ∧
      stL.state_for_restore_ = ST_STATE_LOADED) := by
  have hrun := SsrOnline_run env fuel st hs (Or.inl hr)
  rw [hL] at hrun
  cases fuel with
  | zero => simp [ProcessEvent] at hL
  | succ n =>
    rw [ProcessEvent_in_Idle env n _ _ rfl] at hL
    have hk : stL.state_for_restore_ = ST_STATE_LOADED := by
      have := (keeps_Load_in_Idle (fun s => s.state_for_restore_) env st.sm_config_ true
        (by intros; rfl)).keep _ _ _ hL
      simpa [hr] using this
    constructor
    · intro h0
      subst h0
      refine ⟨(Load_in_Idle_ok env st.sm_config_ true).ensure _ _ _ hL rfl, ?_⟩
      rw [hrun]
      simp [hk]
    · intro h0
      refine ⟨?_, hk⟩
      rw [hrun]
      simp [h0]

/-- SsrOnline with Active to restore: when the replayed load, recognition config
and start return 0, so does SsrOnline, with `state_for_restore_` cleared; the
stream is then in Active if it is not paused and every pointer query
succeeds. -/
theorem SsrOnline_restore_Active (env : Env) (fuel : Nat) (st stL stC stA : Stream)
    (hs : st.cur_state_ = ST_STATE_SSR) (hr : st.state_for_restore_ = ST_STATE_ACTIVE)
    (hL : ProcessEvent env fuel (.ST_EV_LOAD_SOUND_MODEL st.sm_config_ true)
      { st with prev_state_ := some ST_STATE_SSR, cur_state_ := ST_STATE_IDLE } = some (0, stL))
    (hC : SendRecognitionConfig env stL.rec_config_ true stL = some (0, stC))
    (hS : ProcessEvent env fuel (.ST_EV_START_RECOGNITION false) stC = some (0, stA)) :
    ProcessEvent env (fuel + 1) .ST_EV_SSR_ONLINE st =
      some (0, { stA with state_for_restore_ := ST_STATE_NONE }) ∧
    (st.paused_ = false → (∀ n, env.avail n = true) → stA.cur_state_ = ST_STATE_ACTIVE) := by
  have hrun := SsrOnline_run env fuel st hs (Or.inr hr)
  rw [hL] at hrun
  cases fuel with
  | zero => simp [ProcessEvent] at hL
  | succ n =>
    rw [ProcessEvent_in_Idle env n _ _ rfl] at hL
    have hk := (keeps_Load_in_Idle (fun s => (s.state_for_restore_, s.paused_)) env
      st.sm_config_ true (by intros; rfl)).keep _ _ _ hL
    have hLs := (Load_in_Idle_ok env st.sm_config_ true).ensure _ _ _ hL rfl
    have hc := (keeps_SendRecognitionConfig
      (fun s => (s.cur_state_, s.state_for_restore_, s.paused_)) env stL.rec_config_ true
      (by intros; rfl)).keep _ _ _ hC
    simp only [Prod.mk.injEq] at hk hc
    constructor
    · rw [hrun]
      simp [hk.1, hr, hC, hS]
    · intro hp ha
      exact Start_in_Loaded_ok env n stC stA false (by rw [hc.1, hLs])
        (by rw [hc.2.2, hk.2, hp]) ha hS

/-- SsrOffline in Active on a stream with nothing saved returns, in SSR with
Active saved for the restore; the pause flag and the cached model and config
are kept. -/
theorem SsrOffline_from_Active (env : Env) (fuel : Nat) (sa : Stream) (info : SoundModelConfig)
    (hs : sa.cur_state_ = ST_STATE_ACTIVE) (hn : sa.state_for_restore_ = ST_STATE_NONE)
    (hi : sa.sm_info_ = some info) :
    ∃ (status : Int) (ss : Stream),
      ProcessEvent env (fuel + 2) .ST_EV_SSR_OFFLINE sa = some (status, ss) ∧
      ss.cur_state_ = ST_STATE_SSR ∧ ss.state_for_restore_ = ST_STATE_ACTIVE ∧
      ss.paused_ = sa.paused_ ∧ ss.sm_config_ = sa.sm_config_ ∧
      ss.rec_config_ = sa.rec_config_ := by
  rw [SsrOffline_in_Active_run env fuel sa hs]
  simp only [hn, if_true]
  obtain ⟨s1, st1, h1, hs1, hf1⟩ := Stop_in_Active_step env fuel
    { sa with state_for_restore_ := ST_STATE_ACTIVE } false hs
  have hi1 : st1.sm_info_ = some info := by
    have := congrArg Stream.sm_info_ hf1
    simp only at this
    rw [this, hi]
  obtain ⟨s2, st2, h2, _, _, _, hf2⟩ := Unload_in_Loaded_step env fuel st1 info hs1 hi1
  refine ⟨s2, _, by rw [h1]; simp only [Option.some_bind]; rw [h2]; rfl, rfl, ?_, ?_, ?_, ?_⟩
  · have a := congrArg Stream.state_for_restore_ hf1
    have b := congrArg Stream.state_for_restore_ hf2
    simp only at a b
    rw [b, a]
  · have a := congrArg Stream.paused_ hf1
    have b := congrArg Stream.paused_ hf2
    simp only at a b
    rw [b, a]
  · have a := congrArg Stream.sm_config_ hf1
    have b := congrArg Stream.sm_config_ hf2
    simp only at a b
    rw [b, a]
  · have a := congrArg Stream.rec_config_ hf1
    have b := congrArg Stream.rec_config_ hf2
    simp only at a b
    rw [b, a]

/-- C17 (as amended).  SsrOnline in SSR first moves the stream to Idle and then
replays according to `state_for_restore_`.  Idle: no replay; the event returns 0
with the stream in Idle and `state_for_restore_` cleared to NONE.  Loaded: the
cached model load is replayed; when it returns 0 the stream is in Loaded and the
event returns 0 with `state_for_restore_` cleared, and when it fails the event
returns its status and `state_for_restore_` stays Loaded.  Active: load,
recognition config and start are replayed; when the three return 0 the event
returns 0 with `state_for_restore_` cleared, and the stream is in Active if it is
not paused (every pointer query succeeding).  In particular SsrOffline from
Active, with nothing saved, returns with the stream in SSR and Active saved, and
a SsrOnline after it whose replay succeeds, on a stream that is not paused, ends
in Active with `state_for_restore_` cleared. -/
theorem C17_SsrOnline_replay (env : Env) (fuel : Nat) (st : Stream)
    (hs : st.cur_state_ = ST_STATE_SSR) :
    (st.state_for_restore_ = ST_STATE_IDLE →
      ProcessEvent env (fuel + 1) .ST_EV_SSR_ONLINE st =
        some (0, { st with
          prev_state_ := some ST_STATE_SSR, cur_state_ := ST_STATE_IDLE,
          state_for_restore_ := ST_STATE_NONE })) ∧
    (st.state_for_restore_ = ST_STATE_LOADED → ∀ (status : Int) (stL : Stream),
      ProcessEvent env fuel (.ST_EV_LOAD_SOUND_MODEL st.sm_config_ true)
        { st with prev_state_ := some ST_STATE_SSR, cur_state_ := ST_STATE_IDLE } =
          some (status, stL) →
      (status = 0 → stL.cur_state_ = ST_STATE_LOADED ∧
        ProcessEvent env (fuel + 1) .ST_EV_SSR_ONLINE st =
          some (0, { stL with state_for_restore_ := ST_STATE_NONE })) ∧
      (status ≠ 0 → ProcessEvent env (fuel + 1) .ST_EV_SSR_ONLINE st = some (status, stL) ∧
        stL.state_for_restore_ = ST_STATE_LOADED)) ∧
    (st.state_for_restore_ = ST_STATE_ACTIVE → ∀ (stL stC stA : Stream),
      ProcessEvent env fuel (.ST_EV_LOAD_SOUND_MODEL st.sm_config_ true)
        { st with prev_state_ := some ST_STATE_SSR, cur_state_ := ST_STATE_IDLE } =
          some (0, stL) →
      SendRecognitionConfig env stL.rec_config_ true stL = some (0, stC) →
      ProcessEvent env fuel (.ST_EV_START_RECOGNITION false) stC = some (0, stA) →
      ProcessEvent env (fuel + 1) .ST_EV_SSR_ONLINE st =
        some (0, { stA with state_for_restore_ := ST_STATE_NONE }) ∧
      (st.paused_ = false → (∀ n, env.avail n = true) → stA.cur_state_ = ST_STATE_ACTIVE)) ∧
    (∀ (sa : Stream) (info : SoundModelConfig), sa.cur_state_ = ST_STATE_ACTIVE →
      sa.state_for_restore_ = ST_STATE_NONE → sa.sm_info_ = some info →
      ∃ (status : Int) (ss : Stream),
        ProcessEvent env (fuel + 2) .ST_EV_SSR_OFFLINE sa = some (status, ss) ∧
        ss.cur_state_ = ST_STATE_SSR ∧ ss.state_for_restore_ = ST_STATE_ACTIVE ∧
        ∀ (stL stC stA : Stream),
          ProcessEvent env fuel (.ST_EV_LOAD_SOUND_MODEL ss.sm_config_ true)
            { ss with prev_state_ := some ST_STATE_SSR, cur_state_ := ST_STATE_IDLE } =
              some (0, stL) →
          SendRecognitionConfig env stL.rec_config_ true stL = some (0, stC) →
          ProcessEvent env fuel (.ST_EV_START_RECOGNITION false) stC = some (0, stA) →
          sa.paused_ = false → (∀ n, env.avail n = true) →
          ∃ (stO : Stream),
            ProcessEvent env (fuel + 1) .ST_EV_SSR_ONLINE ss = some (0, stO) ∧
            stO.cur_state_ = ST_STATE_ACTIVE ∧ stO.state_for_restore_ = ST_STATE_NONE) := by
  refine ⟨SsrOnline_restore_Idle env fuel st hs,
    fun hr status stL hL => SsrOnline_restore_Loaded env fuel st stL status hs hr hL,
    fun hr stL stC stA hL hC hS => SsrOnline_restore_Active env fuel st stL stC stA hs hr hL hC hS,
    ?_⟩
  intro sa info hsa hn hi
  obtain ⟨status, ss, h, hss, hr, hp, _, _⟩ := SsrOffline_from_Active env fuel sa info hsa hn hi
  refine ⟨status, ss, h, hss, hr, ?_⟩
  intro stL stC stA hL hC hS hpa ha
  obtain ⟨h1, h2⟩ := SsrOnline_restore_Active env fuel ss stL stC stA hss hr hL hC hS
  exact ⟨_, h1, h2 (by rw [hp, hpa]) ha, rfl⟩

/-- Witness for C17: the stream that SsrOffline leaves behind from Active, in the
nominal environment; there SsrOffline followed by SsrOnline ends in Active with
nothing left to restore. -/
theorem C17_SsrOnline_replay_witness :
    (Stream.offline ST_STATE_ACTIVE).cur_state_ = ST_STATE_SSR ∧
    ((ProcessEvents Env.nominal 3 [.ST_EV_SSR_OFFLINE, .ST_EV_SSR_ONLINE]
      (Stream.sample ST_STATE_ACTIVE false [])).map
      (fun r => (r.1, r.2.cur_state_, r.2.state_for_restore_)) =
      some ([0, 0], ST_STATE_ACTIVE, ST_STATE_NONE)) ∧
    ((Stream.offline ST_STATE_ACTIVE).state_for_restore_ = ST_STATE_IDLE →
      ProcessEvent Env.nominal (2 + 1) .ST_EV_SSR_ONLINE (Stream.offline ST_STATE_ACTIVE) =
        some (0, { (Stream.offline ST_STATE_ACTIVE) with
          prev_state_ := some ST_STATE_SSR, cur_state_ := ST_STATE_IDLE,
          state_for_restore_ := ST_STATE_NONE })) ∧
    ((Stream.offline ST_STATE_ACTIVE).state_for_restore_ = ST_STATE_LOADED → ∀ (status : Int) (stL : Stream),
      ProcessEvent Env.nominal 2 (.ST_EV_LOAD_SOUND_MODEL (Stream.offline ST_STATE_ACTIVE).sm_config_ true)
        { (Stream.offline ST_STATE_ACTIVE) with prev_state_ := some ST_STATE_SSR, cur_state_ := ST_STATE_IDLE } =
          some (status, stL) →
      (status = 0 → stL.cur_state_ = ST_STATE_LOADED ∧
        ProcessEvent Env.nominal (2 + 1) .ST_EV_SSR_ONLINE (Stream.offline ST_STATE_ACTIVE) =
          some (0, { stL with state_for_restore_ := ST_STATE_NONE })) ∧
      (status ≠ 0 → ProcessEvent Env.nominal (2 + 1) .ST_EV_SSR_ONLINE (Stream.offline ST_STATE_ACTIVE) = some (status, stL) ∧
        stL.state_for_restore_ = ST_STATE_LOADED)) ∧
    ((Stream.offline ST_STATE_ACTIVE).state_for_restore_ = ST_STATE_ACTIVE → ∀ (stL stC stA : Stream),
      ProcessEvent Env.nominal 2 (.ST_EV_LOAD_SOUND_MODEL (Stream.offline ST_STATE_ACTIVE).sm_config_ true)
        { (Stream.offline ST_STATE_ACTIVE) with prev_state_ := some ST_STATE_SSR, cur_state_ := ST_STATE_IDLE } =
          some (0, stL) →
      SendRecognitionConfig Env.nominal stL.rec_config_ true stL = some (0, stC) →
      ProcessEvent Env.nominal 2 (.ST_EV_START_RECOGNITION false) stC = some (0, stA) →
      ProcessEvent Env.nominal (2 + 1) .ST_EV_SSR_ONLINE (Stream.offline ST_STATE_ACTIVE) =
        some (0, { stA with state_for_restore_ := ST_STATE_NONE }) ∧
      ((Stream.offline ST_STATE_ACTIVE).paused_ = false → (∀ n, Env.nominal.avail n = true) → stA.cur_state_ = ST_STATE_ACTIVE)) ∧
    (∀ (sa : Stream) (info : SoundModelConfig), sa.cur_state_ = ST_STATE_ACTIVE →
      sa.state_for_restore_ = ST_STATE_NONE → sa.sm_info_ = some info →
      ∃ (status : Int) (ss : Stream),
        ProcessEvent Env.nominal (2 + 2) .ST_EV_SSR_OFFLINE sa = some (status, ss) ∧
        ss.cur_state_ = ST_STATE_SSR ∧ ss.state_for_restore_ = ST_STATE_ACTIVE ∧
        ∀ (stL stC stA : Stream),
          ProcessEvent Env.nominal 2 (.ST_EV_LOAD_SOUND_MODEL ss.sm_config_ true)
            { ss with prev_state_ := some ST_STATE_SSR, cur_state_ := ST_STATE_IDLE } =
              some (0, stL) →
          SendRecognitionConfig Env.nominal stL.rec_config_ true stL = some (0, stC) →
          ProcessEvent Env.nominal 2 (.ST_EV_START_RECOGNITION false) stC = some (0, stA) →
          sa.paused_ = false → (∀ n, Env.nominal.avail n = true) →
          ∃ (stO : Stream),
            ProcessEvent Env.nominal (2 + 1) .ST_EV_SSR_ONLINE ss = some (0, stO) ∧
            stO.cur_state_ = ST_STATE_ACTIVE ∧ stO.state_for_restore_ = ST_STATE_NONE) :=
  ⟨rfl, by decide!, C17_SsrOnline_replay Env.nominal 2 (Stream.offline ST_STATE_ACTIVE) rfl⟩

/-- C17 as stated fails for a paused stream: a stream paused in Active (which
moves it to Loaded) goes offline, is started while in SSR, which saves Active
for the restore, and comes back online: every event returns 0 and the replay
ends in Loaded, not in Active, with `state_for_restore_` cleared. -/
theorem C17_counterexample :
    ((ProcessEvents Env.nominal 3
      [.ST_EV_PAUSE, .ST_EV_SSR_OFFLINE, .ST_EV_START_RECOGNITION false]
      (Stream.sample ST_STATE_ACTIVE false [])).map
      (fun r => (r.1, r.2.cur_state_, r.2.state_for_restore_, r.2.paused_)) =
      some ([0, 0, 0], ST_STATE_SSR, ST_STATE_ACTIVE, true)) ∧
    ((ProcessEvents Env.nominal 3
      [.ST_EV_PAUSE, .ST_EV_SSR_OFFLINE, .ST_EV_START_RECOGNITION false, .ST_EV_SSR_ONLINE]
      (Stream.sample ST_STATE_ACTIVE false [])).map
      (fun r => (r.1, r.2.cur_state_, r.2.state_for_restore_, r.2.paused_)) =
      some ([0, 0, 0, 0], ST_STATE_LOADED, ST_STATE_NONE, true)) := by
  constructor <;> decide!

/-! ## Event sequences and reachable streams -/

/-- A sequence of events that returns leads from a reachable stream to a
reachable stream. -/
theorem Reachable.of_ProcessEvents (env : Env) (fuel : Nat) (evs : List StEventConfig) :
    ∀ (st st2 : Stream) (statuses : List Int), Reachable env st →
      ProcessEvents env fuel evs st = some (statuses, st2) → Reachable env st2 := by
  induction evs with
  | nil =>
    intro st st2 statuses hr h
    simp [ProcessEvents] at h
    rw [← h.2]
    exact hr
  | cons ev evs ih =>
    intro st st2 statuses hr h
    simp only [ProcessEvents, run_bind, run_pure] at h
    obtain ⟨⟨status, st1⟩, h1, h2⟩ := Option.bind_eq_some.1 h
    obtain ⟨⟨rest, st3⟩, h3, h4⟩ := Option.bind_eq_some.1 h2
    simp only [Option.some.injEq, Prod.mk.injEq] at h4
    rw [← h4.2]
    exact ih st1 st3 rest (Reachable.step fuel ev status st st1 hr h1) h3

/-- What is observed of the stream at the end of a sequence of events that
starts at a reachable stream is observed of a reachable stream. -/
theorem Reachable.of_observation {γ : Type} (env : Env) (fuel : Nat)
    (evs : List StEventConfig) (st : Stream) (f : List Int × Stream → γ) (x : γ)
    (hr : Reachable env st) (h : (ProcessEvents env fuel evs st).map f = some x) :
    ∃ (statuses : List Int) (st2 : Stream), Reachable env st2 ∧ f (statuses, st2) = x := by
  obtain ⟨⟨statuses, st2⟩, h1, h2⟩ := Option.map_eq_some'.1 h
  exact ⟨statuses, st2, Reachable.of_ProcessEvents env fuel evs st st2 statuses hr h1, h2⟩

/-! ## Claims on the readers, the unload and the reachable streams -/

/-- C23 (the code at the failing input).  On a fresh stream, a v3 container whose
keyword-verifier record comes before its GMM record loads with the engine list
in record order, so the first-stage engine (handle 15) is `engines_[1]`.
`SendRecognitionConfig`, which returns 0, then hands reader 1 of the new buffer
(interaction 21) to that first-stage engine and no reader to the keyword
verifier (handle 12), whereas for the container with the GMM record first the
keyword verifier (handle 15) gets reader 1 and the first-stage engine none. -/
theorem C23_reader_of_second_record :
    ((ProcessEvents Env.nominal 1
      [.ST_EV_LOAD_SOUND_MODEL
        (some (qal_st_sound_model.v3 [⟨ST_SM_ID_SVA_KWD, 8, 0⟩, ⟨ST_SM_ID_SVA_GMM, 8, 8⟩])) false,
       .ST_EV_RECOGNITION_CONFIG (some (qal_st_recognition_config.bare false [⟨0, 1, 40, []⟩]))]
      (Stream.init false)).map
      (fun r => (r.1, r.2.engines_.map (fun e => (e.id_, e.engine_)), r.2.gsl_engine_,
        r.2.trace.drop 21)) =
      some ([0, 0], [(ST_SM_ID_SVA_KWD, 12), (ST_SM_ID_SVA_GMM, 15)], some 15,
        [Call.CreateBuffer 15 64000 2, Call.SetBufferReader 15 { buffer := 21, index := 1 },
         Call.UpdateConfLevels 15 (some [40]) 1, Call.SetCaptureRequested 15 true])) ∧
    ((ProcessEvents Env.nominal 1
      [.ST_EV_LOAD_SOUND_MODEL
        (some (qal_st_sound_model.v3 [⟨ST_SM_ID_SVA_GMM, 8, 0⟩, ⟨ST_SM_ID_SVA_KWD, 8, 8⟩])) false,
       .ST_EV_RECOGNITION_CONFIG (some (qal_st_recognition_config.bare false [⟨0, 1, 40, []⟩]))]
      (Stream.init false)).map
      (fun r => (r.1, r.2.engines_.map (fun e => (e.id_, e.engine_)), r.2.gsl_engine_,
        r.2.trace.drop 21)) =
      some ([0, 0], [(ST_SM_ID_SVA_GMM, 12), (ST_SM_ID_SVA_KWD, 15)], some 12,
        [Call.CreateBuffer 12 64000 2, Call.SetBufferReader 15 { buffer := 21, index := 1 },
         Call.UpdateConfLevels 12 (some [40]) 1, Call.SetCaptureRequested 12 true])) := by
  constructor <;> decide!

/-- C25 (the code at the failing input).  On a Loaded stream with one engine
whose device close fails with `-EIO` while the engine unloads with status 0, the
Unload event returns 0: the status of the last engine overwrites the status of
the close.  So does it when the close succeeds and the engine's unload fails:
the failed status is replaced by the status of the close, which is 0. -/
theorem C25_Unload_drops_close_failure :
    ((ProcessEvent (Env.failAt 0 (- EIO)) 1 .ST_EV_UNLOAD_SOUND_MODEL
      (Stream.sample ST_STATE_LOADED false [])).map
      (fun r => (r.1, r.2.cur_state_, r.2.trace)) =
      some (0, ST_STATE_IDLE,
        [Call.dev_close QAL_DEVICE_IN_HANDSET_VA_MIC, Call.UnloadSoundModel 0,
         Call.resetStreamInstanceID 0])) ∧
    ((ProcessEvent (Env.failAt 1 (- EIO)) 1 .ST_EV_UNLOAD_SOUND_MODEL
      (Stream.sample ST_STATE_LOADED false [])).map
      (fun r => (r.1, r.2.cur_state_, r.2.trace)) =
      some (0, ST_STATE_IDLE,
        [Call.dev_close QAL_DEVICE_IN_HANDSET_VA_MIC, Call.UnloadSoundModel 0,
         Call.resetStreamInstanceID 0])) := by
  constructor <;> decide!

/-- C26 (the code at the failing input).  `UpdateChargingState` called with the
charging state the stream already has returns `EINVAL`, the positive value 22,
and leaves the stream as it is; called with the other state it returns 0,
stores the state and posts the ChargingState event. -/
theorem C26_UpdateChargingState_unchanged (st : Stream) (state : Bool) :
    UpdateChargingState st.charging_state_ st = some (22, st) ∧
    UpdateChargingState state { st with charging_state_ := !state } =
      some (0, { st with
        charging_state_ := state,
        pending_event_configs_ :=
          st.pending_event_configs_ ++ [.ST_EV_CHARGING_STATE state] }) := by
  constructor
  · simp [UpdateChargingState, EINVAL]
  · cases state <;> simp [UpdateChargingState, PostEvent]

/-- C30 (the code at the failing input).  From a stream as constructed: load a
v2 model, send a recognition config without capture, start, first-stage
detection (the stream is in Detected), and a StartRecognition whose
RestartRecognition (interaction 40) fails with `-EIO`.  The event returns `-EIO`
and the stream is in Loaded with its device still registered with the resource
manager: the last `registerDevice` of the device has no `deregisterDevice`
after it. -/
theorem C30_registered_in_Loaded :
    ∃ (statuses : List Int) (st : Stream), Reachable (Env.failAt 40 (- EIO)) st ∧
      (statuses, st.cur_state_, st.mDevices.map (fun dev => registered dev st.trace),
        st.trace.drop 39) =
        ([0, 0, 0, 0, - EIO], ST_STATE_LOADED, [true],
          [Call.timer_wait_cond_notify, Call.RestartRecognition 12,
           Call.reader_reset { buffer := 18, index := 0 }]) :=
  Reachable.of_observation (Env.failAt 40 (- EIO)) 1
    [.ST_EV_LOAD_SOUND_MODEL (some qal_st_sound_model.v2) false,
     .ST_EV_RECOGNITION_CONFIG (some (qal_st_recognition_config.bare false [⟨0, 1, 40, []⟩])),
     .ST_EV_START_RECOGNITION false, .ST_EV_DETECTED GMM_DETECTED,
     .ST_EV_START_RECOGNITION false]
    (Stream.init false)
    (fun r => (r.1, r.2.cur_state_, r.2.mDevices.map (fun dev => registered dev r.2.trace),
      r.2.trace.drop 39)) _
    (Reachable.init false) (by decide!)

/-- C27 (as amended).  In every state, an event that has no entry in that state's
row of the transition table, other than ECRef in Active, returns 0 and leaves
the stream as it is (ReadBuffer has an entry in every row).  ECRef in Active is
forwarded to the first-stage engine and returns the status of the engine. -/
theorem C27_unlisted_event (env : Env) (fuel : Nat) (st : Stream) (ev_cfg : StEventConfig)
    (hs : st.cur_state_ ≠ ST_STATE_NONE) (hl : Spec.listed st.cur_state_ ev_cfg = false) :
    ((st.cur_state_ = ST_STATE_ACTIVE → ∀ dev en, ev_cfg ≠ .ST_EV_EC_REF dev en) →
      ProcessEvent env (fuel + 1) ev_cfg st = some (0, st)) ∧
    (st.cur_state_ = ST_STATE_ACTIVE →
      ∀ (dev : Device) (en : Bool) (g : SoundTriggerEngine),
        ev_cfg = .ST_EV_EC_REF dev en → st.gsl_engine_ = some g →
        ProcessEvent env (fuel + 1) ev_cfg st =
          some (env.status st.trace.length,
            { st with trace := st.trace ++ [Call.setECRef g dev en] })) := by
  constructor
  · intro he
    obtain ⟨cur, prev, sfr, pa, ps, ts, ds, cs, ct, smt, smc, rc, rd, en, gsl, md, cp, si, mi,
      hc, pe, tr⟩ := st
    simp only at hs hl he
    cases cur <;> first | exact absurd rfl hs | skip
    all_goals
      cases ev_cfg <;>
        first
        | exact Bool.noConfusion hl
        | (have hd := of_decide_eq_false hl
           simp [ProcessEvent, StActive.ProcessEvent, hd])
        | exact absurd rfl (he rfl _ _)
        | rfl
  · intro ha dev en g hev hg
    subst hev
    simp [ProcessEvent, StActive.ProcessEvent, ha, hg]

/-- Witness for C27: Resume on an Active stream. -/
theorem C27_unlisted_event_witness :
    (Stream.sample ST_STATE_ACTIVE false []).cur_state_ ≠ ST_STATE_NONE ∧
    Spec.listed (Stream.sample ST_STATE_ACTIVE false []).cur_state_ .ST_EV_RESUME = false ∧
    ProcessEvent Env.nominal (0 + 1) .ST_EV_RESUME (Stream.sample ST_STATE_ACTIVE false []) =
      some (0, Stream.sample ST_STATE_ACTIVE false []) :=
  ⟨by decide, rfl,
    (C27_unlisted_event Env.nominal 0 (Stream.sample ST_STATE_ACTIVE false []) .ST_EV_RESUME
      (by decide) rfl).1 (fun _ _ _ h => StEventConfig.noConfusion h)⟩

/-- C27 as stated fails for ECRef in Active: the event has no entry in the row of
Active, yet it is handed to the first-stage engine, and when the engine fails
with `-EIO` the event returns `-EIO`. -/
theorem C27_counterexample :
    Spec.listed ST_STATE_ACTIVE (.ST_EV_EC_REF QAL_DEVICE_IN_HANDSET_VA_MIC true) = false ∧
    (ProcessEvent (Env.failAt 0 (- EIO)) 1 (.ST_EV_EC_REF QAL_DEVICE_IN_HANDSET_VA_MIC true)
      (Stream.sample ST_STATE_ACTIVE false [])).map (fun r => (r.1, r.2.trace)) =
      some (- EIO, [Call.setECRef 0 QAL_DEVICE_IN_HANDSET_VA_MIC true]) := by
  constructor
  · rfl
  · decide!

/-! ## Claims on the capture profile and the ring buffer -/

/-- C21.  On a stream with a platform record, `GetCurrentCaptureProfile` returns
the profile that the record holds for the key that the specification derives
from the four answers: VoiceUI LPI supported, an active non-LPI concurrent
stream (asked only when LPI is supported), forced transit to non-LPI, and a
wired headset available with device switching supported (the headset is asked
for only when device switching is supported).  The stream is unchanged but for
the queries in the trace.  When the record holds no profile for the key there
is no profile to return: the log before the return dereferences the null
profile and the run has no outcome. -/
theorem C21_GetCurrentCaptureProfile (env : Env) (st : Stream) (info : SoundModelConfig)
    (voiceui_lpi active_non_lpi forced_transit headset : Bool)
    (hi : st.sm_info_ = some info)
    (h1 : voiceui_lpi = env.avail st.trace.length)
    (h2 : voiceui_lpi = true → active_non_lpi = env.avail (st.trace.length + 1))
    (h3 : forced_transit = env.avail (st.trace.length + (if voiceui_lpi = true then 2 else 1)))
    (h4 : headset = (env.support_dev_switch &&
      env.avail (st.trace.length + (if voiceui_lpi = true then 3 else 2)))) :
    (∀ prof : CaptureProfile,
      info.GetCaptureProfile
          (Spec.capture_profile_key voiceui_lpi active_non_lpi forced_transit headset) =
        some prof →
      GetCurrentCaptureProfile env st =
        some (some prof,
          { st with
            trace := st.trace ++ [Call.IsVoiceUILPISupported] ++
              (if voiceui_lpi = true then [Call.CheckForActiveConcurrentNonLPIStream] else []) ++
              [Call.CheckForForcedTransitToNonLPI] ++
              (if env.support_dev_switch = true then
                [Call.isDeviceAvailable QAL_DEVICE_IN_WIRED_HEADSET] else []) })) ∧
    (info.GetCaptureProfile
        (Spec.capture_profile_key voiceui_lpi active_non_lpi forced_transit headset) = none →
      GetCurrentCaptureProfile env st = none) := by
  subst h1 h3 h4
  rw [GetCurrentCaptureProfile_spec env st info hi]
  have hk : Spec.capture_profile_key (env.avail st.trace.length)
        (env.avail (st.trace.length + 1))
        (env.avail (st.trace.length + (if env.avail st.trace.length = true then 2 else 1)))
        (env.support_dev_switch &&
          env.avail (st.trace.length + (if env.avail st.trace.length = true then 3 else 2))) =
      Spec.capture_profile_key (env.avail st.trace.length) active_non_lpi
        (env.avail (st.trace.length + (if env.avail st.trace.length = true then 2 else 1)))
        (env.support_dev_switch &&
          env.avail (st.trace.length + (if env.avail st.trace.length = true then 3 else 2))) := by
    by_cases a0 : env.avail st.trace.length = true
    · rw [h2 a0]
    · cases active_non_lpi <;> simp [a0, Spec.capture_profile_key]
  rw [hk]
  constructor
  · intro prof hp
    rw [hp]
    rfl
  · intro hp
    rw [hp]
    rfl

/-! ## The platform record after a load -/

/-- A LoadSoundModel in Idle that returns has left a platform record in the
stream. -/
theorem Load_in_Idle_sm_info (env : Env) (data : Option qal_st_sound_model) (flag : Bool) :
    Ensures (fun (_ : Int) (s : Stream) => s.sm_info_ ≠ none)
      (StIdle.ProcessEvent env (.ST_EV_LOAD_SOUND_MODEL data flag)) := by
  unfold StIdle.ProcessEvent
  simp only []
  apply ensures_bind
  intro sm
  apply ensures_bind
  intro _
  constructor
  intro s a s2 h
  rw [run_bind, run_get, Option.some_bind] at h
  split at h
  · simp at h
  · rename_i hc
    have hk : s2.sm_info_ = s.sm_info_ := by
      refine Keeps.keep (p := fun s => s.sm_info_) ?_ s a s2 h
      have ht : ∀ (s : Stream) (t : List Call),
          (fun s : Stream => s.sm_info_) { s with trace := t } = (fun s : Stream => s.sm_info_) s :=
        fun _ _ => rfl
      repeat' first
        | (apply keeps_GetAvailCaptureDevice; exact ht)
        | (apply keeps_GetCurrentCaptureProfile; exact ht)
        | (apply keeps_GetQalDevice; exact ht)
        | (apply keeps_LoadSoundModel; intro s ty c r e g t; rfl)
        | apply keeps_bind
        | apply keeps_pure
        | apply keeps_map
        | apply keeps_get
        | apply keeps_fault
        | apply keeps_deref
        | (apply keeps_modify; intro s; rfl)
        | (apply keeps_call; exact ht)
        | (apply keeps_ask; exact ht)
        | (apply keeps_emit; exact ht)
        | split
        | intro _
        | simp only []
    rw [hk]
    intro hn
    exact hc (by rw [hn]; rfl)

/-- C24.  When LoadSoundModel in Idle has returned 0 the stream is in Loaded, and
an Unload then returns, whatever the device close and the engines report, with
the stream in Idle, the engine list empty and the reader null. -/
theorem C24_Load_then_Unload (env : Env) (fuel fuel2 : Nat) (st stL : Stream)
    (data : Option qal_st_sound_model) (flag : Bool)
    (hs : st.cur_state_ = ST_STATE_IDLE)
    (hL : ProcessEvent env (fuel + 1) (.ST_EV_LOAD_SOUND_MODEL data flag) st = some (0, stL)) :
    stL.cur_state_ = ST_STATE_LOADED ∧
    ∃ (status : Int) (st2 : Stream),
      ProcessEvent env (fuel2 + 1) .ST_EV_UNLOAD_SOUND_MODEL stL = some (status, st2) ∧
      st2.cur_state_ = ST_STATE_IDLE ∧ st2.engines_ = [] ∧ st2.reader_ = none := by
  rw [ProcessEvent_in_Idle env fuel _ _ hs] at hL
  have h1 := (Load_in_Idle_ok env data flag).ensure _ _ _ hL rfl
  have h2 := (Load_in_Idle_sm_info env data flag).ensure _ _ _ hL
  obtain ⟨info, hi⟩ := Option.ne_none_iff_exists'.1 h2
  obtain ⟨status, st2, h, hc, he, hr, _⟩ := Unload_in_Loaded_step env fuel2 stL info h1 hi
  exact ⟨h1, status, st2, h, hc, he, hr⟩

/-- Witness for C21: a fresh stream with a platform record in the nominal
environment, where LPI is supported, a non-LPI concurrent stream is active,
transit to non-LPI is forced and device switching is not supported: the profile
for high performance with charging and the handset. -/
theorem C21_GetCurrentCaptureProfile_witness :
    (Stream.withGmm 1).sm_info_ = some SoundModelConfig.sample ∧
    SoundModelConfig.sample.GetCaptureProfile (Spec.capture_profile_key true true true false) =
      some ⟨3, 1, 1, 16000, 16⟩ ∧
    GetCurrentCaptureProfile Env.nominal (Stream.withGmm 1) =
      some (some ⟨3, 1, 1, 16000, 16⟩,
        { Stream.withGmm 1 with
          trace := (Stream.withGmm 1).trace ++ [Call.IsVoiceUILPISupported] ++
            (if true = true then [Call.CheckForActiveConcurrentNonLPIStream] else []) ++
            [Call.CheckForForcedTransitToNonLPI] ++
            (if Env.nominal.support_dev_switch = true then
              [Call.isDeviceAvailable QAL_DEVICE_IN_WIRED_HEADSET] else []) }) :=
  ⟨rfl, by decide,
    (C21_GetCurrentCaptureProfile Env.nominal (Stream.withGmm 1) SoundModelConfig.sample
      true true true false rfl rfl (fun _ => rfl) rfl rfl).1 ⟨3, 1, 1, 16000, 16⟩ (by decide)⟩

/-- Witness for C24: a v2 model loaded on a stream as constructed, in the nominal
environment. -/
theorem C24_Load_then_Unload_witness :
    (Stream.init false).cur_state_ = ST_STATE_IDLE ∧
    ProcessEvent Env.nominal (0 + 1) (.ST_EV_LOAD_SOUND_MODEL (some qal_st_sound_model.v2) false)
        (Stream.init false) =
      some (0, { Stream.init false with
        cur_state_ := ST_STATE_LOADED, prev_state_ := some ST_STATE_IDLE,
        sound_model_type_ := QAL_SOUND_MODEL_TYPE_KEYPHRASE,
        sm_config_ := some qal_st_sound_model.v2,
        engines_ := [{ id_ := ST_SM_ID_SVA_GMM, engine_ := 12, sm_data_ := { num_phrases := 1 },
                       sm_size_ := 80 }],
        gsl_engine_ := some 12, mDevices := [QAL_DEVICE_IN_HANDSET_VA_MIC],
        cap_prof_ := SoundModelConfig.sample.GetCaptureProfile
          (ST_OPERATING_MODE_HIGH_PERF_AND_CHARGING, ST_INPUT_MODE_HANDSET),
        sm_info_ := some SoundModelConfig.sample,
        trace := [Call.IsVoiceUILPISupported, Call.CheckForActiveConcurrentNonLPIStream,
          Call.CheckForForcedTransitToNonLPI, Call.calloc 1,
          Call.Device_getInstance QAL_DEVICE_IN_HANDSET_VA_MIC,
          Call.dev_open QAL_DEVICE_IN_HANDSET_VA_MIC, Call.IsVoiceUILPISupported,
          Call.CheckForActiveConcurrentNonLPIStream, Call.CheckForForcedTransitToNonLPI,
          Call.getStreamInstanceID, Call.calloc 80, Call.calloc 80,
          Call.SoundTriggerEngine_Create ST_SM_ID_SVA_GMM, Call.LoadSoundModel 12 80] }) ∧
    ∃ (status : Int) (st2 : Stream),
      ProcessEvent (Env.nominal) (0 + 1) .ST_EV_UNLOAD_SOUND_MODEL
        { Stream.init false with
          cur_state_ := ST_STATE_LOADED, prev_state_ := some ST_STATE_IDLE,
          sound_model_type_ := QAL_SOUND_MODEL_TYPE_KEYPHRASE,
          sm_config_ := some qal_st_sound_model.v2,
          engines_ := [{ id_ := ST_SM_ID_SVA_GMM, engine_ := 12, sm_data_ := { num_phrases := 1 },
                         sm_size_ := 80 }],
          gsl_engine_ := some 12, mDevices := [QAL_DEVICE_IN_HANDSET_VA_MIC],
          cap_prof_ := SoundModelConfig.sample.GetCaptureProfile
            (ST_OPERATING_MODE_HIGH_PERF_AND_CHARGING, ST_INPUT_MODE_HANDSET),
          sm_info_ := some SoundModelConfig.sample,
          trace := [Call.IsVoiceUILPISupported, Call.CheckForActiveConcurrentNonLPIStream,
            Call.CheckForForcedTransitToNonLPI, Call.calloc 1,
            Call.Device_getInstance QAL_DEVICE_IN_HANDSET_VA_MIC,
            Call.dev_open QAL_DEVICE_IN_HANDSET_VA_MIC, Call.IsVoiceUILPISupported,
            Call.CheckForActiveConcurrentNonLPIStream, Call.CheckForForcedTransitToNonLPI,
            Call.getStreamInstanceID, Call.calloc 80, Call.calloc 80,
            Call.SoundTriggerEngine_Create ST_SM_ID_SVA_GMM, Call.LoadSoundModel 12 80] } =
        some (status, st2) ∧
      st2.cur_state_ = ST_STATE_IDLE ∧ st2.engines_ = [] ∧ st2.reader_ = none :=
  have h : ProcessEvent Env.nominal (0 + 1)
        (.ST_EV_LOAD_SOUND_MODEL (some qal_st_sound_model.v2) false) (Stream.init false) =
      some (0, { Stream.init false with
        cur_state_ := ST_STATE_LOADED, prev_state_ := some ST_STATE_IDLE,
        sound_model_type_ := QAL_SOUND_MODEL_TYPE_KEYPHRASE,
        sm_config_ := some qal_st_sound_model.v2,
        engines_ := [{ id_ := ST_SM_ID_SVA_GMM, engine_ := 12, sm_data_ := { num_phrases := 1 },
                       sm_size_ := 80 }],
        gsl_engine_ := some 12, mDevices := [QAL_DEVICE_IN_HANDSET_VA_MIC],
        cap_prof_ := SoundModelConfig.sample.GetCaptureProfile
          (ST_OPERATING_MODE_HIGH_PERF_AND_CHARGING, ST_INPUT_MODE_HANDSET),
        sm_info_ := some SoundModelConfig.sample,
        trace := [Call.IsVoiceUILPISupported, Call.CheckForActiveConcurrentNonLPIStream,
          Call.CheckForForcedTransitToNonLPI, Call.calloc 1,
          Call.Device_getInstance QAL_DEVICE_IN_HANDSET_VA_MIC,
          Call.dev_open QAL_DEVICE_IN_HANDSET_VA_MIC, Call.IsVoiceUILPISupported,
          Call.CheckForActiveConcurrentNonLPIStream, Call.CheckForForcedTransitToNonLPI,
          Call.getStreamInstanceID, Call.calloc 80, Call.calloc 80,
          Call.SoundTriggerEngine_Create ST_SM_ID_SVA_GMM, Call.LoadSoundModel 12 80] }) := by
    decide!
  ⟨rfl, h, (C24_Load_then_Unload Env.nominal 0 0 (Stream.init false) _
    (some qal_st_sound_model.v2) false rfl h).2⟩

/-! ## Relations across a run -/

theorem steps_pure {α : Type} (R : Stream → Stream → Prop) (hr : ∀ s, R s s) (a : α) :
    Steps R (pure a : M α) := by
  constructor
  intro s a2 s2 h
  simp at h
  rw [← h.2]
  exact hr s

theorem steps_bind {α β : Type} (R : Stream → Stream → Prop)
    (ht : ∀ a b c, R a b → R b c → R a c) (m : M α) (f : α → M β)
    (hm : Steps R m) (hf : ∀ a, Steps R (f a)) : Steps R (m >>= f) := by
  constructor
  intro s b s2 h
  simp only [run_bind] at h
  obtain ⟨⟨a, s1⟩, h1, h2⟩ := Option.bind_eq_some.1 h
  exact ht _ _ _ (hm.step s a s1 h1) ((hf a).step s1 b s2 h2)

theorem steps_map {α β : Type} (R : Stream → Stream → Prop) (m : M α) (f : α → β)
    (hm : Steps R m) : Steps R (f <$> m) := by
  constructor
  intro s b s2 h
  simp only [run_map] at h
  obtain ⟨⟨a, s1⟩, h1, h2⟩ := Option.map_eq_some'.1 h
  cases h2
  exact hm.step s a s1 h1

theorem steps_get (R : Stream → Stream → Prop) (hr : ∀ s, R s s) :
    Steps R (get : M Stream) := by
  constructor
  intro s a s2 h
  simp at h
  rw [← h.2]
  exact hr s

theorem steps_fault {α : Type} (R : Stream → Stream → Prop) : Steps R (fault : M α) := by
  constructor
  intro s a s2 h
  simp at h

theorem steps_deref {α : Type} (R : Stream → Stream → Prop) (hr : ∀ s, R s s)
    (x : Option α) : Steps R (deref x) := by
  constructor
  intro s a s2 h
  cases x <;> simp at h
  rw [← h.2]
  exact hr s

theorem steps_modify (R : Stream → Stream → Prop) (f : Stream → Stream)
    (hf : ∀ s, R s (f s)) : Steps R (modify f : M PUnit) := by
  constructor
  intro s a s2 h
  simp at h
  rw [← h]
  exact hf s

theorem steps_call (R : Stream → Stream → Prop) (env : Env) (c : Call)
    (hc : ∀ s, R s { s with trace := s.trace ++ [c] }) : Steps R (call env c) := by
  constructor
  intro s a s2 h
  simp at h
  rw [← h.2]
  exact hc s

theorem steps_ask (R : Stream → Stream → Prop) (env : Env) (c : Call)
    (hc : ∀ s, R s { s with trace := s.trace ++ [c] }) : Steps R (ask env c) := by
  constructor
  intro s a s2 h
  simp at h
  rw [← h.2]
  exact hc s

theorem steps_emit (R : Stream → Stream → Prop) (c : Call)
    (hc : ∀ s, R s { s with trace := s.trace ++ [c] }) : Steps R (emit c) := by
  constructor
  intro s a s2 h
  simp at h
  rw [← h]
  exact hc s

theorem steps_of_keeps {α γ : Type} (R : Stream → Stream → Prop) (p : Stream → γ) (m : M α)
    (hk : Keeps p m) (h : ∀ s s2, p s2 = p s → R s s2) : Steps R m := by
  constructor
  intro s a s2 hrun
  exact h s s2 (hk.keep s a s2 hrun)

/-- A trace that extends itself by nothing. -/
theorem Extends.refl (P : Call → Prop) (s : Stream) : Extends P s s :=
  ⟨[], by simp, by simp⟩

/-- Extensions compose. -/
theorem Extends.trans (P : Call → Prop) (a b c : Stream) (h1 : Extends P a b)
    (h2 : Extends P b c) : Extends P a c := by
  obtain ⟨t1, e1, p1⟩ := h1
  obtain ⟨t2, e2, p2⟩ := h2
  refine ⟨t1 ++ t2, by rw [e2, e1, List.append_assoc], ?_⟩
  intro x hx
  rcases List.mem_append.1 hx with h | h
  · exact p1 x h
  · exact p2 x h

/-- One more call. -/
theorem Extends.one (P : Call → Prop) (c : Call) (hc : P c) (s : Stream) :
    Extends P s { s with trace := s.trace ++ [c] } :=
  ⟨[c], rfl, by simpa using hc⟩

/-- A join point with one argument: the continuation is checked once. -/
theorem steps_letFun {α β γ : Type} (R : Stream → Stream → Prop) (k : α → M β)
    (body : (α → M β) → M γ) (hk : ∀ y, Steps R (k y))
    (hb : ∀ k2 : α → M β, (∀ y, Steps R (k2 y)) → Steps R (body k2)) :
    Steps R (letFun k body) :=
  hb k hk

/-- A join point with two arguments. -/
theorem steps_letFun2 {α α2 β γ : Type} (R : Stream → Stream → Prop) (k : α → α2 → M β)
    (body : (α → α2 → M β) → M γ) (hk : ∀ x y, Steps R (k x y))
    (hb : ∀ k2 : α → α2 → M β, (∀ x y, Steps R (k2 x y)) → Steps R (body k2)) :
    Steps R (letFun k body) :=
  hb k hk

/-- A join point with three arguments. -/
theorem steps_letFun3 {α α2 α3 β γ : Type} (R : Stream → Stream → Prop)
    (k : α → α2 → α3 → M β) (body : (α → α2 → α3 → M β) → M γ)
    (hk : ∀ x y z, Steps R (k x y z))
    (hb : ∀ k2 : α → α2 → α3 → M β, (∀ x y z, Steps R (k2 x y z)) → Steps R (body k2)) :
    Steps R (letFun k body) :=
  hb k hk

/-- A conditional steps as its two branches do. -/
theorem steps_ite {α : Type} (R : Stream → Stream → Prop) (c : Prop) [Decidable c]
    (a b : M α) (ha : c → Steps R a) (hb : ¬ c → Steps R b) :
    Steps R (if c then a else b) := by
  by_cases h : c
  · rw [if_pos h]
    exact ha h
  · rw [if_neg h]
    exact hb h

/-! ## The parse of a recognition config and the ring buffer -/

theorem steps_FillConfLevels (R : Stream → Stream → Prop) (hr : ∀ s, R s s)
    (ht : ∀ a b c, R a b → R b c → R a c)
    (hc : ∀ s n, R s { s with trace := s.trace ++ [Call.calloc n] }) (env : Env)
    (config : Option qal_st_recognition_config) : Steps R (FillConfLevels env config) := by
  unfold FillConfLevels
  repeat' first
    | apply steps_bind R ht
    | apply steps_pure R hr
    | apply steps_map
    | apply steps_get R hr
    | apply steps_fault
    | apply steps_deref R hr
    | (apply steps_ask; intro s; exact hc s _)
    | split
    | intro _
    | simp only []

theorem steps_FillOpaqueConfLevels (R : Stream → Stream → Prop) (hr : ∀ s, R s s)
    (ht : ∀ a b c, R a b → R b c → R a c)
    (hc : ∀ s n, R s { s with trace := s.trace ++ [Call.calloc n] }) (env : Env)
    (sm_levels : Option st_sound_model_conf_levels) (version : Nat) :
    Steps R (FillOpaqueConfLevels env sm_levels version) := by
  unfold FillOpaqueConfLevels FillOpaqueConfLevels.body
  repeat' first
    | apply steps_bind R ht
    | apply steps_pure R hr
    | apply steps_map
    | apply steps_get R hr
    | apply steps_fault
    | (apply steps_ask; intro s; exact hc s _)
    | split
    | intro _
    | simp only []

theorem steps_ParseOpaqueConfLevels_engines (R : Stream → Stream → Prop) (hr : ∀ s, R s s)
    (ht : ∀ a b c, R a b → R b c → R a c)
    (hu : ∀ s e l n, R s { s with trace := s.trace ++ [Call.UpdateConfLevels e l n] })
    (sm_id confidence_level : Nat) (engs : List EngineCfg) :
    Steps R (ParseOpaqueConfLevels.engines sm_id confidence_level engs) := by
  induction engs with
  | nil =>
    unfold ParseOpaqueConfLevels.engines
    apply steps_pure R hr
  | cons eng engs ih =>
    unfold ParseOpaqueConfLevels.engines
    repeat' first
      | exact ih
      | apply steps_bind R ht
      | apply steps_pure R hr
      | apply steps_map
      | (apply steps_emit; intro s; exact hu s _ _ _)
      | split
      | intro _
      | simp only []

theorem steps_ParseOpaqueConfLevels_models (R : Stream → Stream → Prop) (hr : ∀ s, R s s)
    (ht : ∀ a b c, R a b → R b c → R a c)
    (hc : ∀ s n, R s { s with trace := s.trace ++ [Call.calloc n] })
    (hu : ∀ s e l n, R s { s with trace := s.trace ++ [Call.UpdateConfLevels e l n] })
    (env : Env) (version : Nat) (levels : List st_sound_model_conf_levels)
    (b : Bool × Option (List Nat × Nat)) :
    Steps R (ParseOpaqueConfLevels.models env version levels b) := by
  induction levels generalizing b with
  | nil =>
    unfold ParseOpaqueConfLevels.models
    apply steps_pure R hr
  | cons sm_levels rest ih =>
    obtain ⟨found, out⟩ := b
    unfold ParseOpaqueConfLevels.models
    repeat' first
      | apply ih
      | exact steps_FillOpaqueConfLevels R hr ht hc env _ _
      | exact steps_ParseOpaqueConfLevels_engines R hr ht hu _ _ _
      | apply steps_bind R ht
      | apply steps_pure R hr
      | apply steps_map
      | apply steps_get R hr
      | split
      | intro _
      | simp only []

theorem steps_SendRecognitionConfig_params (R : Stream → Stream → Prop) (hr : ∀ s, R s s)
    (ht : ∀ a b c, R a b → R b c → R a c)
    (hc : ∀ s n, R s { s with trace := s.trace ++ [Call.calloc n] })
    (hu : ∀ s e l n, R s { s with trace := s.trace ++ [Call.UpdateConfLevels e l n] })
    (env : Env) (params : List st_param) (b : Nat × Nat × Option (List Nat × Nat)) :
    Steps R (SendRecognitionConfig.params env params b) := by
  induction params generalizing b with
  | nil =>
    unfold SendRecognitionConfig.params
    apply steps_pure R hr
  | cons param rest ih =>
    obtain ⟨hist, pre, out⟩ := b
    cases param <;> unfold SendRecognitionConfig.params <;>
    repeat' first
      | apply ih
      | exact steps_ParseOpaqueConfLevels_models R hr ht hc hu env _ _ _
      | apply steps_bind R ht
      | apply steps_pure R hr
      | apply steps_map
      | apply steps_get R hr
      | unfold ParseOpaqueConfLevels
      | split
      | intro _
      | simp only []

/-- The parse of a recognition config relates the stream before and after by
every relation that holds across an allocation and across an update of the
confidence levels of an engine. -/
theorem steps_SendRecognitionConfig_parse (R : Stream → Stream → Prop) (hr : ∀ s, R s s)
    (ht : ∀ a b c, R a b → R b c → R a c)
    (hc : ∀ s n, R s { s with trace := s.trace ++ [Call.calloc n] })
    (hu : ∀ s e l n, R s { s with trace := s.trace ++ [Call.UpdateConfLevels e l n] })
    (env : Env) (config : qal_st_recognition_config) :
    Steps R (SendRecognitionConfig.parse env config) := by
  unfold SendRecognitionConfig.parse
  repeat' first
    | exact steps_SendRecognitionConfig_params R hr ht hc hu env _ _
    | exact steps_FillConfLevels R hr ht hc env _
    | apply steps_bind R ht
    | apply steps_pure R hr
    | apply steps_map
    | apply steps_get R hr
    | apply steps_deref R hr
    | split
    | intro _
    | simp only []

/-- An error of the loop over the TLVs is never the status 0. -/
theorem SendRecognitionConfig.params_error (env : Env) (params : List st_param)
    (b : Nat × Nat × Option (List Nat × Nat)) :
    Ensures (fun (r : Except Int (Nat × Nat × Option (List Nat × Nat))) (_ : Stream) =>
        ∀ e, r = .error e → e ≠ 0)
      (SendRecognitionConfig.params env params b) := by
  induction params generalizing b with
  | nil =>
    unfold SendRecognitionConfig.params
    apply ensures_pure
    intro s e he
    cases he
  | cons param rest ih =>
    obtain ⟨hist, pre, out⟩ := b
    cases param <;> unfold SendRecognitionConfig.params <;>
    repeat' first
      | apply ih
      | (apply ensures_pure; intro s e he; cases he; first | assumption | decide)
      | apply ensures_bind
      | split
      | intro _
      | simp only []

/-- An error of the parse is never the status 0, and for a bare config the parse
gives the keyword duration of the platform record as the history and no
pre-roll. -/
theorem SendRecognitionConfig.parse_result (env : Env) (config : qal_st_recognition_config)
    (s s1 : Stream) (r : Except Int (Nat × Nat × Option (List Nat × Nat)))
    (h : SendRecognitionConfig.parse env config s = some (r, s1)) :
    (∀ e, r = .error e → e ≠ 0) ∧
    (config.data_size ≤ env.CUSTOM_CONFIG_OPAQUE_DATA_SIZE → ∀ hist pre out,
      r = .ok (hist, pre, out) → ∃ info, s.sm_info_ = some info ∧
        hist = info.kw_duration ∧ pre = 0) := by
  unfold SendRecognitionConfig.parse at h
  by_cases hd : config.data_size > env.CUSTOM_CONFIG_OPAQUE_DATA_SIZE
  · simp only [hd, if_true] at h
    exact ⟨(SendRecognitionConfig.params_error env _ _).ensure _ _ _ h,
      fun hle => absurd hd (Nat.not_lt.2 hle)⟩
  · simp only [hd, if_false, run_bind, run_get, Option.some_bind] at h
    cases hi : s.sm_info_ with
    | none => simp [hi] at h
    | some info =>
      simp only [hi, run_deref_some, Option.some_bind] at h
      obtain ⟨⟨r1, s2⟩, _, h2⟩ := Option.bind_eq_some.1 h
      by_cases h0 : r1.1 = 0
      · simp [h0] at h2
        rw [← h2.1]
        refine ⟨?_, ?_⟩
        · intro e he
          cases he
        · intro _ hist pre out he
          simp only [Except.ok.injEq, Prod.mk.injEq] at he
          exact ⟨info, rfl, he.1.symm, he.2.1.symm⟩
      · simp [h0] at h2
        rw [← h2.1]
        refine ⟨?_, ?_⟩
        · intro e he
          cases he
          exact h0
        · intro _ hist pre out he
          cases he

/-- The loop that hands out the readers, when it returns 0: reader `i + k` of the
buffer has gone to the `k`-th engine of the list. -/
theorem SendRecognitionConfig.readers_ok (env : Env) (buffer : Nat) (engs : List EngineCfg) :
    ∀ (i : Nat) (s s2 : Stream),
      SendRecognitionConfig.readers env buffer i engs s = some (0, s2) →
      s2 = { s with
        trace := s.trace ++ (engs.enumFrom i).map
          (fun x => Call.SetBufferReader x.2.engine_ { buffer := buffer, index := x.1 }) } := by
  induction engs with
  | nil =>
    intro i s s2 h
    simp [SendRecognitionConfig.readers] at h
    simp [← h]
  | cons eng engs ih =>
    intro i s s2 h
    simp only [SendRecognitionConfig.readers, run_bind, run_call, Option.some_bind] at h
    split at h
    · rename_i hne
      simp at h
      exact absurd h.1 hne
    · rw [ih (i + 1) _ s2 h]
      simp [EngineCfg.GetEngine]

/-- The part of `SendRecognitionConfig` after the parse, when it returns 0. -/
theorem SendRecognitionConfig.createBuffer_ok (env : Env) (config : qal_st_recognition_config)
    (hist pre : Nat) (out : Option (List Nat × Nat)) (s s2 : Stream)
    (h : SendRecognitionConfig.createBuffer env config hist pre out s = some (0, s2)) :
    ∃ (info : SoundModelConfig) (g : SoundTriggerEngine),
      s.sm_info_ = some info ∧ s.gsl_engine_ = some g ∧ s.engines_ ≠ [] ∧
      s2 = { s with
        reader_ := some { buffer := s.trace.length + 1, index := 0 },
        trace := s.trace ++
          [Call.UpdateBufConfig g hist pre,
           Call.CreateBuffer g
             (SendRecognitionConfig.ring_buffer_size hist pre info.capture_read_delay
               info.sample_rate info.bit_width info.out_channels) s.engines_.length] ++
          ((s.engines_.drop 1).enumFrom 1).map
            (fun x => Call.SetBufferReader x.2.engine_
              { buffer := s.trace.length + 1, index := x.1 }) ++
          [Call.UpdateConfLevels g (out.map (fun o => o.1)) ((out.map (fun o => o.2)).getD 0),
           Call.SetCaptureRequested g
             (if (!config.capture_requested) = true ∧ s.engines_.length = 1 then false
               else true)] } := by
  unfold SendRecognitionConfig.createBuffer at h
  cases hi : s.sm_info_ with
  | none => simp [hi] at h
  | some info =>
    cases hg : s.gsl_engine_ with
    | none => simp [hi, hg] at h
    | some g =>
      refine ⟨info, g, rfl, rfl, ?_⟩
      simp only [run_bind, run_get, hi, hg, run_deref_some, Option.some_bind, run_call] at h
      split at h
      · rename_i hne
        simp [SendRecognitionConfig.error_exit] at h
        exact absurd h.1 hne
      · simp only [run_bind, run_get, hi, hg, run_deref_some, Option.some_bind, run_call] at h
        split at h
        · rename_i hne
          simp [SendRecognitionConfig.error_exit] at h hne
          exact absurd h.1 hne
        · split at h
          · simp at h
          · rename_i hlen
            simp only [run_bind, run_modify, Option.some_bind] at h
            obtain ⟨⟨r, s3⟩, h1, h2⟩ := Option.bind_eq_some.1 h
            by_cases hr0 : r = 0
            · subst hr0
              have h3 := SendRecognitionConfig.readers_ok env _ _ _ _ _ h1
              subst h3
              simp at h2
              refine ⟨fun he => hlen (by rw [he]; rfl), ?_⟩
              rw [← h2]
              simp
            · simp [hr0, SendRecognitionConfig.error_exit] at h2

/-- A `SendRecognitionConfig` that returns 0, as its parts: the config is cached
(on a stream `s0` that is the given stream or, when the config is not the cached
one, the stream after the allocation of the copy), the parse gives the
durations, and the rest returns 0. -/
theorem SendRecognitionConfig_ok (env : Env) (config : qal_st_recognition_config)
    (flag : Bool) (st st2 : Stream)
    (h : SendRecognitionConfig env (some config) flag st = some (0, st2)) :
    ∃ (s0 s1 : Stream) (hist pre : Nat) (out : Option (List Nat × Nat)),
      (s0 = st ∨ s0 = { st with
        rec_config_ := some config,
        trace := st.trace ++ [Call.calloc config.data_size] }) ∧
      SendRecognitionConfig.parse env config s0 = some (.ok (hist, pre, out), s1) ∧
      SendRecognitionConfig.createBuffer env config hist pre out s1 = some (0, st2) := by
  have key : ∀ s0 : Stream, SendRecognitionConfig.apply env config s0 = some (0, st2) →
      ∃ (s1 : Stream) (hist pre : Nat) (out : Option (List Nat × Nat)),
        SendRecognitionConfig.parse env config s0 = some (.ok (hist, pre, out), s1) ∧
        SendRecognitionConfig.createBuffer env config hist pre out s1 = some (0, st2) := by
    intro s0 h0
    unfold SendRecognitionConfig.apply at h0
    rw [run_bind] at h0
    obtain ⟨⟨r, s1⟩, hp, ht⟩ := Option.bind_eq_some.1 h0
    cases r with
    | error e =>
      simp [SendRecognitionConfig.error_exit] at ht
      exact absurd ht.1 ((SendRecognitionConfig.parse_result env config s0 s1 _ hp).1 e rfl)
    | ok v =>
      obtain ⟨hist, pre, out⟩ := v
      exact ⟨s1, hist, pre, out, hp, ht⟩
  cases flag with
  | true =>
    simp only [SendRecognitionConfig, Bool.not_true, Bool.false_eq_true, if_false] at h
    obtain ⟨s1, hist, pre, out, hp, ht⟩ := key st h
    exact ⟨st, s1, hist, pre, out, Or.inl rfl, hp, ht⟩
  | false =>
    simp only [SendRecognitionConfig, Bool.not_false, if_true, run_bind, run_ask,
      Option.some_bind] at h
    by_cases ha : env.avail st.trace.length = true
    · simp only [ha, Bool.not_true, Bool.false_eq_true, if_false, run_bind, run_modify,
        Option.some_bind] at h
      obtain ⟨s1, hist, pre, out, hp, ht⟩ := key _ h
      exact ⟨_, s1, hist, pre, out, Or.inr rfl, hp, ht⟩
    · simp [ha, ENOMEM] at h

/-- A `SendRecognitionConfig` that returns 0 has asked the
first-stage engine, right after `UpdateBufConfig` with the history and pre-roll
durations, for one ring buffer, with one reader per engine, whose size in bytes
is `ring_buffer_size` of these durations, the client read delay and the format
of the platform record; for a bare config the history is the keyword duration of
the platform record and the pre-roll is 0.  The size is computed in unsigned
32-bit arithmetic with the total duration cut down to whole seconds first:
without overflow it is `((history + preroll + delay) / 1000) * sample_rate *
bit_width * channels / 8`, every division an integer division, so a total of
1500 ms at 16000 Hz, 16 bit, 1 channel gives 32000 bytes. -/
theorem SendRecognitionConfig_ring_buffer_size (env : Env) (config : qal_st_recognition_config) (flag : Bool)
    (st st2 : Stream)
    (h : SendRecognitionConfig env (some config) flag st = some (0, st2)) :
    (∃ (info : SoundModelConfig) (g : SoundTriggerEngine) (hist pre : Nat)
        (before after : List Call),
      st.sm_info_ = some info ∧ st.gsl_engine_ = some g ∧
      st2.trace = st.trace ++ before ++
        [Call.UpdateBufConfig g hist pre,
         Call.CreateBuffer g
           (SendRecognitionConfig.ring_buffer_size hist pre info.capture_read_delay
             info.sample_rate info.bit_width info.out_channels) st.engines_.length] ++ after ∧
      (∀ c ∈ before ++ after, ∀ e n r, c ≠ Call.CreateBuffer e n r) ∧
      (config.data_size ≤ env.CUSTOM_CONFIG_OPAQUE_DATA_SIZE →
        hist = info.kw_duration ∧ pre = 0)) ∧
    (∀ (hist pre delay sample_rate bit_width channels : Nat),
      hist + pre + delay < 2 ^ 32 →
      (hist + pre + delay) / 1000 * sample_rate * bit_width * channels < 2 ^ 32 →
      SendRecognitionConfig.ring_buffer_size hist pre delay sample_rate bit_width channels =
        (hist + pre + delay) / 1000 * sample_rate * bit_width * channels / 8) ∧
    SendRecognitionConfig.ring_buffer_size 1000 500 0 16000 16 1 = 32000 := by
  refine ⟨?_, ?_, by decide⟩
  · obtain ⟨s0, s1, hist, pre, out, h0, hp, ht⟩ := SendRecognitionConfig_ok env config flag st st2 h
    obtain ⟨info, g, hi, hg, _, h2⟩ :=
      SendRecognitionConfig.createBuffer_ok env config hist pre out s1 st2 ht
    have hk := (steps_SendRecognitionConfig_parse
      (fun s s2 => (s2.engines_, s2.sm_info_, s2.gsl_engine_) =
        (s.engines_, s.sm_info_, s.gsl_engine_))
      (fun _ => rfl) (fun _ _ _ h1 h2 => h2.trans h1) (fun _ _ => rfl) (fun _ _ _ _ => rfl)
      env config).step _ _ _ hp
    have he := (steps_SendRecognitionConfig_parse
      (Extends (fun c => ∀ e n r, c ≠ Call.CreateBuffer e n r))
      (Extends.refl _) (Extends.trans _)
      (fun s n => Extends.one _ _ (fun _ _ _ hc => Call.noConfusion hc) s)
      (fun s e l n => Extends.one _ _ (fun _ _ _ hc => Call.noConfusion hc) s)
      env config).step _ _ _ hp
    simp only [Prod.mk.injEq] at hk
    obtain ⟨t1, e1, p1⟩ := he
    have h00 : Extends (fun c => ∀ e n r, c ≠ Call.CreateBuffer e n r) st s0 ∧
        s0.engines_ = st.engines_ ∧ s0.sm_info_ = st.sm_info_ ∧
        s0.gsl_engine_ = st.gsl_engine_ := by
      rcases h0 with h0 | h0
      · subst h0
        exact ⟨Extends.refl _ _, rfl, rfl, rfl⟩
      · subst h0
        exact ⟨Extends.one _ _ (fun _ _ _ hc => Call.noConfusion hc) st, rfl, rfl, rfl⟩
    obtain ⟨⟨t0, e0, p0⟩, k1, k2, k3⟩ := h00
    refine ⟨info, g, hist, pre, t0 ++ t1,
      ((s1.engines_.drop 1).enumFrom 1).map
          (fun x => Call.SetBufferReader x.2.engine_
            { buffer := s1.trace.length + 1, index := x.1 }) ++
        [Call.UpdateConfLevels g (out.map (fun o => o.1)) ((out.map (fun o => o.2)).getD 0),
         Call.SetCaptureRequested g
           (if (!config.capture_requested) = true ∧ s1.engines_.length = 1 then false
             else true)],
      by rw [← k2, ← hk.2.1, hi], by rw [← k3, ← hk.2.2, hg], ?_, ?_, ?_⟩
    · rw [h2]
      simp only [e1, e0, hk.1, k1, List.append_assoc]
    · intro c hc
      simp only [List.mem_append, List.mem_map, List.mem_cons, List.mem_singleton,
        List.not_mem_nil, or_false] at hc
      rcases hc with (hc | hc) | hc | hc | hc
      · exact p0 c hc
      · exact p1 c hc
      · obtain ⟨x, _, hx⟩ := hc
        intro e n r hcr
        rw [hcr] at hx
        exact Call.noConfusion hx
      · intro e n r hcr
        rw [hcr] at hc
        exact Call.noConfusion hc
      · intro e n r hcr
        rw [hcr] at hc
        exact Call.noConfusion hc
    · intro hle
      obtain ⟨info2, hi2, hh, hpre⟩ :=
        (SendRecognitionConfig.parse_result env config s0 s1 _ hp).2 hle hist pre out rfl
      rw [← hk.2.1, hi] at hi2
      cases hi2
      exact ⟨hh, hpre⟩
  · intro hist pre delay sample_rate bit_width channels h1 h2
    unfold SendRecognitionConfig.ring_buffer_size
    simp only [Nat.mod_eq_of_lt h1, Nat.mod_eq_of_lt h2]

/-! ## The first-stage engine handle of a reachable stream -/

theorem steps_of_ensures {α : Type} (R : Stream → Stream → Prop) (Q : Stream → Prop)
    (m : M α) (hm : Ensures (fun _ s => Q s) m) (h : ∀ s s2, Q s2 → R s s2) : Steps R m := by
  constructor
  intro s a s2 hrun
  exact h s s2 (hm.ensure s a s2 hrun)

/-- The label `error_exit` of `LoadSoundModel` leaves no engine. -/
theorem LoadSoundModel.error_exit_present (status : Int) :
    Ensures (fun (_ : Int) (s : Stream) => FirstStagePresent s)
      (LoadSoundModel.error_exit status) := by
  constructor
  intro s a s2 h
  simp [LoadSoundModel.error_exit] at h
  rw [← h.2]
  intro he
  exact absurd rfl he

/-- The end of the v3 branch of `LoadSoundModel`: after the loop over the records,
either `error_exit` is taken, which leaves no engine, or the handle is set. -/
theorem LoadSoundModel.v3_tail_present (env : Env) (sound_model : qal_st_sound_model)
    (models : List SML_BigSoundModelTypeV3) :
    Ensures (fun (_ : Int) (s : Stream) => FirstStagePresent s)
      (do
        match (← LoadSoundModel.v3 env sound_model models) with
        | some status => LoadSoundModel.error_exit status
        | none =>
          if (← get).gsl_engine_.isNone then
            LoadSoundModel.error_exit 0
          else
            return 0) := by
  apply ensures_bind
  intro r
  cases r with
  | some status => exact LoadSoundModel.error_exit_present status
  | none =>
    constructor
    intro s a s2 h
    simp only [run_bind, run_get, Option.some_bind] at h
    split at h
    · exact (LoadSoundModel.error_exit_present _).ensure _ _ _ h
    · rename_i hg
      simp at h
      rw [← h.2]
      intro _ hn
      exact hg (by rw [hn]; rfl)

/-- The v2 branch of `LoadSoundModel`, from the allocation of the payload on:
either `error_exit` is taken, which leaves no engine, or the handle is set. -/
theorem LoadSoundModel.v2_tail_present (env : Env) (sound_model : qal_st_sound_model)
    (sm_size : Nat) :
    Ensures (fun (_ : Int) (s : Stream) => FirstStagePresent s)
      (do
        let sm_data ← ask env (Call.calloc sm_size)
        if !sm_data then
          LoadSoundModel.error_exit (- ENOMEM)
        else
          let handle := (← get).trace.length
          let created ← ask env (Call.SoundTriggerEngine_Create ST_SM_ID_SVA_GMM)
          modify fun st => { st with gsl_engine_ := if created then some handle else none }
          if !created then
            LoadSoundModel.error_exit (- ENOMEM)
          else
            let status ← call env (Call.LoadSoundModel handle sm_size)
            if status ≠ 0 then
              LoadSoundModel.error_exit status
            else
              AddEngine { id_ := ST_SM_ID_SVA_GMM, engine_ := handle,
                          sm_data_ := { num_phrases := sound_model.num_phrases },
                          sm_size_ := sm_size }
              return 0) := by
  constructor
  intro s a s2 h
  simp only [run_bind, run_ask, Option.some_bind] at h
  split at h
  · exact (LoadSoundModel.error_exit_present _).ensure _ _ _ h
  · simp only [run_bind, run_get, run_ask, run_modify, Option.some_bind] at h
    split at h
    · exact (LoadSoundModel.error_exit_present _).ensure _ _ _ h
    · rename_i hc
      simp only [run_bind, run_call, Option.some_bind] at h
      split at h
      · exact (LoadSoundModel.error_exit_present _).ensure _ _ _ h
      · simp only [AddEngine, run_bind, run_modify, run_pure, Option.some_bind,
          Option.some.injEq, Prod.mk.injEq] at h
        rw [← h.2]
        intro _
        simp at hc
        simp [hc]

/-- `LoadSoundModel` keeps the handle of the first-stage engine set when the
engine list is not empty. -/
theorem LoadSoundModel_present (env : Env) (sound_model : Option qal_st_sound_model)
    (flag : Bool) :
    Steps (fun s s2 => FirstStagePresent s → FirstStagePresent s2)
      (LoadSoundModel env sound_model flag) := by
  have hr : ∀ s : Stream, FirstStagePresent s → FirstStagePresent s := fun _ h => h
  have ht : ∀ a b c : Stream, (FirstStagePresent a → FirstStagePresent b) →
      (FirstStagePresent b → FirstStagePresent c) →
      FirstStagePresent a → FirstStagePresent c := fun _ _ _ h1 h2 h => h2 (h1 h)
  unfold LoadSoundModel
  repeat' first
    | apply steps_pure _ hr
    | apply steps_get _ hr
    | (apply steps_modify; intro s h; exact h)
    | (apply steps_ask; intro s h; exact h)
    | split
    | intro _
    | exact steps_of_ensures _ FirstStagePresent _
        (LoadSoundModel.v3_tail_present env _ _) (fun _ _ h _ => h)
    | exact steps_of_ensures _ FirstStagePresent _
        (LoadSoundModel.v2_tail_present env _ _) (fun _ _ h _ => h)
    | apply steps_bind _ ht
    | simp only []

/-- Streams that agree on the engine list and on the handle agree on
`FirstStagePresent`. -/
theorem FirstStagePresent.of_eq (s s2 : Stream)
    (h : (s2.engines_, s2.gsl_engine_) = (s.engines_, s.gsl_engine_)) :
    FirstStagePresent s → FirstStagePresent s2 := by
  simp only [Prod.mk.injEq] at h
  unfold FirstStagePresent
  rw [h.1, h.2]
  exact fun x => x

theorem present_GetAvailCaptureDevice (env : Env) :
    Steps (fun s s2 => FirstStagePresent s → FirstStagePresent s2)
      (GetAvailCaptureDevice env) :=
  steps_of_keeps _ (fun s => (s.engines_, s.gsl_engine_)) _
    (keeps_GetAvailCaptureDevice _ env (fun _ _ => rfl)) FirstStagePresent.of_eq

theorem present_GetCurrentCaptureProfile (env : Env) :
    Steps (fun s s2 => FirstStagePresent s → FirstStagePresent s2)
      (GetCurrentCaptureProfile env) :=
  steps_of_keeps _ (fun s => (s.engines_, s.gsl_engine_)) _
    (keeps_GetCurrentCaptureProfile _ env (fun _ _ => rfl)) FirstStagePresent.of_eq

theorem present_GetQalDevice (env : Env) (dev_id : Nat) :
    Steps (fun s s2 => FirstStagePresent s → FirstStagePresent s2)
      (GetQalDevice env dev_id) :=
  steps_of_keeps _ (fun s => (s.engines_, s.gsl_engine_)) _
    (keeps_GetQalDevice _ env dev_id (fun _ _ => rfl)) FirstStagePresent.of_eq

theorem present_SendRecognitionConfig (env : Env) (config : Option qal_st_recognition_config) (flag : Bool) :
    Steps (fun s s2 => FirstStagePresent s → FirstStagePresent s2)
      (SendRecognitionConfig env config flag) :=
  steps_of_keeps _ (fun s => (s.engines_, s.gsl_engine_)) _
    (keeps_SendRecognitionConfig _ env config flag (fun _ _ _ _ => rfl)) FirstStagePresent.of_eq

theorem present_forEngines (env : Env) (op : SoundTriggerEngine → Call) (engs : List EngineCfg) (status : Int) :
    Steps (fun s s2 => FirstStagePresent s → FirstStagePresent s2)
      (forEngines env op engs status) := by
  have hr : ∀ s : Stream, FirstStagePresent s → FirstStagePresent s := fun _ h => h
  have ht : ∀ a b c : Stream, (FirstStagePresent a → FirstStagePresent b) →
      (FirstStagePresent b → FirstStagePresent c) →
      FirstStagePresent a → FirstStagePresent c := fun _ _ _ h1 h2 h => h2 (h1 h)
  induction engs generalizing status with
  | nil =>
    unfold forEngines
    apply steps_pure _ hr
  | cons x xs ih =>
    unfold forEngines
    repeat' first
      | with_reducible apply ih
      | with_reducible apply steps_bind _ ht
      | with_reducible apply steps_pure _ hr
      | with_reducible apply steps_map
      | with_reducible apply steps_get _ hr
      | with_reducible apply steps_fault
      | with_reducible apply steps_deref _ hr
      | ((with_reducible apply steps_modify); intro s h;
          first | exact h | (intro he; exact absurd rfl he))
      | ((with_reducible apply steps_call); intro s h; exact h)
      | ((with_reducible apply steps_ask); intro s h; exact h)
      | ((with_reducible apply steps_emit); intro s h; exact h)
      | with_reducible apply steps_ite
      | intro _
      | dsimp only []
      | split
      | simp only []

theorem present_forEnginesBreak (env : Env) (op : SoundTriggerEngine → Call) (engs : List EngineCfg) (status : Int) :
    Steps (fun s s2 => FirstStagePresent s → FirstStagePresent s2)
      (forEnginesBreak env op engs status) := by
  have hr : ∀ s : Stream, FirstStagePresent s → FirstStagePresent s := fun _ h => h
  have ht : ∀ a b c : Stream, (FirstStagePresent a → FirstStagePresent b) →
      (FirstStagePresent b → FirstStagePresent c) →
      FirstStagePresent a → FirstStagePresent c := fun _ _ _ h1 h2 h => h2 (h1 h)
  induction engs generalizing status with
  | nil =>
    unfold forEnginesBreak
    apply steps_pure _ hr
  | cons x xs ih =>
    unfold forEnginesBreak
    repeat' first
      | with_reducible apply ih
      | with_reducible apply steps_bind _ ht
      | with_reducible apply steps_pure _ hr
      | with_reducible apply steps_map
      | with_reducible apply steps_get _ hr
      | with_reducible apply steps_fault
      | with_reducible apply steps_deref _ hr
      | ((with_reducible apply steps_modify); intro s h;
          first | exact h | (intro he; exact absurd rfl he))
      | ((with_reducible apply steps_call); intro s h; exact h)
      | ((with_reducible apply steps_ask); intro s h; exact h)
      | ((with_reducible apply steps_emit); intro s h; exact h)
      | with_reducible apply steps_ite
      | intro _
      | dsimp only []
      | split
      | simp only []

theorem present_unloadEngines (env : Env) (ret : Int) (engs : List EngineCfg) (status : Int) :
    Steps (fun s s2 => FirstStagePresent s → FirstStagePresent s2)
      (StLoaded.unloadEngines env ret engs status) := by
  have hr : ∀ s : Stream, FirstStagePresent s → FirstStagePresent s := fun _ h => h
  have ht : ∀ a b c : Stream, (FirstStagePresent a → FirstStagePresent b) →
      (FirstStagePresent b → FirstStagePresent c) →
      FirstStagePresent a → FirstStagePresent c := fun _ _ _ h1 h2 h => h2 (h1 h)
  induction engs generalizing status with
  | nil =>
    unfold StLoaded.unloadEngines
    apply steps_pure _ hr
  | cons x xs ih =>
    unfold StLoaded.unloadEngines
    repeat' first
      | with_reducible apply ih
      | with_reducible apply steps_bind _ ht
      | with_reducible apply steps_pure _ hr
      | with_reducible apply steps_map
      | with_reducible apply steps_get _ hr
      | with_reducible apply steps_fault
      | with_reducible apply steps_deref _ hr
      | ((with_reducible apply steps_modify); intro s h;
          first | exact h | (intro he; exact absurd rfl he))
      | ((with_reducible apply steps_call); intro s h; exact h)
      | ((with_reducible apply steps_ask); intro s h; exact h)
      | ((with_reducible apply steps_emit); intro s h; exact h)
      | with_reducible apply steps_ite
      | intro _
      | dsimp only []
      | split
      | simp only []

theorem present_startEngines (env : Env) (engs : List EngineCfg) (tmp : List SoundTriggerEngine) (status : Int) :
    Steps (fun s s2 => FirstStagePresent s → FirstStagePresent s2)
      (StLoaded.startEngines env engs tmp status) := by
  have hr : ∀ s : Stream, FirstStagePresent s → FirstStagePresent s := fun _ h => h
  have ht : ∀ a b c : Stream, (FirstStagePresent a → FirstStagePresent b) →
      (FirstStagePresent b → FirstStagePresent c) →
      FirstStagePresent a → FirstStagePresent c := fun _ _ _ h1 h2 h => h2 (h1 h)
  induction engs generalizing tmp status with
  | nil =>
    unfold StLoaded.startEngines
    apply steps_pure _ hr
  | cons x xs ih =>
    unfold StLoaded.startEngines
    repeat' first
      | with_reducible apply ih
      | with_reducible apply steps_bind _ ht
      | with_reducible apply steps_pure _ hr
      | with_reducible apply steps_map
      | with_reducible apply steps_get _ hr
      | with_reducible apply steps_fault
      | with_reducible apply steps_deref _ hr
      | ((with_reducible apply steps_modify); intro s h;
          first | exact h | (intro he; exact absurd rfl he))
      | ((with_reducible apply steps_call); intro s h; exact h)
      | ((with_reducible apply steps_ask); intro s h; exact h)
      | ((with_reducible apply steps_emit); intro s h; exact h)
      | with_reducible apply steps_ite
      | intro _
      | dsimp only []
      | split
      | simp only []

theorem present_stopStarted (env : Env) (engs : List SoundTriggerEngine) :
    Steps (fun s s2 => FirstStagePresent s → FirstStagePresent s2)
      (StLoaded.stopStarted env engs) := by
  have hr : ∀ s : Stream, FirstStagePresent s → FirstStagePresent s := fun _ h => h
  have ht : ∀ a b c : Stream, (FirstStagePresent a → FirstStagePresent b) →
      (FirstStagePresent b → FirstStagePresent c) →
      FirstStagePresent a → FirstStagePresent c := fun _ _ _ h1 h2 h => h2 (h1 h)
  induction engs with
  | nil =>
    unfold StLoaded.stopStarted
    apply steps_pure _ hr
  | cons x xs ih =>
    unfold StLoaded.stopStarted
    repeat' first
      | with_reducible apply ih
      | with_reducible apply steps_bind _ ht
      | with_reducible apply steps_pure _ hr
      | with_reducible apply steps_map
      | with_reducible apply steps_get _ hr
      | with_reducible apply steps_fault
      | with_reducible apply steps_deref _ hr
      | ((with_reducible apply steps_modify); intro s h;
          first | exact h | (intro he; exact absurd rfl he))
      | ((with_reducible apply steps_call); intro s h; exact h)
      | ((with_reducible apply steps_ask); intro s h; exact h)
      | ((with_reducible apply steps_emit); intro s h; exact h)
      | with_reducible apply steps_ite
      | intro _
      | dsimp only []
      | split
      | simp only []

theorem present_StLoaded_closeDevices (env : Env) (devs : List Device) :
    Steps (fun s s2 => FirstStagePresent s → FirstStagePresent s2)
      (StLoaded.closeDevices env devs) := by
  have hr : ∀ s : Stream, FirstStagePresent s → FirstStagePresent s := fun _ h => h
  have ht : ∀ a b c : Stream, (FirstStagePresent a → FirstStagePresent b) →
      (FirstStagePresent b → FirstStagePresent c) →
      FirstStagePresent a → FirstStagePresent c := fun _ _ _ h1 h2 h => h2 (h1 h)
  induction devs with
  | nil =>
    unfold StLoaded.closeDevices
    apply steps_pure _ hr
  | cons x xs ih =>
    unfold StLoaded.closeDevices
    repeat' first
      | with_reducible apply ih
      | with_reducible apply steps_bind _ ht
      | with_reducible apply steps_pure _ hr
      | with_reducible apply steps_map
      | with_reducible apply steps_get _ hr
      | with_reducible apply steps_fault
      | with_reducible apply steps_deref _ hr
      | ((with_reducible apply steps_modify); intro s h;
          first | exact h | (intro he; exact absurd rfl he))
      | ((with_reducible apply steps_call); intro s h; exact h)
      | ((with_reducible apply steps_ask); intro s h; exact h)
      | ((with_reducible apply steps_emit); intro s h; exact h)
      | with_reducible apply steps_ite
      | intro _
      | dsimp only []
      | split
      | simp only []

theorem present_StActive_closeDevices (env : Env) (devs : List Device) :
    Steps (fun s s2 => FirstStagePresent s → FirstStagePresent s2)
      (StActive.closeDevices env devs) := by
  have hr : ∀ s : Stream, FirstStagePresent s → FirstStagePresent s := fun _ h => h
  have ht : ∀ a b c : Stream, (FirstStagePresent a → FirstStagePresent b) →
      (FirstStagePresent b → FirstStagePresent c) →
      FirstStagePresent a → FirstStagePresent c := fun _ _ _ h1 h2 h => h2 (h1 h)
  induction devs with
  | nil =>
    unfold StActive.closeDevices
    apply steps_pure _ hr
  | cons x xs ih =>
    unfold StActive.closeDevices
    repeat' first
      | with_reducible apply ih
      | with_reducible apply steps_bind _ ht
      | with_reducible apply steps_pure _ hr
      | with_reducible apply steps_map
      | with_reducible apply steps_get _ hr
      | with_reducible apply steps_fault
      | with_reducible apply steps_deref _ hr
      | ((with_reducible apply steps_modify); intro s h;
          first | exact h | (intro he; exact absurd rfl he))
      | ((with_reducible apply steps_call); intro s h; exact h)
      | ((with_reducible apply steps_ask); intro s h; exact h)
      | ((with_reducible apply steps_emit); intro s h; exact h)
      | with_reducible apply steps_ite
      | intro _
      | dsimp only []
      | split
      | simp only []

theorem present_stopDevices (env : Env) (devs : List Device) (status : Int) :
    Steps (fun s s2 => FirstStagePresent s → FirstStagePresent s2)
      (StBuffering.stopDevices env devs status) := by
  have hr : ∀ s : Stream, FirstStagePresent s → FirstStagePresent s := fun _ h => h
  have ht : ∀ a b c : Stream, (FirstStagePresent a → FirstStagePresent b) →
      (FirstStagePresent b → FirstStagePresent c) →
      FirstStagePresent a → FirstStagePresent c := fun _ _ _ h1 h2 h => h2 (h1 h)
  induction devs generalizing status with
  | nil =>
    unfold StBuffering.stopDevices
    apply steps_pure _ hr
  | cons x xs ih =>
    unfold StBuffering.stopDevices
    repeat' first
      | with_reducible apply ih
      | with_reducible apply steps_bind _ ht
      | with_reducible apply steps_pure _ hr
      | with_reducible apply steps_map
      | with_reducible apply steps_get _ hr
      | with_reducible apply steps_fault
      | with_reducible apply steps_deref _ hr
      | ((with_reducible apply steps_modify); intro s h;
          first | exact h | (intro he; exact absurd rfl he))
      | ((with_reducible apply steps_call); intro s h; exact h)
      | ((with_reducible apply steps_ask); intro s h; exact h)
      | ((with_reducible apply steps_emit); intro s h; exact h)
      | with_reducible apply steps_ite
      | intro _
      | dsimp only []
      | split
      | simp only []

theorem present_SetDetectedToEngines_loop (detected : Bool) (engs : List EngineCfg) :
    Steps (fun s s2 => FirstStagePresent s → FirstStagePresent s2)
      (SetDetectedToEngines.loop detected engs) := by
  have hr : ∀ s : Stream, FirstStagePresent s → FirstStagePresent s := fun _ h => h
  have ht : ∀ a b c : Stream, (FirstStagePresent a → FirstStagePresent b) →
      (FirstStagePresent b → FirstStagePresent c) →
      FirstStagePresent a → FirstStagePresent c := fun _ _ _ h1 h2 h => h2 (h1 h)
  induction engs with
  | nil =>
    unfold SetDetectedToEngines.loop
    apply steps_pure _ hr
  | cons x xs ih =>
    unfold SetDetectedToEngines.loop
    repeat' first
      | with_reducible apply ih
      | with_reducible apply steps_bind _ ht
      | with_reducible apply steps_pure _ hr
      | with_reducible apply steps_map
      | with_reducible apply steps_get _ hr
      | with_reducible apply steps_fault
      | with_reducible apply steps_deref _ hr
      | ((with_reducible apply steps_modify); intro s h;
          first | exact h | (intro he; exact absurd rfl he))
      | ((with_reducible apply steps_call); intro s h; exact h)
      | ((with_reducible apply steps_ask); intro s h; exact h)
      | ((with_reducible apply steps_emit); intro s h; exact h)
      | with_reducible apply steps_ite
      | intro _
      | dsimp only []
      | split
      | simp only []

theorem present_notifyClient (env : Env) :
    Steps (fun s s2 => FirstStagePresent s → FirstStagePresent s2)
      (notifyClient env) := by
  have hr : ∀ s : Stream, FirstStagePresent s → FirstStagePresent s := fun _ h => h
  have ht : ∀ a b c : Stream, (FirstStagePresent a → FirstStagePresent b) →
      (FirstStagePresent b → FirstStagePresent c) →
      FirstStagePresent a → FirstStagePresent c := fun _ _ _ h1 h2 h => h2 (h1 h)
  unfold notifyClient GenerateCallbackEvent
  repeat' first
    | with_reducible apply steps_bind _ ht
    | with_reducible apply steps_pure _ hr
    | with_reducible apply steps_map
    | with_reducible apply steps_get _ hr
    | with_reducible apply steps_fault
    | with_reducible apply steps_deref _ hr
    | ((with_reducible apply steps_modify); intro s h;
        first | exact h | (intro he; exact absurd rfl he))
    | ((with_reducible apply steps_call); intro s h; exact h)
    | ((with_reducible apply steps_ask); intro s h; exact h)
    | ((with_reducible apply steps_emit); intro s h; exact h)
    | with_reducible apply steps_ite
    | intro _
    | dsimp only []
    | split
    | simp only []

theorem present_updateDevice (env : Env) (dev_id : Nat) :
    Steps (fun s s2 => FirstStagePresent s → FirstStagePresent s2)
      (StIdle.updateDevice env dev_id) := by
  have hr : ∀ s : Stream, FirstStagePresent s → FirstStagePresent s := fun _ h => h
  have ht : ∀ a b c : Stream, (FirstStagePresent a → FirstStagePresent b) →
      (FirstStagePresent b → FirstStagePresent c) →
      FirstStagePresent a → FirstStagePresent c := fun _ _ _ h1 h2 h => h2 (h1 h)
  unfold StIdle.updateDevice
  repeat' first
    | with_reducible exact present_GetQalDevice env _
    | with_reducible apply steps_bind _ ht
    | with_reducible apply steps_pure _ hr
    | with_reducible apply steps_map
    | with_reducible apply steps_get _ hr
    | with_reducible apply steps_fault
    | with_reducible apply steps_deref _ hr
    | ((with_reducible apply steps_modify); intro s h;
        first | exact h | (intro he; exact absurd rfl he))
    | ((with_reducible apply steps_call); intro s h; exact h)
    | ((with_reducible apply steps_ask); intro s h; exact h)
    | ((with_reducible apply steps_emit); intro s h; exact h)
    | with_reducible apply steps_ite
    | intro _
    | dsimp only []
    | split
    | simp only []

theorem present_StLoaded_start (env : Env) :
    Steps (fun s s2 => FirstStagePresent s → FirstStagePresent s2)
      (StLoaded.start env) := by
  have hr : ∀ s : Stream, FirstStagePresent s → FirstStagePresent s := fun _ h => h
  have ht : ∀ a b c : Stream, (FirstStagePresent a → FirstStagePresent b) →
      (FirstStagePresent b → FirstStagePresent c) →
      FirstStagePresent a → FirstStagePresent c := fun _ _ _ h1 h2 h => h2 (h1 h)
  unfold StLoaded.start StLoaded.err_exit TransitTo
  repeat' first
    | with_reducible exact present_startEngines env _ _ _
    | with_reducible exact present_stopStarted env _
    | with_reducible apply steps_bind _ ht
    | with_reducible apply steps_pure _ hr
    | with_reducible apply steps_map
    | with_reducible apply steps_get _ hr
    | with_reducible apply steps_fault
    | with_reducible apply steps_deref _ hr
    | ((with_reducible apply steps_modify); intro s h;
        first | exact h | (intro he; exact absurd rfl he))
    | ((with_reducible apply steps_call); intro s h; exact h)
    | ((with_reducible apply steps_ask); intro s h; exact h)
    | ((with_reducible apply steps_emit); intro s h; exact h)
    | with_reducible apply steps_ite
    | intro _
    | dsimp only []
    | split
    | simp only []

theorem present_StLoaded_connectDevice (env : Env) (dev_id : Nat) :
    Steps (fun s s2 => FirstStagePresent s → FirstStagePresent s2)
      (StLoaded.connectDevice env dev_id) := by
  have hr : ∀ s : Stream, FirstStagePresent s → FirstStagePresent s := fun _ h => h
  have ht : ∀ a b c : Stream, (FirstStagePresent a → FirstStagePresent b) →
      (FirstStagePresent b → FirstStagePresent c) →
      FirstStagePresent a → FirstStagePresent c := fun _ _ _ h1 h2 h => h2 (h1 h)
  unfold StLoaded.connectDevice
  repeat' first
    | with_reducible apply steps_bind _ ht
    | with_reducible apply steps_pure _ hr
    | with_reducible apply steps_map
    | with_reducible apply steps_get _ hr
    | with_reducible apply steps_fault
    | with_reducible apply steps_deref _ hr
    | ((with_reducible apply steps_modify); intro s h;
        first | exact h | (intro he; exact absurd rfl he))
    | ((with_reducible apply steps_call); intro s h; exact h)
    | ((with_reducible apply steps_ask); intro s h; exact h)
    | ((with_reducible apply steps_emit); intro s h; exact h)
    | with_reducible apply steps_ite
    | intro _
    | dsimp only []
    | split
    | simp only []

theorem present_StLoaded_switchDevice (env : Env) (dev_id : Nat) :
    Steps (fun s s2 => FirstStagePresent s → FirstStagePresent s2)
      (StLoaded.switchDevice env dev_id) := by
  have hr : ∀ s : Stream, FirstStagePresent s → FirstStagePresent s := fun _ h => h
  have ht : ∀ a b c : Stream, (FirstStagePresent a → FirstStagePresent b) →
      (FirstStagePresent b → FirstStagePresent c) →
      FirstStagePresent a → FirstStagePresent c := fun _ _ _ h1 h2 h => h2 (h1 h)
  unfold StLoaded.switchDevice
  repeat' first
    | with_reducible exact present_GetQalDevice env _
    | with_reducible exact present_StLoaded_closeDevices env _
    | with_reducible exact present_StLoaded_connectDevice env _
    | with_reducible apply steps_bind _ ht
    | with_reducible apply steps_pure _ hr
    | with_reducible apply steps_map
    | with_reducible apply steps_get _ hr
    | with_reducible apply steps_fault
    | with_reducible apply steps_deref _ hr
    | ((with_reducible apply steps_modify); intro s h;
        first | exact h | (intro he; exact absurd rfl he))
    | ((with_reducible apply steps_call); intro s h; exact h)
    | ((with_reducible apply steps_ask); intro s h; exact h)
    | ((with_reducible apply steps_emit); intro s h; exact h)
    | with_reducible apply steps_ite
    | intro _
    | dsimp only []
    | split
    | simp only []

theorem present_stopDevice (env : Env) (status : Int) :
    Steps (fun s s2 => FirstStagePresent s → FirstStagePresent s2)
      (stopDevice env status) := by
  have hr : ∀ s : Stream, FirstStagePresent s → FirstStagePresent s := fun _ h => h
  have ht : ∀ a b c : Stream, (FirstStagePresent a → FirstStagePresent b) →
      (FirstStagePresent b → FirstStagePresent c) →
      FirstStagePresent a → FirstStagePresent c := fun _ _ _ h1 h2 h => h2 (h1 h)
  unfold stopDevice
  repeat' first
    | with_reducible apply steps_bind _ ht
    | with_reducible apply steps_pure _ hr
    | with_reducible apply steps_map
    | with_reducible apply steps_get _ hr
    | with_reducible apply steps_fault
    | with_reducible apply steps_deref _ hr
    | ((with_reducible apply steps_modify); intro s h;
        first | exact h | (intro he; exact absurd rfl he))
    | ((with_reducible apply steps_call); intro s h; exact h)
    | ((with_reducible apply steps_ask); intro s h; exact h)
    | ((with_reducible apply steps_emit); intro s h; exact h)
    | with_reducible apply steps_ite
    | intro _
    | dsimp only []
    | split
    | simp only []

theorem present_StActive_stop (env : Env) :
    Steps (fun s s2 => FirstStagePresent s → FirstStagePresent s2)
      (StActive.stop env) := by
  have hr : ∀ s : Stream, FirstStagePresent s → FirstStagePresent s := fun _ h => h
  have ht : ∀ a b c : Stream, (FirstStagePresent a → FirstStagePresent b) →
      (FirstStagePresent b → FirstStagePresent c) →
      FirstStagePresent a → FirstStagePresent c := fun _ _ _ h1 h2 h => h2 (h1 h)
  unfold StActive.stop TransitTo
  repeat' first
    | with_reducible exact present_forEngines env _ _ _
    | with_reducible exact present_stopDevice env _
    | with_reducible apply steps_bind _ ht
    | with_reducible apply steps_pure _ hr
    | with_reducible apply steps_map
    | with_reducible apply steps_get _ hr
    | with_reducible apply steps_fault
    | with_reducible apply steps_deref _ hr
    | ((with_reducible apply steps_modify); intro s h;
        first | exact h | (intro he; exact absurd rfl he))
    | ((with_reducible apply steps_call); intro s h; exact h)
    | ((with_reducible apply steps_ask); intro s h; exact h)
    | ((with_reducible apply steps_emit); intro s h; exact h)
    | with_reducible apply steps_ite
    | intro _
    | dsimp only []
    | split
    | simp only []

theorem present_StActive_connectDevice (env : Env) (dev_id : Nat) (connected : Bool) :
    Steps (fun s s2 => FirstStagePresent s → FirstStagePresent s2)
      (StActive.connectDevice env dev_id connected) := by
  have hr : ∀ s : Stream, FirstStagePresent s → FirstStagePresent s := fun _ h => h
  have ht : ∀ a b c : Stream, (FirstStagePresent a → FirstStagePresent b) →
      (FirstStagePresent b → FirstStagePresent c) →
      FirstStagePresent a → FirstStagePresent c := fun _ _ _ h1 h2 h => h2 (h1 h)
  unfold StActive.connectDevice
  repeat' first
    | with_reducible apply steps_bind _ ht
    | with_reducible apply steps_pure _ hr
    | with_reducible apply steps_map
    | with_reducible apply steps_get _ hr
    | with_reducible apply steps_fault
    | with_reducible apply steps_deref _ hr
    | ((with_reducible apply steps_modify); intro s h;
        first | exact h | (intro he; exact absurd rfl he))
    | ((with_reducible apply steps_call); intro s h; exact h)
    | ((with_reducible apply steps_ask); intro s h; exact h)
    | ((with_reducible apply steps_emit); intro s h; exact h)
    | with_reducible apply steps_ite
    | intro _
    | dsimp only []
    | split
    | simp only []

theorem present_StActive_switchDevice (env : Env) (dev_id : Nat) (connected : Bool) :
    Steps (fun s s2 => FirstStagePresent s → FirstStagePresent s2)
      (StActive.switchDevice env dev_id connected) := by
  have hr : ∀ s : Stream, FirstStagePresent s → FirstStagePresent s := fun _ h => h
  have ht : ∀ a b c : Stream, (FirstStagePresent a → FirstStagePresent b) →
      (FirstStagePresent b → FirstStagePresent c) →
      FirstStagePresent a → FirstStagePresent c := fun _ _ _ h1 h2 h => h2 (h1 h)
  unfold StActive.switchDevice
  repeat' first
    | with_reducible exact present_GetQalDevice env _
    | with_reducible exact present_StActive_closeDevices env _
    | with_reducible exact present_StActive_connectDevice env _ _
    | with_reducible apply steps_bind _ ht
    | with_reducible apply steps_pure _ hr
    | with_reducible apply steps_map
    | with_reducible apply steps_get _ hr
    | with_reducible apply steps_fault
    | with_reducible apply steps_deref _ hr
    | ((with_reducible apply steps_modify); intro s h;
        first | exact h | (intro he; exact absurd rfl he))
    | ((with_reducible apply steps_call); intro s h; exact h)
    | ((with_reducible apply steps_ask); intro s h; exact h)
    | ((with_reducible apply steps_emit); intro s h; exact h)
    | with_reducible apply steps_ite
    | intro _
    | dsimp only []
    | split
    | simp only []

theorem present_StDetected_stop (env : Env) :
    Steps (fun s s2 => FirstStagePresent s → FirstStagePresent s2)
      (StDetected.stop env) := by
  have hr : ∀ s : Stream, FirstStagePresent s → FirstStagePresent s := fun _ h => h
  have ht : ∀ a b c : Stream, (FirstStagePresent a → FirstStagePresent b) →
      (FirstStagePresent b → FirstStagePresent c) →
      FirstStagePresent a → FirstStagePresent c := fun _ _ _ h1 h2 h => h2 (h1 h)
  unfold StDetected.stop CancelDelayedStop TransitTo
  repeat' first
    | with_reducible exact present_forEngines env _ _ _
    | with_reducible exact present_stopDevice env _
    | with_reducible apply steps_bind _ ht
    | with_reducible apply steps_pure _ hr
    | with_reducible apply steps_map
    | with_reducible apply steps_get _ hr
    | with_reducible apply steps_fault
    | with_reducible apply steps_deref _ hr
    | ((with_reducible apply steps_modify); intro s h;
        first | exact h | (intro he; exact absurd rfl he))
    | ((with_reducible apply steps_call); intro s h; exact h)
    | ((with_reducible apply steps_ask); intro s h; exact h)
    | ((with_reducible apply steps_emit); intro s h; exact h)
    | with_reducible apply steps_ite
    | intro _
    | dsimp only []
    | split
    | simp only []

theorem present_stopBuffering (env : Env) (status : Int) :
    Steps (fun s s2 => FirstStagePresent s → FirstStagePresent s2)
      (StBuffering.stopBuffering env status) := by
  have hr : ∀ s : Stream, FirstStagePresent s → FirstStagePresent s := fun _ h => h
  have ht : ∀ a b c : Stream, (FirstStagePresent a → FirstStagePresent b) →
      (FirstStagePresent b → FirstStagePresent c) →
      FirstStagePresent a → FirstStagePresent c := fun _ _ _ h1 h2 h => h2 (h1 h)
  unfold StBuffering.stopBuffering
  repeat' first
    | with_reducible exact present_forEngines env _ _ _
    | with_reducible apply steps_bind _ ht
    | with_reducible apply steps_pure _ hr
    | with_reducible apply steps_map
    | with_reducible apply steps_get _ hr
    | with_reducible apply steps_fault
    | with_reducible apply steps_deref _ hr
    | ((with_reducible apply steps_modify); intro s h;
        first | exact h | (intro he; exact absurd rfl he))
    | ((with_reducible apply steps_call); intro s h; exact h)
    | ((with_reducible apply steps_ask); intro s h; exact h)
    | ((with_reducible apply steps_emit); intro s h; exact h)
    | with_reducible apply steps_ite
    | intro _
    | dsimp only []
    | split
    | simp only []

theorem present_StBuffering_stop (env : Env) (status : Int) :
    Steps (fun s s2 => FirstStagePresent s → FirstStagePresent s2)
      (StBuffering.stop env status) := by
  have hr : ∀ s : Stream, FirstStagePresent s → FirstStagePresent s := fun _ h => h
  have ht : ∀ a b c : Stream, (FirstStagePresent a → FirstStagePresent b) →
      (FirstStagePresent b → FirstStagePresent c) →
      FirstStagePresent a → FirstStagePresent c := fun _ _ _ h1 h2 h => h2 (h1 h)
  unfold StBuffering.stop CancelDelayedStop TransitTo
  repeat' first
    | with_reducible exact present_forEngines env _ _ _
    | with_reducible exact present_stopDevice env _
    | with_reducible apply steps_bind _ ht
    | with_reducible apply steps_pure _ hr
    | with_reducible apply steps_map
    | with_reducible apply steps_get _ hr
    | with_reducible apply steps_fault
    | with_reducible apply steps_deref _ hr
    | ((with_reducible apply steps_modify); intro s h;
        first | exact h | (intro he; exact absurd rfl he))
    | ((with_reducible apply steps_call); intro s h; exact h)
    | ((with_reducible apply steps_ask); intro s h; exact h)
    | ((with_reducible apply steps_emit); intro s h; exact h)
    | with_reducible apply steps_ite
    | intro _
    | dsimp only []
    | split
    | simp only []

theorem present_stopForDevice (env : Env) :
    Steps (fun s s2 => FirstStagePresent s → FirstStagePresent s2)
      (StBuffering.stopForDevice env) := by
  have hr : ∀ s : Stream, FirstStagePresent s → FirstStagePresent s := fun _ h => h
  have ht : ∀ a b c : Stream, (FirstStagePresent a → FirstStagePresent b) →
      (FirstStagePresent b → FirstStagePresent c) →
      FirstStagePresent a → FirstStagePresent c := fun _ _ _ h1 h2 h => h2 (h1 h)
  unfold StBuffering.stopForDevice CancelDelayedStop TransitTo
  repeat' first
    | with_reducible exact present_forEngines env _ _ _
    | with_reducible exact present_stopBuffering env _
    | with_reducible exact present_stopDevices env _ _
    | with_reducible apply steps_bind _ ht
    | with_reducible apply steps_pure _ hr
    | with_reducible apply steps_map
    | with_reducible apply steps_get _ hr
    | with_reducible apply steps_fault
    | with_reducible apply steps_deref _ hr
    | ((with_reducible apply steps_modify); intro s h;
        first | exact h | (intro he; exact absurd rfl he))
    | ((with_reducible apply steps_call); intro s h; exact h)
    | ((with_reducible apply steps_ask); intro s h; exact h)
    | ((with_reducible apply steps_emit); intro s h; exact h)
    | with_reducible apply steps_ite
    | intro _
    | dsimp only []
    | split
    | simp only []

theorem present_UpdateSoundModel (env : Env) (sound_model : Option qal_st_sound_model) (flag : Bool) :
    Steps (fun s s2 => FirstStagePresent s → FirstStagePresent s2)
      (UpdateSoundModel env sound_model flag) := by
  have hr : ∀ s : Stream, FirstStagePresent s → FirstStagePresent s := fun _ h => h
  have ht : ∀ a b c : Stream, (FirstStagePresent a → FirstStagePresent b) →
      (FirstStagePresent b → FirstStagePresent c) →
      FirstStagePresent a → FirstStagePresent c := fun _ _ _ h1 h2 h => h2 (h1 h)
  unfold UpdateSoundModel
  repeat' first
    | with_reducible apply steps_bind _ ht
    | with_reducible apply steps_pure _ hr
    | with_reducible apply steps_map
    | with_reducible apply steps_get _ hr
    | with_reducible apply steps_fault
    | with_reducible apply steps_deref _ hr
    | ((with_reducible apply steps_modify); intro s h;
        first | exact h | (intro he; exact absurd rfl he))
    | ((with_reducible apply steps_call); intro s h; exact h)
    | ((with_reducible apply steps_ask); intro s h; exact h)
    | ((with_reducible apply steps_emit); intro s h; exact h)
    | with_reducible apply steps_ite
    | intro _
    | dsimp only []
    | split
    | simp only []

theorem present_UpdateRecognitionConfig (env : Env) (config : Option qal_st_recognition_config) (flag : Bool) :
    Steps (fun s s2 => FirstStagePresent s → FirstStagePresent s2)
      (UpdateRecognitionConfig env config flag) := by
  have hr : ∀ s : Stream, FirstStagePresent s → FirstStagePresent s := fun _ h => h
  have ht : ∀ a b c : Stream, (FirstStagePresent a → FirstStagePresent b) →
      (FirstStagePresent b → FirstStagePresent c) →
      FirstStagePresent a → FirstStagePresent c := fun _ _ _ h1 h2 h => h2 (h1 h)
  unfold UpdateRecognitionConfig
  repeat' first
    | with_reducible apply steps_bind _ ht
    | with_reducible apply steps_pure _ hr
    | with_reducible apply steps_map
    | with_reducible apply steps_get _ hr
    | with_reducible apply steps_fault
    | with_reducible apply steps_deref _ hr
    | ((with_reducible apply steps_modify); intro s h;
        first | exact h | (intro he; exact absurd rfl he))
    | ((with_reducible apply steps_call); intro s h; exact h)
    | ((with_reducible apply steps_ask); intro s h; exact h)
    | ((with_reducible apply steps_emit); intro s h; exact h)
    | with_reducible apply steps_ite
    | intro _
    | dsimp only []
    | split
    | simp only []

/-- The handler of Idle keeps the handle of the first-stage engine set when the
engine list is not empty. -/
theorem present_StIdle (env : Env) (ev_cfg : StEventConfig) :
    Steps (fun s s2 => FirstStagePresent s → FirstStagePresent s2)
      (StIdle.ProcessEvent env ev_cfg) := by
  have hr : ∀ s : Stream, FirstStagePresent s → FirstStagePresent s := fun _ h => h
  have ht : ∀ a b c : Stream, (FirstStagePresent a → FirstStagePresent b) →
      (FirstStagePresent b → FirstStagePresent c) →
      FirstStagePresent a → FirstStagePresent c := fun _ _ _ h1 h2 h => h2 (h1 h)
  unfold StIdle.ProcessEvent TransitTo
  repeat' first
    | with_reducible exact LoadSoundModel_present env _ _
    | with_reducible exact present_GetAvailCaptureDevice env
    | with_reducible exact present_GetQalDevice env _
    | with_reducible exact present_GetCurrentCaptureProfile env
    | with_reducible exact present_updateDevice env _
    | with_reducible apply steps_bind _ ht
    | with_reducible apply steps_pure _ hr
    | with_reducible apply steps_map
    | with_reducible apply steps_get _ hr
    | with_reducible apply steps_fault
    | with_reducible apply steps_deref _ hr
    | ((with_reducible apply steps_modify); intro s h;
        first | exact h | (intro he; exact absurd rfl he))
    | ((with_reducible apply steps_call); intro s h; exact h)
    | ((with_reducible apply steps_ask); intro s h; exact h)
    | ((with_reducible apply steps_emit); intro s h; exact h)
    | with_reducible apply steps_ite
    | intro _
    | dsimp only []
    | split
    | simp only []

/-- The handler of Loaded, given that the internal dispatch does. -/
theorem present_StLoaded (env : Env) (ProcessInternalEvent : StEventConfig → M Int)
    (hP : ∀ ev, Steps (fun s s2 => FirstStagePresent s → FirstStagePresent s2) (ProcessInternalEvent ev)) (ev_cfg : StEventConfig) :
    Steps (fun s s2 => FirstStagePresent s → FirstStagePresent s2)
      (StLoaded.ProcessEvent env ProcessInternalEvent ev_cfg) := by
  have hr : ∀ s : Stream, FirstStagePresent s → FirstStagePresent s := fun _ h => h
  have ht : ∀ a b c : Stream, (FirstStagePresent a → FirstStagePresent b) →
      (FirstStagePresent b → FirstStagePresent c) →
      FirstStagePresent a → FirstStagePresent c := fun _ _ _ h1 h2 h => h2 (h1 h)
  unfold StLoaded.ProcessEvent TransitTo
  repeat' first
    | with_reducible exact hP _
    | with_reducible exact present_unloadEngines env _ _ _
    | with_reducible exact present_SendRecognitionConfig env _ _
    | with_reducible exact present_StLoaded_start env
    | with_reducible exact present_StLoaded_switchDevice env _
    | with_reducible exact present_GetAvailCaptureDevice env
    | with_reducible exact present_GetCurrentCaptureProfile env
    | with_reducible apply steps_bind _ ht
    | with_reducible apply steps_pure _ hr
    | with_reducible apply steps_map
    | with_reducible apply steps_get _ hr
    | with_reducible apply steps_fault
    | with_reducible apply steps_deref _ hr
    | ((with_reducible apply steps_modify); intro s h;
        first | exact h | (intro he; exact absurd rfl he))
    | ((with_reducible apply steps_call); intro s h; exact h)
    | ((with_reducible apply steps_ask); intro s h; exact h)
    | ((with_reducible apply steps_emit); intro s h; exact h)
    | with_reducible apply steps_ite
    | intro _
    | dsimp only []
    | split
    | simp only []

/-- The handler of Active, given that the internal dispatch does. -/
theorem present_StActive (env : Env) (ProcessInternalEvent : StEventConfig → M Int)
    (hP : ∀ ev, Steps (fun s s2 => FirstStagePresent s → FirstStagePresent s2) (ProcessInternalEvent ev)) (ev_cfg : StEventConfig) :
    Steps (fun s s2 => FirstStagePresent s → FirstStagePresent s2)
      (StActive.ProcessEvent env ProcessInternalEvent ev_cfg) := by
  have hr : ∀ s : Stream, FirstStagePresent s → FirstStagePresent s := fun _ h => h
  have ht : ∀ a b c : Stream, (FirstStagePresent a → FirstStagePresent b) →
      (FirstStagePresent b → FirstStagePresent c) →
      FirstStagePresent a → FirstStagePresent c := fun _ _ _ h1 h2 h => h2 (h1 h)
  unfold StActive.ProcessEvent TransitTo PostDelayedStop GetCurrentStateId SetDetectedToEngines
  repeat' first
    | with_reducible exact hP _
    | with_reducible exact present_SetDetectedToEngines_loop _ _
    | with_reducible exact present_notifyClient env
    | with_reducible exact present_SendRecognitionConfig env _ _
    | with_reducible exact present_StActive_stop env
    | with_reducible exact present_StActive_switchDevice env _ _
    | with_reducible exact present_GetAvailCaptureDevice env
    | with_reducible exact present_GetCurrentCaptureProfile env
    | with_reducible apply steps_bind _ ht
    | with_reducible apply steps_pure _ hr
    | with_reducible apply steps_map
    | with_reducible apply steps_get _ hr
    | with_reducible apply steps_fault
    | with_reducible apply steps_deref _ hr
    | ((with_reducible apply steps_modify); intro s h;
        first | exact h | (intro he; exact absurd rfl he))
    | ((with_reducible apply steps_call); intro s h; exact h)
    | ((with_reducible apply steps_ask); intro s h; exact h)
    | ((with_reducible apply steps_emit); intro s h; exact h)
    | with_reducible apply steps_ite
    | intro _
    | dsimp only []
    | split
    | simp only []

/-- The handler of Detected, given that the internal dispatch does. -/
theorem present_StDetected (env : Env) (ProcessInternalEvent : StEventConfig → M Int)
    (hP : ∀ ev, Steps (fun s s2 => FirstStagePresent s → FirstStagePresent s2) (ProcessInternalEvent ev)) (ev_cfg : StEventConfig) :
    Steps (fun s s2 => FirstStagePresent s → FirstStagePresent s2)
      (StDetected.ProcessEvent env ProcessInternalEvent ev_cfg) := by
  have hr : ∀ s : Stream, FirstStagePresent s → FirstStagePresent s := fun _ h => h
  have ht : ∀ a b c : Stream, (FirstStagePresent a → FirstStagePresent b) →
      (FirstStagePresent b → FirstStagePresent c) →
      FirstStagePresent a → FirstStagePresent c := fun _ _ _ h1 h2 h => h2 (h1 h)
  unfold StDetected.ProcessEvent TransitTo CancelDelayedStop
  repeat' first
    | with_reducible exact hP _
    | with_reducible exact present_forEngines env _ _ _
    | with_reducible exact present_stopDevice env _
    | with_reducible exact present_StDetected_stop env
    | with_reducible apply steps_bind _ ht
    | with_reducible apply steps_pure _ hr
    | with_reducible apply steps_map
    | with_reducible apply steps_get _ hr
    | with_reducible apply steps_fault
    | with_reducible apply steps_deref _ hr
    | ((with_reducible apply steps_modify); intro s h;
        first | exact h | (intro he; exact absurd rfl he))
    | ((with_reducible apply steps_call); intro s h; exact h)
    | ((with_reducible apply steps_ask); intro s h; exact h)
    | ((with_reducible apply steps_emit); intro s h; exact h)
    | with_reducible apply steps_ite
    | intro _
    | dsimp only []
    | split
    | simp only []

/-- The handler of Buffering, given that the internal dispatch does. -/
theorem present_StBuffering (env : Env) (ProcessInternalEvent : StEventConfig → M Int)
    (hP : ∀ ev, Steps (fun s s2 => FirstStagePresent s → FirstStagePresent s2) (ProcessInternalEvent ev)) (ev_cfg : StEventConfig) :
    Steps (fun s s2 => FirstStagePresent s → FirstStagePresent s2)
      (StBuffering.ProcessEvent env ProcessInternalEvent ev_cfg) := by
  have hr : ∀ s : Stream, FirstStagePresent s → FirstStagePresent s := fun _ h => h
  have ht : ∀ a b c : Stream, (FirstStagePresent a → FirstStagePresent b) →
      (FirstStagePresent b → FirstStagePresent c) →
      FirstStagePresent a → FirstStagePresent c := fun _ _ _ h1 h2 h => h2 (h1 h)
  unfold StBuffering.ProcessEvent TransitTo CancelDelayedStop PostDelayedStop GetCurrentStateId
  repeat' first
    | with_reducible exact hP _
    | with_reducible exact present_forEngines env _ _ _
    | with_reducible exact present_forEnginesBreak env _ _ _
    | with_reducible exact present_stopDevice env _
    | with_reducible exact present_stopBuffering env _
    | with_reducible exact present_StBuffering_stop env _
    | with_reducible exact present_stopForDevice env
    | with_reducible exact present_notifyClient env
    | with_reducible apply steps_bind _ ht
    | with_reducible apply steps_pure _ hr
    | with_reducible apply steps_map
    | with_reducible apply steps_get _ hr
    | with_reducible apply steps_fault
    | with_reducible apply steps_deref _ hr
    | ((with_reducible apply steps_modify); intro s h;
        first | exact h | (intro he; exact absurd rfl he))
    | ((with_reducible apply steps_call); intro s h; exact h)
    | ((with_reducible apply steps_ask); intro s h; exact h)
    | ((with_reducible apply steps_emit); intro s h; exact h)
    | with_reducible apply steps_ite
    | intro _
    | dsimp only []
    | split
    | simp only []

/-- The handler of SSR, given that the internal dispatch does. -/
theorem present_StSSR (env : Env) (ProcessInternalEvent : StEventConfig → M Int)
    (hP : ∀ ev, Steps (fun s s2 => FirstStagePresent s → FirstStagePresent s2) (ProcessInternalEvent ev)) (ev_cfg : StEventConfig) :
    Steps (fun s s2 => FirstStagePresent s → FirstStagePresent s2)
      (StSSR.ProcessEvent env ProcessInternalEvent ev_cfg) := by
  have hr : ∀ s : Stream, FirstStagePresent s → FirstStagePresent s := fun _ h => h
  have ht : ∀ a b c : Stream, (FirstStagePresent a → FirstStagePresent b) →
      (FirstStagePresent b → FirstStagePresent c) →
      FirstStagePresent a → FirstStagePresent c := fun _ _ _ h1 h2 h => h2 (h1 h)
  unfold StSSR.ProcessEvent TransitTo
  repeat' first
    | with_reducible exact hP _
    | with_reducible exact present_SendRecognitionConfig env _ _
    | with_reducible exact present_UpdateSoundModel env _ _
    | with_reducible exact present_UpdateRecognitionConfig env _ _
    | with_reducible apply steps_bind _ ht
    | with_reducible apply steps_pure _ hr
    | with_reducible apply steps_map
    | with_reducible apply steps_get _ hr
    | with_reducible apply steps_fault
    | with_reducible apply steps_deref _ hr
    | ((with_reducible apply steps_modify); intro s h;
        first | exact h | (intro he; exact absurd rfl he))
    | ((with_reducible apply steps_call); intro s h; exact h)
    | ((with_reducible apply steps_ask); intro s h; exact h)
    | ((with_reducible apply steps_emit); intro s h; exact h)
    | with_reducible apply steps_ite
    | intro _
    | dsimp only []
    | split
    | simp only []

/-- Every event keeps the handle of the first-stage engine set when the engine
list is not empty. -/
theorem present_ProcessEvent (env : Env) (fuel : Nat) :
    ∀ ev_cfg : StEventConfig,
      Steps (fun s s2 => FirstStagePresent s → FirstStagePresent s2)
        (ProcessEvent env fuel ev_cfg) := by
  have hr : ∀ s : Stream, FirstStagePresent s → FirstStagePresent s := fun _ h => h
  have ht : ∀ a b c : Stream, (FirstStagePresent a → FirstStagePresent b) →
      (FirstStagePresent b → FirstStagePresent c) →
      FirstStagePresent a → FirstStagePresent c := fun _ _ _ h1 h2 h => h2 (h1 h)
  induction fuel with
  | zero =>
    intro ev_cfg
    unfold ProcessEvent
    apply steps_fault
  | succ n ih =>
    intro ev_cfg
    unfold ProcessEvent
    apply steps_bind _ ht
    · apply steps_get _ hr
    · intro s
      split
      · exact present_StIdle env ev_cfg
      · exact present_StLoaded env _ ih ev_cfg
      · exact present_StActive env _ ih ev_cfg
      · exact present_StDetected env _ ih ev_cfg
      · exact present_StBuffering env _ ih ev_cfg
      · exact present_StSSR env _ ih ev_cfg
      · apply steps_fault

/-- In every reachable stream the handle of the first-stage engine is set when the
engine list is not empty. -/
theorem Reachable.present (env : Env) (st : Stream) (h : Reachable env st) :
    FirstStagePresent st := by
  induction h with
  | init charging =>
    intro he
    exact absurd rfl he
  | step fuel ev_cfg status st st2 _ hrun ih =>
    exact (present_ProcessEvent env fuel ev_cfg).step st status st2 hrun ih

/-- C29 (as amended): in every reachable stream whose engine list is not empty the
handle of the first-stage engine `gsl_engine_` is present.  A stream is
reachable when a sequence of events, each of which returns, leads to it from a
stream as constructed; the environment is arbitrary, so every status and every
answer of the platform is covered. -/
theorem C29_first_stage_engine_present (env : Env) (st : Stream)
    (h : Reachable env st) (he : st.engines_ ≠ []) : st.gsl_engine_ ≠ none :=
  Reachable.present env st h he

/-- Witness for C29: the stream after a v2 model is loaded on a stream as
constructed, in the nominal environment. -/
theorem C29_first_stage_engine_present_witness :
    Reachable Env.nominal Stream.loaded ∧ Stream.loaded.engines_ ≠ [] ∧
    Stream.loaded.gsl_engine_ ≠ none :=
  have h : Reachable Env.nominal Stream.loaded :=
    Reachable.step 1 (.ST_EV_LOAD_SOUND_MODEL (some qal_st_sound_model.v2) false) 0
      (Stream.init false) Stream.loaded (Reachable.init false) (by decide!)
  ⟨h, by decide, C29_first_stage_engine_present Env.nominal Stream.loaded h (by decide)⟩

/-- C29 (counterexample): a generic sound model loaded on a stream as constructed,
in the nominal environment.  The load returns 0 and the stream is in Loaded, a
state that is neither Idle nor SSR, with an empty engine list and no handle of
a first-stage engine: `LoadSoundModel` creates engines for keyphrase models
only. -/
theorem C29_counterexample :
    ∃ (statuses : List Int) (st : Stream), Reachable Env.nominal st ∧
      (statuses, st.cur_state_, st.engines_, st.gsl_engine_) =
        ([0], ST_STATE_LOADED, [], none) :=
  Reachable.of_observation Env.nominal 1
    [.ST_EV_LOAD_SOUND_MODEL (some qal_st_sound_model.generic) false]
    (Stream.init false) (fun r => (r.1, r.2.cur_state_, r.2.engines_, r.2.gsl_engine_)) _
    (Reachable.init false) (by decide!)

/-! ## Claims on the event sequences -/

/-- C40.  Whenever `FillConfLevels` succeeds, the user ids of all user levels, in
the order of the config, are a permutation of the index range
`[num_phrases, num_phrases + Σ num_levels)`: every slot of the output array at
or above `num_phrases` is the `user_id` of exactly one user level, and no user
level has the index of a keyword slot. -/
theorem C40_user_ids_permutation (env : Env) (config : qal_st_recognition_config)
    (st st2 : Stream) (out : List Nat) (n : Nat)
    (h : FillConfLevels env (some config) st = some ((0, some (out, n)), st2)) :
    ((config.phrases.flatMap (fun p => p.levels)).map (fun l => l.user_id)).Perm
      (List.range' config.num_phrases (config.phrases.map (fun p => p.num_levels)).sum) ∧
    out.length = config.num_phrases + (config.phrases.map (fun p => p.num_levels)).sum ∧
    (∀ k, config.num_phrases ≤ k → k < out.length →
      ((config.phrases.flatMap (fun p => p.levels)).map (fun l => l.user_id)).count k = 1) ∧
    (∀ l ∈ config.phrases.flatMap (fun p => p.levels), config.num_phrases ≤ l.user_id) := by
  obtain ⟨cl, tr, hr, he⟩ := FillConfLevels_accepted env config st st2 _ h
  simp only [Option.some.injEq, Prod.mk.injEq] at hr
  obtain ⟨rfl, rfl⟩ := hr
  have hN : FillConfLevels.count config.phrases 0 =
      config.num_phrases + (config.phrases.map (fun p => p.num_levels)).sum := by
    rw [FillConfLevels.count_eq]
    simp [qal_st_recognition_config.num_phrases]
  obtain ⟨f1, _, f3, f4, _, _, _, _⟩ := FillConfLevels.fill_ok _ _ _ _ _ _ he
    (by simp) (by simp) (by simp [qal_st_recognition_config.num_phrases]) (by rw [hN]; omega)
  rw [List.length_replicate] at f1
  have hperm : ((config.phrases.flatMap (fun p => p.levels)).map (fun l => l.user_id)).Perm
      (List.range' config.num_phrases (config.phrases.map (fun p => p.num_levels)).sum) := by
    rw [List.perm_ext_iff_of_nodup f4 (List.nodup_range' _ _)]
    intro k
    rw [List.mem_range'_1]
    constructor
    · intro hk
      obtain ⟨l, hl, rfl⟩ := List.mem_map.1 hk
      have := f3 l hl
      omega
    · intro hk
      apply FillConfLevels.ids_cover _ config.num_phrases
        (FillConfLevels.count config.phrases 0) f4
      · intro u hu
        obtain ⟨l, hl, rfl⟩ := List.mem_map.1 hu
        exact ⟨(f3 l hl).1, (f3 l hl).2.1⟩
      · rw [List.length_map, FillConfLevels.length_flatMap, hN]
        omega
      · exact hk.1
      · omega
  refine ⟨hperm, by omega, ?_, ?_⟩
  · intro k hk1 hk2
    rw [hperm.count_eq, List.count_eq_one_of_mem (List.nodup_range' _ _)]
    rw [List.mem_range'_1]
    omega
  · intro l hl
    exact (f3 l hl).1

/-- Witness for C40: the sample config, two phrases with the user ids 3, 2 and 4,
on a stream whose model has two phrases. -/
theorem C40_user_ids_permutation_witness :
    FillConfLevels Env.nominal (some qal_st_recognition_config.sample) (Stream.withGmm 2) =
      some ((0, some ([40, 50, 100, 0, 7], 5)),
        { Stream.withGmm 2 with trace := [Call.calloc 5, Call.calloc 5] }) ∧
    ((qal_st_recognition_config.sample.phrases.flatMap (fun p => p.levels)).map
        (fun l => l.user_id)).Perm
      (List.range' qal_st_recognition_config.sample.num_phrases
        (qal_st_recognition_config.sample.phrases.map (fun p => p.num_levels)).sum) ∧
    ([40, 50, 100, 0, 7] : List Nat).length = qal_st_recognition_config.sample.num_phrases +
      (qal_st_recognition_config.sample.phrases.map (fun p => p.num_levels)).sum ∧
    (∀ k, qal_st_recognition_config.sample.num_phrases ≤ k →
      k < ([40, 50, 100, 0, 7] : List Nat).length →
      ((qal_st_recognition_config.sample.phrases.flatMap (fun p => p.levels)).map
        (fun l => l.user_id)).count k = 1) ∧
    (∀ l ∈ qal_st_recognition_config.sample.phrases.flatMap (fun p => p.levels),
      qal_st_recognition_config.sample.num_phrases ≤ l.user_id) :=
  ⟨rfl, C40_user_ids_permutation Env.nominal qal_st_recognition_config.sample
    (Stream.withGmm 2) _ _ _ rfl⟩

/-! ## Pause and Resume -/

/-- The engine loop of the start, every engine starting. -/
theorem StLoaded.startEngines_ok (env : Env) (h0 : ∀ n, env.status n = 0)
    (engs : List EngineCfg) (tmp : List SoundTriggerEngine) (s : Int) (st : Stream) :
    StLoaded.startEngines env engs tmp s st =
      some ((true, if engs.length = 0 then s else 0, tmp ++ engs.map (fun e => e.engine_)),
        { st with trace := st.trace ++ engs.map (fun e => Call.StartRecognition e.engine_) }) := by
  induction engs generalizing tmp s st with
  | nil => simp [StLoaded.startEngines]
  | cons e es ih =>
    simp only [StLoaded.startEngines, run_bind, run_call, Option.some_bind,
      EngineCfg.GetEngine, h0, ne_eq, not_true_eq_false, if_false, ih]
    by_cases hl : es.length = 0 <;> simp [hl]

/-- The start of a Loaded stream that is not paused and has a recognition config,
in an environment in which every call succeeds: the capture profile is
updated, the device is configured, started and registered, every engine is
started, the reader is reset, and the stream is in Active. -/
theorem StLoaded.start_ok (env : Env) (h0 : ∀ n, env.status n = 0)
    (ha : ∀ n, env.avail n = true) (st : Stream) (hp : st.paused_ = false)
    (hc : st.rec_config_ ≠ none) :
    StLoaded.start env st =
      some (0, { st with
        prev_state_ := some st.cur_state_, cur_state_ := ST_STATE_ACTIVE,
        trace := st.trace ++ [Call.UpdateSVACaptureProfile true, Call.StopOtherSVAStreams,
            Call.StartOtherSVAStreams] ++
          (st.mDevices.take 1).flatMap (fun dev =>
            [Call.getDeviceAttributes dev, Call.GetSVACaptureProfile, Call.calloc 0,
             Call.setDeviceAttributes dev, Call.setSndName dev, Call.dev_start dev,
             Call.registerDevice dev, Call.setSndName dev]) ++
          st.engines_.map (fun e => Call.StartRecognition e.engine_) ++
          st.reader_.toList.map Call.reader_reset }) := by
  obtain ⟨cfg, hcfg⟩ := Option.ne_none_iff_exists'.1 hc
  cases hd : st.mDevices <;> cases hr : st.reader_ <;>
    simp [StLoaded.start, hp, hcfg, hd, hr, ha, h0, StLoaded.startEngines_ok, TransitTo]

/-- Pause in Active returns, in Loaded with the pause flag set, the stream
otherwise unchanged but for the trace. -/
theorem Pause_in_Active_step (env : Env) (fuel : Nat) (st : Stream)
    (hs : st.cur_state_ = ST_STATE_ACTIVE) :
    ∃ (status : Int),
      ProcessEvent env (fuel + 1) .ST_EV_PAUSE st = some (status,
        { st with
          paused_ := true, prev_state_ := some ST_STATE_ACTIVE, cur_state_ := ST_STATE_LOADED,
          trace := st.trace ++ [Call.UpdateSVACaptureProfile false] ++
            (if env.avail st.trace.length = true then
              [Call.StopOtherSVAStreams, Call.StartOtherSVAStreams] else []) ++
            st.engines_.map (fun e => Call.StopRecognition e.engine_) ++
            (st.mDevices.take 1).flatMap
              (fun dev => [Call.dev_stop dev, Call.deregisterDevice dev]) }) := by
  apply exists_status_of_map_snd
  by_cases ha : env.avail st.trace.length = true <;>
    simp [ProcessEvent, StActive.ProcessEvent, hs, StActive.stop, ha, forEngines_run,
      stopDevice_run, TransitTo]

/-- C33.  From Active, in any environment, Pause and then StopRecognition return
and leave the stream in Loaded with `paused_` false, and a Resume after them
returns 0 and changes nothing: no call is made, so no engine and no device is
started.  Pause followed directly by Resume, every engine, device and platform
call succeeding, returns the stream (which has its recognition config) to
Active with `paused_` false, the device started and registered and every engine
started by the Resume. -/
theorem C33_Resume_after_client_stop (env : Env) (fuel : Nat) (st : Stream) (deferred_ : Bool)
    (hs : st.cur_state_ = ST_STATE_ACTIVE) :
    (∃ (statuses : List Int) (st2 : Stream),
      ProcessEvents env (fuel + 1) [.ST_EV_PAUSE, .ST_EV_STOP_RECOGNITION deferred_] st =
        some (statuses, st2) ∧
      st2.cur_state_ = ST_STATE_LOADED ∧ st2.paused_ = false ∧
      ProcessEvent env (fuel + 1) .ST_EV_RESUME st2 = some (0, st2)) ∧
    ((∀ n, env.status n = 0) → (∀ n, env.avail n = true) → st.rec_config_ ≠ none →
      ∃ (t : List Call),
        ProcessEvents env (fuel + 1) [.ST_EV_PAUSE, .ST_EV_RESUME] st =
          some ([0, 0], { st with
            paused_ := false, prev_state_ := some ST_STATE_LOADED,
            trace := t ++ [Call.UpdateSVACaptureProfile true, Call.StopOtherSVAStreams,
                Call.StartOtherSVAStreams] ++
              (st.mDevices.take 1).flatMap (fun dev =>
                [Call.getDeviceAttributes dev, Call.GetSVACaptureProfile, Call.calloc 0,
                 Call.setDeviceAttributes dev, Call.setSndName dev, Call.dev_start dev,
                 Call.registerDevice dev, Call.setSndName dev]) ++
              st.engines_.map (fun e => Call.StartRecognition e.engine_) ++
              st.reader_.toList.map Call.reader_reset }) ∧
        t = st.trace ++ [Call.UpdateSVACaptureProfile false, Call.StopOtherSVAStreams,
            Call.StartOtherSVAStreams] ++
          st.engines_.map (fun e => Call.StopRecognition e.engine_) ++
          (st.mDevices.take 1).flatMap
            (fun dev => [Call.dev_stop dev, Call.deregisterDevice dev])) := by
  obtain ⟨status, hP⟩ := Pause_in_Active_step env fuel st hs
  constructor
  · refine ⟨[status, 0], { st with
        paused_ := false, prev_state_ := some ST_STATE_ACTIVE, cur_state_ := ST_STATE_LOADED,
        trace := st.trace ++ [Call.UpdateSVACaptureProfile false] ++
          (if env.avail st.trace.length = true then
            [Call.StopOtherSVAStreams, Call.StartOtherSVAStreams] else []) ++
          st.engines_.map (fun e => Call.StopRecognition e.engine_) ++
          (st.mDevices.take 1).flatMap
            (fun dev => [Call.dev_stop dev, Call.deregisterDevice dev]) }, ?_, rfl, rfl, ?_⟩
    · simp only [ProcessEvents, run_bind, hP, Option.some_bind, run_pure]
      simp [ProcessEvent, StLoaded.ProcessEvent]
    · simp [ProcessEvent, StLoaded.ProcessEvent]
  · intro h0 ha hc
    refine ⟨_, ?_, rfl⟩
    have hst : status = 0 := by
      have := hP
      simp [ProcessEvent, StActive.ProcessEvent, hs, StActive.stop, ha, h0, forEngines_run,
        stopDevice_run, TransitTo] at this
      exact this.symm
    subst hst
    simp only [ProcessEvents, run_bind, hP, Option.some_bind, run_pure]
    simp [ProcessEvent, StLoaded.ProcessEvent, StLoaded.start_ok env h0 ha, hc, ha, hs]

/-- Witness for C33: an Active stream with one engine, its device and its reader,
in the nominal environment. -/
theorem C33_Resume_after_client_stop_witness :
    (Stream.sample ST_STATE_ACTIVE false []).cur_state_ = ST_STATE_ACTIVE ∧
    (∃ (statuses : List Int) (st2 : Stream),
      ProcessEvents Env.nominal (0 + 1) [.ST_EV_PAUSE, .ST_EV_STOP_RECOGNITION false] (Stream.sample ST_STATE_ACTIVE false []) =
        some (statuses, st2) ∧
      st2.cur_state_ = ST_STATE_LOADED ∧ st2.paused_ = false ∧
      ProcessEvent Env.nominal (0 + 1) .ST_EV_RESUME st2 = some (0, st2)) ∧
    (∃ (t : List Call),
        ProcessEvents Env.nominal (0 + 1) [.ST_EV_PAUSE, .ST_EV_RESUME] (Stream.sample ST_STATE_ACTIVE false []) =
          some ([0, 0], { (Stream.sample ST_STATE_ACTIVE false []) with
            paused_ := false, prev_state_ := some ST_STATE_LOADED,
            trace := t ++ [Call.UpdateSVACaptureProfile true, Call.StopOtherSVAStreams,
                Call.StartOtherSVAStreams] ++
              ((Stream.sample ST_STATE_ACTIVE false []).mDevices.take 1).flatMap (fun dev =>
                [Call.getDeviceAttributes dev, Call.GetSVACaptureProfile, Call.calloc 0,
                 Call.setDeviceAttributes dev, Call.setSndName dev, Call.dev_start dev,
                 Call.registerDevice dev, Call.setSndName dev]) ++
              (Stream.sample ST_STATE_ACTIVE false []).engines_.map (fun e => Call.StartRecognition e.engine_) ++
              (Stream.sample ST_STATE_ACTIVE false []).reader_.toList.map Call.reader_reset }) ∧
        t = (Stream.sample ST_STATE_ACTIVE false []).trace ++ [Call.UpdateSVACaptureProfile false, Call.StopOtherSVAStreams,
            Call.StartOtherSVAStreams] ++
          (Stream.sample ST_STATE_ACTIVE false []).engines_.map (fun e => Call.StopRecognition e.engine_) ++
          ((Stream.sample ST_STATE_ACTIVE false []).mDevices.take 1).flatMap
            (fun dev => [Call.dev_stop dev, Call.deregisterDevice dev])) :=
  ⟨rfl, (C33_Resume_after_client_stop Env.nominal 0 (Stream.sample ST_STATE_ACTIVE false [])
      false rfl).1,
    (C33_Resume_after_client_stop Env.nominal 0 (Stream.sample ST_STATE_ACTIVE false [])
      false rfl).2 (fun _ => rfl) (fun _ => rfl) (by decide)⟩

/-! ## A recognition config that is not accepted -/

/-- After the config is cached, every error of `SendRecognitionConfig` goes
through `error_exit`, which clears the cached config. -/
theorem SendRecognitionConfig.apply_error (env : Env) (config : qal_st_recognition_config) :
    Ensures (fun (r : Int) (s : Stream) => r ≠ 0 → s.rec_config_ = none)
      (SendRecognitionConfig.apply env config) := by
  have hx : ∀ status : Int, Ensures (fun (r : Int) (s : Stream) => r ≠ 0 → s.rec_config_ = none)
      (SendRecognitionConfig.error_exit status) := by
    intro status
    constructor
    intro s a s2 h _
    simp [SendRecognitionConfig.error_exit] at h
    rw [← h.2]
  unfold SendRecognitionConfig.apply SendRecognitionConfig.createBuffer
  repeat' first
    | exact hx _
    | apply ensures_fault
    | (apply ensures_pure; intro s h0; exact absurd h0 (by assumption))
    | apply ensures_bind
    | split
    | intro _
    | simp only []

/-- A `SendRecognitionConfig` that gets a config and returns an error leaves no
cached config behind: a failed allocation of the cache leaves `rec_config_`
null, and every later error clears it. -/
theorem SendRecognitionConfig_error (env : Env) (config : qal_st_recognition_config)
    (flag : Bool) :
    Ensures (fun (r : Int) (s : Stream) => r ≠ 0 → s.rec_config_ = none)
      (SendRecognitionConfig env (some config) flag) := by
  constructor
  intro s r s2 h hr
  cases flag with
  | true =>
    simp only [SendRecognitionConfig] at h
    exact (SendRecognitionConfig.apply_error env config).ensure _ _ _ (by simpa using h) hr
  | false =>
    by_cases ha : env.avail s.trace.length = true
    · simp [SendRecognitionConfig, ha] at h
      exact (SendRecognitionConfig.apply_error env config).ensure _ _ _ h hr
    · simp [SendRecognitionConfig, ha] at h
      rw [← h.2]

/-- C39 (as amended).  A RecognitionConfig event in Loaded that carries a config
and returns an error leaves the stream in Loaded, its pause flag as it was,
with no cached config (`rec_config_` is null, whatever was cached before).  A
StartRecognition that follows on a stream that is not paused returns `-EINVAL`
and leaves the stream as it is, in Loaded; on a paused stream it returns 0 and
leaves the stream as it is. -/
theorem C39_rejected_config_is_discarded (env : Env) (fuel fuel2 : Nat) (st st2 : Stream)
    (config : qal_st_recognition_config) (status : Int) (restart_ : Bool)
    (hs : st.cur_state_ = ST_STATE_LOADED)
    (h : ProcessEvent env (fuel + 1) (.ST_EV_RECOGNITION_CONFIG (some config)) st =
      some (status, st2))
    (he : status ≠ 0) :
    st2.rec_config_ = none ∧ st2.cur_state_ = ST_STATE_LOADED ∧ st2.paused_ = st.paused_ ∧
    (st2.paused_ = false →
      ProcessEvent env (fuel2 + 1) (.ST_EV_START_RECOGNITION restart_) st2 =
        some (- EINVAL, st2)) ∧
    (st2.paused_ = true →
      ProcessEvent env (fuel2 + 1) (.ST_EV_START_RECOGNITION restart_) st2 = some (0, st2)) := by
  simp only [ProcessEvent, StLoaded.ProcessEvent, run_bind, run_get, Option.some_bind, hs] at h
  have hn := (SendRecognitionConfig_error env config false).ensure _ _ _ h he
  have hk := (keeps_SendRecognitionConfig (fun s => (s.cur_state_, s.paused_)) env (some config)
    false (fun _ _ _ _ => rfl)).keep _ _ _ h
  simp only [Prod.mk.injEq] at hk
  have hc : st2.cur_state_ = ST_STATE_LOADED := hk.1.trans hs
  refine ⟨hn, hc, hk.2, ?_, ?_⟩
  · intro hp
    simp [ProcessEvent, StLoaded.ProcessEvent, StLoaded.start, hc, hp, hn]
  · intro hp
    simp [ProcessEvent, StLoaded.ProcessEvent, StLoaded.start, hc, hp]

/-- Witness for C39: on a Loaded stream the buffer config of the first-stage
engine (interaction 17) fails with `-EIO`. -/
theorem C39_rejected_config_is_discarded_witness :
    Stream.loaded.cur_state_ = ST_STATE_LOADED ∧
    ProcessEvent (Env.failAt 17 (- EIO)) (0 + 1)
        (.ST_EV_RECOGNITION_CONFIG (some (qal_st_recognition_config.bare false [⟨0, 1, 40, []⟩])))
        Stream.loaded =
      some (- EIO, { Stream.loaded with
        trace := Stream.loaded.trace ++ [Call.calloc 0, Call.calloc 1, Call.calloc 1,
          Call.UpdateBufConfig 12 2000 0] }) ∧
    - EIO ≠ 0 ∧
    ProcessEvent (Env.failAt 17 (- EIO)) (0 + 1) (.ST_EV_START_RECOGNITION false)
        { Stream.loaded with
          trace := Stream.loaded.trace ++ [Call.calloc 0, Call.calloc 1, Call.calloc 1,
            Call.UpdateBufConfig 12 2000 0] } =
      some (- EINVAL, { Stream.loaded with
        trace := Stream.loaded.trace ++ [Call.calloc 0, Call.calloc 1, Call.calloc 1,
          Call.UpdateBufConfig 12 2000 0] }) :=
  have h : ProcessEvent (Env.failAt 17 (- EIO)) (0 + 1)
        (.ST_EV_RECOGNITION_CONFIG (some (qal_st_recognition_config.bare false [⟨0, 1, 40, []⟩])))
        Stream.loaded =
      some (- EIO, { Stream.loaded with
        trace := Stream.loaded.trace ++ [Call.calloc 0, Call.calloc 1, Call.calloc 1,
          Call.UpdateBufConfig 12 2000 0] }) := by
    decide!
  ⟨rfl, h, by decide,
    (C39_rejected_config_is_discarded (Env.failAt 17 (- EIO)) 0 0 Stream.loaded _
      (qal_st_recognition_config.bare false [⟨0, 1, 40, []⟩]) (- EIO) false rfl h
      (by decide)).2.2.2.1 rfl⟩

/-- C39 as stated fails on a paused stream: a v2 model is loaded, the stream is
paused, a RecognitionConfig fails (the buffer config of the first-stage engine,
interaction 17, returns `-EIO`) and leaves no cached config, and the
StartRecognition that follows returns 0, not `-EINVAL`. -/
theorem C39_counterexample :
    (ProcessEvents (Env.failAt 17 (- EIO)) 1
      [.ST_EV_LOAD_SOUND_MODEL (some qal_st_sound_model.v2) false, .ST_EV_PAUSE,
       .ST_EV_RECOGNITION_CONFIG (some (qal_st_recognition_config.bare false [⟨0, 1, 40, []⟩])),
       .ST_EV_START_RECOGNITION false]
      (Stream.init false)).map
      (fun r => (r.1, r.2.cur_state_, r.2.paused_, r.2.rec_config_)) =
      some ([0, 0, - EIO, 0], ST_STATE_LOADED, true, none) := by
  decide!

/-- C35 (the code at the failing input).  On a Loaded stream that is not paused
and has its recognition config (a v2 model loaded and a config accepted), a
StartRecognition whose capture-profile lookup `GetSVACaptureProfile`
(interaction 25) returns null goes to `err_exit` with `status` still 0: the
event returns 0 and the stream is still in Loaded, the device deregistered and
stopped.  So does it when the allocation of the channel info (interaction 26)
fails: the event returns 0 and the stream is still in Loaded. -/
theorem C35_Start_returns_0_in_Loaded :
    ((ProcessEvents (Env.nullAt 25) 1
      [.ST_EV_LOAD_SOUND_MODEL (some qal_st_sound_model.v2) false,
       .ST_EV_RECOGNITION_CONFIG (some (qal_st_recognition_config.bare false [⟨0, 1, 40, []⟩])),
       .ST_EV_START_RECOGNITION false]
      (Stream.init false)).map
      (fun r => (r.1, r.2.cur_state_, (r.2.paused_, r.2.rec_config_.isSome), r.2.trace.drop 21)) =
      some ([0, 0, 0], ST_STATE_LOADED, (false, true),
        [Call.UpdateSVACaptureProfile true, Call.StopOtherSVAStreams, Call.StartOtherSVAStreams,
         Call.getDeviceAttributes QAL_DEVICE_IN_HANDSET_VA_MIC, Call.GetSVACaptureProfile,
         Call.deregisterDevice QAL_DEVICE_IN_HANDSET_VA_MIC,
         Call.dev_stop QAL_DEVICE_IN_HANDSET_VA_MIC])) ∧
    ((ProcessEvents (Env.nullAt 26) 1
      [.ST_EV_LOAD_SOUND_MODEL (some qal_st_sound_model.v2) false,
       .ST_EV_RECOGNITION_CONFIG (some (qal_st_recognition_config.bare false [⟨0, 1, 40, []⟩])),
       .ST_EV_START_RECOGNITION false]
      (Stream.init false)).map
      (fun r => (r.1, r.2.cur_state_, (r.2.paused_, r.2.rec_config_.isSome), r.2.trace.drop 21)) =
      some ([0, 0, 0], ST_STATE_LOADED, (false, true),
        [Call.UpdateSVACaptureProfile true, Call.StopOtherSVAStreams, Call.StartOtherSVAStreams,
         Call.getDeviceAttributes QAL_DEVICE_IN_HANDSET_VA_MIC, Call.GetSVACaptureProfile,
         Call.calloc 0])) := by
  constructor <;> decide!

/-- C38 (the code at the failing input).  A two-engine stream is brought to
Detected (a v3 model with a GMM and a keyword-verifier record, a recognition
config without capture, start, first-stage detection, second-stage detection;
48 interactions so far).  On the StartRecognition that follows, the restart of
the first-stage engine (interaction 49) fails with `-EIO` and the restart of the keyword verifier
succeeds: the loop of StDetected has no `break`, the status of the last engine
replaces the failure, the event returns 0 and the stream is in Active.  When
the restart of the last engine (interaction 50) is the one that fails, the event
returns `-EIO` and the stream is in Loaded. -/
theorem C38_restart_failure_overwritten :
    ((ProcessEvents (Env.failAt 49 (- EIO)) 1
      [.ST_EV_LOAD_SOUND_MODEL
        (some (qal_st_sound_model.v3 [⟨ST_SM_ID_SVA_GMM, 8, 0⟩, ⟨ST_SM_ID_SVA_KWD, 8, 8⟩])) false,
       .ST_EV_RECOGNITION_CONFIG (some (qal_st_recognition_config.bare false [⟨0, 1, 40, []⟩])),
       .ST_EV_START_RECOGNITION false, .ST_EV_DETECTED GMM_DETECTED,
       .ST_EV_DETECTED CNN_DETECTED]
      (Stream.init false)).map (fun r => (r.1, r.2.cur_state_, r.2.trace.length)) =
      some ([0, 0, 0, 0, 0], ST_STATE_DETECTED, 48)) ∧
    ((ProcessEvents (Env.failAt 49 (- EIO)) 1
      [.ST_EV_LOAD_SOUND_MODEL
        (some (qal_st_sound_model.v3 [⟨ST_SM_ID_SVA_GMM, 8, 0⟩, ⟨ST_SM_ID_SVA_KWD, 8, 8⟩])) false,
       .ST_EV_RECOGNITION_CONFIG (some (qal_st_recognition_config.bare false [⟨0, 1, 40, []⟩])),
       .ST_EV_START_RECOGNITION false, .ST_EV_DETECTED GMM_DETECTED,
       .ST_EV_DETECTED CNN_DETECTED, .ST_EV_START_RECOGNITION false]
      (Stream.init false)).map (fun r => (r.1, r.2.cur_state_, r.2.trace.drop 49)) =
      some ([0, 0, 0, 0, 0, 0], ST_STATE_ACTIVE,
        [Call.RestartRecognition 12, Call.RestartRecognition 15,
         Call.reader_reset { buffer := 21, index := 0 }])) ∧
    ((ProcessEvents (Env.failAt 50 (- EIO)) 1
      [.ST_EV_LOAD_SOUND_MODEL
        (some (qal_st_sound_model.v3 [⟨ST_SM_ID_SVA_GMM, 8, 0⟩, ⟨ST_SM_ID_SVA_KWD, 8, 8⟩])) false,
       .ST_EV_RECOGNITION_CONFIG (some (qal_st_recognition_config.bare false [⟨0, 1, 40, []⟩])),
       .ST_EV_START_RECOGNITION false, .ST_EV_DETECTED GMM_DETECTED,
       .ST_EV_DETECTED CNN_DETECTED, .ST_EV_START_RECOGNITION false]
      (Stream.init false)).map (fun r => (r.1, r.2.cur_state_, r.2.trace.drop 49)) =
      some ([0, 0, 0, 0, 0, - EIO], ST_STATE_LOADED,
        [Call.RestartRecognition 12, Call.RestartRecognition 15,
         Call.reader_reset { buffer := 21, index := 0 }])) := by
  refine ⟨?_, ?_, ?_⟩ <;> decide!

/-- When a RecognitionConfig event in Loaded returns 0, the
stream is in Loaded, the config is cached and the client reader `reader_`
exists.  An Unload that follows returns, deletes the reader and keeps the
cached config: the stream is then in Idle with `rec_config_` set and `reader_`
null. -/
theorem RecognitionConfig_in_Loaded_reader (env : Env) (fuel fuel2 : Nat) (st st2 : Stream)
    (config : qal_st_recognition_config) (hs : st.cur_state_ = ST_STATE_LOADED)
    (h : ProcessEvent env (fuel + 1) (.ST_EV_RECOGNITION_CONFIG (some config)) st =
      some (0, st2)) :
    st2.cur_state_ = ST_STATE_LOADED ∧ st2.rec_config_ = some config ∧ st2.reader_ ≠ none ∧
    ∃ (status : Int) (st3 : Stream),
      ProcessEvent env (fuel2 + 1) .ST_EV_UNLOAD_SOUND_MODEL st2 = some (status, st3) ∧
      st3.cur_state_ = ST_STATE_IDLE ∧ st3.rec_config_ = some config ∧ st3.reader_ = none := by
  simp only [ProcessEvent, StLoaded.ProcessEvent, run_bind, run_get, Option.some_bind, hs] at h
  have hk := (keeps_SendRecognitionConfig (fun s => s.cur_state_) env (some config)
    false (fun _ _ _ _ => rfl)).keep _ _ _ h
  have hc : st2.cur_state_ = ST_STATE_LOADED := hk.trans hs
  have ha : env.avail st.trace.length = true := by
    by_contra ha
    simp [SendRecognitionConfig, ha] at h
    exact absurd h.1 (by decide)
  have h2 : SendRecognitionConfig env (some config) true
      { st with rec_config_ := some config, trace := st.trace ++ [Call.calloc config.data_size] }
      = some (0, st2) := by
    simp [SendRecognitionConfig, ha] at h
    simpa [SendRecognitionConfig] using h
  obtain ⟨s0, s1, hist, pre, out, h0, hp, ht⟩ := SendRecognitionConfig_ok env config true _ st2 h2
  obtain ⟨info, g, hi, _, _, h3⟩ :=
    SendRecognitionConfig.createBuffer_ok env config hist pre out s1 st2 ht
  have hr := (steps_SendRecognitionConfig_parse
    (fun s s2 => s2.rec_config_ = s.rec_config_)
    (fun _ => rfl) (fun _ _ _ h1 h2 => h2.trans h1) (fun _ _ => rfl) (fun _ _ _ _ => rfl)
    env config).step _ _ _ hp
  have h00 : s0.rec_config_ = some config := by
    rcases h0 with h0 | h0 <;> rw [h0]
  have hrc : st2.rec_config_ = some config := by
    rw [h3]
    exact hr.trans h00
  have hi2 : st2.sm_info_ = some info := by
    rw [h3]
    exact hi
  obtain ⟨status, st3, hu, hc3, _, hr3, hst⟩ := Unload_in_Loaded_step env fuel2 st2 info hc hi2
  refine ⟨hc, hrc, ?_, status, st3, hu, hc3, ?_, hr3⟩
  · rw [h3]
    exact Option.some_ne_none _
  · rw [← hrc, ← hst]

/-! ## The fields that only the state handlers write -/

/-- A conditional keeps what its two branches keep. -/
theorem keeps_ite {α γ : Type} (p : Stream → γ) (c : Prop) [Decidable c] (a b : M α)
    (ha : c → Keeps p a) (hb : ¬ c → Keeps p b) : Keeps p (if c then a else b) := by
  by_cases h : c
  · rw [if_pos h]
    exact ha h
  · rw [if_neg h]
    exact hb h

theorem key_GetAvailCaptureDevice (env : Env) :
    Keeps Stream.key (GetAvailCaptureDevice env) :=
  keeps_GetAvailCaptureDevice _ env (fun _ _ => rfl)

theorem key_GetCurrentCaptureProfile (env : Env) :
    Keeps Stream.key (GetCurrentCaptureProfile env) :=
  keeps_GetCurrentCaptureProfile _ env (fun _ _ => rfl)

theorem key_GetQalDevice (env : Env) (dev_id : Nat) :
    Keeps Stream.key (GetQalDevice env dev_id) :=
  keeps_GetQalDevice _ env dev_id (fun _ _ => rfl)

theorem key_SendRecognitionConfig (env : Env) (config : Option qal_st_recognition_config) (flag : Bool) :
    Keeps Stream.key (SendRecognitionConfig env config flag) :=
  keeps_SendRecognitionConfig _ env config flag (fun _ _ _ _ => rfl)

theorem key_LoadSoundModel (env : Env) (sound_model : Option qal_st_sound_model) (flag : Bool) :
    Keeps Stream.key (LoadSoundModel env sound_model flag) :=
  keeps_LoadSoundModel _ env sound_model flag (fun _ _ _ _ _ _ _ => rfl)

theorem key_forEngines (env : Env) (op : SoundTriggerEngine → Call) (engs : List EngineCfg) (status : Int) :
    Keeps Stream.key (forEngines env op engs status) := by
  induction engs generalizing status with
  | nil =>
    unfold forEngines
    apply keeps_pure
  | cons x xs ih =>
    unfold forEngines
    repeat' first
      | with_reducible apply ih
      | with_reducible apply keeps_bind
      | with_reducible apply keeps_pure
      | with_reducible apply keeps_map
      | with_reducible apply keeps_get
      | with_reducible apply keeps_fault
      | with_reducible apply keeps_deref
      | ((with_reducible apply keeps_modify); intro s; rfl)
      | ((with_reducible apply keeps_call); intro s t; rfl)
      | ((with_reducible apply keeps_ask); intro s t; rfl)
      | ((with_reducible apply keeps_emit); intro s t; rfl)
      | with_reducible apply keeps_ite
      | intro _
      | dsimp only []
      | split
      | simp only []

theorem key_forEnginesBreak (env : Env) (op : SoundTriggerEngine → Call) (engs : List EngineCfg) (status : Int) :
    Keeps Stream.key (forEnginesBreak env op engs status) := by
  induction engs generalizing status with
  | nil =>
    unfold forEnginesBreak
    apply keeps_pure
  | cons x xs ih =>
    unfold forEnginesBreak
    repeat' first
      | with_reducible apply ih
      | with_reducible apply keeps_bind
      | with_reducible apply keeps_pure
      | with_reducible apply keeps_map
      | with_reducible apply keeps_get
      | with_reducible apply keeps_fault
      | with_reducible apply keeps_deref
      | ((with_reducible apply keeps_modify); intro s; rfl)
      | ((with_reducible apply keeps_call); intro s t; rfl)
      | ((with_reducible apply keeps_ask); intro s t; rfl)
      | ((with_reducible apply keeps_emit); intro s t; rfl)
      | with_reducible apply keeps_ite
      | intro _
      | dsimp only []
      | split
      | simp only []

theorem key_unloadEngines (env : Env) (ret : Int) (engs : List EngineCfg) (status : Int) :
    Keeps Stream.key (StLoaded.unloadEngines env ret engs status) := by
  induction engs generalizing status with
  | nil =>
    unfold StLoaded.unloadEngines
    apply keeps_pure
  | cons x xs ih =>
    unfold StLoaded.unloadEngines
    repeat' first
      | with_reducible apply ih
      | with_reducible apply keeps_bind
      | with_reducible apply keeps_pure
      | with_reducible apply keeps_map
      | with_reducible apply keeps_get
      | with_reducible apply keeps_fault
      | with_reducible apply keeps_deref
      | ((with_reducible apply keeps_modify); intro s; rfl)
      | ((with_reducible apply keeps_call); intro s t; rfl)
      | ((with_reducible apply keeps_ask); intro s t; rfl)
      | ((with_reducible apply keeps_emit); intro s t; rfl)
      | with_reducible apply keeps_ite
      | intro _
      | dsimp only []
      | split
      | simp only []

theorem key_startEngines (env : Env) (engs : List EngineCfg) (tmp : List SoundTriggerEngine) (status : Int) :
    Keeps Stream.key (StLoaded.startEngines env engs tmp status) := by
  induction engs generalizing tmp status with
  | nil =>
    unfold StLoaded.startEngines
    apply keeps_pure
  | cons x xs ih =>
    unfold StLoaded.startEngines
    repeat' first
      | with_reducible apply ih
      | with_reducible apply keeps_bind
      | with_reducible apply keeps_pure
      | with_reducible apply keeps_map
      | with_reducible apply keeps_get
      | with_reducible apply keeps_fault
      | with_reducible apply keeps_deref
      | ((with_reducible apply keeps_modify); intro s; rfl)
      | ((with_reducible apply keeps_call); intro s t; rfl)
      | ((with_reducible apply keeps_ask); intro s t; rfl)
      | ((with_reducible apply keeps_emit); intro s t; rfl)
      | with_reducible apply keeps_ite
      | intro _
      | dsimp only []
      | split
      | simp only []

theorem key_stopStarted (env : Env) (engs : List SoundTriggerEngine) :
    Keeps Stream.key (StLoaded.stopStarted env engs) := by
  induction engs with
  | nil =>
    unfold StLoaded.stopStarted
    apply keeps_pure
  | cons x xs ih =>
    unfold StLoaded.stopStarted
    repeat' first
      | with_reducible apply ih
      | with_reducible apply keeps_bind
      | with_reducible apply keeps_pure
      | with_reducible apply keeps_map
      | with_reducible apply keeps_get
      | with_reducible apply keeps_fault
      | with_reducible apply keeps_deref
      | ((with_reducible apply keeps_modify); intro s; rfl)
      | ((with_reducible apply keeps_call); intro s t; rfl)
      | ((with_reducible apply keeps_ask); intro s t; rfl)
      | ((with_reducible apply keeps_emit); intro s t; rfl)
      | with_reducible apply keeps_ite
      | intro _
      | dsimp only []
      | split
      | simp only []

theorem key_StLoaded_closeDevices (env : Env) (devs : List Device) :
    Keeps Stream.key (StLoaded.closeDevices env devs) := by
  induction devs with
  | nil =>
    unfold StLoaded.closeDevices
    apply keeps_pure
  | cons x xs ih =>
    unfold StLoaded.closeDevices
    repeat' first
      | with_reducible apply ih
      | with_reducible apply keeps_bind
      | with_reducible apply keeps_pure
      | with_reducible apply keeps_map
      | with_reducible apply keeps_get
      | with_reducible apply keeps_fault
      | with_reducible apply keeps_deref
      | ((with_reducible apply keeps_modify); intro s; rfl)
      | ((with_reducible apply keeps_call); intro s t; rfl)
      | ((with_reducible apply keeps_ask); intro s t; rfl)
      | ((with_reducible apply keeps_emit); intro s t; rfl)
      | with_reducible apply keeps_ite
      | intro _
      | dsimp only []
      | split
      | simp only []

theorem key_StActive_closeDevices (env : Env) (devs : List Device) :
    Keeps Stream.key (StActive.closeDevices env devs) := by
  induction devs with
  | nil =>
    unfold StActive.closeDevices
    apply keeps_pure
  | cons x xs ih =>
    unfold StActive.closeDevices
    repeat' first
      | with_reducible apply ih
      | with_reducible apply keeps_bind
      | with_reducible apply keeps_pure
      | with_reducible apply keeps_map
      | with_reducible apply keeps_get
      | with_reducible apply keeps_fault
      | with_reducible apply keeps_deref
      | ((with_reducible apply keeps_modify); intro s; rfl)
      | ((with_reducible apply keeps_call); intro s t; rfl)
      | ((with_reducible apply keeps_ask); intro s t; rfl)
      | ((with_reducible apply keeps_emit); intro s t; rfl)
      | with_reducible apply keeps_ite
      | intro _
      | dsimp only []
      | split
      | simp only []

theorem key_stopDevices (env : Env) (devs : List Device) (status : Int) :
    Keeps Stream.key (StBuffering.stopDevices env devs status) := by
  induction devs generalizing status with
  | nil =>
    unfold StBuffering.stopDevices
    apply keeps_pure
  | cons x xs ih =>
    unfold StBuffering.stopDevices
    repeat' first
      | with_reducible apply ih
      | with_reducible apply keeps_bind
      | with_reducible apply keeps_pure
      | with_reducible apply keeps_map
      | with_reducible apply keeps_get
      | with_reducible apply keeps_fault
      | with_reducible apply keeps_deref
      | ((with_reducible apply keeps_modify); intro s; rfl)
      | ((with_reducible apply keeps_call); intro s t; rfl)
      | ((with_reducible apply keeps_ask); intro s t; rfl)
      | ((with_reducible apply keeps_emit); intro s t; rfl)
      | with_reducible apply keeps_ite
      | intro _
      | dsimp only []
      | split
      | simp only []

theorem key_SetDetectedToEngines_loop (detected : Bool) (engs : List EngineCfg) :
    Keeps Stream.key (SetDetectedToEngines.loop detected engs) := by
  induction engs with
  | nil =>
    unfold SetDetectedToEngines.loop
    apply keeps_pure
  | cons x xs ih =>
    unfold SetDetectedToEngines.loop
    repeat' first
      | with_reducible apply ih
      | with_reducible apply keeps_bind
      | with_reducible apply keeps_pure
      | with_reducible apply keeps_map
      | with_reducible apply keeps_get
      | with_reducible apply keeps_fault
      | with_reducible apply keeps_deref
      | ((with_reducible apply keeps_modify); intro s; rfl)
      | ((with_reducible apply keeps_call); intro s t; rfl)
      | ((with_reducible apply keeps_ask); intro s t; rfl)
      | ((with_reducible apply keeps_emit); intro s t; rfl)
      | with_reducible apply keeps_ite
      | intro _
      | dsimp only []
      | split
      | simp only []

theorem key_CancelDelayedStop  :
    Keeps Stream.key (CancelDelayedStop) := by
  unfold CancelDelayedStop
  repeat' first
    | with_reducible apply keeps_bind
    | with_reducible apply keeps_pure
    | with_reducible apply keeps_map
    | with_reducible apply keeps_get
    | with_reducible apply keeps_fault
    | with_reducible apply keeps_deref
    | ((with_reducible apply keeps_modify); intro s; rfl)
    | ((with_reducible apply keeps_call); intro s t; rfl)
    | ((with_reducible apply keeps_ask); intro s t; rfl)
    | ((with_reducible apply keeps_emit); intro s t; rfl)
    | with_reducible apply keeps_ite
    | intro _
    | dsimp only []
    | split
    | simp only []

theorem key_PostDelayedStop  :
    Keeps Stream.key (PostDelayedStop) := by
  unfold PostDelayedStop
  repeat' first
    | with_reducible apply keeps_bind
    | with_reducible apply keeps_pure
    | with_reducible apply keeps_map
    | with_reducible apply keeps_get
    | with_reducible apply keeps_fault
    | with_reducible apply keeps_deref
    | ((with_reducible apply keeps_modify); intro s; rfl)
    | ((with_reducible apply keeps_call); intro s t; rfl)
    | ((with_reducible apply keeps_ask); intro s t; rfl)
    | ((with_reducible apply keeps_emit); intro s t; rfl)
    | with_reducible apply keeps_ite
    | intro _
    | dsimp only []
    | split
    | simp only []

theorem key_SetDetectedToEngines (detected : Bool) :
    Keeps Stream.key (SetDetectedToEngines detected) := by
  unfold SetDetectedToEngines
  repeat' first
    | with_reducible apply key_SetDetectedToEngines_loop _ _
    | with_reducible apply keeps_bind
    | with_reducible apply keeps_pure
    | with_reducible apply keeps_map
    | with_reducible apply keeps_get
    | with_reducible apply keeps_fault
    | with_reducible apply keeps_deref
    | ((with_reducible apply keeps_modify); intro s; rfl)
    | ((with_reducible apply keeps_call); intro s t; rfl)
    | ((with_reducible apply keeps_ask); intro s t; rfl)
    | ((with_reducible apply keeps_emit); intro s t; rfl)
    | with_reducible apply keeps_ite
    | intro _
    | dsimp only []
    | split
    | simp only []

theorem key_notifyClient (env : Env) :
    Keeps Stream.key (notifyClient env) := by
  unfold notifyClient GenerateCallbackEvent
  repeat' first
    | with_reducible apply keeps_bind
    | with_reducible apply keeps_pure
    | with_reducible apply keeps_map
    | with_reducible apply keeps_get
    | with_reducible apply keeps_fault
    | with_reducible apply keeps_deref
    | ((with_reducible apply keeps_modify); intro s; rfl)
    | ((with_reducible apply keeps_call); intro s t; rfl)
    | ((with_reducible apply keeps_ask); intro s t; rfl)
    | ((with_reducible apply keeps_emit); intro s t; rfl)
    | with_reducible apply keeps_ite
    | intro _
    | dsimp only []
    | split
    | simp only []

theorem key_updateDevice (env : Env) (dev_id : Nat) :
    Keeps Stream.key (StIdle.updateDevice env dev_id) := by
  unfold StIdle.updateDevice
  repeat' first
    | with_reducible apply key_GetQalDevice env _
    | with_reducible apply keeps_bind
    | with_reducible apply keeps_pure
    | with_reducible apply keeps_map
    | with_reducible apply keeps_get
    | with_reducible apply keeps_fault
    | with_reducible apply keeps_deref
    | ((with_reducible apply keeps_modify); intro s; rfl)
    | ((with_reducible apply keeps_call); intro s t; rfl)
    | ((with_reducible apply keeps_ask); intro s t; rfl)
    | ((with_reducible apply keeps_emit); intro s t; rfl)
    | with_reducible apply keeps_ite
    | intro _
    | dsimp only []
    | split
    | simp only []

theorem key_err_exit (env : Env) (tmp : List SoundTriggerEngine) (status : Int) :
    Keeps Stream.key (StLoaded.err_exit env tmp status) := by
  unfold StLoaded.err_exit
  repeat' first
    | with_reducible apply key_stopStarted env _
    | with_reducible apply keeps_bind
    | with_reducible apply keeps_pure
    | with_reducible apply keeps_map
    | with_reducible apply keeps_get
    | with_reducible apply keeps_fault
    | with_reducible apply keeps_deref
    | ((with_reducible apply keeps_modify); intro s; rfl)
    | ((with_reducible apply keeps_call); intro s t; rfl)
    | ((with_reducible apply keeps_ask); intro s t; rfl)
    | ((with_reducible apply keeps_emit); intro s t; rfl)
    | with_reducible apply keeps_ite
    | intro _
    | dsimp only []
    | split
    | simp only []

theorem key_StLoaded_connectDevice (env : Env) (dev_id : Nat) :
    Keeps Stream.key (StLoaded.connectDevice env dev_id) := by
  unfold StLoaded.connectDevice
  repeat' first
    | with_reducible apply keeps_bind
    | with_reducible apply keeps_pure
    | with_reducible apply keeps_map
    | with_reducible apply keeps_get
    | with_reducible apply keeps_fault
    | with_reducible apply keeps_deref
    | ((with_reducible apply keeps_modify); intro s; rfl)
    | ((with_reducible apply keeps_call); intro s t; rfl)
    | ((with_reducible apply keeps_ask); intro s t; rfl)
    | ((with_reducible apply keeps_emit); intro s t; rfl)
    | with_reducible apply keeps_ite
    | intro _
    | dsimp only []
    | split
    | simp only []

theorem key_StLoaded_switchDevice (env : Env) (dev_id : Nat) :
    Keeps Stream.key (StLoaded.switchDevice env dev_id) := by
  unfold StLoaded.switchDevice
  repeat' first
    | with_reducible apply key_GetQalDevice env _
    | with_reducible apply key_StLoaded_closeDevices env _
    | with_reducible apply key_StLoaded_connectDevice env _
    | with_reducible apply keeps_bind
    | with_reducible apply keeps_pure
    | with_reducible apply keeps_map
    | with_reducible apply keeps_get
    | with_reducible apply keeps_fault
    | with_reducible apply keeps_deref
    | ((with_reducible apply keeps_modify); intro s; rfl)
    | ((with_reducible apply keeps_call); intro s t; rfl)
    | ((with_reducible apply keeps_ask); intro s t; rfl)
    | ((with_reducible apply keeps_emit); intro s t; rfl)
    | with_reducible apply keeps_ite
    | intro _
    | dsimp only []
    | split
    | simp only []

theorem key_stopDevice (env : Env) (status : Int) :
    Keeps Stream.key (stopDevice env status) := by
  unfold stopDevice
  repeat' first
    | with_reducible apply keeps_bind
    | with_reducible apply keeps_pure
    | with_reducible apply keeps_map
    | with_reducible apply keeps_get
    | with_reducible apply keeps_fault
    | with_reducible apply keeps_deref
    | ((with_reducible apply keeps_modify); intro s; rfl)
    | ((with_reducible apply keeps_call); intro s t; rfl)
    | ((with_reducible apply keeps_ask); intro s t; rfl)
    | ((with_reducible apply keeps_emit); intro s t; rfl)
    | with_reducible apply keeps_ite
    | intro _
    | dsimp only []
    | split
    | simp only []

theorem key_StActive_connectDevice (env : Env) (dev_id : Nat) (connected : Bool) :
    Keeps Stream.key (StActive.connectDevice env dev_id connected) := by
  unfold StActive.connectDevice
  repeat' first
    | with_reducible apply keeps_bind
    | with_reducible apply keeps_pure
    | with_reducible apply keeps_map
    | with_reducible apply keeps_get
    | with_reducible apply keeps_fault
    | with_reducible apply keeps_deref
    | ((with_reducible apply keeps_modify); intro s; rfl)
    | ((with_reducible apply keeps_call); intro s t; rfl)
    | ((with_reducible apply keeps_ask); intro s t; rfl)
    | ((with_reducible apply keeps_emit); intro s t; rfl)
    | with_reducible apply keeps_ite
    | intro _
    | dsimp only []
    | split
    | simp only []

theorem key_StActive_switchDevice (env : Env) (dev_id : Nat) (connected : Bool) :
    Keeps Stream.key (StActive.switchDevice env dev_id connected) := by
  unfold StActive.switchDevice
  repeat' first
    | with_reducible apply key_GetQalDevice env _
    | with_reducible apply key_StActive_closeDevices env _
    | with_reducible apply key_StActive_connectDevice env _ _
    | with_reducible apply keeps_bind
    | with_reducible apply keeps_pure
    | with_reducible apply keeps_map
    | with_reducible apply keeps_get
    | with_reducible apply keeps_fault
    | with_reducible apply keeps_deref
    | ((with_reducible apply keeps_modify); intro s; rfl)
    | ((with_reducible apply keeps_call); intro s t; rfl)
    | ((with_reducible apply keeps_ask); intro s t; rfl)
    | ((with_reducible apply keeps_emit); intro s t; rfl)
    | with_reducible apply keeps_ite
    | intro _
    | dsimp only []
    | split
    | simp only []

theorem key_stopBuffering (env : Env) (status : Int) :
    Keeps Stream.key (StBuffering.stopBuffering env status) := by
  unfold StBuffering.stopBuffering
  repeat' first
    | with_reducible apply key_forEngines env _ _ _
    | with_reducible apply keeps_bind
    | with_reducible apply keeps_pure
    | with_reducible apply keeps_map
    | with_reducible apply keeps_get
    | with_reducible apply keeps_fault
    | with_reducible apply keeps_deref
    | ((with_reducible apply keeps_modify); intro s; rfl)
    | ((with_reducible apply keeps_call); intro s t; rfl)
    | ((with_reducible apply keeps_ask); intro s t; rfl)
    | ((with_reducible apply keeps_emit); intro s t; rfl)
    | with_reducible apply keeps_ite
    | intro _
    | dsimp only []
    | split
    | simp only []

theorem key_UpdateSoundModel (env : Env) (sound_model : Option qal_st_sound_model) (flag : Bool) :
    Keeps Stream.key (UpdateSoundModel env sound_model flag) := by
  unfold UpdateSoundModel
  repeat' first
    | with_reducible apply keeps_bind
    | with_reducible apply keeps_pure
    | with_reducible apply keeps_map
    | with_reducible apply keeps_get
    | with_reducible apply keeps_fault
    | with_reducible apply keeps_deref
    | ((with_reducible apply keeps_modify); intro s; rfl)
    | ((with_reducible apply keeps_call); intro s t; rfl)
    | ((with_reducible apply keeps_ask); intro s t; rfl)
    | ((with_reducible apply keeps_emit); intro s t; rfl)
    | with_reducible apply keeps_ite
    | intro _
    | dsimp only []
    | split
    | simp only []

theorem key_UpdateRecognitionConfig (env : Env) (config : Option qal_st_recognition_config) (flag : Bool) :
    Keeps Stream.key (UpdateRecognitionConfig env config flag) := by
  unfold UpdateRecognitionConfig
  repeat' first
    | with_reducible apply keeps_bind
    | with_reducible apply keeps_pure
    | with_reducible apply keeps_map
    | with_reducible apply keeps_get
    | with_reducible apply keeps_fault
    | with_reducible apply keeps_deref
    | ((with_reducible apply keeps_modify); intro s; rfl)
    | ((with_reducible apply keeps_call); intro s t; rfl)
    | ((with_reducible apply keeps_ask); intro s t; rfl)
    | ((with_reducible apply keeps_emit); intro s t; rfl)
    | with_reducible apply keeps_ite
    | intro _
    | dsimp only []
    | split
    | simp only []

/-! ## The counter of concurrent streams and the detection state -/

/-- An event that is not a detection has no detection kind to check. -/
theorem DetectionKind.of_ne (ev_cfg : StEventConfig)
    (h : ∀ det_type_, ev_cfg ≠ .ST_EV_DETECTED det_type_) : DetectionKind ev_cfg :=
  fun det_type_ he => absurd he (h det_type_)

/-- The start of a Loaded stream leaves the counter of concurrent streams alone,
and the detection state idle if it was. -/
theorem counters_StLoaded_start (env : Env) :
    Steps CountersKept (StLoaded.start env) := by
  have hr : ∀ s : Stream, CountersKept s s := fun _ => ⟨rfl, fun h => h⟩
  have ht : ∀ a b c : Stream, CountersKept a b → CountersKept b c → CountersKept a c :=
    fun _ _ _ h1 h2 => ⟨h2.1.trans h1.1, fun h => h2.2 (h1.2 h)⟩
  have hkey : ∀ s s2 : Stream, s2.key = s.key → CountersKept s s2 := by
    intro s s2 h
    simp only [Stream.key, Prod.mk.injEq] at h
    exact ⟨h.2.2.2.2, fun h0 => h.2.2.2.1.trans h0⟩
  unfold StLoaded.start TransitTo
  repeat' first
    | with_reducible apply steps_bind _ ht
    | intro _
    | with_reducible apply steps_pure _ hr
    | with_reducible apply steps_ite
    | with_reducible apply steps_get _ hr
    | ((with_reducible apply steps_call); intro s; exact hkey _ _ rfl)
    | ((with_reducible apply steps_ask); intro s; exact hkey _ _ rfl)
    | ((with_reducible apply steps_emit); intro s; exact hkey _ _ rfl)
    | ((with_reducible apply steps_modify); intro s;
        first | exact hkey _ _ rfl | exact ⟨rfl, fun h => h⟩ | exact ⟨rfl, fun _ => rfl⟩)
    | with_reducible apply steps_map
    | with_reducible apply steps_fault
    | with_reducible apply steps_deref _ hr
    | with_reducible apply steps_of_keeps _ Stream.key _ (key_startEngines env _ _ _) hkey
    | with_reducible apply steps_of_keeps _ Stream.key _ (key_err_exit env _ _) hkey
    | dsimp only []
    | split
    | simp only []

theorem counters_StIdle (env : Env) (ev_cfg : StEventConfig) :
    Steps CountersKept (StIdle.ProcessEvent env ev_cfg) := by
  have hr : ∀ s : Stream, CountersKept s s := fun _ => ⟨rfl, fun h => h⟩
  have ht : ∀ a b c : Stream, CountersKept a b → CountersKept b c → CountersKept a c :=
    fun _ _ _ h1 h2 => ⟨h2.1.trans h1.1, fun h => h2.2 (h1.2 h)⟩
  have hkey : ∀ s s2 : Stream, s2.key = s.key → CountersKept s s2 := by
    intro s s2 h
    simp only [Stream.key, Prod.mk.injEq] at h
    exact ⟨h.2.2.2.2, fun h0 => h.2.2.2.1.trans h0⟩
  unfold StIdle.ProcessEvent TransitTo
  repeat' first
    | with_reducible apply steps_bind _ ht
    | intro _
    | with_reducible apply steps_pure _ hr
    | with_reducible apply steps_ite
    | with_reducible apply steps_get _ hr
    | ((with_reducible apply steps_call); intro s; exact hkey _ _ rfl)
    | ((with_reducible apply steps_ask); intro s; exact hkey _ _ rfl)
    | ((with_reducible apply steps_emit); intro s; exact hkey _ _ rfl)
    | ((with_reducible apply steps_modify); intro s;
        first | exact hkey _ _ rfl | exact ⟨rfl, fun h => h⟩ | exact ⟨rfl, fun _ => rfl⟩)
    | with_reducible apply steps_map
    | with_reducible apply steps_fault
    | with_reducible apply steps_deref _ hr
    | with_reducible apply steps_of_keeps _ Stream.key _ (key_LoadSoundModel env _ _) hkey
    | with_reducible apply steps_of_keeps _ Stream.key _ (key_GetAvailCaptureDevice env) hkey
    | with_reducible apply steps_of_keeps _ Stream.key _ (key_GetQalDevice env _) hkey
    | with_reducible apply steps_of_keeps _ Stream.key _ (key_GetCurrentCaptureProfile env) hkey
    | with_reducible apply steps_of_keeps _ Stream.key _ (key_updateDevice env _) hkey
    | dsimp only []
    | split
    | simp only []

theorem counters_StLoaded (env : Env) (ProcessInternalEvent : StEventConfig → M Int)
    (hP : ∀ ev, DetectionKind ev → Steps CountersKept (ProcessInternalEvent ev))
    (ev_cfg : StEventConfig) :
    Steps CountersKept (StLoaded.ProcessEvent env ProcessInternalEvent ev_cfg) := by
  have hr : ∀ s : Stream, CountersKept s s := fun _ => ⟨rfl, fun h => h⟩
  have ht : ∀ a b c : Stream, CountersKept a b → CountersKept b c → CountersKept a c :=
    fun _ _ _ h1 h2 => ⟨h2.1.trans h1.1, fun h => h2.2 (h1.2 h)⟩
  have hkey : ∀ s s2 : Stream, s2.key = s.key → CountersKept s s2 := by
    intro s s2 h
    simp only [Stream.key, Prod.mk.injEq] at h
    exact ⟨h.2.2.2.2, fun h0 => h.2.2.2.1.trans h0⟩
  unfold StLoaded.ProcessEvent TransitTo
  repeat' first
    | with_reducible apply steps_bind _ ht
    | intro _
    | with_reducible apply steps_pure _ hr
    | with_reducible apply steps_ite
    | with_reducible apply steps_get _ hr
    | ((with_reducible apply steps_call); intro s; exact hkey _ _ rfl)
    | ((with_reducible apply steps_ask); intro s; exact hkey _ _ rfl)
    | ((with_reducible apply steps_emit); intro s; exact hkey _ _ rfl)
    | ((with_reducible apply steps_modify); intro s;
        first | exact hkey _ _ rfl | exact ⟨rfl, fun h => h⟩ | exact ⟨rfl, fun _ => rfl⟩)
    | with_reducible apply steps_map
    | with_reducible apply steps_fault
    | with_reducible apply steps_deref _ hr
    | ((with_reducible apply hP); exact DetectionKind.of_ne _ (fun _ h => StEventConfig.noConfusion h))
    | with_reducible apply steps_of_keeps _ Stream.key _ (key_unloadEngines env _ _ _) hkey
    | with_reducible apply steps_of_keeps _ Stream.key _ (key_SendRecognitionConfig env _ _) hkey
    | with_reducible apply steps_of_keeps _ Stream.key _ (key_StLoaded_switchDevice env _) hkey
    | with_reducible apply steps_of_keeps _ Stream.key _ (key_GetAvailCaptureDevice env) hkey
    | with_reducible apply steps_of_keeps _ Stream.key _ (key_GetCurrentCaptureProfile env) hkey
    | with_reducible apply counters_StLoaded_start env
    | dsimp only []
    | split
    | simp only []

theorem counters_StActive (env : Env) (ProcessInternalEvent : StEventConfig → M Int)
    (hP : ∀ ev, DetectionKind ev → Steps CountersKept (ProcessInternalEvent ev))
    (ev_cfg : StEventConfig) :
    Steps CountersKept (StActive.ProcessEvent env ProcessInternalEvent ev_cfg) := by
  have hr : ∀ s : Stream, CountersKept s s := fun _ => ⟨rfl, fun h => h⟩
  have ht : ∀ a b c : Stream, CountersKept a b → CountersKept b c → CountersKept a c :=
    fun _ _ _ h1 h2 => ⟨h2.1.trans h1.1, fun h => h2.2 (h1.2 h)⟩
  have hkey : ∀ s s2 : Stream, s2.key = s.key → CountersKept s s2 := by
    intro s s2 h
    simp only [Stream.key, Prod.mk.injEq] at h
    exact ⟨h.2.2.2.2, fun h0 => h.2.2.2.1.trans h0⟩
  unfold StActive.ProcessEvent StActive.stop TransitTo GetCurrentStateId
  repeat' first
    | with_reducible apply steps_bind _ ht
    | intro _
    | with_reducible apply steps_pure _ hr
    | with_reducible apply steps_ite
    | with_reducible apply steps_get _ hr
    | ((with_reducible apply steps_call); intro s; exact hkey _ _ rfl)
    | ((with_reducible apply steps_ask); intro s; exact hkey _ _ rfl)
    | ((with_reducible apply steps_emit); intro s; exact hkey _ _ rfl)
    | ((with_reducible apply steps_modify); intro s;
        first | exact hkey _ _ rfl | exact ⟨rfl, fun h => h⟩ | exact ⟨rfl, fun _ => rfl⟩)
    | with_reducible apply steps_map
    | with_reducible apply steps_fault
    | with_reducible apply steps_deref _ hr
    | ((with_reducible apply hP); exact DetectionKind.of_ne _ (fun _ h => StEventConfig.noConfusion h))
    | with_reducible apply steps_of_keeps _ Stream.key _ (key_PostDelayedStop ) hkey
    | with_reducible apply steps_of_keeps _ Stream.key _ (key_SetDetectedToEngines _) hkey
    | with_reducible apply steps_of_keeps _ Stream.key _ (key_notifyClient env) hkey
    | with_reducible apply steps_of_keeps _ Stream.key _ (key_SendRecognitionConfig env _ _) hkey
    | with_reducible apply steps_of_keeps _ Stream.key _ (key_forEngines env _ _ _) hkey
    | with_reducible apply steps_of_keeps _ Stream.key _ (key_stopDevice env _) hkey
    | with_reducible apply steps_of_keeps _ Stream.key _ (key_StActive_switchDevice env _ _) hkey
    | with_reducible apply steps_of_keeps _ Stream.key _ (key_GetAvailCaptureDevice env) hkey
    | with_reducible apply steps_of_keeps _ Stream.key _ (key_GetCurrentCaptureProfile env) hkey
    | dsimp only []
    | split
    | simp only []

theorem counters_StDetected (env : Env) (ProcessInternalEvent : StEventConfig → M Int)
    (hP : ∀ ev, DetectionKind ev → Steps CountersKept (ProcessInternalEvent ev))
    (ev_cfg : StEventConfig) :
    Steps CountersKept (StDetected.ProcessEvent env ProcessInternalEvent ev_cfg) := by
  have hr : ∀ s : Stream, CountersKept s s := fun _ => ⟨rfl, fun h => h⟩
  have ht : ∀ a b c : Stream, CountersKept a b → CountersKept b c → CountersKept a c :=
    fun _ _ _ h1 h2 => ⟨h2.1.trans h1.1, fun h => h2.2 (h1.2 h)⟩
  have hkey : ∀ s s2 : Stream, s2.key = s.key → CountersKept s s2 := by
    intro s s2 h
    simp only [Stream.key, Prod.mk.injEq] at h
    exact ⟨h.2.2.2.2, fun h0 => h.2.2.2.1.trans h0⟩
  unfold StDetected.ProcessEvent StDetected.stop TransitTo
  repeat' first
    | with_reducible apply steps_bind _ ht
    | intro _
    | with_reducible apply steps_pure _ hr
    | with_reducible apply steps_ite
    | with_reducible apply steps_get _ hr
    | ((with_reducible apply steps_call); intro s; exact hkey _ _ rfl)
    | ((with_reducible apply steps_ask); intro s; exact hkey _ _ rfl)
    | ((with_reducible apply steps_emit); intro s; exact hkey _ _ rfl)
    | ((with_reducible apply steps_modify); intro s;
        first | exact hkey _ _ rfl | exact ⟨rfl, fun h => h⟩ | exact ⟨rfl, fun _ => rfl⟩)
    | with_reducible apply steps_map
    | with_reducible apply steps_fault
    | with_reducible apply steps_deref _ hr
    | ((with_reducible apply hP); exact DetectionKind.of_ne _ (fun _ h => StEventConfig.noConfusion h))
    | with_reducible apply steps_of_keeps _ Stream.key _ (key_CancelDelayedStop ) hkey
    | with_reducible apply steps_of_keeps _ Stream.key _ (key_forEngines env _ _ _) hkey
    | with_reducible apply steps_of_keeps _ Stream.key _ (key_stopDevice env _) hkey
    | dsimp only []
    | split
    | simp only []

theorem counters_StSSR (env : Env) (ProcessInternalEvent : StEventConfig → M Int)
    (hP : ∀ ev, DetectionKind ev → Steps CountersKept (ProcessInternalEvent ev))
    (ev_cfg : StEventConfig) :
    Steps CountersKept (StSSR.ProcessEvent env ProcessInternalEvent ev_cfg) := by
  have hr : ∀ s : Stream, CountersKept s s := fun _ => ⟨rfl, fun h => h⟩
  have ht : ∀ a b c : Stream, CountersKept a b → CountersKept b c → CountersKept a c :=
    fun _ _ _ h1 h2 => ⟨h2.1.trans h1.1, fun h => h2.2 (h1.2 h)⟩
  have hkey : ∀ s s2 : Stream, s2.key = s.key → CountersKept s s2 := by
    intro s s2 h
    simp only [Stream.key, Prod.mk.injEq] at h
    exact ⟨h.2.2.2.2, fun h0 => h.2.2.2.1.trans h0⟩
  unfold StSSR.ProcessEvent TransitTo
  repeat' first
    | with_reducible apply steps_bind _ ht
    | intro _
    | with_reducible apply steps_pure _ hr
    | with_reducible apply steps_ite
    | with_reducible apply steps_get _ hr
    | ((with_reducible apply steps_call); intro s; exact hkey _ _ rfl)
    | ((with_reducible apply steps_ask); intro s; exact hkey _ _ rfl)
    | ((with_reducible apply steps_emit); intro s; exact hkey _ _ rfl)
    | ((with_reducible apply steps_modify); intro s;
        first | exact hkey _ _ rfl | exact ⟨rfl, fun h => h⟩ | exact ⟨rfl, fun _ => rfl⟩)
    | with_reducible apply steps_map
    | with_reducible apply steps_fault
    | with_reducible apply steps_deref _ hr
    | ((with_reducible apply hP); exact DetectionKind.of_ne _ (fun _ h => StEventConfig.noConfusion h))
    | with_reducible apply steps_of_keeps _ Stream.key _ (key_SendRecognitionConfig env _ _) hkey
    | with_reducible apply steps_of_keeps _ Stream.key _ (key_UpdateSoundModel env _ _) hkey
    | with_reducible apply steps_of_keeps _ Stream.key _ (key_UpdateRecognitionConfig env _ _) hkey
    | dsimp only []
    | split
    | simp only []

/-- The block of the Buffering handler that records a positive second-stage
verdict: the verdict sets a bit of the mask that is tested right after, so the
detection state is reset in the same event. -/
theorem steps_verdict {α : Type} (det : Nat) (hd : det = CNN_DETECTED ∨ det = VOP_DETECTED)
    (A B : Stream → M α) (hA : ∀ x, Steps CountersKept (A x)) :
    Steps CountersKept (do
      modify fun st => { st with detection_state_ := st.detection_state_ ||| det }
      let x ← get
      if x.detection_state_ &&& (CNN_DETECTED ||| VOP_DETECTED) ≠ 0 then do
        modify fun st => { st with detection_state_ := ENGINE_IDLE }
        A x
      else
        B x) := by
  constructor
  intro s a s2 h
  simp only [run_bind, run_modify, run_get, Option.some_bind] at h
  rw [if_pos (second_stage_bit _ det hd)] at h
  simp only [run_bind, run_modify, Option.some_bind] at h
  have := (hA _).step _ _ _ h
  exact ⟨this.1, fun _ => this.2 rfl⟩

theorem counters_StBuffering (env : Env) (ProcessInternalEvent : StEventConfig → M Int)
    (hP : ∀ ev, DetectionKind ev → Steps CountersKept (ProcessInternalEvent ev))
    (ev_cfg : StEventConfig) (hk : DetectionKind ev_cfg) :
    Steps CountersKept (StBuffering.ProcessEvent env ProcessInternalEvent ev_cfg) := by
  have hr : ∀ s : Stream, CountersKept s s := fun _ => ⟨rfl, fun h => h⟩
  have ht : ∀ a b c : Stream, CountersKept a b → CountersKept b c → CountersKept a c :=
    fun _ _ _ h1 h2 => ⟨h2.1.trans h1.1, fun h => h2.2 (h1.2 h)⟩
  have hkey : ∀ s s2 : Stream, s2.key = s.key → CountersKept s s2 := by
    intro s s2 h
    simp only [Stream.key, Prod.mk.injEq] at h
    exact ⟨h.2.2.2.2, fun h0 => h.2.2.2.1.trans h0⟩
  unfold StBuffering.ProcessEvent StBuffering.stop StBuffering.stopForDevice TransitTo GetCurrentStateId
  split
  case h_7 det =>
    dsimp only []
    repeat' first
      | with_reducible apply steps_verdict
      | with_reducible apply steps_bind _ ht
      | intro _
      | with_reducible apply steps_pure _ hr
      | with_reducible apply steps_ite
      | with_reducible apply steps_get _ hr
      | ((with_reducible apply steps_call); intro s; exact hkey _ _ rfl)
      | ((with_reducible apply steps_ask); intro s; exact hkey _ _ rfl)
      | ((with_reducible apply steps_emit); intro s; exact hkey _ _ rfl)
      | ((with_reducible apply steps_modify); intro s;
          first | exact hkey _ _ rfl | exact ⟨rfl, fun h => h⟩ | exact ⟨rfl, fun _ => rfl⟩)
      | with_reducible apply steps_map
      | with_reducible apply steps_fault
      | with_reducible apply steps_deref _ hr
      | ((with_reducible apply hP); exact DetectionKind.of_ne _ (fun _ h => StEventConfig.noConfusion h))
      | with_reducible apply steps_of_keeps _ Stream.key _ (key_CancelDelayedStop ) hkey
      | with_reducible apply steps_of_keeps _ Stream.key _ (key_PostDelayedStop ) hkey
      | with_reducible apply steps_of_keeps _ Stream.key _ (key_forEngines env _ _ _) hkey
      | with_reducible apply steps_of_keeps _ Stream.key _ (key_forEnginesBreak env _ _ _) hkey
      | with_reducible apply steps_of_keeps _ Stream.key _ (key_stopDevice env _) hkey
      | with_reducible apply steps_of_keeps _ Stream.key _ (key_stopBuffering env _) hkey
      | with_reducible apply steps_of_keeps _ Stream.key _ (key_stopDevices env _ _) hkey
      | with_reducible apply steps_of_keeps _ Stream.key _ (key_notifyClient env) hkey
      | dsimp only []
      | split
      | simp only []
    rename_i h1 _ h2 _
    rcases hk det rfl with h | h | h | h | h
    · exact absurd h h1
    · exact Or.inl h
    · exact absurd (Or.inl h) h2
    · exact Or.inr h
    · exact absurd (Or.inr h) h2
  all_goals
    repeat' first
      | with_reducible apply steps_bind _ ht
      | intro _
      | with_reducible apply steps_pure _ hr
      | with_reducible apply steps_ite
      | with_reducible apply steps_get _ hr
      | ((with_reducible apply steps_call); intro s; exact hkey _ _ rfl)
      | ((with_reducible apply steps_ask); intro s; exact hkey _ _ rfl)
      | ((with_reducible apply steps_emit); intro s; exact hkey _ _ rfl)
      | ((with_reducible apply steps_modify); intro s;
          first | exact hkey _ _ rfl | exact ⟨rfl, fun h => h⟩ | exact ⟨rfl, fun _ => rfl⟩)
      | with_reducible apply steps_map
      | with_reducible apply steps_fault
      | with_reducible apply steps_deref _ hr
      | ((with_reducible apply hP); exact DetectionKind.of_ne _ (fun _ h => StEventConfig.noConfusion h))
      | with_reducible apply steps_of_keeps _ Stream.key _ (key_CancelDelayedStop ) hkey
      | with_reducible apply steps_of_keeps _ Stream.key _ (key_PostDelayedStop ) hkey
      | with_reducible apply steps_of_keeps _ Stream.key _ (key_forEngines env _ _ _) hkey
      | with_reducible apply steps_of_keeps _ Stream.key _ (key_forEnginesBreak env _ _ _) hkey
      | with_reducible apply steps_of_keeps _ Stream.key _ (key_stopDevice env _) hkey
      | with_reducible apply steps_of_keeps _ Stream.key _ (key_stopBuffering env _) hkey
      | with_reducible apply steps_of_keeps _ Stream.key _ (key_stopDevices env _ _) hkey
      | with_reducible apply steps_of_keeps _ Stream.key _ (key_notifyClient env) hkey
      | dsimp only []
      | split
      | simp only []

/-- Every event whose detection kind, if it has one, is a kind of the engines
leaves the counter of concurrent streams alone, and the detection state idle if
it was. -/
theorem counters_ProcessEvent (env : Env) (fuel : Nat) :
    ∀ ev_cfg : StEventConfig, DetectionKind ev_cfg →
      Steps CountersKept (ProcessEvent env fuel ev_cfg) := by
  have hr : ∀ s : Stream, CountersKept s s := fun _ => ⟨rfl, fun h => h⟩
  have ht : ∀ a b c : Stream, CountersKept a b → CountersKept b c → CountersKept a c :=
    fun _ _ _ h1 h2 => ⟨h2.1.trans h1.1, fun h => h2.2 (h1.2 h)⟩
  induction fuel with
  | zero =>
    intro ev_cfg _
    unfold ProcessEvent
    apply steps_fault
  | succ n ih =>
    intro ev_cfg hk
    unfold ProcessEvent
    apply steps_bind _ ht
    · apply steps_get _ hr
    · intro s
      split
      · exact counters_StIdle env ev_cfg
      · exact counters_StLoaded env _ ih ev_cfg
      · exact counters_StActive env _ ih ev_cfg
      · exact counters_StDetected env _ ih ev_cfg
      · exact counters_StBuffering env _ ih ev_cfg hk
      · exact counters_StSSR env _ ih ev_cfg
      · apply steps_fault

/-- A relation that holds across every event of a sequence, and is reflexive and
transitive, holds across the sequence. -/
theorem steps_ProcessEvents (R : Stream → Stream → Prop) (hr : ∀ s, R s s)
    (ht : ∀ a b c, R a b → R b c → R a c) (P : StEventConfig → Prop) (env : Env) (fuel : Nat)
    (hstep : ∀ ev_cfg, P ev_cfg → Steps R (ProcessEvent env fuel ev_cfg))
    (evs : List StEventConfig) (hP : ∀ ev_cfg ∈ evs, P ev_cfg) :
    Steps R (ProcessEvents env fuel evs) := by
  induction evs with
  | nil =>
    unfold ProcessEvents
    exact steps_pure R hr _
  | cons ev evs ih =>
    unfold ProcessEvents
    apply steps_bind R ht
    · exact hstep ev (hP ev (List.mem_cons_self _ _))
    · intro status
      apply steps_bind R ht
      · exact ih (fun e he => hP e (List.mem_cons_of_mem _ he))
      · intro statuses
        exact steps_pure R hr _

/-- The computation of `conc_en` only asks the resource manager. -/
theorem key_conc_en (env : Env) (type : qal_stream_type_t) :
    Keeps Stream.key (ConcurrentStreamStatus.conc_en env type) := by
  unfold ConcurrentStreamStatus.conc_en
  repeat' first
    | with_reducible apply keeps_bind
    | intro _
    | with_reducible apply keeps_pure
    | with_reducible apply keeps_ite
    | ((with_reducible apply keeps_ask); intro s t; rfl)
    | dsimp only []
    | split
    | simp only []

/-- A notification changes the counter of concurrent capture streams by one at
most: an inactive one never raises it, an active one never lowers it, and one
for a playback stream leaves it alone.  For a capture stream the change is
decided by `conc_en`: none when voice UI can go on, otherwise plus one for an
active and minus one for an inactive notification. -/
theorem ConcurrentStreamStatus_counter (env : Env) (fuel : Nat) (type : qal_stream_type_t)
    (dir : qal_stream_direction_t) (active : Bool) (st st2 : Stream)
    (h : ConcurrentStreamStatus env fuel type dir active st = some ((), st2)) :
    (dir = qal_stream_direction_t.QAL_AUDIO_OUTPUT → st2.conc_tx_cnt_ = st.conc_tx_cnt_) ∧
    (dir ≠ qal_stream_direction_t.QAL_AUDIO_OUTPUT → ∀ b s1,
      ConcurrentStreamStatus.conc_en env type st = some (b, s1) →
      st2.conc_tx_cnt_ = st.conc_tx_cnt_ + (if b then 0 else if active then 1 else -1)) := by
  have hpe : ∀ (ev : StEventConfig) (s : Stream) (r : Int) (s2 : Stream),
      (∀ d, ev ≠ .ST_EV_DETECTED d) → ProcessEvent env fuel ev s = some (r, s2) →
      s2.conc_tx_cnt_ = s.conc_tx_cnt_ := fun ev s r s2 hne hrun =>
    ((counters_ProcessEvent env fuel ev (DetectionKind.of_ne _ hne)).step s r s2 hrun).1
  constructor
  · intro hd
    subst hd
    by_cases hty : type = qal_stream_type_t.QAL_STREAM_LOW_LATENCY
    · simp [ConcurrentStreamStatus, hty] at h
      rw [← h]
    · by_cases ha : env.avail st.trace.length = true
      · simp [ConcurrentStreamStatus, hty, ha] at h
        obtain ⟨r, hrun⟩ := h
        have := hpe _ _ _ _ (fun _ hx => StEventConfig.noConfusion hx) hrun
        simpa using this
      · simp [ConcurrentStreamStatus, hty, ha] at h
        rw [← h]
  · intro hd b s1 hb
    have hin : dir = qal_stream_direction_t.QAL_AUDIO_INPUT ∨
        dir = qal_stream_direction_t.QAL_AUDIO_INPUT_OUTPUT := by
      cases dir
      · exact absurd rfl hd
      · exact Or.inl rfl
      · exact Or.inr rfl
    have hk := (key_conc_en env type).keep _ _ _ hb
    simp only [Stream.key, Prod.mk.injEq] at hk
    have hc1 : s1.conc_tx_cnt_ = st.conc_tx_cnt_ := hk.2.2.2.2
    have hno : ¬ (dir = qal_stream_direction_t.QAL_AUDIO_OUTPUT ∧
        type ≠ qal_stream_type_t.QAL_STREAM_LOW_LATENCY) := fun hx => hd hx.1
    simp only [ConcurrentStreamStatus, hno, if_false, hin, if_true, run_bind, hb,
      Option.some_bind] at h
    cases b with
    | true =>
      simp at h
      rw [← h, hc1]
      simp
    | false =>
      cases active with
      | true =>
        by_cases h1 : s1.conc_tx_cnt_ + 1 = 1
        · simp [h1] at h
          obtain ⟨r, hrun⟩ := h
          rw [hpe _ _ _ _ (fun _ hx => StEventConfig.noConfusion hx) hrun]
          rw [hc1] at h1
          simp only [Bool.false_eq_true, if_false, if_true]
          omega
        · simp [h1] at h
          rw [← h]
          simp [hc1, Int.sub_eq_add_neg]
      | false =>
        by_cases h0 : s1.conc_tx_cnt_ - 1 = 0
        · simp [h0] at h
          obtain ⟨r, hrun⟩ := h
          rw [hpe _ _ _ _ (fun _ hx => StEventConfig.noConfusion hx) hrun]
          rw [hc1] at h0
          simp only [Bool.false_eq_true, if_false]
          omega
        · simp [h0] at h
          rw [← h]
          simp [hc1, Int.sub_eq_add_neg]

/-- The computation of `conc_en` returns. -/
theorem conc_en_returns (env : Env) (type : qal_stream_type_t) (st : Stream) :
    ∃ b s1, ConcurrentStreamStatus.conc_en env type st = some (b, s1) := by
  by_cases h1 : env.avail st.trace.length = true <;>
    by_cases h2 : env.avail (st.trace.length + 1) = true <;>
    by_cases h3 : env.avail (st.trace.length + 1 + 1) = true <;>
    cases type <;>
    simp [ConcurrentStreamStatus.conc_en, h1, h2, h3]

/-- A notification moves the counter by one at most, up only when it is active
and down only when it is inactive. -/
theorem ConcurrentStreamStatus_bounds (env : Env) (fuel : Nat) (type : qal_stream_type_t)
    (dir : qal_stream_direction_t) (active : Bool) (st st2 : Stream)
    (h : ConcurrentStreamStatus env fuel type dir active st = some ((), st2)) :
    (active = true → st.conc_tx_cnt_ ≤ st2.conc_tx_cnt_ ∧
      st2.conc_tx_cnt_ ≤ st.conc_tx_cnt_ + 1) ∧
    (active = false → st.conc_tx_cnt_ - 1 ≤ st2.conc_tx_cnt_ ∧
      st2.conc_tx_cnt_ ≤ st.conc_tx_cnt_) := by
  have hc := ConcurrentStreamStatus_counter env fuel type dir active st st2 h
  by_cases hd : dir = qal_stream_direction_t.QAL_AUDIO_OUTPUT
  · have := hc.1 hd
    constructor <;> intro _ <;> constructor <;> omega
  · obtain ⟨b, s1, hb⟩ := conc_en_returns env type st
    have := hc.2 hd b s1 hb
    cases b <;> cases active <;> simp at this <;> constructor <;> intro hx <;>
      first
        | exact absurd hx (by decide)
        | (constructor <;> omega)

/-- C32 (as amended).  After a sequence of `ConcurrentStreamStatus` notifications
on a stream as constructed, `conc_tx_cnt_` lies between minus the number of
inactive notifications and the number of active ones; it is not negative when
no notification of the sequence is inactive.  Each notification for a playback
stream leaves the counter alone, and each one for a capture stream adds one
when it is active and subtracts one when it is inactive, unless voice UI can go
on beside that stream (`conc_en`), in which case the counter is left alone:
nothing keeps an inactive notification from taking the counter below 0. -/
theorem C32_conc_tx_cnt_bounds (env : Env) (fuel : Nat)
    (ns : List (qal_stream_type_t × qal_stream_direction_t × Bool)) (charging : Bool)
    (st : Stream)
    (h : ConcurrentStreamStatuses env fuel ns (Stream.init charging) = some ((), st)) :
    - (ns.countP (fun n => !n.2.2) : Int) ≤ st.conc_tx_cnt_ ∧
    st.conc_tx_cnt_ ≤ (ns.countP (fun n => n.2.2) : Int) ∧
    ((∀ n ∈ ns, n.2.2 = true) → 0 ≤ st.conc_tx_cnt_) ∧
    (∀ (type : qal_stream_type_t) (dir : qal_stream_direction_t) (active : Bool)
        (s s2 : Stream),
      ConcurrentStreamStatus env fuel type dir active s = some ((), s2) →
      (dir = qal_stream_direction_t.QAL_AUDIO_OUTPUT → s2.conc_tx_cnt_ = s.conc_tx_cnt_) ∧
      (dir ≠ qal_stream_direction_t.QAL_AUDIO_OUTPUT → ∀ b s1,
        ConcurrentStreamStatus.conc_en env type s = some (b, s1) →
        s2.conc_tx_cnt_ = s.conc_tx_cnt_ + (if b then 0 else if active then 1 else -1))) := by
  have key : ∀ (ns : List (qal_stream_type_t × qal_stream_direction_t × Bool)) (s0 s : Stream),
      ConcurrentStreamStatuses env fuel ns s0 = some ((), s) →
      s0.conc_tx_cnt_ - (ns.countP (fun n => !n.2.2) : Int) ≤ s.conc_tx_cnt_ ∧
      s.conc_tx_cnt_ ≤ s0.conc_tx_cnt_ + (ns.countP (fun n => n.2.2) : Int) := by
    intro ns
    induction ns with
    | nil =>
      intro s0 s h0
      simp [ConcurrentStreamStatuses] at h0
      rw [← h0]
      simp
    | cons n ns ih =>
      intro s0 s h0
      obtain ⟨type, dir, active⟩ := n
      simp only [ConcurrentStreamStatuses, run_bind] at h0
      obtain ⟨⟨u, s1⟩, h1, h2⟩ := Option.bind_eq_some.1 h0
      have hb := ConcurrentStreamStatus_bounds env fuel type dir active s0 s1 h1
      have hi := ih s1 s h2
      cases active with
      | true =>
        have := hb.1 rfl
        simp only [List.countP_cons, Bool.not_true, Bool.false_eq_true, if_false, if_true,
          Nat.add_zero, Nat.cast_add, Nat.cast_one]
        constructor <;> omega
      | false =>
        have := hb.2 rfl
        simp only [List.countP_cons, Bool.not_false, Bool.false_eq_true, if_false, if_true,
          Nat.add_zero, Nat.cast_add, Nat.cast_one]
        constructor <;> omega
  have hk := key ns (Stream.init charging) st h
  have h0 : (Stream.init charging).conc_tx_cnt_ = 0 := rfl
  rw [h0] at hk
  refine ⟨by omega, by omega, ?_, ?_⟩
  · intro hall
    have hz : ns.countP (fun n => !n.2.2) = 0 := by
      rw [List.countP_eq_zero]
      intro n hn
      simp [hall n hn]
    rw [hz] at hk
    omega
  · intro type dir active s s2 hrun
    exact ConcurrentStreamStatus_counter env fuel type dir active s s2 hrun

/-- Witness for C32: a capture stream with which voice UI cannot go on (the
platform answers no to the first query) becomes active, then inactive under a
platform that supports the concurrency: the counter is 1. -/
theorem C32_conc_tx_cnt_bounds_witness :
    ∃ st : Stream,
      ConcurrentStreamStatuses (Env.nullAt 0) 1
        [(qal_stream_type_t.QAL_STREAM_RAW, qal_stream_direction_t.QAL_AUDIO_INPUT, true),
         (qal_stream_type_t.QAL_STREAM_RAW, qal_stream_direction_t.QAL_AUDIO_INPUT, false)]
        (Stream.init false) = some ((), st) ∧
      st.conc_tx_cnt_ = 1 ∧ - (1 : Int) ≤ st.conc_tx_cnt_ ∧ st.conc_tx_cnt_ ≤ 1 := by
  have h0 : (ConcurrentStreamStatuses (Env.nullAt 0) 1
      [(qal_stream_type_t.QAL_STREAM_RAW, qal_stream_direction_t.QAL_AUDIO_INPUT, true),
       (qal_stream_type_t.QAL_STREAM_RAW, qal_stream_direction_t.QAL_AUDIO_INPUT, false)]
      (Stream.init false)).map (fun r => r.2.conc_tx_cnt_) = some 1 := by
    decide!
  obtain ⟨⟨u, st⟩, h1, h2⟩ := Option.map_eq_some'.1 h0
  have hb := C32_conc_tx_cnt_bounds (Env.nullAt 0) 1 _ false st h1
  exact ⟨st, h1, h2, hb.1, hb.2.1⟩

/-- C32 as stated fails: on a stream as constructed, one inactive notification
for a capture stream, where the platform does not support capture beside voice
UI (the first query answers no), leaves `conc_tx_cnt_` at -1. -/
theorem C32_counterexample :
    (ConcurrentStreamStatuses (Env.nullAt 0) 1
      [(qal_stream_type_t.QAL_STREAM_RAW, qal_stream_direction_t.QAL_AUDIO_INPUT, false)]
      (Stream.init false)).map (fun r => (r.2.conc_tx_cnt_, r.2.trace)) =
      some (-1, [Call.IsAudioCaptureAndVoiceUIConcurrencySupported]) := by
  decide!

/-- C37.  After every event of a sequence dispatched on a stream as constructed,
`detection_state_` is `ENGINE_IDLE`, when the detection events of the sequence
carry the kinds `GMM_DETECTED`, `CNN_DETECTED`, `CNN_REJECTED`, `VOP_DETECTED`
and `VOP_REJECTED` only: the state at the end of every such sequence is idle,
so the verdict of one event is never seen by the next. -/
theorem C37_detection_state_idle_after_handler (env : Env) (fuel : Nat)
    (evs : List StEventConfig) (charging : Bool) (statuses : List Int) (st : Stream)
    (hk : ∀ ev_cfg ∈ evs, DetectionKind ev_cfg)
    (h : ProcessEvents env fuel evs (Stream.init charging) = some (statuses, st)) :
    st.detection_state_ = ENGINE_IDLE := by
  have hr : ∀ s : Stream, CountersKept s s := fun _ => ⟨rfl, fun h => h⟩
  have ht : ∀ a b c : Stream, CountersKept a b → CountersKept b c → CountersKept a c :=
    fun _ _ _ h1 h2 => ⟨h2.1.trans h1.1, fun h => h2.2 (h1.2 h)⟩
  have hs := steps_ProcessEvents CountersKept hr ht DetectionKind env fuel
    (counters_ProcessEvent env fuel) evs hk
  exact (hs.step _ _ _ h).2 rfl

/-- Witness for C37: a model with a first-stage engine and two second-stage
engines (keyword and user verification) is loaded, configured and started; after
the first-stage detection, the positive verdict of the keyword verifier alone
takes the stream to Detected, and the detection state is idle again. -/
theorem C37_detection_state_idle_after_handler_witness :
    ∃ (statuses : List Int) (st : Stream),
      ProcessEvents Env.nominal 1
        [.ST_EV_LOAD_SOUND_MODEL
          (some (qal_st_sound_model.v3 [⟨ST_SM_ID_SVA_GMM, 8, 0⟩, ⟨ST_SM_ID_SVA_KWD, 8, 8⟩,
            ⟨ST_SM_ID_SVA_VOP, 8, 16⟩])) false,
         .ST_EV_RECOGNITION_CONFIG (some (qal_st_recognition_config.bare false [⟨0, 1, 40, []⟩])),
         .ST_EV_START_RECOGNITION false, .ST_EV_DETECTED GMM_DETECTED,
         .ST_EV_DETECTED CNN_DETECTED]
        (Stream.init false) = some (statuses, st) ∧
      (st.cur_state_ = ST_STATE_DETECTED ∧ st.engines_.length = 3) ∧
      st.detection_state_ = ENGINE_IDLE := by
  have h0 : (ProcessEvents Env.nominal 1
      [.ST_EV_LOAD_SOUND_MODEL
        (some (qal_st_sound_model.v3 [⟨ST_SM_ID_SVA_GMM, 8, 0⟩, ⟨ST_SM_ID_SVA_KWD, 8, 8⟩,
          ⟨ST_SM_ID_SVA_VOP, 8, 16⟩])) false,
       .ST_EV_RECOGNITION_CONFIG (some (qal_st_recognition_config.bare false [⟨0, 1, 40, []⟩])),
       .ST_EV_START_RECOGNITION false, .ST_EV_DETECTED GMM_DETECTED,
       .ST_EV_DETECTED CNN_DETECTED]
      (Stream.init false)).map (fun r => (r.2.cur_state_, r.2.engines_.length)) =
      some (ST_STATE_DETECTED, 3) := by
    decide!
  obtain ⟨⟨statuses, st⟩, h1, h2⟩ := Option.map_eq_some'.1 h0
  refine ⟨statuses, st, h1, ?_, ?_⟩
  · simpa using h2
  · refine C37_detection_state_idle_after_handler Env.nominal 1 _ false statuses st ?_ h1
    intro ev_cfg hev det_type_ hd
    subst hd
    simp at hev
    rcases hev with hev | hev
    · exact Or.inl hev
    · exact Or.inr (Or.inl hev)

/-! ## The pause flag -/

/-- The start of a Loaded stream leaves the pause flag alone. -/
theorem unpaused_StLoaded_start (env : Env) :
    Steps StaysUnpaused (StLoaded.start env) := by
  have hr : ∀ s : Stream, StaysUnpaused s s := fun _ h => h
  have ht : ∀ a b c : Stream, StaysUnpaused a b → StaysUnpaused b c → StaysUnpaused a c :=
    fun _ _ _ h1 h2 h => h2 (h1 h)
  have hkey : ∀ s s2 : Stream, s2.key = s.key → StaysUnpaused s s2 := by
    intro s s2 h
    simp only [Stream.key, Prod.mk.injEq] at h
    exact fun h0 => h.2.1.trans h0
  unfold StLoaded.start TransitTo
  repeat' first
    | with_reducible apply steps_bind _ ht
    | intro _
    | with_reducible apply steps_pure _ hr
    | with_reducible apply steps_ite
    | with_reducible apply steps_get _ hr
    | ((with_reducible apply steps_call); intro s; exact hkey _ _ rfl)
    | ((with_reducible apply steps_ask); intro s; exact hkey _ _ rfl)
    | ((with_reducible apply steps_emit); intro s; exact hkey _ _ rfl)
    | ((with_reducible apply steps_modify); intro s;
        first | exact hkey _ _ rfl | exact fun h => h | exact fun _ => rfl)
    | with_reducible apply steps_map
    | with_reducible apply steps_fault
    | with_reducible apply steps_deref _ hr
    | with_reducible apply steps_of_keeps _ Stream.key _ (key_startEngines env _ _ _) hkey
    | with_reducible apply steps_of_keeps _ Stream.key _ (key_err_exit env _ _) hkey
    | dsimp only []
    | split
    | simp only []

/-- The start of a Loaded stream returns at once when the stream is paused, and
leaves the pause flag alone. -/
theorem rests_StLoaded_start (env : Env) :
    Steps RestsWhilePaused (StLoaded.start env) := by
  constructor
  intro s a s2 h
  have hW := (unpaused_StLoaded_start env).step s a s2 h
  by_cases hp : s.paused_ = true
  · simp [StLoaded.start, hp] at h
    rw [← h.2]
    exact ⟨fun h => h, fun h => Or.inl h⟩
  · have hp2 : s.paused_ = false := by simpa using hp
    exact ⟨hW, fun _ => Or.inr (hW hp2)⟩

theorem unpaused_StActive (env : Env) (ProcessInternalEvent : StEventConfig → M Int)
    (hP : ∀ ev, ev ≠ .ST_EV_PAUSE → Steps StaysUnpaused (ProcessInternalEvent ev))
    (ev_cfg : StEventConfig)
    (hne : ev_cfg ≠ .ST_EV_PAUSE) :
    Steps StaysUnpaused (StActive.ProcessEvent env ProcessInternalEvent ev_cfg) := by
  have hr : ∀ s : Stream, StaysUnpaused s s := fun _ h => h
  have ht : ∀ a b c : Stream, StaysUnpaused a b → StaysUnpaused b c → StaysUnpaused a c :=
    fun _ _ _ h1 h2 h => h2 (h1 h)
  have hkey : ∀ s s2 : Stream, s2.key = s.key → StaysUnpaused s s2 := by
    intro s s2 h
    simp only [Stream.key, Prod.mk.injEq] at h
    exact fun h0 => h.2.1.trans h0
  unfold StActive.ProcessEvent StActive.stop TransitTo GetCurrentStateId
  split
  all_goals first
    | exact absurd rfl hne
    | skip
  all_goals
    repeat' first
      | with_reducible apply steps_bind _ ht
      | intro _
      | with_reducible apply steps_pure _ hr
      | with_reducible apply steps_ite
      | with_reducible apply steps_get _ hr
      | ((with_reducible apply steps_call); intro s; exact hkey _ _ rfl)
      | ((with_reducible apply steps_ask); intro s; exact hkey _ _ rfl)
      | ((with_reducible apply steps_emit); intro s; exact hkey _ _ rfl)
      | ((with_reducible apply steps_modify); intro s;
          first | exact hkey _ _ rfl | exact fun h => h | exact fun _ => rfl)
      | with_reducible apply steps_map
      | with_reducible apply steps_fault
      | with_reducible apply steps_deref _ hr
      | ((with_reducible apply hP); exact fun h => StEventConfig.noConfusion h)
      | with_reducible apply steps_of_keeps _ Stream.key _ (key_PostDelayedStop ) hkey
      | with_reducible apply steps_of_keeps _ Stream.key _ (key_SetDetectedToEngines _) hkey
      | with_reducible apply steps_of_keeps _ Stream.key _ (key_notifyClient env) hkey
      | with_reducible apply steps_of_keeps _ Stream.key _ (key_SendRecognitionConfig env _ _) hkey
      | with_reducible apply steps_of_keeps _ Stream.key _ (key_forEngines env _ _ _) hkey
      | with_reducible apply steps_of_keeps _ Stream.key _ (key_stopDevice env _) hkey
      | with_reducible apply steps_of_keeps _ Stream.key _ (key_StActive_switchDevice env _ _) hkey
      | with_reducible apply steps_of_keeps _ Stream.key _ (key_GetAvailCaptureDevice env) hkey
      | with_reducible apply steps_of_keeps _ Stream.key _ (key_GetCurrentCaptureProfile env) hkey
      | dsimp only []
      | split
      | simp only []

theorem unpaused_StDetected (env : Env) (ProcessInternalEvent : StEventConfig → M Int)
    (hP : ∀ ev, ev ≠ .ST_EV_PAUSE → Steps StaysUnpaused (ProcessInternalEvent ev))
    (ev_cfg : StEventConfig)
    (hne : ev_cfg ≠ .ST_EV_PAUSE) :
    Steps StaysUnpaused (StDetected.ProcessEvent env ProcessInternalEvent ev_cfg) := by
  have hr : ∀ s : Stream, StaysUnpaused s s := fun _ h => h
  have ht : ∀ a b c : Stream, StaysUnpaused a b → StaysUnpaused b c → StaysUnpaused a c :=
    fun _ _ _ h1 h2 h => h2 (h1 h)
  have hkey : ∀ s s2 : Stream, s2.key = s.key → StaysUnpaused s s2 := by
    intro s s2 h
    simp only [Stream.key, Prod.mk.injEq] at h
    exact fun h0 => h.2.1.trans h0
  unfold StDetected.ProcessEvent StDetected.stop TransitTo
  split
  all_goals first
    | exact absurd rfl hne
    | skip
  all_goals
    repeat' first
      | with_reducible apply steps_bind _ ht
      | intro _
      | with_reducible apply steps_pure _ hr
      | with_reducible apply steps_ite
      | with_reducible apply steps_get _ hr
      | ((with_reducible apply steps_call); intro s; exact hkey _ _ rfl)
      | ((with_reducible apply steps_ask); intro s; exact hkey _ _ rfl)
      | ((with_reducible apply steps_emit); intro s; exact hkey _ _ rfl)
      | ((with_reducible apply steps_modify); intro s;
          first | exact hkey _ _ rfl | exact fun h => h | exact fun _ => rfl)
      | with_reducible apply steps_map
      | with_reducible apply steps_fault
      | with_reducible apply steps_deref _ hr
      | ((with_reducible apply hP); exact fun h => StEventConfig.noConfusion h)
      | with_reducible apply steps_of_keeps _ Stream.key _ (key_CancelDelayedStop ) hkey
      | with_reducible apply steps_of_keeps _ Stream.key _ (key_forEngines env _ _ _) hkey
      | with_reducible apply steps_of_keeps _ Stream.key _ (key_stopDevice env _) hkey
      | dsimp only []
      | split
      | simp only []

theorem unpaused_StBuffering (env : Env) (ProcessInternalEvent : StEventConfig → M Int)
    (hP : ∀ ev, ev ≠ .ST_EV_PAUSE → Steps StaysUnpaused (ProcessInternalEvent ev))
    (ev_cfg : StEventConfig)
    (hne : ev_cfg ≠ .ST_EV_PAUSE) :
    Steps StaysUnpaused (StBuffering.ProcessEvent env ProcessInternalEvent ev_cfg) := by
  have hr : ∀ s : Stream, StaysUnpaused s s := fun _ h => h
  have ht : ∀ a b c : Stream, StaysUnpaused a b → StaysUnpaused b c → StaysUnpaused a c :=
    fun _ _ _ h1 h2 h => h2 (h1 h)
  have hkey : ∀ s s2 : Stream, s2.key = s.key → StaysUnpaused s s2 := by
    intro s s2 h
    simp only [Stream.key, Prod.mk.injEq] at h
    exact fun h0 => h.2.1.trans h0
  unfold StBuffering.ProcessEvent StBuffering.stop StBuffering.stopForDevice TransitTo GetCurrentStateId
  split
  all_goals first
    | exact absurd rfl hne
    | skip
  all_goals
    repeat' first
      | with_reducible apply steps_bind _ ht
      | intro _
      | with_reducible apply steps_pure _ hr
      | with_reducible apply steps_ite
      | with_reducible apply steps_get _ hr
      | ((with_reducible apply steps_call); intro s; exact hkey _ _ rfl)
      | ((with_reducible apply steps_ask); intro s; exact hkey _ _ rfl)
      | ((with_reducible apply steps_emit); intro s; exact hkey _ _ rfl)
      | ((with_reducible apply steps_modify); intro s;
          first | exact hkey _ _ rfl | exact fun h => h | exact fun _ => rfl)
      | with_reducible apply steps_map
      | with_reducible apply steps_fault
      | with_reducible apply steps_deref _ hr
      | ((with_reducible apply hP); exact fun h => StEventConfig.noConfusion h)
      | with_reducible apply steps_of_keeps _ Stream.key _ (key_CancelDelayedStop ) hkey
      | with_reducible apply steps_of_keeps _ Stream.key _ (key_PostDelayedStop ) hkey
      | with_reducible apply steps_of_keeps _ Stream.key _ (key_forEngines env _ _ _) hkey
      | with_reducible apply steps_of_keeps _ Stream.key _ (key_forEnginesBreak env _ _ _) hkey
      | with_reducible apply steps_of_keeps _ Stream.key _ (key_stopDevice env _) hkey
      | with_reducible apply steps_of_keeps _ Stream.key _ (key_stopBuffering env _) hkey
      | with_reducible apply steps_of_keeps _ Stream.key _ (key_stopDevices env _ _) hkey
      | with_reducible apply steps_of_keeps _ Stream.key _ (key_notifyClient env) hkey
      | dsimp only []
      | split
      | simp only []

theorem rests_StIdle (env : Env) (ev_cfg : StEventConfig)
    (hne : ev_cfg ≠ .ST_EV_PAUSE) :
    Steps RestsWhilePaused (StIdle.ProcessEvent env ev_cfg) := by
  have hr : ∀ s : Stream, RestsWhilePaused s s := fun _ => ⟨fun h => h, fun h => Or.inl h⟩
  have ht : ∀ a b c : Stream, RestsWhilePaused a b → RestsWhilePaused b c →
      RestsWhilePaused a c :=
    fun _ _ _ h1 h2 => ⟨fun h => h2.1 (h1.1 h), fun h =>
      (h1.2 h).elim (fun hq => h2.2 hq) (fun hp => Or.inr (h2.1 hp))⟩
  have hkey : ∀ s s2 : Stream, s2.key = s.key → RestsWhilePaused s s2 := by
    intro s s2 h
    simp only [Stream.key, Prod.mk.injEq] at h
    exact ⟨fun h0 => h.2.1.trans h0, fun hq => Or.inl (by unfold Quiet at hq ⊢; rw [h.1]; exact hq)⟩
  unfold StIdle.ProcessEvent TransitTo
  split
  all_goals first
    | exact absurd rfl hne
    | skip
  all_goals
    repeat' first
      | with_reducible apply steps_bind _ ht
      | intro _
      | with_reducible apply steps_pure _ hr
      | with_reducible apply steps_ite
      | with_reducible apply steps_get _ hr
      | ((with_reducible apply steps_call); intro s; exact hkey _ _ rfl)
      | ((with_reducible apply steps_ask); intro s; exact hkey _ _ rfl)
      | ((with_reducible apply steps_emit); intro s; exact hkey _ _ rfl)
      | ((with_reducible apply steps_modify); intro s;
          first | exact hkey _ _ rfl | exact ⟨fun h => h, fun h => Or.inl h⟩ | exact ⟨fun _ => rfl, fun _ => Or.inr rfl⟩ | exact ⟨fun h => h, fun _ => Or.inl (Or.inl rfl)⟩ | exact ⟨fun h => h, fun _ => Or.inl (Or.inr (Or.inl rfl))⟩ | exact ⟨fun h => h, fun _ => Or.inl (Or.inr (Or.inr rfl))⟩)
      | with_reducible apply steps_map
      | with_reducible apply steps_fault
      | with_reducible apply steps_deref _ hr
      | with_reducible apply steps_of_keeps _ Stream.key _ (key_LoadSoundModel env _ _) hkey
      | with_reducible apply steps_of_keeps _ Stream.key _ (key_GetAvailCaptureDevice env) hkey
      | with_reducible apply steps_of_keeps _ Stream.key _ (key_GetQalDevice env _) hkey
      | with_reducible apply steps_of_keeps _ Stream.key _ (key_GetCurrentCaptureProfile env) hkey
      | with_reducible apply steps_of_keeps _ Stream.key _ (key_updateDevice env _) hkey
      | dsimp only []
      | split
      | simp only []

theorem rests_StLoaded (env : Env) (ProcessInternalEvent : StEventConfig → M Int)
    (hP : ∀ ev, ev ≠ .ST_EV_PAUSE → Steps RestsWhilePaused (ProcessInternalEvent ev))
    (ev_cfg : StEventConfig)
    (hne : ev_cfg ≠ .ST_EV_PAUSE) :
    Steps RestsWhilePaused (StLoaded.ProcessEvent env ProcessInternalEvent ev_cfg) := by
  have hr : ∀ s : Stream, RestsWhilePaused s s := fun _ => ⟨fun h => h, fun h => Or.inl h⟩
  have ht : ∀ a b c : Stream, RestsWhilePaused a b → RestsWhilePaused b c →
      RestsWhilePaused a c :=
    fun _ _ _ h1 h2 => ⟨fun h => h2.1 (h1.1 h), fun h =>
      (h1.2 h).elim (fun hq => h2.2 hq) (fun hp => Or.inr (h2.1 hp))⟩
  have hkey : ∀ s s2 : Stream, s2.key = s.key → RestsWhilePaused s s2 := by
    intro s s2 h
    simp only [Stream.key, Prod.mk.injEq] at h
    exact ⟨fun h0 => h.2.1.trans h0, fun hq => Or.inl (by unfold Quiet at hq ⊢; rw [h.1]; exact hq)⟩
  unfold StLoaded.ProcessEvent TransitTo
  split
  all_goals first
    | exact absurd rfl hne
    | skip
  all_goals
    repeat' first
      | with_reducible apply steps_bind _ ht
      | intro _
      | with_reducible apply steps_pure _ hr
      | with_reducible apply steps_ite
      | with_reducible apply steps_get _ hr
      | ((with_reducible apply steps_call); intro s; exact hkey _ _ rfl)
      | ((with_reducible apply steps_ask); intro s; exact hkey _ _ rfl)
      | ((with_reducible apply steps_emit); intro s; exact hkey _ _ rfl)
      | ((with_reducible apply steps_modify); intro s;
          first | exact hkey _ _ rfl | exact ⟨fun h => h, fun h => Or.inl h⟩ | exact ⟨fun _ => rfl, fun _ => Or.inr rfl⟩ | exact ⟨fun h => h, fun _ => Or.inl (Or.inl rfl)⟩ | exact ⟨fun h => h, fun _ => Or.inl (Or.inr (Or.inl rfl))⟩ | exact ⟨fun h => h, fun _ => Or.inl (Or.inr (Or.inr rfl))⟩)
      | with_reducible apply steps_map
      | with_reducible apply steps_fault
      | with_reducible apply steps_deref _ hr
      | ((with_reducible apply hP); exact fun h => StEventConfig.noConfusion h)
      | with_reducible apply steps_of_keeps _ Stream.key _ (key_unloadEngines env _ _ _) hkey
      | with_reducible apply steps_of_keeps _ Stream.key _ (key_SendRecognitionConfig env _ _) hkey
      | with_reducible apply steps_of_keeps _ Stream.key _ (key_StLoaded_switchDevice env _) hkey
      | with_reducible apply steps_of_keeps _ Stream.key _ (key_GetAvailCaptureDevice env) hkey
      | with_reducible apply steps_of_keeps _ Stream.key _ (key_GetCurrentCaptureProfile env) hkey
      | with_reducible apply rests_StLoaded_start env
      | dsimp only []
      | split
      | simp only []

theorem rests_StSSR (env : Env) (ProcessInternalEvent : StEventConfig → M Int)
    (hP : ∀ ev, ev ≠ .ST_EV_PAUSE → Steps RestsWhilePaused (ProcessInternalEvent ev))
    (ev_cfg : StEventConfig)
    (hne : ev_cfg ≠ .ST_EV_PAUSE) :
    Steps RestsWhilePaused (StSSR.ProcessEvent env ProcessInternalEvent ev_cfg) := by
  have hr : ∀ s : Stream, RestsWhilePaused s s := fun _ => ⟨fun h => h, fun h => Or.inl h⟩
  have ht : ∀ a b c : Stream, RestsWhilePaused a b → RestsWhilePaused b c →
      RestsWhilePaused a c :=
    fun _ _ _ h1 h2 => ⟨fun h => h2.1 (h1.1 h), fun h =>
      (h1.2 h).elim (fun hq => h2.2 hq) (fun hp => Or.inr (h2.1 hp))⟩
  have hkey : ∀ s s2 : Stream, s2.key = s.key → RestsWhilePaused s s2 := by
    intro s s2 h
    simp only [Stream.key, Prod.mk.injEq] at h
    exact ⟨fun h0 => h.2.1.trans h0, fun hq => Or.inl (by unfold Quiet at hq ⊢; rw [h.1]; exact hq)⟩
  unfold StSSR.ProcessEvent TransitTo
  split
  all_goals first
    | exact absurd rfl hne
    | skip
  all_goals
    repeat' first
      | with_reducible apply steps_bind _ ht
      | intro _
      | with_reducible apply steps_pure _ hr
      | with_reducible apply steps_ite
      | with_reducible apply steps_get _ hr
      | ((with_reducible apply steps_call); intro s; exact hkey _ _ rfl)
      | ((with_reducible apply steps_ask); intro s; exact hkey _ _ rfl)
      | ((with_reducible apply steps_emit); intro s; exact hkey _ _ rfl)
      | ((with_reducible apply steps_modify); intro s;
          first | exact hkey _ _ rfl | exact ⟨fun h => h, fun h => Or.inl h⟩ | exact ⟨fun _ => rfl, fun _ => Or.inr rfl⟩ | exact ⟨fun h => h, fun _ => Or.inl (Or.inl rfl)⟩ | exact ⟨fun h => h, fun _ => Or.inl (Or.inr (Or.inl rfl))⟩ | exact ⟨fun h => h, fun _ => Or.inl (Or.inr (Or.inr rfl))⟩)
      | with_reducible apply steps_map
      | with_reducible apply steps_fault
      | with_reducible apply steps_deref _ hr
      | ((with_reducible apply hP); exact fun h => StEventConfig.noConfusion h)
      | with_reducible apply steps_of_keeps _ Stream.key _ (key_SendRecognitionConfig env _ _) hkey
      | with_reducible apply steps_of_keeps _ Stream.key _ (key_UpdateSoundModel env _ _) hkey
      | with_reducible apply steps_of_keeps _ Stream.key _ (key_UpdateRecognitionConfig env _ _) hkey
      | dsimp only []
      | split
      | simp only []

/-- A relation that holds across a run implies a weaker one across it. -/
theorem Steps.mono {α : Type} {R R2 : Stream → Stream → Prop} {m : M α}
    (h : Steps R m) (hw : ∀ s s2, R s s2 → R2 s s2) : Steps R2 m :=
  ⟨fun s a s2 hrun => hw s s2 (h.step s a s2 hrun)⟩

/-- Every event but Pause leaves a stream that is not paused so, and takes a
paused stream in Idle, Loaded or SSR to one of the three, or clears the
flag. -/
theorem rests_ProcessEvent (env : Env) (fuel : Nat) :
    ∀ ev_cfg : StEventConfig, ev_cfg ≠ .ST_EV_PAUSE →
      Steps RestsWhilePaused (ProcessEvent env fuel ev_cfg) := by
  induction fuel with
  | zero =>
    intro ev_cfg _
    unfold ProcessEvent
    apply steps_fault
  | succ n ih =>
    intro ev_cfg hne
    have ihW : ∀ ev, ev ≠ .ST_EV_PAUSE → Steps StaysUnpaused (ProcessEvent env n ev) :=
      fun ev he => (ih ev he).mono (fun _ _ h => h.1)
    constructor
    intro s a s2 h
    unfold ProcessEvent at h
    simp only [run_bind, run_get, Option.some_bind] at h
    have hnq : ∀ x : st_state_id_t, s.cur_state_ = x → x ≠ ST_STATE_IDLE → x ≠ ST_STATE_LOADED →
        x ≠ ST_STATE_SSR → ¬ Quiet s := by
      intro x hx h1 h2 h3 hq
      unfold Quiet at hq
      rw [hx] at hq
      rcases hq with hq | hq | hq
      · exact h1 hq
      · exact h2 hq
      · exact h3 hq
    cases hc : s.cur_state_ <;> simp only [hc] at h
    · simp at h
    · exact (rests_StIdle env ev_cfg hne).step s a s2 h
    · exact (rests_StLoaded env _ ih ev_cfg hne).step s a s2 h
    · exact ⟨(unpaused_StActive env _ ihW ev_cfg hne).step s a s2 h,
        fun hq => absurd hq (hnq _ hc (by decide) (by decide) (by decide))⟩
    · exact ⟨(unpaused_StDetected env _ ihW ev_cfg hne).step s a s2 h,
        fun hq => absurd hq (hnq _ hc (by decide) (by decide) (by decide))⟩
    · exact ⟨(unpaused_StBuffering env _ ihW ev_cfg hne).step s a s2 h,
        fun hq => absurd hq (hnq _ hc (by decide) (by decide) (by decide))⟩
    · exact (rests_StSSR env _ ih ev_cfg hne).step s a s2 h

/-- The end of the stop cases: the stream is in Loaded, whatever the status. -/
theorem ensures_TransitTo_Loaded (status : Int) :
    Ensures (fun (_ : Int) (s : Stream) => s.cur_state_ = ST_STATE_LOADED)
      (TransitTo ST_STATE_LOADED >>= fun _ => (pure status : M Int)) := by
  constructor
  intro s a s2 h
  simp [TransitTo] at h
  rw [← h.2]

/-- Pause in Active ends in Loaded. -/
theorem Pause_in_Active_rests (env : Env) (ProcessInternalEvent : StEventConfig → M Int) :
    Ensures (fun (_ : Int) (s : Stream) => s.cur_state_ = ST_STATE_LOADED)
      (StActive.ProcessEvent env ProcessInternalEvent .ST_EV_PAUSE) := by
  unfold StActive.ProcessEvent StActive.stop
  repeat' first
    | with_reducible apply ensures_TransitTo_Loaded
    | ((with_reducible apply ensures_bind); intro _)
    | dsimp only []
    | split

/-- Pause in Detected ends in Loaded. -/
theorem Pause_in_Detected_rests (env : Env) (ProcessInternalEvent : StEventConfig → M Int) :
    Ensures (fun (_ : Int) (s : Stream) => s.cur_state_ = ST_STATE_LOADED)
      (StDetected.ProcessEvent env ProcessInternalEvent .ST_EV_PAUSE) := by
  unfold StDetected.ProcessEvent StDetected.stop
  repeat' first
    | with_reducible apply ensures_TransitTo_Loaded
    | ((with_reducible apply ensures_bind); intro _)
    | dsimp only []
    | split

/-- Pause in Buffering ends in Loaded. -/
theorem Pause_in_Buffering_rests (env : Env) (ProcessInternalEvent : StEventConfig → M Int) :
    Ensures (fun (_ : Int) (s : Stream) => s.cur_state_ = ST_STATE_LOADED)
      (StBuffering.ProcessEvent env ProcessInternalEvent .ST_EV_PAUSE) := by
  unfold StBuffering.ProcessEvent StBuffering.stop
  repeat' first
    | with_reducible apply ensures_TransitTo_Loaded
    | ((with_reducible apply ensures_bind); intro _)
    | dsimp only []
    | split

/-- After a Pause the stream is in Idle, Loaded or SSR: the handlers of Idle and
Loaded set the flag, those of Active, Detected and Buffering stop the
recognition and end in Loaded, and SSR ignores the event. -/
theorem Pause_rests (env : Env) (fuel : Nat) (s s2 : Stream) (a : Int)
    (h : ProcessEvent env fuel .ST_EV_PAUSE s = some (a, s2)) : Quiet s2 := by
  cases fuel with
  | zero => simp [ProcessEvent] at h
  | succ n =>
    unfold ProcessEvent at h
    simp only [run_bind, run_get, Option.some_bind] at h
    cases hc : s.cur_state_ <;> simp only [hc] at h
    · simp at h
    · simp [StIdle.ProcessEvent] at h
      rw [← h.2]
      exact Or.inl hc
    · simp [StLoaded.ProcessEvent] at h
      rw [← h.2]
      exact Or.inr (Or.inl hc)
    · exact Or.inr (Or.inl ((Pause_in_Active_rests env _).ensure s a s2 h))
    · exact Or.inr (Or.inl ((Pause_in_Detected_rests env _).ensure s a s2 h))
    · exact Or.inr (Or.inl ((Pause_in_Buffering_rests env _).ensure s a s2 h))
    · simp [StSSR.ProcessEvent] at h
      rw [← h.2]
      exact Or.inr (Or.inr hc)

/-- C36.  In every stream that the events can produce from a stream as
constructed, `paused_ = true` implies that the current state is Idle, Loaded or
SSR: no recognition runs while the stream is paused. -/
theorem C36_paused_implies_at_rest (env : Env) (st : Stream) (h : Reachable env st) :
    st.paused_ = true →
      st.cur_state_ = ST_STATE_IDLE ∨ st.cur_state_ = ST_STATE_LOADED ∨
        st.cur_state_ = ST_STATE_SSR := by
  induction h with
  | init charging =>
    intro _
    exact Or.inl rfl
  | step fuel ev_cfg status s s2 _ hrun ih =>
    intro hp
    by_cases hev : ev_cfg = .ST_EV_PAUSE
    · subst hev
      exact Pause_rests env fuel s s2 status hrun
    · have hR := (rests_ProcessEvent env fuel ev_cfg hev).step s status s2 hrun
      by_cases hps : s.paused_ = true
      · rcases hR.2 (ih hps) with hq | hq
        · exact hq
        · rw [hq] at hp
          exact absurd hp (by decide)
      · have := hR.1 (by simpa using hps)
        rw [this] at hp
        exact absurd hp (by decide)

/-- Witness for C36: a stream is loaded, configured and started, a first-stage
detection takes it to Detected, and a Pause then leaves it paused, in Loaded. -/
theorem C36_paused_implies_at_rest_witness :
    ∃ st : Stream, Reachable Env.nominal st ∧ (st.paused_ = true ∧
      st.prev_state_ = some ST_STATE_DETECTED) ∧
      (st.cur_state_ = ST_STATE_IDLE ∨ st.cur_state_ = ST_STATE_LOADED ∨
        st.cur_state_ = ST_STATE_SSR) := by
  obtain ⟨statuses, st, hr, h⟩ := Reachable.of_observation Env.nominal 1
    [.ST_EV_LOAD_SOUND_MODEL (some qal_st_sound_model.v2) false,
     .ST_EV_RECOGNITION_CONFIG (some (qal_st_recognition_config.bare false [⟨0, 1, 40, []⟩])),
     .ST_EV_START_RECOGNITION false, .ST_EV_DETECTED GMM_DETECTED, .ST_EV_PAUSE]
    (Stream.init false) (fun r => (r.2.paused_, r.2.prev_state_))
    (true, some ST_STATE_DETECTED) (Reachable.init false) (by decide!)
  have hp : st.paused_ = true ∧ st.prev_state_ = some ST_STATE_DETECTED := by
    simpa using h
  exact ⟨st, hr, hp, C36_paused_implies_at_rest Env.nominal st hr hp.1⟩

/-! ## Streams that were never started -/

/-- The handlers of Idle, Loaded and SSR leave a stream that was never started
so, on every event that asks for no start (and, in SSR, is not the end of the
restart). -/
theorem unstarted_StIdle (env : Env) (ev_cfg : StEventConfig)
    (hne : ev_cfg.starts = false) :
    Steps StaysUnstarted (StIdle.ProcessEvent env ev_cfg) := by
  have hr : ∀ s : Stream, StaysUnstarted s s := fun _ h => h
  have ht : ∀ a b c : Stream, StaysUnstarted a b → StaysUnstarted b c → StaysUnstarted a c :=
    fun _ _ _ h1 h2 h => h2 (h1 h)
  have hkey : ∀ s s2 : Stream, s2.key = s.key → StaysUnstarted s s2 := by
    intro s s2 h hn
    simp only [Stream.key, Prod.mk.injEq] at h
    unfold NeverStarted Quiet at hn ⊢
    rw [h.1, h.2.2.1]
    exact hn
  unfold StIdle.ProcessEvent TransitTo
  split
  all_goals first
    | exact Bool.noConfusion hne
    | skip
  all_goals
    repeat' first
      | with_reducible apply steps_bind _ ht
      | intro _
      | with_reducible apply steps_pure _ hr
      | with_reducible apply steps_ite
      | with_reducible apply steps_get _ hr
      | ((with_reducible apply steps_call); intro s; exact hkey _ _ rfl)
      | ((with_reducible apply steps_ask); intro s; exact hkey _ _ rfl)
      | ((with_reducible apply steps_emit); intro s; exact hkey _ _ rfl)
      | ((with_reducible apply steps_modify); intro s;
          first | exact hkey _ _ rfl | exact fun h => h | exact fun h => ⟨h.1, fun h2 => st_state_id_t.noConfusion h2⟩ | exact fun h => ⟨Or.inl rfl, h.2⟩ | exact fun h => ⟨Or.inr (Or.inl rfl), h.2⟩ | exact fun h => ⟨Or.inr (Or.inr rfl), h.2⟩)
      | with_reducible apply steps_map
      | with_reducible apply steps_fault
      | with_reducible apply steps_deref _ hr
      | with_reducible apply steps_of_keeps _ Stream.key _ (key_LoadSoundModel env _ _) hkey
      | with_reducible apply steps_of_keeps _ Stream.key _ (key_GetAvailCaptureDevice env) hkey
      | with_reducible apply steps_of_keeps _ Stream.key _ (key_GetQalDevice env _) hkey
      | with_reducible apply steps_of_keeps _ Stream.key _ (key_GetCurrentCaptureProfile env) hkey
      | with_reducible apply steps_of_keeps _ Stream.key _ (key_updateDevice env _) hkey
      | dsimp only []
      | split
      | simp only []

theorem unstarted_StLoaded (env : Env) (ProcessInternalEvent : StEventConfig → M Int)
    (hP : ∀ ev, ev.starts = false → Steps StaysUnstarted (ProcessInternalEvent ev))
    (ev_cfg : StEventConfig)
    (hne : ev_cfg.starts = false) :
    Steps StaysUnstarted (StLoaded.ProcessEvent env ProcessInternalEvent ev_cfg) := by
  have hr : ∀ s : Stream, StaysUnstarted s s := fun _ h => h
  have ht : ∀ a b c : Stream, StaysUnstarted a b → StaysUnstarted b c → StaysUnstarted a c :=
    fun _ _ _ h1 h2 h => h2 (h1 h)
  have hkey : ∀ s s2 : Stream, s2.key = s.key → StaysUnstarted s s2 := by
    intro s s2 h hn
    simp only [Stream.key, Prod.mk.injEq] at h
    unfold NeverStarted Quiet at hn ⊢
    rw [h.1, h.2.2.1]
    exact hn
  unfold StLoaded.ProcessEvent TransitTo
  split
  all_goals first
    | exact Bool.noConfusion hne
    | skip
  all_goals
    repeat' first
      | with_reducible apply steps_bind _ ht
      | intro _
      | with_reducible apply steps_pure _ hr
      | with_reducible apply steps_ite
      | with_reducible apply steps_get _ hr
      | ((with_reducible apply steps_call); intro s; exact hkey _ _ rfl)
      | ((with_reducible apply steps_ask); intro s; exact hkey _ _ rfl)
      | ((with_reducible apply steps_emit); intro s; exact hkey _ _ rfl)
      | ((with_reducible apply steps_modify); intro s;
          first | exact hkey _ _ rfl | exact fun h => h | exact fun h => ⟨h.1, fun h2 => st_state_id_t.noConfusion h2⟩ | exact fun h => ⟨Or.inl rfl, h.2⟩ | exact fun h => ⟨Or.inr (Or.inl rfl), h.2⟩ | exact fun h => ⟨Or.inr (Or.inr rfl), h.2⟩)
      | with_reducible apply steps_map
      | with_reducible apply steps_fault
      | with_reducible apply steps_deref _ hr
      | ((with_reducible apply hP); rfl)
      | with_reducible apply steps_of_keeps _ Stream.key _ (key_unloadEngines env _ _ _) hkey
      | with_reducible apply steps_of_keeps _ Stream.key _ (key_SendRecognitionConfig env _ _) hkey
      | with_reducible apply steps_of_keeps _ Stream.key _ (key_StLoaded_switchDevice env _) hkey
      | with_reducible apply steps_of_keeps _ Stream.key _ (key_GetAvailCaptureDevice env) hkey
      | with_reducible apply steps_of_keeps _ Stream.key _ (key_GetCurrentCaptureProfile env) hkey
      | dsimp only []
      | split
      | simp only []

theorem unstarted_StSSR (env : Env) (ProcessInternalEvent : StEventConfig → M Int)
    (ev_cfg : StEventConfig)
    (hne : ev_cfg.starts = false)
    (hon : ev_cfg ≠ .ST_EV_SSR_ONLINE) :
    Steps StaysUnstarted (StSSR.ProcessEvent env ProcessInternalEvent ev_cfg) := by
  have hr : ∀ s : Stream, StaysUnstarted s s := fun _ h => h
  have ht : ∀ a b c : Stream, StaysUnstarted a b → StaysUnstarted b c → StaysUnstarted a c :=
    fun _ _ _ h1 h2 h => h2 (h1 h)
  have hkey : ∀ s s2 : Stream, s2.key = s.key → StaysUnstarted s s2 := by
    intro s s2 h hn
    simp only [Stream.key, Prod.mk.injEq] at h
    unfold NeverStarted Quiet at hn ⊢
    rw [h.1, h.2.2.1]
    exact hn
  unfold StSSR.ProcessEvent TransitTo
  split
  all_goals first
    | exact Bool.noConfusion hne
    | exact absurd rfl hon
    | skip
  all_goals
    repeat' first
      | with_reducible apply steps_bind _ ht
      | intro _
      | with_reducible apply steps_pure _ hr
      | with_reducible apply steps_ite
      | with_reducible apply steps_get _ hr
      | ((with_reducible apply steps_call); intro s; exact hkey _ _ rfl)
      | ((with_reducible apply steps_ask); intro s; exact hkey _ _ rfl)
      | ((with_reducible apply steps_emit); intro s; exact hkey _ _ rfl)
      | ((with_reducible apply steps_modify); intro s;
          first | exact hkey _ _ rfl | exact fun h => h | exact fun h => ⟨h.1, fun h2 => st_state_id_t.noConfusion h2⟩ | exact fun h => ⟨Or.inl rfl, h.2⟩ | exact fun h => ⟨Or.inr (Or.inl rfl), h.2⟩ | exact fun h => ⟨Or.inr (Or.inr rfl), h.2⟩)
      | with_reducible apply steps_map
      | with_reducible apply steps_fault
      | with_reducible apply steps_deref _ hr
      | with_reducible apply steps_of_keeps _ Stream.key _ (key_SendRecognitionConfig env _ _) hkey
      | with_reducible apply steps_of_keeps _ Stream.key _ (key_UpdateSoundModel env _ _) hkey
      | with_reducible apply steps_of_keeps _ Stream.key _ (key_UpdateRecognitionConfig env _ _) hkey
      | dsimp only []
      | split
      | simp only []

/-- Every event that asks for no start leaves a stream that was never started
so: it is in Idle, Loaded or SSR after the event, and no Active state is saved
for a restore. -/
theorem unstarted_ProcessEvent (env : Env) (fuel : Nat) :
    ∀ ev_cfg : StEventConfig, ev_cfg.starts = false →
      Steps StaysUnstarted (ProcessEvent env fuel ev_cfg) := by
  induction fuel with
  | zero =>
    intro ev_cfg _
    unfold ProcessEvent
    apply steps_fault
  | succ n ih =>
    intro ev_cfg hne
    constructor
    intro s a s2 h0 hn
    have h := h0
    unfold ProcessEvent at h
    simp only [run_bind, run_get, Option.some_bind] at h
    have hq := hn.1
    unfold Quiet at hq
    cases hc : s.cur_state_ <;> simp only [hc] at h
    · simp at h
    · exact (unstarted_StIdle env ev_cfg hne).step s a s2 h hn
    · exact (unstarted_StLoaded env _ ih ev_cfg hne).step s a s2 h hn
    · rw [hc] at hq
      simp at hq
    · rw [hc] at hq
      simp at hq
    · rw [hc] at hq
      simp at hq
    · by_cases hon : ev_cfg = .ST_EV_SSR_ONLINE
      · subst hon
        by_cases hl : s.state_for_restore_ = ST_STATE_LOADED
        · rw [SsrOnline_run env n s hc (Or.inl hl)] at h0
          obtain ⟨⟨r, s1⟩, hL, h2⟩ := Option.bind_eq_some.1 h0
          have h1 : NeverStarted s1 :=
            (ih (.ST_EV_LOAD_SOUND_MODEL s.sm_config_ true) rfl).step _ _ _ hL
              ⟨Or.inl rfl, hn.2⟩
          by_cases hr0 : r = 0
          · simp only [hr0, ne_eq, not_true_eq_false, if_false, h1.2] at h2
            simp only [Option.some.injEq, Prod.mk.injEq] at h2
            rw [← h2.2]
            exact ⟨h1.1, fun h3 => st_state_id_t.noConfusion h3⟩
          · simp only [ne_eq, hr0, not_false_eq_true, if_true, Option.some.injEq,
              Prod.mk.injEq] at h2
            rw [← h2.2]
            exact h1
        · simp [StSSR.ProcessEvent, TransitTo, hl, hn.2] at h
          rw [← h.2]
          exact ⟨Or.inl rfl, fun h3 => st_state_id_t.noConfusion h3⟩
      · exact (unstarted_StSSR env _ ev_cfg hne hon).step s a s2 h hn

/-- C34 (as amended).  After every sequence of events, dispatched on a stream as
constructed, that contains no StartRecognition and no Resume event, the stream
is in Idle, Loaded or SSR, not in Active, and no Active state is saved for a
restore. -/
theorem C34_no_start_without_request (env : Env) (fuel : Nat) (evs : List StEventConfig)
    (charging : Bool) (statuses : List Int) (st : Stream)
    (hk : ∀ ev_cfg ∈ evs, ev_cfg.starts = false)
    (h : ProcessEvents env fuel evs (Stream.init charging) = some (statuses, st)) :
    st.cur_state_ ≠ ST_STATE_ACTIVE ∧
    (st.cur_state_ = ST_STATE_IDLE ∨ st.cur_state_ = ST_STATE_LOADED ∨
      st.cur_state_ = ST_STATE_SSR) ∧
    st.state_for_restore_ ≠ ST_STATE_ACTIVE := by
  have hs := steps_ProcessEvents StaysUnstarted (fun _ h => h) (fun _ _ _ h1 h2 h => h2 (h1 h))
    (fun ev_cfg => ev_cfg.starts = false) env fuel (unstarted_ProcessEvent env fuel) evs hk
  have hn : NeverStarted st :=
    hs.step _ _ _ h ⟨Or.inl rfl, fun h3 => st_state_id_t.noConfusion h3⟩
  refine ⟨?_, hn.1, hn.2⟩
  intro ha
  have hq := hn.1
  unfold Quiet at hq
  rw [ha] at hq
  simp at hq

/-- Witness for C34: a stream is loaded, configured and paused, goes through a
subsystem restart and is stopped and told of a charger; it is in Loaded. -/
theorem C34_no_start_without_request_witness :
    ∃ (statuses : List Int) (st : Stream),
      ProcessEvents Env.nominal 2
        [.ST_EV_LOAD_SOUND_MODEL (some qal_st_sound_model.v2) false,
         .ST_EV_RECOGNITION_CONFIG (some (qal_st_recognition_config.bare false [⟨0, 1, 40, []⟩])),
         .ST_EV_PAUSE, .ST_EV_SSR_OFFLINE, .ST_EV_SSR_ONLINE, .ST_EV_STOP_RECOGNITION false,
         .ST_EV_CHARGING_STATE true]
        (Stream.init false) = some (statuses, st) ∧
      st.cur_state_ = ST_STATE_LOADED ∧ st.cur_state_ ≠ ST_STATE_ACTIVE := by
  have h0 : (ProcessEvents Env.nominal 2
      [.ST_EV_LOAD_SOUND_MODEL (some qal_st_sound_model.v2) false,
       .ST_EV_RECOGNITION_CONFIG (some (qal_st_recognition_config.bare false [⟨0, 1, 40, []⟩])),
       .ST_EV_PAUSE, .ST_EV_SSR_OFFLINE, .ST_EV_SSR_ONLINE, .ST_EV_STOP_RECOGNITION false,
       .ST_EV_CHARGING_STATE true]
      (Stream.init false)).map (fun r => r.2.cur_state_) = some ST_STATE_LOADED := by
    decide!
  obtain ⟨⟨statuses, st⟩, h1, h2⟩ := Option.map_eq_some'.1 h0
  exact ⟨statuses, st, h1, h2,
    (C34_no_start_without_request Env.nominal 2 _ false statuses st (by decide) h1).1⟩

/-- C34 as stated fails: a stream is loaded and given a recognition config, and
is never asked to start; a Pause and a Resume (as the notifications of a
concurrent capture stream send them) then take it to Active. -/
theorem C34_counterexample :
    (ProcessEvents Env.nominal 1
      [.ST_EV_LOAD_SOUND_MODEL (some qal_st_sound_model.v2) false,
       .ST_EV_RECOGNITION_CONFIG (some (qal_st_recognition_config.bare false [⟨0, 1, 40, []⟩])),
       .ST_EV_PAUSE, .ST_EV_RESUME]
      (Stream.init false)).map (fun r => (r.1, r.2.cur_state_, r.2.paused_)) =
      some ([0, 0, 0, 0], ST_STATE_ACTIVE, false) := by
  decide!

/-! ## The fields that the consistency of a stream is about -/

theorem core_GetAvailCaptureDevice (env : Env) :
    Keeps Stream.core (GetAvailCaptureDevice env) :=
  keeps_GetAvailCaptureDevice _ env (fun _ _ => rfl)

theorem core_GetCurrentCaptureProfile (env : Env) :
    Keeps Stream.core (GetCurrentCaptureProfile env) :=
  keeps_GetCurrentCaptureProfile _ env (fun _ _ => rfl)

theorem core_GetQalDevice (env : Env) (dev_id : Nat) :
    Keeps Stream.core (GetQalDevice env dev_id) :=
  keeps_GetQalDevice _ env dev_id (fun _ _ => rfl)

theorem core_SendRecognitionConfig (env : Env) (config : Option qal_st_recognition_config) (flag : Bool) :
    Keeps Stream.core (SendRecognitionConfig env config flag) :=
  keeps_SendRecognitionConfig _ env config flag (fun _ _ _ _ => rfl)

theorem core_forEngines (env : Env) (op : SoundTriggerEngine → Call) (engs : List EngineCfg) (status : Int) :
    Keeps Stream.core (forEngines env op engs status) := by
  induction engs generalizing status with
  | nil =>
    unfold forEngines
    apply keeps_pure
  | cons x xs ih =>
    unfold forEngines
    repeat' first
      | with_reducible apply ih
      | with_reducible apply keeps_bind
      | with_reducible apply keeps_pure
      | with_reducible apply keeps_map
      | with_reducible apply keeps_get
      | with_reducible apply keeps_fault
      | with_reducible apply keeps_deref
      | ((with_reducible apply keeps_modify); intro s; rfl)
      | ((with_reducible apply keeps_call); intro s t; rfl)
      | ((with_reducible apply keeps_ask); intro s t; rfl)
      | ((with_reducible apply keeps_emit); intro s t; rfl)
      | with_reducible apply keeps_ite
      | intro _
      | dsimp only []
      | split
      | simp only []

theorem core_forEnginesBreak (env : Env) (op : SoundTriggerEngine → Call) (engs : List EngineCfg) (status : Int) :
    Keeps Stream.core (forEnginesBreak env op engs status) := by
  induction engs generalizing status with
  | nil =>
    unfold forEnginesBreak
    apply keeps_pure
  | cons x xs ih =>
    unfold forEnginesBreak
    repeat' first
      | with_reducible apply ih
      | with_reducible apply keeps_bind
      | with_reducible apply keeps_pure
      | with_reducible apply keeps_map
      | with_reducible apply keeps_get
      | with_reducible apply keeps_fault
      | with_reducible apply keeps_deref
      | ((with_reducible apply keeps_modify); intro s; rfl)
      | ((with_reducible apply keeps_call); intro s t; rfl)
      | ((with_reducible apply keeps_ask); intro s t; rfl)
      | ((with_reducible apply keeps_emit); intro s t; rfl)
      | with_reducible apply keeps_ite
      | intro _
      | dsimp only []
      | split
      | simp only []

theorem core_unloadEngines (env : Env) (ret : Int) (engs : List EngineCfg) (status : Int) :
    Keeps Stream.core (StLoaded.unloadEngines env ret engs status) := by
  induction engs generalizing status with
  | nil =>
    unfold StLoaded.unloadEngines
    apply keeps_pure
  | cons x xs ih =>
    unfold StLoaded.unloadEngines
    repeat' first
      | with_reducible apply ih
      | with_reducible apply keeps_bind
      | with_reducible apply keeps_pure
      | with_reducible apply keeps_map
      | with_reducible apply keeps_get
      | with_reducible apply keeps_fault
      | with_reducible apply keeps_deref
      | ((with_reducible apply keeps_modify); intro s; rfl)
      | ((with_reducible apply keeps_call); intro s t; rfl)
      | ((with_reducible apply keeps_ask); intro s t; rfl)
      | ((with_reducible apply keeps_emit); intro s t; rfl)
      | with_reducible apply keeps_ite
      | intro _
      | dsimp only []
      | split
      | simp only []

theorem core_startEngines (env : Env) (engs : List EngineCfg) (tmp : List SoundTriggerEngine) (status : Int) :
    Keeps Stream.core (StLoaded.startEngines env engs tmp status) := by
  induction engs generalizing tmp status with
  | nil =>
    unfold StLoaded.startEngines
    apply keeps_pure
  | cons x xs ih =>
    unfold StLoaded.startEngines
    repeat' first
      | with_reducible apply ih
      | with_reducible apply keeps_bind
      | with_reducible apply keeps_pure
      | with_reducible apply keeps_map
      | with_reducible apply keeps_get
      | with_reducible apply keeps_fault
      | with_reducible apply keeps_deref
      | ((with_reducible apply keeps_modify); intro s; rfl)
      | ((with_reducible apply keeps_call); intro s t; rfl)
      | ((with_reducible apply keeps_ask); intro s t; rfl)
      | ((with_reducible apply keeps_emit); intro s t; rfl)
      | with_reducible apply keeps_ite
      | intro _
      | dsimp only []
      | split
      | simp only []

theorem core_stopStarted (env : Env) (engs : List SoundTriggerEngine) :
    Keeps Stream.core (StLoaded.stopStarted env engs) := by
  induction engs with
  | nil =>
    unfold StLoaded.stopStarted
    apply keeps_pure
  | cons x xs ih =>
    unfold StLoaded.stopStarted
    repeat' first
      | with_reducible apply ih
      | with_reducible apply keeps_bind
      | with_reducible apply keeps_pure
      | with_reducible apply keeps_map
      | with_reducible apply keeps_get
      | with_reducible apply keeps_fault
      | with_reducible apply keeps_deref
      | ((with_reducible apply keeps_modify); intro s; rfl)
      | ((with_reducible apply keeps_call); intro s t; rfl)
      | ((with_reducible apply keeps_ask); intro s t; rfl)
      | ((with_reducible apply keeps_emit); intro s t; rfl)
      | with_reducible apply keeps_ite
      | intro _
      | dsimp only []
      | split
      | simp only []

theorem core_StLoaded_closeDevices (env : Env) (devs : List Device) :
    Keeps Stream.core (StLoaded.closeDevices env devs) := by
  induction devs with
  | nil =>
    unfold StLoaded.closeDevices
    apply keeps_pure
  | cons x xs ih =>
    unfold StLoaded.closeDevices
    repeat' first
      | with_reducible apply ih
      | with_reducible apply keeps_bind
      | with_reducible apply keeps_pure
      | with_reducible apply keeps_map
      | with_reducible apply keeps_get
      | with_reducible apply keeps_fault
      | with_reducible apply keeps_deref
      | ((with_reducible apply keeps_modify); intro s; rfl)
      | ((with_reducible apply keeps_call); intro s t; rfl)
      | ((with_reducible apply keeps_ask); intro s t; rfl)
      | ((with_reducible apply keeps_emit); intro s t; rfl)
      | with_reducible apply keeps_ite
      | intro _
      | dsimp only []
      | split
      | simp only []

theorem core_StActive_closeDevices (env : Env) (devs : List Device) :
    Keeps Stream.core (StActive.closeDevices env devs) := by
  induction devs with
  | nil =>
    unfold StActive.closeDevices
    apply keeps_pure
  | cons x xs ih =>
    unfold StActive.closeDevices
    repeat' first
      | with_reducible apply ih
      | with_reducible apply keeps_bind
      | with_reducible apply keeps_pure
      | with_reducible apply keeps_map
      | with_reducible apply keeps_get
      | with_reducible apply keeps_fault
      | with_reducible apply keeps_deref
      | ((with_reducible apply keeps_modify); intro s; rfl)
      | ((with_reducible apply keeps_call); intro s t; rfl)
      | ((with_reducible apply keeps_ask); intro s t; rfl)
      | ((with_reducible apply keeps_emit); intro s t; rfl)
      | with_reducible apply keeps_ite
      | intro _
      | dsimp only []
      | split
      | simp only []

theorem core_stopDevices (env : Env) (devs : List Device) (status : Int) :
    Keeps Stream.core (StBuffering.stopDevices env devs status) := by
  induction devs generalizing status with
  | nil =>
    unfold StBuffering.stopDevices
    apply keeps_pure
  | cons x xs ih =>
    unfold StBuffering.stopDevices
    repeat' first
      | with_reducible apply ih
      | with_reducible apply keeps_bind
      | with_reducible apply keeps_pure
      | with_reducible apply keeps_map
      | with_reducible apply keeps_get
      | with_reducible apply keeps_fault
      | with_reducible apply keeps_deref
      | ((with_reducible apply keeps_modify); intro s; rfl)
      | ((with_reducible apply keeps_call); intro s t; rfl)
      | ((with_reducible apply keeps_ask); intro s t; rfl)
      | ((with_reducible apply keeps_emit); intro s t; rfl)
      | with_reducible apply keeps_ite
      | intro _
      | dsimp only []
      | split
      | simp only []

theorem core_SetDetectedToEngines_loop (detected : Bool) (engs : List EngineCfg) :
    Keeps Stream.core (SetDetectedToEngines.loop detected engs) := by
  induction engs with
  | nil =>
    unfold SetDetectedToEngines.loop
    apply keeps_pure
  | cons x xs ih =>
    unfold SetDetectedToEngines.loop
    repeat' first
      | with_reducible apply ih
      | with_reducible apply keeps_bind
      | with_reducible apply keeps_pure
      | with_reducible apply keeps_map
      | with_reducible apply keeps_get
      | with_reducible apply keeps_fault
      | with_reducible apply keeps_deref
      | ((with_reducible apply keeps_modify); intro s; rfl)
      | ((with_reducible apply keeps_call); intro s t; rfl)
      | ((with_reducible apply keeps_ask); intro s t; rfl)
      | ((with_reducible apply keeps_emit); intro s t; rfl)
      | with_reducible apply keeps_ite
      | intro _
      | dsimp only []
      | split
      | simp only []

theorem core_SetDetectedToEngines (detected : Bool) :
    Keeps Stream.core (SetDetectedToEngines detected) := by
  unfold SetDetectedToEngines
  repeat' first
    | with_reducible apply core_SetDetectedToEngines_loop _ _
    | with_reducible apply keeps_bind
    | with_reducible apply keeps_pure
    | with_reducible apply keeps_map
    | with_reducible apply keeps_get
    | with_reducible apply keeps_fault
    | with_reducible apply keeps_deref
    | ((with_reducible apply keeps_modify); intro s; rfl)
    | ((with_reducible apply keeps_call); intro s t; rfl)
    | ((with_reducible apply keeps_ask); intro s t; rfl)
    | ((with_reducible apply keeps_emit); intro s t; rfl)
    | with_reducible apply keeps_ite
    | intro _
    | dsimp only []
    | split
    | simp only []

theorem core_notifyClient (env : Env) :
    Keeps Stream.core (notifyClient env) := by
  unfold notifyClient GenerateCallbackEvent
  repeat' first
    | with_reducible apply keeps_bind
    | with_reducible apply keeps_pure
    | with_reducible apply keeps_map
    | with_reducible apply keeps_get
    | with_reducible apply keeps_fault
    | with_reducible apply keeps_deref
    | ((with_reducible apply keeps_modify); intro s; rfl)
    | ((with_reducible apply keeps_call); intro s t; rfl)
    | ((with_reducible apply keeps_ask); intro s t; rfl)
    | ((with_reducible apply keeps_emit); intro s t; rfl)
    | with_reducible apply keeps_ite
    | intro _
    | dsimp only []
    | split
    | simp only []

theorem core_updateDevice (env : Env) (dev_id : Nat) :
    Keeps Stream.core (StIdle.updateDevice env dev_id) := by
  unfold StIdle.updateDevice
  repeat' first
    | with_reducible apply core_GetQalDevice env _
    | with_reducible apply keeps_bind
    | with_reducible apply keeps_pure
    | with_reducible apply keeps_map
    | with_reducible apply keeps_get
    | with_reducible apply keeps_fault
    | with_reducible apply keeps_deref
    | ((with_reducible apply keeps_modify); intro s; rfl)
    | ((with_reducible apply keeps_call); intro s t; rfl)
    | ((with_reducible apply keeps_ask); intro s t; rfl)
    | ((with_reducible apply keeps_emit); intro s t; rfl)
    | with_reducible apply keeps_ite
    | intro _
    | dsimp only []
    | split
    | simp only []

theorem core_err_exit (env : Env) (tmp : List SoundTriggerEngine) (status : Int) :
    Keeps Stream.core (StLoaded.err_exit env tmp status) := by
  unfold StLoaded.err_exit
  repeat' first
    | with_reducible apply core_stopStarted env _
    | with_reducible apply keeps_bind
    | with_reducible apply keeps_pure
    | with_reducible apply keeps_map
    | with_reducible apply keeps_get
    | with_reducible apply keeps_fault
    | with_reducible apply keeps_deref
    | ((with_reducible apply keeps_modify); intro s; rfl)
    | ((with_reducible apply keeps_call); intro s t; rfl)
    | ((with_reducible apply keeps_ask); intro s t; rfl)
    | ((with_reducible apply keeps_emit); intro s t; rfl)
    | with_reducible apply keeps_ite
    | intro _
    | dsimp only []
    | split
    | simp only []

theorem core_StLoaded_connectDevice (env : Env) (dev_id : Nat) :
    Keeps Stream.core (StLoaded.connectDevice env dev_id) := by
  unfold StLoaded.connectDevice
  repeat' first
    | with_reducible apply keeps_bind
    | with_reducible apply keeps_pure
    | with_reducible apply keeps_map
    | with_reducible apply keeps_get
    | with_reducible apply keeps_fault
    | with_reducible apply keeps_deref
    | ((with_reducible apply keeps_modify); intro s; rfl)
    | ((with_reducible apply keeps_call); intro s t; rfl)
    | ((with_reducible apply keeps_ask); intro s t; rfl)
    | ((with_reducible apply keeps_emit); intro s t; rfl)
    | with_reducible apply keeps_ite
    | intro _
    | dsimp only []
    | split
    | simp only []

theorem core_StLoaded_switchDevice (env : Env) (dev_id : Nat) :
    Keeps Stream.core (StLoaded.switchDevice env dev_id) := by
  unfold StLoaded.switchDevice
  repeat' first
    | with_reducible apply core_GetQalDevice env _
    | with_reducible apply core_StLoaded_closeDevices env _
    | with_reducible apply core_StLoaded_connectDevice env _
    | with_reducible apply keeps_bind
    | with_reducible apply keeps_pure
    | with_reducible apply keeps_map
    | with_reducible apply keeps_get
    | with_reducible apply keeps_fault
    | with_reducible apply keeps_deref
    | ((with_reducible apply keeps_modify); intro s; rfl)
    | ((with_reducible apply keeps_call); intro s t; rfl)
    | ((with_reducible apply keeps_ask); intro s t; rfl)
    | ((with_reducible apply keeps_emit); intro s t; rfl)
    | with_reducible apply keeps_ite
    | intro _
    | dsimp only []
    | split
    | simp only []

theorem core_stopDevice (env : Env) (status : Int) :
    Keeps Stream.core (stopDevice env status) := by
  unfold stopDevice
  repeat' first
    | with_reducible apply keeps_bind
    | with_reducible apply keeps_pure
    | with_reducible apply keeps_map
    | with_reducible apply keeps_get
    | with_reducible apply keeps_fault
    | with_reducible apply keeps_deref
    | ((with_reducible apply keeps_modify); intro s; rfl)
    | ((with_reducible apply keeps_call); intro s t; rfl)
    | ((with_reducible apply keeps_ask); intro s t; rfl)
    | ((with_reducible apply keeps_emit); intro s t; rfl)
    | with_reducible apply keeps_ite
    | intro _
    | dsimp only []
    | split
    | simp only []

theorem core_StActive_connectDevice (env : Env) (dev_id : Nat) (connected : Bool) :
    Keeps Stream.core (StActive.connectDevice env dev_id connected) := by
  unfold StActive.connectDevice
  repeat' first
    | with_reducible apply keeps_bind
    | with_reducible apply keeps_pure
    | with_reducible apply keeps_map
    | with_reducible apply keeps_get
    | with_reducible apply keeps_fault
    | with_reducible apply keeps_deref
    | ((with_reducible apply keeps_modify); intro s; rfl)
    | ((with_reducible apply keeps_call); intro s t; rfl)
    | ((with_reducible apply keeps_ask); intro s t; rfl)
    | ((with_reducible apply keeps_emit); intro s t; rfl)
    | with_reducible apply keeps_ite
    | intro _
    | dsimp only []
    | split
    | simp only []

theorem core_StActive_switchDevice (env : Env) (dev_id : Nat) (connected : Bool) :
    Keeps Stream.core (StActive.switchDevice env dev_id connected) := by
  unfold StActive.switchDevice
  repeat' first
    | with_reducible apply core_GetQalDevice env _
    | with_reducible apply core_StActive_closeDevices env _
    | with_reducible apply core_StActive_connectDevice env _ _
    | with_reducible apply keeps_bind
    | with_reducible apply keeps_pure
    | with_reducible apply keeps_map
    | with_reducible apply keeps_get
    | with_reducible apply keeps_fault
    | with_reducible apply keeps_deref
    | ((with_reducible apply keeps_modify); intro s; rfl)
    | ((with_reducible apply keeps_call); intro s t; rfl)
    | ((with_reducible apply keeps_ask); intro s t; rfl)
    | ((with_reducible apply keeps_emit); intro s t; rfl)
    | with_reducible apply keeps_ite
    | intro _
    | dsimp only []
    | split
    | simp only []

theorem core_stopBuffering (env : Env) (status : Int) :
    Keeps Stream.core (StBuffering.stopBuffering env status) := by
  unfold StBuffering.stopBuffering
  repeat' first
    | with_reducible apply core_forEngines env _ _ _
    | with_reducible apply keeps_bind
    | with_reducible apply keeps_pure
    | with_reducible apply keeps_map
    | with_reducible apply keeps_get
    | with_reducible apply keeps_fault
    | with_reducible apply keeps_deref
    | ((with_reducible apply keeps_modify); intro s; rfl)
    | ((with_reducible apply keeps_call); intro s t; rfl)
    | ((with_reducible apply keeps_ask); intro s t; rfl)
    | ((with_reducible apply keeps_emit); intro s t; rfl)
    | with_reducible apply keeps_ite
    | intro _
    | dsimp only []
    | split
    | simp only []

theorem core_UpdateSoundModel (env : Env) (sound_model : Option qal_st_sound_model) (flag : Bool) :
    Keeps Stream.core (UpdateSoundModel env sound_model flag) := by
  unfold UpdateSoundModel
  repeat' first
    | with_reducible apply keeps_bind
    | with_reducible apply keeps_pure
    | with_reducible apply keeps_map
    | with_reducible apply keeps_get
    | with_reducible apply keeps_fault
    | with_reducible apply keeps_deref
    | ((with_reducible apply keeps_modify); intro s; rfl)
    | ((with_reducible apply keeps_call); intro s t; rfl)
    | ((with_reducible apply keeps_ask); intro s t; rfl)
    | ((with_reducible apply keeps_emit); intro s t; rfl)
    | with_reducible apply keeps_ite
    | intro _
    | dsimp only []
    | split
    | simp only []

theorem core_UpdateRecognitionConfig (env : Env) (config : Option qal_st_recognition_config) (flag : Bool) :
    Keeps Stream.core (UpdateRecognitionConfig env config flag) := by
  unfold UpdateRecognitionConfig
  repeat' first
    | with_reducible apply keeps_bind
    | with_reducible apply keeps_pure
    | with_reducible apply keeps_map
    | with_reducible apply keeps_get
    | with_reducible apply keeps_fault
    | with_reducible apply keeps_deref
    | ((with_reducible apply keeps_modify); intro s; rfl)
    | ((with_reducible apply keeps_call); intro s t; rfl)
    | ((with_reducible apply keeps_ask); intro s t; rfl)
    | ((with_reducible apply keeps_emit); intro s t; rfl)
    | with_reducible apply keeps_ite
    | intro _
    | dsimp only []
    | split
    | simp only []

theorem core_conc_en (env : Env) (type : qal_stream_type_t) :
    Keeps Stream.core (ConcurrentStreamStatus.conc_en env type) := by
  unfold ConcurrentStreamStatus.conc_en
  repeat' first
    | with_reducible apply keeps_bind
    | with_reducible apply keeps_pure
    | with_reducible apply keeps_map
    | with_reducible apply keeps_get
    | with_reducible apply keeps_fault
    | with_reducible apply keeps_deref
    | ((with_reducible apply keeps_modify); intro s; rfl)
    | ((with_reducible apply keeps_call); intro s t; rfl)
    | ((with_reducible apply keeps_ask); intro s t; rfl)
    | ((with_reducible apply keeps_emit); intro s t; rfl)
    | with_reducible apply keeps_ite
    | intro _
    | dsimp only []
    | split
    | simp only []

/-! ## The platform record of a loaded stream -/

/-- The start of a Loaded stream leaves the platform record alone. -/
theorem record_StLoaded_start (env : Env) :
    Steps KeepsRecord (StLoaded.start env) := by
  have hr : ∀ s : Stream, KeepsRecord s s := fun _ h => h
  have ht : ∀ a b c : Stream, KeepsRecord a b → KeepsRecord b c → KeepsRecord a c :=
    fun _ _ _ h1 h2 h => h2 (h1 h)
  have hkey : ∀ s s2 : Stream, s2.core = s.core → KeepsRecord s s2 := by
    intro s s2 h h0
    simp only [Stream.core, Prod.mk.injEq] at h
    rw [h.2.2.1]
    exact h0
  unfold StLoaded.start
  try unfold TransitTo
  try unfold GetCurrentStateId
  try unfold CancelDelayedStop
  try unfold PostDelayedStop
  repeat' first
    | with_reducible apply steps_bind _ ht
    | intro _
    | with_reducible apply steps_pure _ hr
    | with_reducible apply steps_ite
    | with_reducible apply steps_get _ hr
    | ((with_reducible apply steps_call); intro s; exact hkey _ _ rfl)
    | ((with_reducible apply steps_ask); intro s; exact hkey _ _ rfl)
    | ((with_reducible apply steps_emit); intro s; exact hkey _ _ rfl)
    | ((with_reducible apply steps_modify); intro s;
        first | exact hkey _ _ rfl | exact fun h => h)
    | with_reducible apply steps_map
    | with_reducible apply steps_fault
    | with_reducible apply steps_deref _ hr
    | with_reducible apply steps_of_keeps _ Stream.core _ (core_startEngines env _ _ _) hkey
    | with_reducible apply steps_of_keeps _ Stream.core _ (core_err_exit env _ _) hkey
    | dsimp only []
    | split
    | simp only []

/-- The handlers of Loaded, Active, Detected and Buffering leave the platform record
alone. -/
theorem record_StLoaded (env : Env) (ProcessInternalEvent : StEventConfig → M Int)
    (hP : ∀ ev, Steps KeepsRecord (ProcessInternalEvent ev))
    (ev_cfg : StEventConfig) :
    Steps KeepsRecord (StLoaded.ProcessEvent env ProcessInternalEvent ev_cfg) := by
  have hr : ∀ s : Stream, KeepsRecord s s := fun _ h => h
  have ht : ∀ a b c : Stream, KeepsRecord a b → KeepsRecord b c → KeepsRecord a c :=
    fun _ _ _ h1 h2 h => h2 (h1 h)
  have hkey : ∀ s s2 : Stream, s2.core = s.core → KeepsRecord s s2 := by
    intro s s2 h h0
    simp only [Stream.core, Prod.mk.injEq] at h
    rw [h.2.2.1]
    exact h0
  cases ev_cfg
  all_goals
    unfold StLoaded.ProcessEvent
    try unfold TransitTo
    try unfold GetCurrentStateId
    try unfold CancelDelayedStop
    try unfold PostDelayedStop
    repeat' first
      | with_reducible apply steps_bind _ ht
      | intro _
      | with_reducible apply steps_pure _ hr
      | with_reducible apply steps_ite
      | with_reducible apply steps_get _ hr
      | ((with_reducible apply steps_call); intro s; exact hkey _ _ rfl)
      | ((with_reducible apply steps_ask); intro s; exact hkey _ _ rfl)
      | ((with_reducible apply steps_emit); intro s; exact hkey _ _ rfl)
      | ((with_reducible apply steps_modify); intro s;
          first | exact hkey _ _ rfl | exact fun h => h)
      | with_reducible apply steps_map
      | with_reducible apply steps_fault
      | with_reducible apply steps_deref _ hr
      | with_reducible apply hP
      | with_reducible apply steps_of_keeps _ Stream.core _ (core_unloadEngines env _ _ _) hkey
      | with_reducible apply steps_of_keeps _ Stream.core _ (core_SendRecognitionConfig env _ _) hkey
      | with_reducible apply steps_of_keeps _ Stream.core _ (core_StLoaded_switchDevice env _) hkey
      | with_reducible apply steps_of_keeps _ Stream.core _ (core_GetAvailCaptureDevice env) hkey
      | with_reducible apply steps_of_keeps _ Stream.core _ (core_GetCurrentCaptureProfile env) hkey
      | with_reducible apply record_StLoaded_start env
      | dsimp only []
      | split
      | simp only []

theorem record_StActive (env : Env) (ProcessInternalEvent : StEventConfig → M Int)
    (hP : ∀ ev, Steps KeepsRecord (ProcessInternalEvent ev))
    (ev_cfg : StEventConfig) :
    Steps KeepsRecord (StActive.ProcessEvent env ProcessInternalEvent ev_cfg) := by
  have hr : ∀ s : Stream, KeepsRecord s s := fun _ h => h
  have ht : ∀ a b c : Stream, KeepsRecord a b → KeepsRecord b c → KeepsRecord a c :=
    fun _ _ _ h1 h2 h => h2 (h1 h)
  have hkey : ∀ s s2 : Stream, s2.core = s.core → KeepsRecord s s2 := by
    intro s s2 h h0
    simp only [Stream.core, Prod.mk.injEq] at h
    rw [h.2.2.1]
    exact h0
  cases ev_cfg
  all_goals
    unfold StActive.ProcessEvent
    try unfold StActive.stop
    try unfold TransitTo
    try unfold GetCurrentStateId
    try unfold CancelDelayedStop
    try unfold PostDelayedStop
    repeat' first
      | with_reducible apply steps_bind _ ht
      | intro _
      | with_reducible apply steps_pure _ hr
      | with_reducible apply steps_ite
      | with_reducible apply steps_get _ hr
      | ((with_reducible apply steps_call); intro s; exact hkey _ _ rfl)
      | ((with_reducible apply steps_ask); intro s; exact hkey _ _ rfl)
      | ((with_reducible apply steps_emit); intro s; exact hkey _ _ rfl)
      | ((with_reducible apply steps_modify); intro s;
          first | exact hkey _ _ rfl | exact fun h => h)
      | with_reducible apply steps_map
      | with_reducible apply steps_fault
      | with_reducible apply steps_deref _ hr
      | with_reducible apply hP
      | with_reducible apply steps_of_keeps _ Stream.core _ (core_SetDetectedToEngines _) hkey
      | with_reducible apply steps_of_keeps _ Stream.core _ (core_notifyClient env) hkey
      | with_reducible apply steps_of_keeps _ Stream.core _ (core_SendRecognitionConfig env _ _) hkey
      | with_reducible apply steps_of_keeps _ Stream.core _ (core_forEngines env _ _ _) hkey
      | with_reducible apply steps_of_keeps _ Stream.core _ (core_stopDevice env _) hkey
      | with_reducible apply steps_of_keeps _ Stream.core _ (core_StActive_switchDevice env _ _) hkey
      | with_reducible apply steps_of_keeps _ Stream.core _ (core_GetAvailCaptureDevice env) hkey
      | with_reducible apply steps_of_keeps _ Stream.core _ (core_GetCurrentCaptureProfile env) hkey
      | dsimp only []
      | split
      | simp only []

theorem record_StDetected (env : Env) (ProcessInternalEvent : StEventConfig → M Int)
    (hP : ∀ ev, Steps KeepsRecord (ProcessInternalEvent ev))
    (ev_cfg : StEventConfig) :
    Steps KeepsRecord (StDetected.ProcessEvent env ProcessInternalEvent ev_cfg) := by
  have hr : ∀ s : Stream, KeepsRecord s s := fun _ h => h
  have ht : ∀ a b c : Stream, KeepsRecord a b → KeepsRecord b c → KeepsRecord a c :=
    fun _ _ _ h1 h2 h => h2 (h1 h)
  have hkey : ∀ s s2 : Stream, s2.core = s.core → KeepsRecord s s2 := by
    intro s s2 h h0
    simp only [Stream.core, Prod.mk.injEq] at h
    rw [h.2.2.1]
    exact h0
  cases ev_cfg
  all_goals
    unfold StDetected.ProcessEvent
    try unfold StDetected.stop
    try unfold TransitTo
    try unfold GetCurrentStateId
    try unfold CancelDelayedStop
    try unfold PostDelayedStop
    repeat' first
      | with_reducible apply steps_bind _ ht
      | intro _
      | with_reducible apply steps_pure _ hr
      | with_reducible apply steps_ite
      | with_reducible apply steps_get _ hr
      | ((with_reducible apply steps_call); intro s; exact hkey _ _ rfl)
      | ((with_reducible apply steps_ask); intro s; exact hkey _ _ rfl)
      | ((with_reducible apply steps_emit); intro s; exact hkey _ _ rfl)
      | ((with_reducible apply steps_modify); intro s;
          first | exact hkey _ _ rfl | exact fun h => h)
      | with_reducible apply steps_map
      | with_reducible apply steps_fault
      | with_reducible apply steps_deref _ hr
      | with_reducible apply hP
      | with_reducible apply steps_of_keeps _ Stream.core _ (core_forEngines env _ _ _) hkey
      | with_reducible apply steps_of_keeps _ Stream.core _ (core_stopDevice env _) hkey
      | dsimp only []
      | split
      | simp only []

theorem record_StBuffering (env : Env) (ProcessInternalEvent : StEventConfig → M Int)
    (hP : ∀ ev, Steps KeepsRecord (ProcessInternalEvent ev))
    (ev_cfg : StEventConfig) :
    Steps KeepsRecord (StBuffering.ProcessEvent env ProcessInternalEvent ev_cfg) := by
  have hr : ∀ s : Stream, KeepsRecord s s := fun _ h => h
  have ht : ∀ a b c : Stream, KeepsRecord a b → KeepsRecord b c → KeepsRecord a c :=
    fun _ _ _ h1 h2 h => h2 (h1 h)
  have hkey : ∀ s s2 : Stream, s2.core = s.core → KeepsRecord s s2 := by
    intro s s2 h h0
    simp only [Stream.core, Prod.mk.injEq] at h
    rw [h.2.2.1]
    exact h0
  cases ev_cfg
  all_goals
    unfold StBuffering.ProcessEvent
    try unfold StBuffering.stop
    try unfold StBuffering.stopForDevice
    try unfold TransitTo
    try unfold GetCurrentStateId
    try unfold CancelDelayedStop
    try unfold PostDelayedStop
    repeat' first
      | with_reducible apply steps_bind _ ht
      | intro _
      | with_reducible apply steps_pure _ hr
      | with_reducible apply steps_ite
      | with_reducible apply steps_get _ hr
      | ((with_reducible apply steps_call); intro s; exact hkey _ _ rfl)
      | ((with_reducible apply steps_ask); intro s; exact hkey _ _ rfl)
      | ((with_reducible apply steps_emit); intro s; exact hkey _ _ rfl)
      | ((with_reducible apply steps_modify); intro s;
          first | exact hkey _ _ rfl | exact fun h => h)
      | with_reducible apply steps_map
      | with_reducible apply steps_fault
      | with_reducible apply steps_deref _ hr
      | with_reducible apply hP
      | with_reducible apply steps_of_keeps _ Stream.core _ (core_forEngines env _ _ _) hkey
      | with_reducible apply steps_of_keeps _ Stream.core _ (core_forEnginesBreak env _ _ _) hkey
      | with_reducible apply steps_of_keeps _ Stream.core _ (core_stopDevice env _) hkey
      | with_reducible apply steps_of_keeps _ Stream.core _ (core_stopBuffering env _) hkey
      | with_reducible apply steps_of_keeps _ Stream.core _ (core_stopDevices env _ _) hkey
      | with_reducible apply steps_of_keeps _ Stream.core _ (core_notifyClient env) hkey
      | dsimp only []
      | split
      | simp only []

/-- The handlers of Idle and SSR keep a platform record that is there, and leave
the two states only with a platform record set. -/
theorem recordAtWork_StIdle (env : Env) (ev_cfg : StEventConfig) :
    Steps RecordAtWork (StIdle.ProcessEvent env ev_cfg) := by
  have hr : ∀ s : Stream, RecordAtWork s s := fun _ => ⟨fun h => h, fun h => Or.inl h⟩
  have ht : ∀ a b c : Stream, RecordAtWork a b → RecordAtWork b c → RecordAtWork a c :=
    fun _ _ _ h1 h2 => ⟨fun h => h2.1 (h1.1 h), fun h =>
      (h1.2 h).elim (fun hq => h2.2 hq) (fun hp => Or.inr (h2.1 hp))⟩
  have hkey : ∀ s s2 : Stream, s2.core = s.core → RecordAtWork s s2 := by
    intro s s2 h
    simp only [Stream.core, Prod.mk.injEq] at h
    refine ⟨fun h0 => by rw [h.2.2.1]; exact h0, fun hU => Or.inl ?_⟩
    unfold Unloaded at hU ⊢
    rw [h.1]
    exact hU
  cases ev_cfg
  all_goals first
    | exact steps_of_ensures _ (fun s => s.sm_info_ ≠ none) _ (Load_in_Idle_sm_info env _ _)
        (fun _ _ h => ⟨fun _ => h, fun _ => Or.inr h⟩)
    | skip
  all_goals
    unfold StIdle.ProcessEvent
    try unfold TransitTo
    try unfold GetCurrentStateId
    try unfold CancelDelayedStop
    try unfold PostDelayedStop
    repeat' first
      | with_reducible apply steps_bind _ ht
      | intro _
      | with_reducible apply steps_pure _ hr
      | with_reducible apply steps_ite
      | with_reducible apply steps_get _ hr
      | ((with_reducible apply steps_call); intro s; exact hkey _ _ rfl)
      | ((with_reducible apply steps_ask); intro s; exact hkey _ _ rfl)
      | ((with_reducible apply steps_emit); intro s; exact hkey _ _ rfl)
      | ((with_reducible apply steps_modify); intro s;
          first | exact hkey _ _ rfl | exact ⟨fun h => h, fun h => Or.inl h⟩ | exact ⟨fun h => h, fun _ => Or.inl (Or.inl rfl)⟩ | exact ⟨fun h => h, fun _ => Or.inl (Or.inr rfl)⟩)
      | with_reducible apply steps_map
      | with_reducible apply steps_fault
      | with_reducible apply steps_deref _ hr
      | with_reducible apply steps_of_keeps _ Stream.core _ (core_GetAvailCaptureDevice env) hkey
      | with_reducible apply steps_of_keeps _ Stream.core _ (core_GetQalDevice env _) hkey
      | with_reducible apply steps_of_keeps _ Stream.core _ (core_GetCurrentCaptureProfile env) hkey
      | with_reducible apply steps_of_keeps _ Stream.core _ (core_updateDevice env _) hkey
      | dsimp only []
      | split
      | simp only []

theorem recordAtWork_StSSR (env : Env) (ProcessInternalEvent : StEventConfig → M Int)
    (hP : ∀ ev, Steps RecordAtWork (ProcessInternalEvent ev))
    (ev_cfg : StEventConfig) :
    Steps RecordAtWork (StSSR.ProcessEvent env ProcessInternalEvent ev_cfg) := by
  have hr : ∀ s : Stream, RecordAtWork s s := fun _ => ⟨fun h => h, fun h => Or.inl h⟩
  have ht : ∀ a b c : Stream, RecordAtWork a b → RecordAtWork b c → RecordAtWork a c :=
    fun _ _ _ h1 h2 => ⟨fun h => h2.1 (h1.1 h), fun h =>
      (h1.2 h).elim (fun hq => h2.2 hq) (fun hp => Or.inr (h2.1 hp))⟩
  have hkey : ∀ s s2 : Stream, s2.core = s.core → RecordAtWork s s2 := by
    intro s s2 h
    simp only [Stream.core, Prod.mk.injEq] at h
    refine ⟨fun h0 => by rw [h.2.2.1]; exact h0, fun hU => Or.inl ?_⟩
    unfold Unloaded at hU ⊢
    rw [h.1]
    exact hU
  cases ev_cfg
  all_goals
    unfold StSSR.ProcessEvent
    try unfold TransitTo
    try unfold GetCurrentStateId
    try unfold CancelDelayedStop
    try unfold PostDelayedStop
    repeat' first
      | with_reducible apply steps_bind _ ht
      | intro _
      | with_reducible apply steps_pure _ hr
      | with_reducible apply steps_ite
      | with_reducible apply steps_get _ hr
      | ((with_reducible apply steps_call); intro s; exact hkey _ _ rfl)
      | ((with_reducible apply steps_ask); intro s; exact hkey _ _ rfl)
      | ((with_reducible apply steps_emit); intro s; exact hkey _ _ rfl)
      | ((with_reducible apply steps_modify); intro s;
          first | exact hkey _ _ rfl | exact ⟨fun h => h, fun h => Or.inl h⟩ | exact ⟨fun h => h, fun _ => Or.inl (Or.inl rfl)⟩ | exact ⟨fun h => h, fun _ => Or.inl (Or.inr rfl)⟩)
      | with_reducible apply steps_map
      | with_reducible apply steps_fault
      | with_reducible apply steps_deref _ hr
      | with_reducible apply hP
      | with_reducible apply steps_of_keeps _ Stream.core _ (core_SendRecognitionConfig env _ _) hkey
      | with_reducible apply steps_of_keeps _ Stream.core _ (core_UpdateSoundModel env _ _) hkey
      | with_reducible apply steps_of_keeps _ Stream.core _ (core_UpdateRecognitionConfig env _ _) hkey
      | dsimp only []
      | split
      | simp only []

/-- Every event keeps a platform record that is there, and takes a stream without
a sound model to a stream without one or to a stream that has a platform
record. -/
theorem recordAtWork_ProcessEvent (env : Env) (fuel : Nat) :
    ∀ ev_cfg : StEventConfig, Steps RecordAtWork (ProcessEvent env fuel ev_cfg) := by
  induction fuel with
  | zero =>
    intro ev_cfg
    unfold ProcessEvent
    apply steps_fault
  | succ n ih =>
    intro ev_cfg
    have ihW : ∀ ev, Steps KeepsRecord (ProcessEvent env n ev) :=
      fun ev => (ih ev).mono (fun _ _ h => h.1)
    constructor
    intro s a s2 h
    unfold ProcessEvent at h
    simp only [run_bind, run_get, Option.some_bind] at h
    have hnu : ∀ x : st_state_id_t, s.cur_state_ = x → x ≠ ST_STATE_IDLE → x ≠ ST_STATE_SSR →
        ¬ Unloaded s := by
      intro x hx h1 h2 hq
      unfold Unloaded at hq
      rw [hx] at hq
      rcases hq with hq | hq
      · exact h1 hq
      · exact h2 hq
    cases hc : s.cur_state_ <;> simp only [hc] at h
    · simp at h
    · exact (recordAtWork_StIdle env ev_cfg).step s a s2 h
    · exact ⟨(record_StLoaded env _ ihW ev_cfg).step s a s2 h,
        fun hq => absurd hq (hnu _ hc (by decide) (by decide))⟩
    · exact ⟨(record_StActive env _ ihW ev_cfg).step s a s2 h,
        fun hq => absurd hq (hnu _ hc (by decide) (by decide))⟩
    · exact ⟨(record_StDetected env _ ihW ev_cfg).step s a s2 h,
        fun hq => absurd hq (hnu _ hc (by decide) (by decide))⟩
    · exact ⟨(record_StBuffering env _ ihW ev_cfg).step s a s2 h,
        fun hq => absurd hq (hnu _ hc (by decide) (by decide))⟩
    · exact (recordAtWork_StSSR env _ ih ev_cfg).step s a s2 h

/-! ## The delayed stop of a stream at rest -/

/-- `LoadSoundModel` does not write the flag of the delayed stop. -/
theorem noStopPosted_LoadSoundModel (env : Env) (sound_model : Option qal_st_sound_model)
    (flag : Bool) : Steps NoStopPosted (LoadSoundModel env sound_model flag) := by
  constructor
  intro s a s2 h h0
  have hk : s2.pending_stop_ = s.pending_stop_ :=
    Keeps.keep (p := fun s : Stream => s.pending_stop_)
      (keeps_LoadSoundModel _ env sound_model flag (fun _ _ _ _ _ _ _ => rfl)) s a s2 h
  rw [hk]
  exact h0

/-- The start of a Loaded stream posts no delayed stop. -/
theorem noStopPosted_StLoaded_start (env : Env) :
    Steps NoStopPosted (StLoaded.start env) := by
  have hr : ∀ s : Stream, NoStopPosted s s := fun _ h => h
  have ht : ∀ a b c : Stream, NoStopPosted a b → NoStopPosted b c → NoStopPosted a c :=
    fun _ _ _ h1 h2 h => h2 (h1 h)
  have hkey : ∀ s s2 : Stream, s2.core = s.core → NoStopPosted s s2 := by
    intro s s2 h h0
    simp only [Stream.core, Prod.mk.injEq] at h
    rw [h.2.1]
    exact h0
  unfold StLoaded.start
  try unfold TransitTo
  try unfold GetCurrentStateId
  try unfold CancelDelayedStop
  try unfold PostDelayedStop
  repeat' first
    | with_reducible apply steps_bind _ ht
    | intro _
    | with_reducible apply steps_pure _ hr
    | with_reducible apply steps_ite
    | with_reducible apply steps_get _ hr
    | ((with_reducible apply steps_call); intro s; exact hkey _ _ rfl)
    | ((with_reducible apply steps_ask); intro s; exact hkey _ _ rfl)
    | ((with_reducible apply steps_emit); intro s; exact hkey _ _ rfl)
    | ((with_reducible apply steps_modify); intro s;
        first | exact hkey _ _ rfl | exact fun h => h | exact fun _ => rfl)
    | with_reducible apply steps_map
    | with_reducible apply steps_fault
    | with_reducible apply steps_deref _ hr
    | with_reducible apply steps_of_keeps _ Stream.core _ (core_startEngines env _ _ _) hkey
    | with_reducible apply steps_of_keeps _ Stream.core _ (core_err_exit env _ _) hkey
    | dsimp only []
    | split
    | simp only []

/-- The handlers of Idle, Loaded and SSR post no delayed stop, whatever the event
(SSR_OFFLINE apart, which is followed on its own). -/
theorem noStopPosted_StIdle (env : Env) (ev_cfg : StEventConfig)
    (hoff : ev_cfg ≠ .ST_EV_SSR_OFFLINE) :
    Steps NoStopPosted (StIdle.ProcessEvent env ev_cfg) := by
  have hr : ∀ s : Stream, NoStopPosted s s := fun _ h => h
  have ht : ∀ a b c : Stream, NoStopPosted a b → NoStopPosted b c → NoStopPosted a c :=
    fun _ _ _ h1 h2 h => h2 (h1 h)
  have hkey : ∀ s s2 : Stream, s2.core = s.core → NoStopPosted s s2 := by
    intro s s2 h h0
    simp only [Stream.core, Prod.mk.injEq] at h
    rw [h.2.1]
    exact h0
  cases ev_cfg
  all_goals first
    | exact absurd rfl hoff
    | skip
  all_goals
    unfold StIdle.ProcessEvent
    try unfold TransitTo
    try unfold GetCurrentStateId
    try unfold CancelDelayedStop
    try unfold PostDelayedStop
    repeat' first
      | with_reducible apply steps_bind _ ht
      | intro _
      | with_reducible apply steps_pure _ hr
      | with_reducible apply steps_ite
      | with_reducible apply steps_get _ hr
      | ((with_reducible apply steps_call); intro s; exact hkey _ _ rfl)
      | ((with_reducible apply steps_ask); intro s; exact hkey _ _ rfl)
      | ((with_reducible apply steps_emit); intro s; exact hkey _ _ rfl)
      | ((with_reducible apply steps_modify); intro s;
          first | exact hkey _ _ rfl | exact fun h => h | exact fun _ => rfl)
      | with_reducible apply steps_map
      | with_reducible apply steps_fault
      | with_reducible apply steps_deref _ hr
      | with_reducible apply steps_of_keeps _ Stream.core _ (core_GetAvailCaptureDevice env) hkey
      | with_reducible apply steps_of_keeps _ Stream.core _ (core_GetQalDevice env _) hkey
      | with_reducible apply steps_of_keeps _ Stream.core _ (core_GetCurrentCaptureProfile env) hkey
      | with_reducible apply steps_of_keeps _ Stream.core _ (core_updateDevice env _) hkey
      | with_reducible apply noStopPosted_LoadSoundModel env
      | dsimp only []
      | split
      | simp only []

theorem noStopPosted_StLoaded (env : Env) (ProcessInternalEvent : StEventConfig → M Int)
    (hP : ∀ ev, ev.arms = false → ev ≠ .ST_EV_SSR_OFFLINE → Steps NoStopPosted (ProcessInternalEvent ev))
    (ev_cfg : StEventConfig)
    (hoff : ev_cfg ≠ .ST_EV_SSR_OFFLINE) :
    Steps NoStopPosted (StLoaded.ProcessEvent env ProcessInternalEvent ev_cfg) := by
  have hr : ∀ s : Stream, NoStopPosted s s := fun _ h => h
  have ht : ∀ a b c : Stream, NoStopPosted a b → NoStopPosted b c → NoStopPosted a c :=
    fun _ _ _ h1 h2 h => h2 (h1 h)
  have hkey : ∀ s s2 : Stream, s2.core = s.core → NoStopPosted s s2 := by
    intro s s2 h h0
    simp only [Stream.core, Prod.mk.injEq] at h
    rw [h.2.1]
    exact h0
  cases ev_cfg
  all_goals first
    | exact absurd rfl hoff
    | skip
  all_goals
    unfold StLoaded.ProcessEvent
    try unfold TransitTo
    try unfold GetCurrentStateId
    try unfold CancelDelayedStop
    try unfold PostDelayedStop
    repeat' first
      | with_reducible apply steps_bind _ ht
      | intro _
      | with_reducible apply steps_pure _ hr
      | with_reducible apply steps_ite
      | with_reducible apply steps_get _ hr
      | ((with_reducible apply steps_call); intro s; exact hkey _ _ rfl)
      | ((with_reducible apply steps_ask); intro s; exact hkey _ _ rfl)
      | ((with_reducible apply steps_emit); intro s; exact hkey _ _ rfl)
      | ((with_reducible apply steps_modify); intro s;
          first | exact hkey _ _ rfl | exact fun h => h | exact fun _ => rfl)
      | with_reducible apply steps_map
      | with_reducible apply steps_fault
      | with_reducible apply steps_deref _ hr
      | ((with_reducible apply hP) <;>
        first | rfl | exact fun h => StEventConfig.noConfusion h)
      | with_reducible apply steps_of_keeps _ Stream.core _ (core_unloadEngines env _ _ _) hkey
      | with_reducible apply steps_of_keeps _ Stream.core _ (core_SendRecognitionConfig env _ _) hkey
      | with_reducible apply steps_of_keeps _ Stream.core _ (core_StLoaded_switchDevice env _) hkey
      | with_reducible apply steps_of_keeps _ Stream.core _ (core_GetAvailCaptureDevice env) hkey
      | with_reducible apply steps_of_keeps _ Stream.core _ (core_GetCurrentCaptureProfile env) hkey
      | with_reducible apply noStopPosted_StLoaded_start env
      | dsimp only []
      | split
      | simp only []

theorem noStopPosted_StSSR (env : Env) (ProcessInternalEvent : StEventConfig → M Int)
    (hP : ∀ ev, ev.arms = false → ev ≠ .ST_EV_SSR_OFFLINE → Steps NoStopPosted (ProcessInternalEvent ev))
    (ev_cfg : StEventConfig)
    (hoff : ev_cfg ≠ .ST_EV_SSR_OFFLINE) :
    Steps NoStopPosted (StSSR.ProcessEvent env ProcessInternalEvent ev_cfg) := by
  have hr : ∀ s : Stream, NoStopPosted s s := fun _ h => h
  have ht : ∀ a b c : Stream, NoStopPosted a b → NoStopPosted b c → NoStopPosted a c :=
    fun _ _ _ h1 h2 h => h2 (h1 h)
  have hkey : ∀ s s2 : Stream, s2.core = s.core → NoStopPosted s s2 := by
    intro s s2 h h0
    simp only [Stream.core, Prod.mk.injEq] at h
    rw [h.2.1]
    exact h0
  cases ev_cfg
  all_goals first
    | exact absurd rfl hoff
    | skip
  all_goals
    unfold StSSR.ProcessEvent
    try unfold TransitTo
    try unfold GetCurrentStateId
    try unfold CancelDelayedStop
    try unfold PostDelayedStop
    repeat' first
      | with_reducible apply steps_bind _ ht
      | intro _
      | with_reducible apply steps_pure _ hr
      | with_reducible apply steps_ite
      | with_reducible apply steps_get _ hr
      | ((with_reducible apply steps_call); intro s; exact hkey _ _ rfl)
      | ((with_reducible apply steps_ask); intro s; exact hkey _ _ rfl)
      | ((with_reducible apply steps_emit); intro s; exact hkey _ _ rfl)
      | ((with_reducible apply steps_modify); intro s;
          first | exact hkey _ _ rfl | exact fun h => h | exact fun _ => rfl)
      | with_reducible apply steps_map
      | with_reducible apply steps_fault
      | with_reducible apply steps_deref _ hr
      | ((with_reducible apply hP) <;>
        first | rfl | exact fun h => StEventConfig.noConfusion h)
      | with_reducible apply steps_of_keeps _ Stream.core _ (core_SendRecognitionConfig env _ _) hkey
      | with_reducible apply steps_of_keeps _ Stream.core _ (core_UpdateSoundModel env _ _) hkey
      | with_reducible apply steps_of_keeps _ Stream.core _ (core_UpdateRecognitionConfig env _ _) hkey
      | dsimp only []
      | split
      | simp only []

/-- The handlers of Active, Detected and Buffering post no delayed stop on an event
that is neither a detection nor STOP_BUFFERING. -/
theorem noStopPosted_StActive (env : Env) (ProcessInternalEvent : StEventConfig → M Int)
    (hP : ∀ ev, ev.arms = false → ev ≠ .ST_EV_SSR_OFFLINE → Steps NoStopPosted (ProcessInternalEvent ev))
    (ev_cfg : StEventConfig)
    (ha : ev_cfg.arms = false)
    (hoff : ev_cfg ≠ .ST_EV_SSR_OFFLINE) :
    Steps NoStopPosted (StActive.ProcessEvent env ProcessInternalEvent ev_cfg) := by
  have hr : ∀ s : Stream, NoStopPosted s s := fun _ h => h
  have ht : ∀ a b c : Stream, NoStopPosted a b → NoStopPosted b c → NoStopPosted a c :=
    fun _ _ _ h1 h2 h => h2 (h1 h)
  have hkey : ∀ s s2 : Stream, s2.core = s.core → NoStopPosted s s2 := by
    intro s s2 h h0
    simp only [Stream.core, Prod.mk.injEq] at h
    rw [h.2.1]
    exact h0
  cases ev_cfg
  all_goals first
    | exact absurd rfl hoff
    | exact Bool.noConfusion ha
    | skip
  all_goals
    unfold StActive.ProcessEvent
    try unfold StActive.stop
    try unfold TransitTo
    try unfold GetCurrentStateId
    try unfold CancelDelayedStop
    try unfold PostDelayedStop
    repeat' first
      | with_reducible apply steps_bind _ ht
      | intro _
      | with_reducible apply steps_pure _ hr
      | with_reducible apply steps_ite
      | with_reducible apply steps_get _ hr
      | ((with_reducible apply steps_call); intro s; exact hkey _ _ rfl)
      | ((with_reducible apply steps_ask); intro s; exact hkey _ _ rfl)
      | ((with_reducible apply steps_emit); intro s; exact hkey _ _ rfl)
      | ((with_reducible apply steps_modify); intro s;
          first | exact hkey _ _ rfl | exact fun h => h | exact fun _ => rfl)
      | with_reducible apply steps_map
      | with_reducible apply steps_fault
      | with_reducible apply steps_deref _ hr
      | ((with_reducible apply hP) <;>
        first | rfl | exact fun h => StEventConfig.noConfusion h)
      | with_reducible apply steps_of_keeps _ Stream.core _ (core_SetDetectedToEngines _) hkey
      | with_reducible apply steps_of_keeps _ Stream.core _ (core_notifyClient env) hkey
      | with_reducible apply steps_of_keeps _ Stream.core _ (core_SendRecognitionConfig env _ _) hkey
      | with_reducible apply steps_of_keeps _ Stream.core _ (core_forEngines env _ _ _) hkey
      | with_reducible apply steps_of_keeps _ Stream.core _ (core_stopDevice env _) hkey
      | with_reducible apply steps_of_keeps _ Stream.core _ (core_StActive_switchDevice env _ _) hkey
      | with_reducible apply steps_of_keeps _ Stream.core _ (core_GetAvailCaptureDevice env) hkey
      | with_reducible apply steps_of_keeps _ Stream.core _ (core_GetCurrentCaptureProfile env) hkey
      | dsimp only []
      | split
      | simp only []

theorem noStopPosted_StDetected (env : Env) (ProcessInternalEvent : StEventConfig → M Int)
    (hP : ∀ ev, ev.arms = false → ev ≠ .ST_EV_SSR_OFFLINE → Steps NoStopPosted (ProcessInternalEvent ev))
    (ev_cfg : StEventConfig)
    (ha : ev_cfg.arms = false)
    (hoff : ev_cfg ≠ .ST_EV_SSR_OFFLINE) :
    Steps NoStopPosted (StDetected.ProcessEvent env ProcessInternalEvent ev_cfg) := by
  have hr : ∀ s : Stream, NoStopPosted s s := fun _ h => h
  have ht : ∀ a b c : Stream, NoStopPosted a b → NoStopPosted b c → NoStopPosted a c :=
    fun _ _ _ h1 h2 h => h2 (h1 h)
  have hkey : ∀ s s2 : Stream, s2.core = s.core → NoStopPosted s s2 := by
    intro s s2 h h0
    simp only [Stream.core, Prod.mk.injEq] at h
    rw [h.2.1]
    exact h0
  cases ev_cfg
  all_goals first
    | exact absurd rfl hoff
    | exact Bool.noConfusion ha
    | skip
  all_goals
    unfold StDetected.ProcessEvent
    try unfold StDetected.stop
    try unfold TransitTo
    try unfold GetCurrentStateId
    try unfold CancelDelayedStop
    try unfold PostDelayedStop
    repeat' first
      | with_reducible apply steps_bind _ ht
      | intro _
      | with_reducible apply steps_pure _ hr
      | with_reducible apply steps_ite
      | with_reducible apply steps_get _ hr
      | ((with_reducible apply steps_call); intro s; exact hkey _ _ rfl)
      | ((with_reducible apply steps_ask); intro s; exact hkey _ _ rfl)
      | ((with_reducible apply steps_emit); intro s; exact hkey _ _ rfl)
      | ((with_reducible apply steps_modify); intro s;
          first | exact hkey _ _ rfl | exact fun h => h | exact fun _ => rfl)
      | with_reducible apply steps_map
      | with_reducible apply steps_fault
      | with_reducible apply steps_deref _ hr
      | ((with_reducible apply hP) <;>
        first | rfl | exact fun h => StEventConfig.noConfusion h)
      | with_reducible apply steps_of_keeps _ Stream.core _ (core_forEngines env _ _ _) hkey
      | with_reducible apply steps_of_keeps _ Stream.core _ (core_stopDevice env _) hkey
      | dsimp only []
      | split
      | simp only []

theorem noStopPosted_StBuffering (env : Env) (ProcessInternalEvent : StEventConfig → M Int)
    (hP : ∀ ev, ev.arms = false → ev ≠ .ST_EV_SSR_OFFLINE → Steps NoStopPosted (ProcessInternalEvent ev))
    (ev_cfg : StEventConfig)
    (ha : ev_cfg.arms = false)
    (hoff : ev_cfg ≠ .ST_EV_SSR_OFFLINE) :
    Steps NoStopPosted (StBuffering.ProcessEvent env ProcessInternalEvent ev_cfg) := by
  have hr : ∀ s : Stream, NoStopPosted s s := fun _ h => h
  have ht : ∀ a b c : Stream, NoStopPosted a b → NoStopPosted b c → NoStopPosted a c :=
    fun _ _ _ h1 h2 h => h2 (h1 h)
  have hkey : ∀ s s2 : Stream, s2.core = s.core → NoStopPosted s s2 := by
    intro s s2 h h0
    simp only [Stream.core, Prod.mk.injEq] at h
    rw [h.2.1]
    exact h0
  cases ev_cfg
  all_goals first
    | exact absurd rfl hoff
    | exact Bool.noConfusion ha
    | skip
  all_goals
    unfold StBuffering.ProcessEvent
    try unfold StBuffering.stop
    try unfold StBuffering.stopForDevice
    try unfold TransitTo
    try unfold GetCurrentStateId
    try unfold CancelDelayedStop
    try unfold PostDelayedStop
    repeat' first
      | with_reducible apply steps_bind _ ht
      | intro _
      | with_reducible apply steps_pure _ hr
      | with_reducible apply steps_ite
      | with_reducible apply steps_get _ hr
      | ((with_reducible apply steps_call); intro s; exact hkey _ _ rfl)
      | ((with_reducible apply steps_ask); intro s; exact hkey _ _ rfl)
      | ((with_reducible apply steps_emit); intro s; exact hkey _ _ rfl)
      | ((with_reducible apply steps_modify); intro s;
          first | exact hkey _ _ rfl | exact fun h => h | exact fun _ => rfl)
      | with_reducible apply steps_map
      | with_reducible apply steps_fault
      | with_reducible apply steps_deref _ hr
      | ((with_reducible apply hP) <;>
        first | rfl | exact fun h => StEventConfig.noConfusion h)
      | with_reducible apply steps_of_keeps _ Stream.core _ (core_forEngines env _ _ _) hkey
      | with_reducible apply steps_of_keeps _ Stream.core _ (core_forEnginesBreak env _ _ _) hkey
      | with_reducible apply steps_of_keeps _ Stream.core _ (core_stopDevice env _) hkey
      | with_reducible apply steps_of_keeps _ Stream.core _ (core_stopBuffering env _) hkey
      | with_reducible apply steps_of_keeps _ Stream.core _ (core_stopDevices env _ _) hkey
      | with_reducible apply steps_of_keeps _ Stream.core _ (core_notifyClient env) hkey
      | dsimp only []
      | split
      | simp only []

/-- An event that is neither a detection nor STOP_BUFFERING, nor SSR_OFFLINE,
posts no delayed stop, in whatever state the stream is. -/
theorem noStopPosted_ProcessEvent (env : Env) (fuel : Nat) :
    ∀ ev_cfg : StEventConfig, ev_cfg.arms = false → ev_cfg ≠ .ST_EV_SSR_OFFLINE →
      Steps NoStopPosted (ProcessEvent env fuel ev_cfg) := by
  induction fuel with
  | zero =>
    intro ev_cfg _ _
    unfold ProcessEvent
    apply steps_fault
  | succ n ih =>
    intro ev_cfg ha hoff
    constructor
    intro s a s2 h
    unfold ProcessEvent at h
    simp only [run_bind, run_get, Option.some_bind] at h
    cases hc : s.cur_state_ <;> simp only [hc] at h
    · simp at h
    · exact (noStopPosted_StIdle env ev_cfg hoff).step s a s2 h
    · exact (noStopPosted_StLoaded env _ ih ev_cfg hoff).step s a s2 h
    · exact (noStopPosted_StActive env _ ih ev_cfg ha hoff).step s a s2 h
    · exact (noStopPosted_StDetected env _ ih ev_cfg ha hoff).step s a s2 h
    · exact (noStopPosted_StBuffering env _ ih ev_cfg ha hoff).step s a s2 h
    · exact (noStopPosted_StSSR env _ ih ev_cfg hoff).step s a s2 h

/-- An event other than SSR_OFFLINE posts no delayed stop in Idle, Loaded and
SSR. -/
theorem noStopPosted_at_rest (env : Env) (fuel : Nat) (ev_cfg : StEventConfig)
    (hoff : ev_cfg ≠ .ST_EV_SSR_OFFLINE) (s : Stream) (a : Int) (s2 : Stream)
    (hc : s.cur_state_ = ST_STATE_IDLE ∨ s.cur_state_ = ST_STATE_LOADED ∨
      s.cur_state_ = ST_STATE_SSR)
    (h : ProcessEvent env fuel ev_cfg s = some (a, s2)) : NoStopPosted s s2 := by
  cases fuel with
  | zero => simp [ProcessEvent, fault] at h
  | succ n =>
    unfold ProcessEvent at h
    simp only [run_bind, run_get, Option.some_bind] at h
    rcases hc with hc | hc | hc <;> simp only [hc] at h
    · exact (noStopPosted_StIdle env ev_cfg hoff).step s a s2 h
    · exact (noStopPosted_StLoaded env _ (noStopPosted_ProcessEvent env n) ev_cfg hoff).step
        s a s2 h
    · exact (noStopPosted_StSSR env _ (noStopPosted_ProcessEvent env n) ev_cfg hoff).step
        s a s2 h

/-! ## Detections and the delayed stop -/

/-- After `CancelDelayedStop` and steps that post no delayed stop, none is
pending. -/
theorem cancelled_bind {α : Type} (f : PUnit → M α)
    (h : ∀ u, Steps NoStopPosted (f u)) :
    Ensures (fun (_ : α) (s : Stream) => s.pending_stop_ = false) (CancelDelayedStop >>= f) := by
  constructor
  intro s a s2 hrun
  simp only [CancelDelayedStop, run_bind, run_modify, run_emit, Option.some_bind, emit,
    bind_assoc] at hrun
  exact (h _).step _ a s2 hrun rfl

/-- The events that StDetected handles by leaving the state: no delayed stop is
pending after them. -/
theorem cancelled_StDetected (env : Env) (ProcessInternalEvent : StEventConfig → M Int)
    (hP : ∀ ev, ev.arms = false → ev ≠ .ST_EV_SSR_OFFLINE →
      Steps NoStopPosted (ProcessInternalEvent ev))
    (ev_cfg : StEventConfig) (hl : ev_cfg.leavesDetected = true) :
    Ensures (fun (_ : Int) (s : Stream) => s.pending_stop_ = false)
      (StDetected.ProcessEvent env ProcessInternalEvent ev_cfg) := by
  have hr : ∀ s : Stream, NoStopPosted s s := fun _ h => h
  have ht : ∀ a b c : Stream, NoStopPosted a b → NoStopPosted b c → NoStopPosted a c :=
    fun _ _ _ h1 h2 h => h2 (h1 h)
  have hkey : ∀ s s2 : Stream, s2.core = s.core → NoStopPosted s s2 := by
    intro s s2 h h0
    simp only [Stream.core, Prod.mk.injEq] at h
    rw [h.2.1]
    exact h0
  cases ev_cfg
  all_goals first
    | exact Bool.noConfusion hl
    | skip
  all_goals
    unfold StDetected.ProcessEvent
    dsimp only []
    try unfold StDetected.stop
    with_reducible apply cancelled_bind
    intro _
    try unfold TransitTo
    try unfold CancelDelayedStop
    repeat' first
      | with_reducible apply steps_bind _ ht
      | intro _
      | with_reducible apply steps_pure _ hr
      | with_reducible apply steps_ite
      | with_reducible apply steps_get _ hr
      | ((with_reducible apply steps_call); intro s; exact hkey _ _ rfl)
      | ((with_reducible apply steps_ask); intro s; exact hkey _ _ rfl)
      | ((with_reducible apply steps_emit); intro s; exact hkey _ _ rfl)
      | ((with_reducible apply steps_modify); intro s;
          first | exact hkey _ _ rfl | exact fun h => h | exact fun _ => rfl)
      | with_reducible apply steps_map
      | with_reducible apply steps_fault
      | with_reducible apply steps_deref _ hr
      | ((with_reducible apply hP) <;>
          first | rfl | exact fun h => StEventConfig.noConfusion h)
      | with_reducible apply steps_of_keeps _ Stream.core _ (core_forEngines env _ _ _) hkey
      | with_reducible apply steps_of_keeps _ Stream.core _ (core_stopDevice env _) hkey
      | dsimp only []
      | split
      | simp only []

/-- The other events, SSR_OFFLINE apart, leave a Detected stream as it is in the
state, the delayed stop, the platform record and the engines. -/
theorem core_StDetected_stays (env : Env) (ProcessInternalEvent : StEventConfig → M Int)
    (ev_cfg : StEventConfig) (hl : ev_cfg.leavesDetected = false)
    (hoff : ev_cfg ≠ .ST_EV_SSR_OFFLINE) :
    Keeps Stream.core (StDetected.ProcessEvent env ProcessInternalEvent ev_cfg) := by
  cases ev_cfg
  all_goals first
    | exact Bool.noConfusion hl
    | exact absurd rfl hoff
    | skip
  all_goals
    unfold StDetected.ProcessEvent
    repeat' first
      | with_reducible apply keeps_bind
      | intro _
      | with_reducible apply keeps_pure
      | ((with_reducible apply keeps_modify); intro s; rfl)
      | dsimp only []
      | simp only []

/-- The notification of the client leaves the cached recognition config alone. -/
theorem notifyClient_keeps_config (env : Env) :
    Keeps (fun s : Stream => s.rec_config_) (notifyClient env) := by
  unfold notifyClient GenerateCallbackEvent
  repeat' first
    | with_reducible apply keeps_bind
    | with_reducible apply keeps_pure
    | with_reducible apply keeps_map
    | with_reducible apply keeps_get
    | with_reducible apply keeps_fault
    | with_reducible apply keeps_deref
    | ((with_reducible apply keeps_modify); intro s; rfl)
    | ((with_reducible apply keeps_call); intro s t; rfl)
    | ((with_reducible apply keeps_ask); intro s t; rfl)
    | ((with_reducible apply keeps_emit); intro s t; rfl)
    | with_reducible apply keeps_ite
    | intro _
    | dsimp only []
    | split
    | simp only []

/-- A run of a sequence that returns is a run of its first step that returns,
followed by a run of the rest. -/
theorem run_bind_eq_some {α β : Type} (m : M α) (f : α → M β) (s : Stream) (b : β) (s2 : Stream)
    (h : (m >>= f) s = some (b, s2)) :
    ∃ a s1, m s = some (a, s1) ∧ f a s1 = some (b, s2) := by
  rw [run_bind] at h
  obtain ⟨⟨a, s1⟩, h1, h2⟩ := Option.bind_eq_some.1 h
  exact ⟨a, s1, h1, h2⟩

/-- `TransitTo` to a state other than NONE. -/
theorem TransitTo_run (state_id : st_state_id_t) (hn : state_id ≠ ST_STATE_NONE) (s : Stream) :
    TransitTo state_id s =
      some ((), { s with prev_state_ := some s.cur_state_, cur_state_ := state_id }) := by
  simp [TransitTo, hn]

/-- A detection in Active, no delayed stop pending: if one is pending afterwards,
the stream is in Detected. -/
theorem Detected_in_Active (env : Env) (ProcessInternalEvent : StEventConfig → M Int)
    (det : Nat) (s : Stream) (a : Int) (s2 : Stream) (hp : s.pending_stop_ = false)
    (h : StActive.ProcessEvent env ProcessInternalEvent (.ST_EV_DETECTED det) s = some (a, s2)) :
    s2.pending_stop_ = true → s2.cur_state_ = ST_STATE_DETECTED := by
  unfold StActive.ProcessEvent at h
  simp only [] at h
  split at h
  · simp only [run_pure, Option.some.injEq, Prod.mk.injEq] at h
    rw [← h.2, hp]
    intro hc
    exact Bool.noConfusion hc
  · simp only [run_bind, run_pure, run_get, Option.some_bind] at h
    cases hrc : s.rec_config_ with
    | none => simp [hrc] at h
    | some rc =>
      simp only [hrc, run_deref_some, Option.some_bind] at h
      split at h
      · simp only [TransitTo_run _ (by decide : ST_STATE_DETECTED ≠ ST_STATE_NONE),
          GetCurrentStateId, PostDelayedStop, run_bind, run_modify, run_get,
          run_pure, run_emit, Option.some_bind, bind_assoc, pure_bind, ↓reduceIte] at h
        have hk := Keeps.keep (p := Stream.core) ?_ _ a s2 h
        · simp only [Stream.core, Prod.mk.injEq] at hk
          intro _
          exact hk.1
        · repeat' first
            | with_reducible apply core_notifyClient env
            | with_reducible apply keeps_bind
            | with_reducible apply keeps_pure
            | intro _
            | split
      · rw [run_bind, TransitTo_run _ (by decide : ST_STATE_BUFFERING ≠ ST_STATE_NONE),
          Option.some_bind] at h
        have hk := Keeps.keep (p := Stream.core) ?_ _ a s2 h
        · simp only [Stream.core, Prod.mk.injEq] at hk
          rw [hk.2.1, hp]
          intro hc
          exact Bool.noConfusion hc
        · repeat' first
            | with_reducible apply core_notifyClient env
            | with_reducible apply core_SetDetectedToEngines
            | with_reducible apply keeps_bind
            | with_reducible apply keeps_pure
            | with_reducible apply keeps_get
            | intro _
            | split

/-- A detection in Buffering, no delayed stop pending: if one is pending
afterwards, the stream is in Detected. -/
theorem Detected_in_Buffering (env : Env) (ProcessInternalEvent : StEventConfig → M Int)
    (det : Nat) (s : Stream) (a : Int) (s2 : Stream) (hp : s.pending_stop_ = false)
    (h : StBuffering.ProcessEvent env ProcessInternalEvent (.ST_EV_DETECTED det) s = some (a, s2)) :
    s2.pending_stop_ = true → s2.cur_state_ = ST_STATE_DETECTED := by
  have hr : ∀ s : Stream, NoStopPosted s s := fun _ h => h
  have ht : ∀ a b c : Stream, NoStopPosted a b → NoStopPosted b c → NoStopPosted a c :=
    fun _ _ _ h1 h2 h => h2 (h1 h)
  have hkey : ∀ s s2 : Stream, s2.core = s.core → NoStopPosted s s2 := by
    intro s s2 h h0
    simp only [Stream.core, Prod.mk.injEq] at h
    rw [h.2.1]
    exact h0
  have hf : ∀ x : Stream, x.pending_stop_ = false →
      x.pending_stop_ = true → x.cur_state_ = ST_STATE_DETECTED := by
    intro x h1 h2
    rw [h1] at h2
    exact Bool.noConfusion h2
  unfold StBuffering.ProcessEvent at h
  simp only [] at h
  split at h
  · simp only [run_pure, Option.some.injEq, Prod.mk.injEq] at h
    rw [← h.2]
    exact hf s hp
  · rw [run_bind, run_pure, Option.some_bind] at h
    split at h
    · refine hf s2 (Steps.step (R := NoStopPosted) ?_ s a s2 h hp)
      unfold TransitTo
      repeat' first
        | with_reducible apply steps_bind _ ht
        | intro _
        | with_reducible apply steps_pure _ hr
        | with_reducible apply steps_get _ hr
        | ((with_reducible apply steps_modify); intro s;
            first | exact hkey _ _ rfl | exact fun h => h)
        | with_reducible apply steps_of_keeps _ Stream.core _ (core_stopBuffering env _) hkey
        | with_reducible apply steps_of_keeps _ Stream.core _ (core_forEnginesBreak env _ _ _) hkey
        | split
    · simp only [run_bind, run_pure, run_modify, run_get, Option.some_bind] at h
      split at h
      · simp only [run_bind, run_pure, run_modify, run_get, Option.some_bind] at h
        cases hrc : s.rec_config_ with
        | none => simp [hrc] at h
        | some rc =>
          simp only [hrc, run_deref_some, Option.some_bind] at h
          split at h
          · obtain ⟨r, s3, h1, h2⟩ := run_bind_eq_some _ _ _ _ _ h
            have hk3 := (core_stopBuffering env 0).keep _ _ _ h1
            rw [run_bind, TransitTo_run _ (by decide : ST_STATE_DETECTED ≠ ST_STATE_NONE),
              Option.some_bind] at h2
            obtain ⟨r5, s5, h3, h4⟩ := run_bind_eq_some _ _ _ _ _ h2
            have hk5 := (core_notifyClient env).keep _ _ _ h3
            simp only [Stream.core, Prod.mk.injEq] at hk3 hk5
            simp only [run_bind, run_get, run_pure, Option.some_bind, GetCurrentStateId] at h4
            cases hrc5 : s5.rec_config_ with
            | none => simp [hrc5] at h4
            | some rc5 =>
              simp only [hrc5, run_deref_some, Option.some_bind] at h4
              split at h4
              · simp only [PostDelayedStop, run_bind, run_modify, run_emit, run_pure,
                  Option.some_bind, Option.some.injEq, Prod.mk.injEq] at h4
                rw [← h4.2]
                intro _
                exact hk5.1
              · simp only [run_bind, run_pure, Option.some_bind, Option.some.injEq,
                  Prod.mk.injEq] at h4
                rw [← h4.2]
                apply hf
                rw [hk5.2.1, hk3.2.1]
                exact hp
          · rename_i hcap
            rw [run_bind, run_pure, Option.some_bind] at h
            obtain ⟨r5, s5, h3, h4⟩ := run_bind_eq_some _ _ _ _ _ h
            have hk5 := (core_notifyClient env).keep _ _ _ h3
            have hc5 := (notifyClient_keeps_config env).keep _ _ _ h3
            simp only [Stream.core, Prod.mk.injEq] at hk5 hc5
            simp only [run_bind, run_get, run_pure, Option.some_bind, GetCurrentStateId, hc5,
              run_deref_some, hcap, Bool.false_eq_true, false_and, ↓reduceIte, Option.some.injEq,
              Prod.mk.injEq] at h4
            rw [← h4.2]
            apply hf
            rw [hk5.2.1]
            exact hp
      · simp only [run_bind, run_pure, Option.some_bind, Option.some.injEq, Prod.mk.injEq] at h
        rw [← h.2]
        exact hf _ hp

/-- Every event other than STOP_BUFFERING and SSR_OFFLINE keeps the delayed stop
to Detected: if it is pending in Detected only before the event, so it is
after. -/
theorem pending_ProcessEvent (env : Env) (fuel : Nat) (ev_cfg : StEventConfig)
    (hsb : ev_cfg ≠ .ST_EV_STOP_BUFFERING) (hoff : ev_cfg ≠ .ST_EV_SSR_OFFLINE)
    (s : Stream) (a : Int) (s2 : Stream)
    (h : ProcessEvent env fuel ev_cfg s = some (a, s2))
    (hJ : s.pending_stop_ = true → s.cur_state_ = ST_STATE_DETECTED) :
    s2.pending_stop_ = true → s2.cur_state_ = ST_STATE_DETECTED := by
  have hf : ∀ x : Stream, x.pending_stop_ = false →
      x.pending_stop_ = true → x.cur_state_ = ST_STATE_DETECTED := by
    intro x h1 h2
    rw [h1] at h2
    exact Bool.noConfusion h2
  have hp : s.cur_state_ ≠ ST_STATE_DETECTED → s.pending_stop_ = false := by
    intro hc
    cases hps : s.pending_stop_
    · rfl
    · exact absurd (hJ hps) hc
  have harm : ev_cfg.arms = true → ∃ det, ev_cfg = .ST_EV_DETECTED det := by
    intro ha
    cases ev_cfg
    all_goals first
      | exact Bool.noConfusion ha
      | exact absurd rfl hsb
      | exact ⟨_, rfl⟩
  cases hcur : s.cur_state_ with
  | ST_STATE_NONE =>
    cases fuel with
    | zero => simp [ProcessEvent, fault] at h
    | succ n =>
      unfold ProcessEvent at h
      simp [hcur, fault] at h
  | ST_STATE_IDLE =>
    exact hf s2 (noStopPosted_at_rest env fuel ev_cfg hoff s a s2 (Or.inl hcur) h
      (hp (by rw [hcur]; decide)))
  | ST_STATE_LOADED =>
    exact hf s2 (noStopPosted_at_rest env fuel ev_cfg hoff s a s2 (Or.inr (Or.inl hcur)) h
      (hp (by rw [hcur]; decide)))
  | ST_STATE_SSR =>
    exact hf s2 (noStopPosted_at_rest env fuel ev_cfg hoff s a s2 (Or.inr (Or.inr hcur)) h
      (hp (by rw [hcur]; decide)))
  | ST_STATE_ACTIVE =>
    have hps := hp (by rw [hcur]; decide)
    cases fuel with
    | zero => simp [ProcessEvent, fault] at h
    | succ n =>
      unfold ProcessEvent at h
      simp only [run_bind, run_get, Option.some_bind, hcur] at h
      cases ha : ev_cfg.arms with
      | false =>
        exact hf s2 ((noStopPosted_StActive env _ (noStopPosted_ProcessEvent env n) ev_cfg ha
          hoff).step s a s2 h hps)
      | true =>
        obtain ⟨det, hd⟩ := harm ha
        rw [hd] at h
        exact Detected_in_Active env _ det s a s2 hps h
  | ST_STATE_BUFFERING =>
    have hps := hp (by rw [hcur]; decide)
    cases fuel with
    | zero => simp [ProcessEvent, fault] at h
    | succ n =>
      unfold ProcessEvent at h
      simp only [run_bind, run_get, Option.some_bind, hcur] at h
      cases ha : ev_cfg.arms with
      | false =>
        exact hf s2 ((noStopPosted_StBuffering env _ (noStopPosted_ProcessEvent env n) ev_cfg ha
          hoff).step s a s2 h hps)
      | true =>
        obtain ⟨det, hd⟩ := harm ha
        rw [hd] at h
        exact Detected_in_Buffering env _ det s a s2 hps h
  | ST_STATE_DETECTED =>
    cases fuel with
    | zero => simp [ProcessEvent, fault] at h
    | succ n =>
      unfold ProcessEvent at h
      simp only [run_bind, run_get, Option.some_bind, hcur] at h
      cases hl : ev_cfg.leavesDetected with
      | true =>
        exact hf s2 ((cancelled_StDetected env _ (noStopPosted_ProcessEvent env n) ev_cfg
          hl).ensure s a s2 h)
      | false =>
        have hk := (core_StDetected_stays env _ ev_cfg hl hoff).keep s a s2 h
        simp only [Stream.core, Prod.mk.injEq] at hk
        intro _
        rw [hk.1]
        exact hcur

/-! ## The engine list of a stream without a sound model -/

/-- A sequence: the postcondition of the first step is the precondition of the
rest. -/
theorem holds_bind {α β : Type} (P : Stream → Prop) (mid : α → Stream → Prop)
    (q : β → Stream → Prop) (m : M α) (f : α → M β)
    (hm : Holds P mid m) (hf : ∀ a, Holds (mid a) q (f a)) : Holds P q (m >>= f) := by
  constructor
  intro s b s2 hP h
  obtain ⟨a, s1, h1, h2⟩ := run_bind_eq_some _ _ _ _ _ h
  exact (hf a).hold s1 b s2 (hm.hold s a s1 hP h1) h2

/-- A sequence whose first step keeps the precondition. -/
theorem holds_bind_inv {α β : Type} (P : Stream → Prop)
    (q : β → Stream → Prop) (m : M α) (f : α → M β)
    (hm : Holds P (fun _ => P) m) (hf : ∀ a, Holds P q (f a)) : Holds P q (m >>= f) :=
  holds_bind P (fun _ => P) q m f hm hf

/-- A return. -/
theorem holds_pure {α : Type} (P : Stream → Prop) (q : α → Stream → Prop) (a : α)
    (h : ∀ s, P s → q a s) : Holds P q (pure a : M α) := by
  constructor
  intro s b s2 hP hrun
  simp only [run_pure, Option.some.injEq, Prod.mk.injEq] at hrun
  rw [← hrun.1, ← hrun.2]
  exact h s hP

/-- A step that leaves alone what the precondition is about. -/
theorem holds_of_keeps {α γ : Type} (P : Stream → Prop) (p : Stream → γ) (m : M α)
    (hk : Keeps p m) (h : ∀ s s2, p s2 = p s → P s → P s2) : Holds P (fun _ => P) m := by
  constructor
  intro s a s2 hP hrun
  exact h s s2 (hk.keep s a s2 hrun) hP

/-- A postcondition that holds from every stream. -/
theorem holds_of_ensures {α : Type} (P : Stream → Prop) (q : α → Stream → Prop) (m : M α)
    (hm : Ensures q m) : Holds P q m := by
  constructor
  intro s a s2 _ hrun
  exact hm.ensure s a s2 hrun

/-- A run without a defined outcome. -/
theorem holds_fault {α : Type} (P : Stream → Prop) (q : α → Stream → Prop) :
    Holds P q (fault : M α) := by
  constructor
  intro s a s2 _ hrun
  simp [fault] at hrun

/-- A conditional. -/
theorem holds_ite {α : Type} (P : Stream → Prop) (q : α → Stream → Prop) (c : Prop)
    [Decidable c] (a b : M α) (ha : c → Holds P q a) (hb : ¬ c → Holds P q b) :
    Holds P q (if c then a else b) := by
  by_cases h : c
  · rw [if_pos h]
    exact ha h
  · rw [if_neg h]
    exact hb h

/-- Reading the stream. -/
theorem holds_get (P : Stream → Prop) : Holds P (fun _ => P) (get : M Stream) := by
  constructor
  intro s a s2 hP hrun
  simp only [run_get, Option.some.injEq, Prod.mk.injEq] at hrun
  rw [← hrun.2]
  exact hP

/-- A dereference. -/
theorem holds_deref {α : Type} (P : Stream → Prop) (x : Option α) :
    Holds P (fun _ => P) (deref x) := by
  constructor
  intro s a s2 hP hrun
  cases x with
  | none => simp at hrun
  | some v =>
    simp only [run_deref_some, Option.some.injEq, Prod.mk.injEq] at hrun
    rw [← hrun.2]
    exact hP

/-- A write that keeps the precondition. -/
theorem holds_modify (P : Stream → Prop) (g : Stream → Stream)
    (h : ∀ s, P s → P (g s)) : Holds P (fun _ => P) (modify g) := by
  constructor
  intro s a s2 hP hrun
  simp only [run_modify, Option.some.injEq, Prod.mk.injEq] at hrun
  rw [← hrun.2]
  exact h s hP

/-- A call of an engine or device. -/
theorem holds_call (P : Stream → Prop) (env : Env) (c : Call)
    (h : ∀ s t, P s → P { s with trace := t }) : Holds P (fun _ => P) (call env c) := by
  constructor
  intro s a s2 hP hrun
  simp only [run_call, Option.some.injEq, Prod.mk.injEq] at hrun
  rw [← hrun.2]
  exact h s _ hP

/-- A query. -/
theorem holds_ask (P : Stream → Prop) (env : Env) (c : Call)
    (h : ∀ s t, P s → P { s with trace := t }) : Holds P (fun _ => P) (ask env c) := by
  constructor
  intro s a s2 hP hrun
  simp only [run_ask, Option.some.injEq, Prod.mk.injEq] at hrun
  rw [← hrun.2]
  exact h s _ hP

/-- A call without a result. -/
theorem holds_emit (P : Stream → Prop) (c : Call)
    (h : ∀ s t, P s → P { s with trace := t }) : Holds P (fun _ => P) (emit c) := by
  constructor
  intro s a s2 hP hrun
  simp only [run_emit, Option.some.injEq, Prod.mk.injEq] at hrun
  rw [← hrun.2]
  exact h s _ hP

/-- The label `error_exit` of `LoadSoundModel` leaves no engine. -/
theorem LoadSoundModel.error_exit_engines (status : Int) :
    Ensures NoEnginesOnFailure (LoadSoundModel.error_exit status) := by
  constructor
  intro s a s2 h
  simp [LoadSoundModel.error_exit] at h
  rw [← h.2]
  intro _
  rfl

/-- The end of the v3 branch of `LoadSoundModel`: a status other than 0 comes from
`error_exit`, which leaves no engine. -/
theorem LoadSoundModel.v3_tail_engines (env : Env) (sound_model : qal_st_sound_model)
    (models : List SML_BigSoundModelTypeV3) :
    Ensures NoEnginesOnFailure
      (do
        match (← LoadSoundModel.v3 env sound_model models) with
        | some status => LoadSoundModel.error_exit status
        | none =>
          if (← get).gsl_engine_.isNone then
            LoadSoundModel.error_exit 0
          else
            return 0) := by
  apply ensures_bind
  intro r
  cases r with
  | some status => exact LoadSoundModel.error_exit_engines status
  | none =>
    constructor
    intro s a s2 h
    simp only [run_bind, run_get, Option.some_bind] at h
    split at h
    · exact (LoadSoundModel.error_exit_engines _).ensure _ _ _ h
    · simp at h
      rw [← h.1]
      intro hn
      exact absurd rfl hn

/-- The v2 branch of `LoadSoundModel`, from the allocation of the payload on: a
status other than 0 comes from `error_exit`, which leaves no engine. -/
theorem LoadSoundModel.v2_tail_engines (env : Env) (sound_model : qal_st_sound_model)
    (sm_size : Nat) :
    Ensures NoEnginesOnFailure
      (do
        let sm_data ← ask env (Call.calloc sm_size)
        if !sm_data then
          LoadSoundModel.error_exit (- ENOMEM)
        else
          let handle := (← get).trace.length
          let created ← ask env (Call.SoundTriggerEngine_Create ST_SM_ID_SVA_GMM)
          modify fun st => { st with gsl_engine_ := if created then some handle else none }
          if !created then
            LoadSoundModel.error_exit (- ENOMEM)
          else
            let status ← call env (Call.LoadSoundModel handle sm_size)
            if status ≠ 0 then
              LoadSoundModel.error_exit status
            else
              AddEngine { id_ := ST_SM_ID_SVA_GMM, engine_ := handle,
                          sm_data_ := { num_phrases := sound_model.num_phrases },
                          sm_size_ := sm_size }
              return 0) := by
  constructor
  intro s a s2 h
  simp only [run_bind, run_ask, Option.some_bind] at h
  split at h
  · exact (LoadSoundModel.error_exit_engines _).ensure _ _ _ h
  · simp only [run_bind, run_get, run_ask, run_modify, Option.some_bind] at h
    split at h
    · exact (LoadSoundModel.error_exit_engines _).ensure _ _ _ h
    · simp only [run_bind, run_call, Option.some_bind] at h
      split at h
      · exact (LoadSoundModel.error_exit_engines _).ensure _ _ _ h
      · simp only [AddEngine, run_bind, run_modify, run_pure, Option.some_bind,
          Option.some.injEq, Prod.mk.injEq] at h
        rw [← h.1]
        intro hn
        exact absurd rfl hn

/-- A `LoadSoundModel` on a stream without engines that fails leaves the stream
without engines. -/
theorem LoadSoundModel_engines (env : Env) (sound_model : Option qal_st_sound_model)
    (flag : Bool) :
    Holds NoEngines NoEnginesOnFailure (LoadSoundModel env sound_model flag) := by
  have hkey : ∀ s s2 : Stream, s2.core = s.core → NoEngines s → NoEngines s2 := by
    intro s s2 h hP
    simp only [Stream.core, Prod.mk.injEq] at h
    exact h.2.2.2.trans hP
  have hpure : ∀ s : Stream, NoEngines s → NoEngines s := fun _ h => h
  have hret : ∀ (a : Int) (s : Stream), NoEngines s → NoEnginesOnFailure a s := fun _ _ h _ => h
  unfold LoadSoundModel
  repeat' first
    | with_reducible exact holds_of_ensures _ _ _ (LoadSoundModel.v3_tail_engines env _ _)
    | with_reducible exact holds_of_ensures _ _ _ (LoadSoundModel.v2_tail_engines env _ _)
    | with_reducible apply holds_bind_inv
    | intro _
    | with_reducible apply holds_pure _ _ _ hpure
    | with_reducible apply holds_pure _ _ _ (hret _)
    | with_reducible apply holds_get
    | ((with_reducible apply holds_modify); intro s; exact hkey _ _ rfl)
    | ((with_reducible apply holds_ask); intro s t; exact hkey _ _ rfl)
    | with_reducible apply holds_ite
    | dsimp only []
    | split
    | simp only []

/-- After the engine list is cleared, steps that keep it empty leave it empty. -/
theorem holds_reset {α : Type} (q : α → Stream → Prop) (f : PUnit → M α)
    (h : ∀ u, Holds NoEngines q (f u)) :
    Ensures q ((modify fun st => { st with engines_ := [] }) >>= f) := by
  constructor
  intro s a s2 hrun
  rw [run_bind, run_modify, Option.some_bind] at hrun
  refine (h _).hold _ a s2 ?_ hrun
  unfold NoEngines
  rfl

/-- The case UNLOAD_SOUND_MODEL of StLoaded leaves no engine. -/
theorem Unload_engines (env : Env) (ProcessInternalEvent : StEventConfig → M Int) :
    Ensures (fun (_ : Int) => NoEngines)
      (StLoaded.ProcessEvent env ProcessInternalEvent .ST_EV_UNLOAD_SOUND_MODEL) := by
  have hpure : ∀ s : Stream, NoEngines s → NoEngines s := fun _ h => h
  unfold StLoaded.ProcessEvent
  simp only []
  unfold TransitTo
  repeat' first
    | with_reducible apply holds_reset
    | with_reducible apply ensures_bind
    | with_reducible apply holds_pure _ _ _ hpure
    | with_reducible apply holds_get
    | with_reducible apply holds_deref
    | ((with_reducible apply holds_modify); intro s; exact fun h => h)
    | ((with_reducible apply holds_emit); intro s t; exact fun h => h)
    | with_reducible apply holds_bind_inv
    | intro _
    | split
    | simp only []

/-- The end of the case LOAD_SOUND_MODEL of StIdle: the stream has no engine when
the load fails, and is in Loaded when it succeeds. -/
theorem Load_tail_engines (env : Env) (sound_model : qal_st_sound_model) (flag : Bool) :
    Holds NoEngines (fun (_ : Int) => NoEnginesOrLoaded)
      (do
        let status ← LoadSoundModel env (some sound_model) flag
        if status ≠ 0 then
          return status
        TransitTo ST_STATE_LOADED
        return status) := by
  apply holds_bind _ NoEnginesOnFailure
  · exact LoadSoundModel_engines env _ flag
  · intro status
    constructor
    intro s a s2 hP h
    split at h
    · rename_i hs
      simp only [run_pure, Option.some.injEq, Prod.mk.injEq] at h
      rw [← h.2]
      exact Or.inl (hP hs)
    · simp only [run_bind, run_pure, Option.some_bind,
        TransitTo_run _ (by decide : ST_STATE_LOADED ≠ ST_STATE_NONE), Option.some.injEq,
        Prod.mk.injEq] at h
      rw [← h.2]
      exact Or.inr rfl

/-- A LoadSoundModel in Idle on a stream without engines leaves it without
engines, or in Loaded. -/
theorem Load_in_Idle_engines (env : Env) (data : Option qal_st_sound_model) (flag : Bool) :
    Holds NoEngines (fun (_ : Int) => NoEnginesOrLoaded)
      (StIdle.ProcessEvent env (.ST_EV_LOAD_SOUND_MODEL data flag)) := by
  have hkey : ∀ s s2 : Stream, s2.core = s.core → NoEngines s → NoEngines s2 := by
    intro s s2 h hP
    simp only [Stream.core, Prod.mk.injEq] at h
    exact h.2.2.2.trans hP
  have hpure : ∀ s : Stream, NoEngines s → NoEngines s := fun _ h => h
  have hret : ∀ s : Stream, NoEngines s → NoEnginesOrLoaded s := fun _ h => Or.inl h
  unfold StIdle.ProcessEvent
  simp only []
  repeat' first
    | with_reducible exact Load_tail_engines env _ _
    | with_reducible apply holds_bind_inv
    | intro _
    | with_reducible apply holds_pure _ _ _ hpure
    | with_reducible apply holds_pure _ _ _ hret
    | with_reducible apply holds_fault
    | with_reducible apply holds_get
    | with_reducible apply holds_deref
    | ((with_reducible apply holds_modify); intro s; exact fun h => h)
    | ((with_reducible apply holds_call); intro s t; exact fun h => h)
    | ((with_reducible apply holds_ask); intro s t; exact fun h => h)
    | ((with_reducible apply holds_emit); intro s t; exact fun h => h)
    | with_reducible apply holds_of_keeps _ Stream.core _ (core_GetAvailCaptureDevice env) hkey
    | with_reducible apply holds_of_keeps _ Stream.core _ (core_GetQalDevice env _) hkey
    | with_reducible apply holds_of_keeps _ Stream.core _ (core_GetCurrentCaptureProfile env) hkey
    | with_reducible apply holds_ite
    | dsimp only []
    | split
    | simp only []


/-- The start of a Loaded stream takes it to a state with a sound model or leaves
it as it is. -/
theorem engines_StLoaded_start (env : Env) :
    Steps EnginesAtWork (StLoaded.start env) := by
  have hr : ∀ s : Stream, EnginesAtWork s s := fun _ h => h
  have ht : ∀ a b c : Stream, EnginesAtWork a b → EnginesAtWork b c → EnginesAtWork a c :=
    fun _ _ _ h1 h2 h => h2 (h1 h)
  have hkey : ∀ s s2 : Stream, s2.core = s.core → EnginesAtWork s s2 := by
    intro s s2 h h0 hU
    simp only [Stream.core, Prod.mk.injEq] at h
    rw [h.2.2.2]
    apply h0
    unfold Unloaded at hU ⊢
    rw [← h.1]
    exact hU
  have hx : ∀ x : st_state_id_t, x ≠ ST_STATE_IDLE → x ≠ ST_STATE_SSR →
      ∀ s s2 : Stream, s2.cur_state_ = x → EnginesAtWork s s2 := by
    intro x h1 h2 s s2 hc _ hU
    unfold Unloaded at hU
    rw [hc] at hU
    exact hU.elim (fun h => absurd h h1) (fun h => absurd h h2)
  have hE : ∀ s s2 : Stream, s2.cur_state_ = s.cur_state_ → s2.engines_ = s.engines_ →
      EnginesAtWork s s2 := by
    intro s s2 h1 h2 h0 hU
    rw [h2]
    apply h0
    unfold Unloaded at hU ⊢
    rw [← h1]
    exact hU
  have hL := hx ST_STATE_LOADED (by decide) (by decide)
  have hA := hx ST_STATE_ACTIVE (by decide) (by decide)
  have hD := hx ST_STATE_DETECTED (by decide) (by decide)
  have hB := hx ST_STATE_BUFFERING (by decide) (by decide)
  unfold StLoaded.start
  try unfold TransitTo
  try unfold GetCurrentStateId
  try unfold CancelDelayedStop
  try unfold PostDelayedStop
  repeat' first
    | with_reducible apply steps_bind _ ht
    | intro _
    | with_reducible apply steps_pure _ hr
    | with_reducible apply steps_ite
    | with_reducible apply steps_get _ hr
    | ((with_reducible apply steps_call); intro s; exact hkey _ _ rfl)
    | ((with_reducible apply steps_ask); intro s; exact hkey _ _ rfl)
    | ((with_reducible apply steps_emit); intro s; exact hkey _ _ rfl)
    | ((with_reducible apply steps_modify); intro s;
        first | exact hkey _ _ rfl | exact hE _ _ rfl rfl | exact hL _ _ rfl | exact hA _ _ rfl | exact hD _ _ rfl | exact hB _ _ rfl)
    | with_reducible apply steps_map
    | with_reducible apply steps_fault
    | with_reducible apply steps_deref _ hr
    | with_reducible apply steps_of_keeps _ Stream.core _ (core_startEngines env _ _ _) hkey
    | with_reducible apply steps_of_keeps _ Stream.core _ (core_err_exit env _ _) hkey
    | dsimp only []
    | split
    | simp only []

/-- The handlers keep the engine list empty while no sound model is loaded: on
every event but SSR_OFFLINE, the load in Idle, the unload in Loaded and SSR_ONLINE
in SSR, which are followed on their own. -/
theorem engines_StIdle (env : Env) (ev_cfg : StEventConfig)
    (hoff : ev_cfg ≠ .ST_EV_SSR_OFFLINE)
    (hl : ∀ data flag, ev_cfg ≠ .ST_EV_LOAD_SOUND_MODEL data flag) :
    Steps EnginesAtWork (StIdle.ProcessEvent env ev_cfg) := by
  have hr : ∀ s : Stream, EnginesAtWork s s := fun _ h => h
  have ht : ∀ a b c : Stream, EnginesAtWork a b → EnginesAtWork b c → EnginesAtWork a c :=
    fun _ _ _ h1 h2 h => h2 (h1 h)
  have hkey : ∀ s s2 : Stream, s2.core = s.core → EnginesAtWork s s2 := by
    intro s s2 h h0 hU
    simp only [Stream.core, Prod.mk.injEq] at h
    rw [h.2.2.2]
    apply h0
    unfold Unloaded at hU ⊢
    rw [← h.1]
    exact hU
  have hx : ∀ x : st_state_id_t, x ≠ ST_STATE_IDLE → x ≠ ST_STATE_SSR →
      ∀ s s2 : Stream, s2.cur_state_ = x → EnginesAtWork s s2 := by
    intro x h1 h2 s s2 hc _ hU
    unfold Unloaded at hU
    rw [hc] at hU
    exact hU.elim (fun h => absurd h h1) (fun h => absurd h h2)
  have hE : ∀ s s2 : Stream, s2.cur_state_ = s.cur_state_ → s2.engines_ = s.engines_ →
      EnginesAtWork s s2 := by
    intro s s2 h1 h2 h0 hU
    rw [h2]
    apply h0
    unfold Unloaded at hU ⊢
    rw [← h1]
    exact hU
  have hL := hx ST_STATE_LOADED (by decide) (by decide)
  have hA := hx ST_STATE_ACTIVE (by decide) (by decide)
  have hD := hx ST_STATE_DETECTED (by decide) (by decide)
  have hB := hx ST_STATE_BUFFERING (by decide) (by decide)
  cases ev_cfg
  all_goals first
    | exact absurd rfl hoff
    | exact absurd rfl (hl _ _)
    | skip
  all_goals
    unfold StIdle.ProcessEvent
    try unfold TransitTo
    try unfold GetCurrentStateId
    try unfold CancelDelayedStop
    try unfold PostDelayedStop
    repeat' first
      | with_reducible apply steps_bind _ ht
      | intro _
      | with_reducible apply steps_pure _ hr
      | with_reducible apply steps_ite
      | with_reducible apply steps_get _ hr
      | ((with_reducible apply steps_call); intro s; exact hkey _ _ rfl)
      | ((with_reducible apply steps_ask); intro s; exact hkey _ _ rfl)
      | ((with_reducible apply steps_emit); intro s; exact hkey _ _ rfl)
      | ((with_reducible apply steps_modify); intro s;
          first | exact hkey _ _ rfl | exact hE _ _ rfl rfl | exact hL _ _ rfl | exact hA _ _ rfl | exact hD _ _ rfl | exact hB _ _ rfl)
      | with_reducible apply steps_map
      | with_reducible apply steps_fault
      | with_reducible apply steps_deref _ hr
      | with_reducible apply steps_of_keeps _ Stream.core _ (core_GetAvailCaptureDevice env) hkey
      | with_reducible apply steps_of_keeps _ Stream.core _ (core_GetQalDevice env _) hkey
      | with_reducible apply steps_of_keeps _ Stream.core _ (core_GetCurrentCaptureProfile env) hkey
      | with_reducible apply steps_of_keeps _ Stream.core _ (core_updateDevice env _) hkey
      | dsimp only []
      | split
      | simp only []

theorem engines_StLoaded (env : Env) (ProcessInternalEvent : StEventConfig → M Int)
    (hP : ∀ ev, ev ≠ .ST_EV_SSR_OFFLINE → Steps EnginesAtWork (ProcessInternalEvent ev))
    (ev_cfg : StEventConfig)
    (hoff : ev_cfg ≠ .ST_EV_SSR_OFFLINE)
    (hu : ev_cfg ≠ .ST_EV_UNLOAD_SOUND_MODEL) :
    Steps EnginesAtWork (StLoaded.ProcessEvent env ProcessInternalEvent ev_cfg) := by
  have hr : ∀ s : Stream, EnginesAtWork s s := fun _ h => h
  have ht : ∀ a b c : Stream, EnginesAtWork a b → EnginesAtWork b c → EnginesAtWork a c :=
    fun _ _ _ h1 h2 h => h2 (h1 h)
  have hkey : ∀ s s2 : Stream, s2.core = s.core → EnginesAtWork s s2 := by
    intro s s2 h h0 hU
    simp only [Stream.core, Prod.mk.injEq] at h
    rw [h.2.2.2]
    apply h0
    unfold Unloaded at hU ⊢
    rw [← h.1]
    exact hU
  have hx : ∀ x : st_state_id_t, x ≠ ST_STATE_IDLE → x ≠ ST_STATE_SSR →
      ∀ s s2 : Stream, s2.cur_state_ = x → EnginesAtWork s s2 := by
    intro x h1 h2 s s2 hc _ hU
    unfold Unloaded at hU
    rw [hc] at hU
    exact hU.elim (fun h => absurd h h1) (fun h => absurd h h2)
  have hE : ∀ s s2 : Stream, s2.cur_state_ = s.cur_state_ → s2.engines_ = s.engines_ →
      EnginesAtWork s s2 := by
    intro s s2 h1 h2 h0 hU
    rw [h2]
    apply h0
    unfold Unloaded at hU ⊢
    rw [← h1]
    exact hU
  have hL := hx ST_STATE_LOADED (by decide) (by decide)
  have hA := hx ST_STATE_ACTIVE (by decide) (by decide)
  have hD := hx ST_STATE_DETECTED (by decide) (by decide)
  have hB := hx ST_STATE_BUFFERING (by decide) (by decide)
  cases ev_cfg
  all_goals first
    | exact absurd rfl hoff
    | exact absurd rfl hu
    | skip
  all_goals
    unfold StLoaded.ProcessEvent
    try unfold TransitTo
    try unfold GetCurrentStateId
    try unfold CancelDelayedStop
    try unfold PostDelayedStop
    repeat' first
      | with_reducible apply steps_bind _ ht
      | intro _
      | with_reducible apply steps_pure _ hr
      | with_reducible apply steps_ite
      | with_reducible apply steps_get _ hr
      | ((with_reducible apply steps_call); intro s; exact hkey _ _ rfl)
      | ((with_reducible apply steps_ask); intro s; exact hkey _ _ rfl)
      | ((with_reducible apply steps_emit); intro s; exact hkey _ _ rfl)
      | ((with_reducible apply steps_modify); intro s;
          first | exact hkey _ _ rfl | exact hE _ _ rfl rfl | exact hL _ _ rfl | exact hA _ _ rfl | exact hD _ _ rfl | exact hB _ _ rfl)
      | with_reducible apply steps_map
      | with_reducible apply steps_fault
      | with_reducible apply steps_deref _ hr
      | ((with_reducible apply hP) <;>
        first | rfl | exact fun h => StEventConfig.noConfusion h)
      | with_reducible apply steps_of_keeps _ Stream.core _ (core_unloadEngines env _ _ _) hkey
      | with_reducible apply steps_of_keeps _ Stream.core _ (core_SendRecognitionConfig env _ _) hkey
      | with_reducible apply steps_of_keeps _ Stream.core _ (core_StLoaded_switchDevice env _) hkey
      | with_reducible apply steps_of_keeps _ Stream.core _ (core_GetAvailCaptureDevice env) hkey
      | with_reducible apply steps_of_keeps _ Stream.core _ (core_GetCurrentCaptureProfile env) hkey
      | with_reducible apply engines_StLoaded_start env
      | dsimp only []
      | split
      | simp only []

theorem engines_StActive (env : Env) (ProcessInternalEvent : StEventConfig → M Int)
    (hP : ∀ ev, ev ≠ .ST_EV_SSR_OFFLINE → Steps EnginesAtWork (ProcessInternalEvent ev))
    (ev_cfg : StEventConfig)
    (hoff : ev_cfg ≠ .ST_EV_SSR_OFFLINE) :
    Steps EnginesAtWork (StActive.ProcessEvent env ProcessInternalEvent ev_cfg) := by
  have hr : ∀ s : Stream, EnginesAtWork s s := fun _ h => h
  have ht : ∀ a b c : Stream, EnginesAtWork a b → EnginesAtWork b c → EnginesAtWork a c :=
    fun _ _ _ h1 h2 h => h2 (h1 h)
  have hkey : ∀ s s2 : Stream, s2.core = s.core → EnginesAtWork s s2 := by
    intro s s2 h h0 hU
    simp only [Stream.core, Prod.mk.injEq] at h
    rw [h.2.2.2]
    apply h0
    unfold Unloaded at hU ⊢
    rw [← h.1]
    exact hU
  have hx : ∀ x : st_state_id_t, x ≠ ST_STATE_IDLE → x ≠ ST_STATE_SSR →
      ∀ s s2 : Stream, s2.cur_state_ = x → EnginesAtWork s s2 := by
    intro x h1 h2 s s2 hc _ hU
    unfold Unloaded at hU
    rw [hc] at hU
    exact hU.elim (fun h => absurd h h1) (fun h => absurd h h2)
  have hE : ∀ s s2 : Stream, s2.cur_state_ = s.cur_state_ → s2.engines_ = s.engines_ →
      EnginesAtWork s s2 := by
    intro s s2 h1 h2 h0 hU
    rw [h2]
    apply h0
    unfold Unloaded at hU ⊢
    rw [← h1]
    exact hU
  have hL := hx ST_STATE_LOADED (by decide) (by decide)
  have hA := hx ST_STATE_ACTIVE (by decide) (by decide)
  have hD := hx ST_STATE_DETECTED (by decide) (by decide)
  have hB := hx ST_STATE_BUFFERING (by decide) (by decide)
  cases ev_cfg
  all_goals first
    | exact absurd rfl hoff
    | skip
  all_goals
    unfold StActive.ProcessEvent
    try unfold StActive.stop
    try unfold TransitTo
    try unfold GetCurrentStateId
    try unfold CancelDelayedStop
    try unfold PostDelayedStop
    repeat' first
      | with_reducible apply steps_bind _ ht
      | intro _
      | with_reducible apply steps_pure _ hr
      | with_reducible apply steps_ite
      | with_reducible apply steps_get _ hr
      | ((with_reducible apply steps_call); intro s; exact hkey _ _ rfl)
      | ((with_reducible apply steps_ask); intro s; exact hkey _ _ rfl)
      | ((with_reducible apply steps_emit); intro s; exact hkey _ _ rfl)
      | ((with_reducible apply steps_modify); intro s;
          first | exact hkey _ _ rfl | exact hE _ _ rfl rfl | exact hL _ _ rfl | exact hA _ _ rfl | exact hD _ _ rfl | exact hB _ _ rfl)
      | with_reducible apply steps_map
      | with_reducible apply steps_fault
      | with_reducible apply steps_deref _ hr
      | ((with_reducible apply hP) <;>
        first | rfl | exact fun h => StEventConfig.noConfusion h)
      | with_reducible apply steps_of_keeps _ Stream.core _ (core_SetDetectedToEngines _) hkey
      | with_reducible apply steps_of_keeps _ Stream.core _ (core_notifyClient env) hkey
      | with_reducible apply steps_of_keeps _ Stream.core _ (core_SendRecognitionConfig env _ _) hkey
      | with_reducible apply steps_of_keeps _ Stream.core _ (core_forEngines env _ _ _) hkey
      | with_reducible apply steps_of_keeps _ Stream.core _ (core_stopDevice env _) hkey
      | with_reducible apply steps_of_keeps _ Stream.core _ (core_StActive_switchDevice env _ _) hkey
      | with_reducible apply steps_of_keeps _ Stream.core _ (core_GetAvailCaptureDevice env) hkey
      | with_reducible apply steps_of_keeps _ Stream.core _ (core_GetCurrentCaptureProfile env) hkey
      | dsimp only []
      | split
      | simp only []

theorem engines_StDetected (env : Env) (ProcessInternalEvent : StEventConfig → M Int)
    (hP : ∀ ev, ev ≠ .ST_EV_SSR_OFFLINE → Steps EnginesAtWork (ProcessInternalEvent ev))
    (ev_cfg : StEventConfig)
    (hoff : ev_cfg ≠ .ST_EV_SSR_OFFLINE) :
    Steps EnginesAtWork (StDetected.ProcessEvent env ProcessInternalEvent ev_cfg) := by
  have hr : ∀ s : Stream, EnginesAtWork s s := fun _ h => h
  have ht : ∀ a b c : Stream, EnginesAtWork a b → EnginesAtWork b c → EnginesAtWork a c :=
    fun _ _ _ h1 h2 h => h2 (h1 h)
  have hkey : ∀ s s2 : Stream, s2.core = s.core → EnginesAtWork s s2 := by
    intro s s2 h h0 hU
    simp only [Stream.core, Prod.mk.injEq] at h
    rw [h.2.2.2]
    apply h0
    unfold Unloaded at hU ⊢
    rw [← h.1]
    exact hU
  have hx : ∀ x : st_state_id_t, x ≠ ST_STATE_IDLE → x ≠ ST_STATE_SSR →
      ∀ s s2 : Stream, s2.cur_state_ = x → EnginesAtWork s s2 := by
    intro x h1 h2 s s2 hc _ hU
    unfold Unloaded at hU
    rw [hc] at hU
    exact hU.elim (fun h => absurd h h1) (fun h => absurd h h2)
  have hE : ∀ s s2 : Stream, s2.cur_state_ = s.cur_state_ → s2.engines_ = s.engines_ →
      EnginesAtWork s s2 := by
    intro s s2 h1 h2 h0 hU
    rw [h2]
    apply h0
    unfold Unloaded at hU ⊢
    rw [← h1]
    exact hU
  have hL := hx ST_STATE_LOADED (by decide) (by decide)
  have hA := hx ST_STATE_ACTIVE (by decide) (by decide)
  have hD := hx ST_STATE_DETECTED (by decide) (by decide)
  have hB := hx ST_STATE_BUFFERING (by decide) (by decide)
  cases ev_cfg
  all_goals first
    | exact absurd rfl hoff
    | skip
  all_goals
    unfold StDetected.ProcessEvent
    try unfold StDetected.stop
    try unfold TransitTo
    try unfold GetCurrentStateId
    try unfold CancelDelayedStop
    try unfold PostDelayedStop
    repeat' first
      | with_reducible apply steps_bind _ ht
      | intro _
      | with_reducible apply steps_pure _ hr
      | with_reducible apply steps_ite
      | with_reducible apply steps_get _ hr
      | ((with_reducible apply steps_call); intro s; exact hkey _ _ rfl)
      | ((with_reducible apply steps_ask); intro s; exact hkey _ _ rfl)
      | ((with_reducible apply steps_emit); intro s; exact hkey _ _ rfl)
      | ((with_reducible apply steps_modify); intro s;
          first | exact hkey _ _ rfl | exact hE _ _ rfl rfl | exact hL _ _ rfl | exact hA _ _ rfl | exact hD _ _ rfl | exact hB _ _ rfl)
      | with_reducible apply steps_map
      | with_reducible apply steps_fault
      | with_reducible apply steps_deref _ hr
      | ((with_reducible apply hP) <;>
        first | rfl | exact fun h => StEventConfig.noConfusion h)
      | with_reducible apply steps_of_keeps _ Stream.core _ (core_forEngines env _ _ _) hkey
      | with_reducible apply steps_of_keeps _ Stream.core _ (core_stopDevice env _) hkey
      | dsimp only []
      | split
      | simp only []

theorem engines_StBuffering (env : Env) (ProcessInternalEvent : StEventConfig → M Int)
    (hP : ∀ ev, ev ≠ .ST_EV_SSR_OFFLINE → Steps EnginesAtWork (ProcessInternalEvent ev))
    (ev_cfg : StEventConfig)
    (hoff : ev_cfg ≠ .ST_EV_SSR_OFFLINE) :
    Steps EnginesAtWork (StBuffering.ProcessEvent env ProcessInternalEvent ev_cfg) := by
  have hr : ∀ s : Stream, EnginesAtWork s s := fun _ h => h
  have ht : ∀ a b c : Stream, EnginesAtWork a b → EnginesAtWork b c → EnginesAtWork a c :=
    fun _ _ _ h1 h2 h => h2 (h1 h)
  have hkey : ∀ s s2 : Stream, s2.core = s.core → EnginesAtWork s s2 := by
    intro s s2 h h0 hU
    simp only [Stream.core, Prod.mk.injEq] at h
    rw [h.2.2.2]
    apply h0
    unfold Unloaded at hU ⊢
    rw [← h.1]
    exact hU
  have hx : ∀ x : st_state_id_t, x ≠ ST_STATE_IDLE → x ≠ ST_STATE_SSR →
      ∀ s s2 : Stream, s2.cur_state_ = x → EnginesAtWork s s2 := by
    intro x h1 h2 s s2 hc _ hU
    unfold Unloaded at hU
    rw [hc] at hU
    exact hU.elim (fun h => absurd h h1) (fun h => absurd h h2)
  have hE : ∀ s s2 : Stream, s2.cur_state_ = s.cur_state_ → s2.engines_ = s.engines_ →
      EnginesAtWork s s2 := by
    intro s s2 h1 h2 h0 hU
    rw [h2]
    apply h0
    unfold Unloaded at hU ⊢
    rw [← h1]
    exact hU
  have hL := hx ST_STATE_LOADED (by decide) (by decide)
  have hA := hx ST_STATE_ACTIVE (by decide) (by decide)
  have hD := hx ST_STATE_DETECTED (by decide) (by decide)
  have hB := hx ST_STATE_BUFFERING (by decide) (by decide)
  cases ev_cfg
  all_goals first
    | exact absurd rfl hoff
    | skip
  all_goals
    unfold StBuffering.ProcessEvent
    try unfold StBuffering.stop
    try unfold StBuffering.stopForDevice
    try unfold TransitTo
    try unfold GetCurrentStateId
    try unfold CancelDelayedStop
    try unfold PostDelayedStop
    repeat' first
      | with_reducible apply steps_bind _ ht
      | intro _
      | with_reducible apply steps_pure _ hr
      | with_reducible apply steps_ite
      | with_reducible apply steps_get _ hr
      | ((with_reducible apply steps_call); intro s; exact hkey _ _ rfl)
      | ((with_reducible apply steps_ask); intro s; exact hkey _ _ rfl)
      | ((with_reducible apply steps_emit); intro s; exact hkey _ _ rfl)
      | ((with_reducible apply steps_modify); intro s;
          first | exact hkey _ _ rfl | exact hE _ _ rfl rfl | exact hL _ _ rfl | exact hA _ _ rfl | exact hD _ _ rfl | exact hB _ _ rfl)
      | with_reducible apply steps_map
      | with_reducible apply steps_fault
      | with_reducible apply steps_deref _ hr
      | ((with_reducible apply hP) <;>
        first | rfl | exact fun h => StEventConfig.noConfusion h)
      | with_reducible apply steps_of_keeps _ Stream.core _ (core_forEngines env _ _ _) hkey
      | with_reducible apply steps_of_keeps _ Stream.core _ (core_forEnginesBreak env _ _ _) hkey
      | with_reducible apply steps_of_keeps _ Stream.core _ (core_stopDevice env _) hkey
      | with_reducible apply steps_of_keeps _ Stream.core _ (core_stopBuffering env _) hkey
      | with_reducible apply steps_of_keeps _ Stream.core _ (core_stopDevices env _ _) hkey
      | with_reducible apply steps_of_keeps _ Stream.core _ (core_notifyClient env) hkey
      | dsimp only []
      | split
      | simp only []

theorem engines_StSSR (env : Env) (ProcessInternalEvent : StEventConfig → M Int)
    (ev_cfg : StEventConfig)
    (hoff : ev_cfg ≠ .ST_EV_SSR_OFFLINE)
    (hon : ev_cfg ≠ .ST_EV_SSR_ONLINE) :
    Steps EnginesAtWork (StSSR.ProcessEvent env ProcessInternalEvent ev_cfg) := by
  have hr : ∀ s : Stream, EnginesAtWork s s := fun _ h => h
  have ht : ∀ a b c : Stream, EnginesAtWork a b → EnginesAtWork b c → EnginesAtWork a c :=
    fun _ _ _ h1 h2 h => h2 (h1 h)
  have hkey : ∀ s s2 : Stream, s2.core = s.core → EnginesAtWork s s2 := by
    intro s s2 h h0 hU
    simp only [Stream.core, Prod.mk.injEq] at h
    rw [h.2.2.2]
    apply h0
    unfold Unloaded at hU ⊢
    rw [← h.1]
    exact hU
  have hx : ∀ x : st_state_id_t, x ≠ ST_STATE_IDLE → x ≠ ST_STATE_SSR →
      ∀ s s2 : Stream, s2.cur_state_ = x → EnginesAtWork s s2 := by
    intro x h1 h2 s s2 hc _ hU
    unfold Unloaded at hU
    rw [hc] at hU
    exact hU.elim (fun h => absurd h h1) (fun h => absurd h h2)
  have hE : ∀ s s2 : Stream, s2.cur_state_ = s.cur_state_ → s2.engines_ = s.engines_ →
      EnginesAtWork s s2 := by
    intro s s2 h1 h2 h0 hU
    rw [h2]
    apply h0
    unfold Unloaded at hU ⊢
    rw [← h1]
    exact hU
  have hL := hx ST_STATE_LOADED (by decide) (by decide)
  have hA := hx ST_STATE_ACTIVE (by decide) (by decide)
  have hD := hx ST_STATE_DETECTED (by decide) (by decide)
  have hB := hx ST_STATE_BUFFERING (by decide) (by decide)
  cases ev_cfg
  all_goals first
    | exact absurd rfl hoff
    | exact absurd rfl hon
    | skip
  all_goals
    unfold StSSR.ProcessEvent
    try unfold TransitTo
    try unfold GetCurrentStateId
    try unfold CancelDelayedStop
    try unfold PostDelayedStop
    repeat' first
      | with_reducible apply steps_bind _ ht
      | intro _
      | with_reducible apply steps_pure _ hr
      | with_reducible apply steps_ite
      | with_reducible apply steps_get _ hr
      | ((with_reducible apply steps_call); intro s; exact hkey _ _ rfl)
      | ((with_reducible apply steps_ask); intro s; exact hkey _ _ rfl)
      | ((with_reducible apply steps_emit); intro s; exact hkey _ _ rfl)
      | ((with_reducible apply steps_modify); intro s;
          first | exact hkey _ _ rfl | exact hE _ _ rfl rfl | exact hL _ _ rfl | exact hA _ _ rfl | exact hD _ _ rfl | exact hB _ _ rfl)
      | with_reducible apply steps_map
      | with_reducible apply steps_fault
      | with_reducible apply steps_deref _ hr
      | with_reducible apply steps_of_keeps _ Stream.core _ (core_SendRecognitionConfig env _ _) hkey
      | with_reducible apply steps_of_keeps _ Stream.core _ (core_UpdateSoundModel env _ _) hkey
      | with_reducible apply steps_of_keeps _ Stream.core _ (core_UpdateRecognitionConfig env _ _) hkey
      | dsimp only []
      | split
      | simp only []

/-! ## Consistency of the streams that the entry points produce -/

/-- A stream without a sound model is not a stream with one. -/
theorem Unloaded.not_AtWork (s : Stream) (hU : Unloaded s) (hA : AtWork s) : False := by
  unfold Unloaded at hU
  unfold AtWork at hA
  rcases hU with hU | hU <;> rw [hU] at hA <;> simp at hA

/-- SSR_ONLINE in SSR on a stream without engines: afterwards the engine list is
empty if no sound model is loaded. -/
theorem SsrOnline_engines (env : Env) (ProcessInternalEvent : StEventConfig → M Int)
    (hP : ∀ ev, ev ≠ .ST_EV_SSR_OFFLINE → Steps EnginesAtWork (ProcessInternalEvent ev))
    (s : Stream) (a : Int) (s2 : Stream) (he : s.engines_ = [])
    (h : StSSR.ProcessEvent env ProcessInternalEvent .ST_EV_SSR_ONLINE s = some (a, s2)) :
    Unloaded s2 → s2.engines_ = [] := by
  have hr : ∀ s : Stream, EnginesAtWork s s := fun _ h => h
  have ht : ∀ a b c : Stream, EnginesAtWork a b → EnginesAtWork b c → EnginesAtWork a c :=
    fun _ _ _ h1 h2 h => h2 (h1 h)
  have hE : ∀ s s2 : Stream, s2.cur_state_ = s.cur_state_ → s2.engines_ = s.engines_ →
      EnginesAtWork s s2 := by
    intro s s2 h1 h2 h0 hU
    rw [h2]
    apply h0
    unfold Unloaded at hU ⊢
    rw [← h1]
    exact hU
  have hkey : ∀ s s2 : Stream, s2.core = s.core → EnginesAtWork s s2 := by
    intro s s2 h
    simp only [Stream.core, Prod.mk.injEq] at h
    exact hE s s2 h.1 h.2.2.2
  unfold StSSR.ProcessEvent at h
  simp only [] at h
  rw [run_bind, TransitTo_run _ (by decide : ST_STATE_IDLE ≠ ST_STATE_NONE),
    Option.some_bind] at h
  refine Steps.step (R := EnginesAtWork) ?_ _ a s2 h (fun _ => he)
  repeat' first
    | with_reducible apply steps_bind _ ht
    | intro _
    | with_reducible apply steps_pure _ hr
    | with_reducible apply steps_ite
    | with_reducible apply steps_get _ hr
    | ((with_reducible apply steps_modify); intro s; exact hE _ _ rfl rfl)
    | with_reducible apply steps_map
    | ((with_reducible apply hP); exact fun h => StEventConfig.noConfusion h)
    | with_reducible apply steps_of_keeps _ Stream.core _ (core_SendRecognitionConfig env _ _) hkey
    | dsimp only []
    | split
    | simp only []

/-- Every event but SSR_OFFLINE keeps the engine list empty while no sound model
is loaded. -/
theorem engines_ProcessEvent (env : Env) (fuel : Nat) :
    ∀ ev_cfg : StEventConfig, ev_cfg ≠ .ST_EV_SSR_OFFLINE →
      Steps EnginesAtWork (ProcessEvent env fuel ev_cfg) := by
  induction fuel with
  | zero =>
    intro ev_cfg _
    unfold ProcessEvent
    apply steps_fault
  | succ n ih =>
    intro ev_cfg hoff
    constructor
    intro s a s2 h hI hU
    unfold ProcessEvent at h
    simp only [run_bind, run_get, Option.some_bind] at h
    cases hc : s.cur_state_ <;> simp only [hc] at h
    · simp at h
    · by_cases hl : ∃ data flag, ev_cfg = .ST_EV_LOAD_SOUND_MODEL data flag
      · obtain ⟨data, flag, hd⟩ := hl
        rw [hd] at h
        have h1 := (Load_in_Idle_engines env data flag).hold s a s2 (hI (Or.inl hc)) h
        unfold NoEnginesOrLoaded at h1
        rcases h1 with h1 | h1
        · exact h1
        · unfold Unloaded at hU
          rw [h1] at hU
          simp at hU
      · exact (engines_StIdle env ev_cfg hoff (fun data flag hd => hl ⟨data, flag, hd⟩)).step
          s a s2 h hI hU
    · by_cases hu : ev_cfg = .ST_EV_UNLOAD_SOUND_MODEL
      · rw [hu] at h
        exact (Unload_engines env _).ensure s a s2 h
      · exact (engines_StLoaded env _ ih ev_cfg hoff hu).step s a s2 h hI hU
    · exact (engines_StActive env _ ih ev_cfg hoff).step s a s2 h hI hU
    · exact (engines_StDetected env _ ih ev_cfg hoff).step s a s2 h hI hU
    · exact (engines_StBuffering env _ ih ev_cfg hoff).step s a s2 h hI hU
    · by_cases hon : ev_cfg = .ST_EV_SSR_ONLINE
      · rw [hon] at h
        exact SsrOnline_engines env _ ih s a s2 (hI (Or.inr hc)) h hU
      · exact (engines_StSSR env _ ev_cfg hoff hon).step s a s2 h hI hU

/-- SSR_OFFLINE takes a consistent stream to a consistent stream. -/
theorem consistent_SsrOffline (env : Env) (fuel : Nat) (s : Stream) (a : Int) (s2 : Stream)
    (h : ProcessEvent env fuel .ST_EV_SSR_OFFLINE s = some (a, s2)) (hI : Consistent s) :
    Consistent s2 := by
  have hssr : ∀ x : Stream, x.cur_state_ = ST_STATE_SSR → x.engines_ = [] →
      x.pending_stop_ = false → Consistent x := by
    intro x h1 h2 h3
    refine ⟨fun hp => ?_, fun _ => h2, fun hA => ?_⟩
    · rw [h3] at hp
      exact Bool.noConfusion hp
    · exact absurd hA (fun hA => Unloaded.not_AtWork x (Or.inr h1) hA)
  have hpf : s.cur_state_ ≠ ST_STATE_DETECTED → s.pending_stop_ = false := by
    intro hc
    cases hps : s.pending_stop_
    · rfl
    · exact absurd (hI.1 hps) hc
  by_cases hc : s.cur_state_ = ST_STATE_SSR
  · cases fuel with
    | zero => simp [ProcessEvent, fault] at h
    | succ n =>
      simp [ProcessEvent, hc, StSSR.ProcessEvent] at h
      rw [← h.2]
      exact hI
  by_cases hi : s.cur_state_ = ST_STATE_IDLE
  · cases fuel with
    | zero => simp [ProcessEvent, fault] at h
    | succ n =>
      simp only [ProcessEvent, hi, StIdle.ProcessEvent, run_bind, run_get, Option.some_bind] at h
      split at h <;>
        simp only [run_bind, run_pure, run_modify, Option.some_bind,
          TransitTo_run _ (by decide : ST_STATE_SSR ≠ ST_STATE_NONE), Option.some.injEq,
          Prod.mk.injEq] at h <;>
        rw [← h.2] <;>
        exact hssr _ rfl (hI.2.1 (Or.inl hi)) (hpf (by rw [hi]; decide))
  by_cases hn : s.cur_state_ = ST_STATE_NONE
  · cases fuel with
    | zero => simp [ProcessEvent, fault] at h
    | succ n => simp [ProcessEvent, hn, fault] at h
  have hA : AtWork s := by
    unfold AtWork
    cases hcur : s.cur_state_ <;> simp [hcur] at hc hi hn ⊢
  cases fuel with
  | zero => simp [ProcessEvent, fault] at h
  | succ n =>
    cases n with
    | zero =>
      exfalso
      unfold AtWork at hA
      rcases hA with hA | hA | hA | hA <;>
        simp only [ProcessEvent, hA, StLoaded.ProcessEvent, StActive.ProcessEvent,
          StDetected.ProcessEvent, StBuffering.ProcessEvent, run_bind, run_get,
          Option.some_bind] at h <;>
        split at h <;>
        simp [fault] at h
    | succ m =>
      obtain ⟨status, st2, hrun, hcs, _, _, he, hp⟩ := SsrOffline_descent env m s ⟨hc, hn⟩
        (fun _ => hI.2.2 hA) (fun h0 => absurd h0 hi) (fun hps => Or.inl (hI.1 hps))
      rw [hrun] at h
      simp only [Option.some.injEq, Prod.mk.injEq] at h
      rw [← h.2]
      exact hssr st2 hcs he hp

/-- Every event but STOP_BUFFERING, which no entry point dispatches, takes a
consistent stream to a consistent stream. -/
theorem consistent_ProcessEvent (env : Env) (fuel : Nat) (ev_cfg : StEventConfig)
    (hsb : ev_cfg ≠ .ST_EV_STOP_BUFFERING) :
    Steps StaysConsistent (ProcessEvent env fuel ev_cfg) := by
  constructor
  intro s a s2 h hI
  by_cases hoff : ev_cfg = .ST_EV_SSR_OFFLINE
  · rw [hoff] at h
    exact consistent_SsrOffline env fuel s a s2 h hI
  · refine ⟨pending_ProcessEvent env fuel ev_cfg hsb hoff s a s2 h hI.1,
      (engines_ProcessEvent env fuel ev_cfg hoff).step s a s2 h hI.2.1, ?_⟩
    have hR := (recordAtWork_ProcessEvent env fuel ev_cfg).step s a s2 h
    intro hA
    by_cases hAs : AtWork s
    · exact hR.1 (hI.2.2 hAs)
    · by_cases hUs : Unloaded s
      · rcases hR.2 hUs with h1 | h1
        · exact absurd hA (fun hA => Unloaded.not_AtWork s2 h1 hA)
        · exact h1
      · exfalso
        have hn : s.cur_state_ = ST_STATE_NONE := by
          unfold AtWork at hAs
          unfold Unloaded at hUs
          cases hcur : s.cur_state_ <;> simp [hcur] at hAs hUs ⊢
        cases fuel with
        | zero => simp [ProcessEvent, fault] at h
        | succ n => simp [ProcessEvent, hn, fault] at h

/-- The loop of the event thread takes a consistent stream to a consistent
stream. -/
theorem consistent_HandleEvents_loop (env : Env) (fuel : Nat) (evs : List StEventConfig) :
    Steps StaysConsistent (HandleEvents.loop env fuel evs) := by
  have hr : ∀ s : Stream, StaysConsistent s s := fun _ h => h
  have ht : ∀ a b c : Stream, StaysConsistent a b → StaysConsistent b c →
      StaysConsistent a c := fun _ _ _ h1 h2 h => h2 (h1 h)
  induction evs with
  | nil =>
    unfold HandleEvents.loop
    exact steps_pure _ hr _
  | cons ev_cfg rest ih =>
    unfold HandleEvents.loop
    repeat' first
      | with_reducible apply steps_bind _ ht
      | intro _
      | with_reducible apply steps_pure _ hr
      | with_reducible apply ih
      | ((with_reducible apply consistent_ProcessEvent);
          exact fun h => StEventConfig.noConfusion h)
      | dsimp only []
      | split
      | simp only []

/-- Every entry point takes a consistent stream to a consistent stream. -/
theorem consistent_Entry (env : Env) (fuel : Nat) (e : Entry) :
    Steps StaysConsistent (e.run env fuel) := by
  have hr : ∀ s : Stream, StaysConsistent s s := fun _ h => h
  have ht : ∀ a b c : Stream, StaysConsistent a b → StaysConsistent b c →
      StaysConsistent a c := fun _ _ _ h1 h2 h => h2 (h1 h)
  have hkey : ∀ s s2 : Stream, s2.core = s.core → StaysConsistent s s2 := by
    intro s s2 h hI
    simp only [Stream.core, Prod.mk.injEq] at h
    unfold Consistent Unloaded AtWork at hI ⊢
    rw [h.1, h.2.1, h.2.2.1, h.2.2.2]
    exact hI
  cases e
  all_goals
    unfold Entry.run
    try unfold StreamSoundTrigger.close
    try unfold StreamSoundTrigger.start
    try unfold StreamSoundTrigger.stop
    try unfold StreamSoundTrigger.read
    try unfold StreamSoundTrigger.setParameters
    try unfold StreamSoundTrigger.registerCallBack
    try unfold StreamSoundTrigger.ConcurrentStreamStatus
    try unfold StreamSoundTrigger.setECRef
    try unfold StreamSoundTrigger.UpdateDeviceConnectionState
    try unfold StreamSoundTrigger.UpdateChargingState
    try unfold StreamSoundTrigger.ExternalStart
    try unfold StreamSoundTrigger.ExternalStop
    try unfold StreamSoundTrigger.HandleEvents
    try unfold StreamSoundTrigger.SetEngineDetectionState
    try unfold StreamSoundTrigger.InternalStopRecognition
    try unfold StreamSoundTrigger.ssrDownHandler
    try unfold StreamSoundTrigger.ssrUpHandler
    try unfold PostEvent
    repeat' first
      | with_reducible apply steps_bind _ ht
      | intro _
      | with_reducible apply steps_pure _ hr
      | with_reducible apply steps_ite
      | with_reducible apply steps_get _ hr
      | ((with_reducible apply steps_ask); intro s; exact hkey _ _ rfl)
      | ((with_reducible apply steps_modify); intro s; exact hkey _ _ rfl)
      | with_reducible apply steps_map
      | with_reducible apply steps_fault
      | ((with_reducible apply consistent_ProcessEvent);
          exact fun h => StEventConfig.noConfusion h)
      | with_reducible apply consistent_HandleEvents_loop
      | with_reducible apply steps_of_keeps _ Stream.core _ (core_conc_en env _) hkey
      | dsimp only []
      | split
      | simp only []

/-- The streams that the entry points produce are consistent: a delayed stop is
pending in Detected only, there is no engine while no sound model is loaded, and
the platform record is there while one is. -/
theorem ReachableByEntry.consistent (env : Env) (st : Stream)
    (h : ReachableByEntry env st) : Consistent st := by
  induction h with
  | init charging =>
    refine ⟨fun hp => Bool.noConfusion hp, fun _ => rfl, fun hA => ?_⟩
    exact absurd hA (fun hA => Unloaded.not_AtWork _ (Or.inl rfl) hA)
  | step fuel e status st st2 _ hrun ih =>
    exact (consistent_Entry env fuel e).step st status st2 hrun ih

/-- A sequence of calls of the entry points that returns leads from a stream that
the entry points produce to such a stream. -/
theorem ReachableByEntry.of_runs (env : Env) (fuel : Nat) (es : List Entry) :
    ∀ (st st2 : Stream) (statuses : List Int), ReachableByEntry env st →
      Entry.runs env fuel es st = some (statuses, st2) → ReachableByEntry env st2 := by
  induction es with
  | nil =>
    intro st st2 statuses hr h
    simp [Entry.runs] at h
    rw [← h.2]
    exact hr
  | cons e es ih =>
    intro st st2 statuses hr h
    simp only [Entry.runs, run_bind, run_pure] at h
    obtain ⟨⟨status, st1⟩, h1, h2⟩ := Option.bind_eq_some.1 h
    obtain ⟨⟨rest, st3⟩, h3, h4⟩ := Option.bind_eq_some.1 h2
    simp only [Option.some.injEq, Prod.mk.injEq] at h4
    rw [← h4.2]
    exact ih st1 st3 rest (ReachableByEntry.step fuel e status st st1 hr h1) h3

/-! ## Claims on the streams that the entry points produce -/

/-- C22 (the code at the failing input).  A client loads a v2 model and sends a
recognition config without opaque data, on a platform whose record for the model
has a keyword duration of 1500 ms (no read delay) at 16000 Hz, 16 bit, one
channel: right after `UpdateBufConfig` with 1500 ms of history and no pre-roll,
the first-stage engine is asked for a ring buffer of 32000 bytes, one second of
audio, not the 48000 bytes of 1500 ms.  With a keyword duration of 900 ms the
ring buffer asked for has 0 bytes. -/
theorem C22_ring_buffer_whole_seconds :
    ((Entry.runs (Env.withKwDuration 1500) 1
      [.setParameters .QAL_PARAM_ID_LOAD_SOUND_MODEL (.sound_model qal_st_sound_model.v2),
       .setParameters .QAL_PARAM_ID_RECOGNITION_CONFIG
         (.recognition_config (qal_st_recognition_config.bare false [⟨0, 1, 40, []⟩]))]
      (Stream.init false)).map (fun r => (r.1, r.2.trace.drop 17)) =
      some ([0, 0],
        [Call.UpdateBufConfig 12 1500 0, Call.CreateBuffer 12 32000 1,
         Call.UpdateConfLevels 12 (some [40]) 1, Call.SetCaptureRequested 12 false])) ∧
    ((Entry.runs (Env.withKwDuration 900) 1
      [.setParameters .QAL_PARAM_ID_LOAD_SOUND_MODEL (.sound_model qal_st_sound_model.v2),
       .setParameters .QAL_PARAM_ID_RECOGNITION_CONFIG
         (.recognition_config (qal_st_recognition_config.bare false [⟨0, 1, 40, []⟩]))]
      (Stream.init false)).map (fun r => (r.1, r.2.trace.drop 17)) =
      some ([0, 0],
        [Call.UpdateBufConfig 12 900 0, Call.CreateBuffer 12 0 1,
         Call.UpdateConfLevels 12 (some [40]) 1, Call.SetCaptureRequested 12 false])) := by
  constructor <;> decide!

/-- C31 (the code at the failing input).  A client loads a v2 model and sends a
recognition config; the stream is in Loaded with the config cached and a reader.
When the subsystem then goes down and comes back (`ssrDownHandler`,
`ssrUpHandler`), every call returns 0 and the stream is back in Loaded with the
config cached and no reader: the SSR_ONLINE case sends the cached config again
only when the state to restore is Active.  When instead, in the same
environment, the charger is removed and the capture profile changes
(`UpdateChargingState`, then the event thread), the reload in StLoaded sends the
cached config again and the stream is in Loaded with a reader.  The environment
is the nominal one but for the answer at position 23 of the trace, which is
false: in the second run that is the answer of `CheckForForcedTransitToNonLPI`,
which changes the capture profile; in the first run position 23 is
`resetStreamInstanceID`, which has no answer, so every call of that run has the
nominal outcome. -/
theorem C31_no_reader_after_SSR :
    ((Entry.runs (Env.nullAt 23) 2
      [.setParameters .QAL_PARAM_ID_LOAD_SOUND_MODEL (.sound_model qal_st_sound_model.v2),
       .setParameters .QAL_PARAM_ID_RECOGNITION_CONFIG
         (.recognition_config (qal_st_recognition_config.bare false [⟨0, 1, 40, []⟩])),
       .ssrDownHandler, .ssrUpHandler]
      (Stream.init true)).map
        (fun r => (r.1, r.2.cur_state_, r.2.rec_config_.isSome, r.2.reader_.isSome)) =
      some ([0, 0, 0, 0], ST_STATE_LOADED, true, false)) ∧
    ((Entry.runs (Env.nullAt 23) 2
      [.setParameters .QAL_PARAM_ID_LOAD_SOUND_MODEL (.sound_model qal_st_sound_model.v2),
       .setParameters .QAL_PARAM_ID_RECOGNITION_CONFIG
         (.recognition_config (qal_st_recognition_config.bare false [⟨0, 1, 40, []⟩])),
       .UpdateChargingState false, .HandleEvents]
      (Stream.init true)).map
        (fun r => (r.1, r.2.cur_state_, r.2.rec_config_.isSome, r.2.reader_.isSome)) =
      some ([0, 0, 0, 0], ST_STATE_LOADED, true, true)) ∧
    ((Entry.runs (Env.nullAt 23) 2
      [.setParameters .QAL_PARAM_ID_LOAD_SOUND_MODEL (.sound_model qal_st_sound_model.v2),
       .setParameters .QAL_PARAM_ID_RECOGNITION_CONFIG
         (.recognition_config (qal_st_recognition_config.bare false [⟨0, 1, 40, []⟩]))]
      (Stream.init true)).map
        (fun r => (r.1, r.2.cur_state_, r.2.rec_config_.isSome, r.2.reader_.isSome)) =
      some ([0, 0], ST_STATE_LOADED, true, true)) := by
  refine ⟨?_, ?_, ?_⟩ <;> decide!

end StreamSoundTrigger
